import Mathlib

/-!
# Swap cache and swap readahead of `mm/swap_state.c` (Hermit / Atlas kernel)

A shallow embedding of the swap-cache operations and of the readahead window
computation, followed by the properties proved about them.

Conventions of the embedding

* C `int` values are `Int`, C `unsigned int` / `unsigned long` values are `Nat`
  reduced modulo `2 ^ 32` / `2 ^ 64` where the C code can wrap.
* Global variables and build-time constants that the functions read are
  collected in `hermit_config` and passed explicitly.
* Loops that need not terminate take a `fuel` argument and return `none` when
  the fuel runs out.
-/

namespace SwapState

/-! ## Machine integers -/

/-- Number of values of a C `unsigned int`. -/
def UINT_MOD : Nat := 4294967296

/-- Number of values of a C `unsigned long` (64-bit kernel). -/
def ULONG_MOD : Nat := 18446744073709551616

/-- Conversion of a C `int` value to `unsigned int` (reduction modulo `2 ^ 32`). -/
def to_uint (x : Int) : Nat := (x % 4294967296).toNat

/-- Wrapping `unsigned long` addition. -/
def ul_add (a b : Nat) : Nat := (a + b) % ULONG_MOD

/-- Wrapping `unsigned long` subtraction. -/
def ul_sub (a b : Nat) : Nat := (a % ULONG_MOD + (ULONG_MOD - b % ULONG_MOD)) % ULONG_MOD

/-- Bitwise complement of an `unsigned long`. -/
def ul_not (a : Nat) : Nat := ULONG_MOD - 1 - a % ULONG_MOD

/-! ## Configuration: globals and constants read by the code -/

/-- Globals of `swap_state.c` (`readahead_win`, `enable_vma_readahead`), the
sysctl `page_cluster`, the Hermit control flag `HMT_PREF_ALWYS_ASCEND`, and the
constants of headers that the functions use (`PAGE_SHIFT`, `PMD_SHIFT`,
`SWAP_RA_ORDER_CEILING`, whether `CONFIG_DEBUG_VM` is set). -/
structure hermit_config where
  PAGE_SHIFT : Nat
  PMD_SHIFT : Nat
  SWAP_RA_ORDER_CEILING : Nat
  page_cluster : Int
  readahead_win : Int
  enable_vma_readahead : Bool
  HMT_PREF_ALWYS_ASCEND : Bool
  CONFIG_DEBUG_VM : Bool

/-- The configuration of an x86-64 build with 4 KiB pages, the assertions of
`CONFIG_DEBUG_VM` compiled in, and the defaults of `swap_state.c`:
`readahead_win = 0`, `enable_vma_readahead = true`, `page_cluster = 3`. -/
def default_config : hermit_config :=
  { PAGE_SHIFT := 12, PMD_SHIFT := 21, SWAP_RA_ORDER_CEILING := 5,
    page_cluster := 3, readahead_win := 0, enable_vma_readahead := true,
    HMT_PREF_ALWYS_ASCEND := false, CONFIG_DEBUG_VM := true }

/-! ## Packed readahead state (`SWAP_RA_*` macros) -/

/-- `PAGE_MASK`, that is `~(PAGE_SIZE - 1)` as an `unsigned long`. -/
def PAGE_MASK (c : hermit_config) : Nat := ul_not ((1 <<< c.PAGE_SHIFT) % ULONG_MOD - 1)

/-- `#define SWAP_RA_WIN_SHIFT (PAGE_SHIFT / 2)`. -/
def SWAP_RA_WIN_SHIFT (c : hermit_config) : Nat := c.PAGE_SHIFT / 2

/-- `#define SWAP_RA_HITS_MASK ((1UL << SWAP_RA_WIN_SHIFT) - 1)`. -/
def SWAP_RA_HITS_MASK (c : hermit_config) : Nat :=
  ul_sub ((1 <<< SWAP_RA_WIN_SHIFT c) % ULONG_MOD) 1

/-- `#define SWAP_RA_HITS_MAX SWAP_RA_HITS_MASK`. -/
def SWAP_RA_HITS_MAX (c : hermit_config) : Nat := SWAP_RA_HITS_MASK c

/-- `#define SWAP_RA_WIN_MASK (~PAGE_MASK & ~SWAP_RA_HITS_MASK)`. -/
def SWAP_RA_WIN_MASK (c : hermit_config) : Nat :=
  ul_not (PAGE_MASK c) &&& ul_not (SWAP_RA_HITS_MASK c)

/-- `#define SWAP_RA_HITS(v) ((v) & SWAP_RA_HITS_MASK)`. -/
def SWAP_RA_HITS (c : hermit_config) (v : Nat) : Nat := v &&& SWAP_RA_HITS_MASK c

/-- `#define SWAP_RA_WIN(v) (((v) & SWAP_RA_WIN_MASK) >> SWAP_RA_WIN_SHIFT)`. -/
def SWAP_RA_WIN (c : hermit_config) (v : Nat) : Nat :=
  (v &&& SWAP_RA_WIN_MASK c) >>> SWAP_RA_WIN_SHIFT c

/-- `#define SWAP_RA_ADDR(v) ((v) & PAGE_MASK)`. -/
def SWAP_RA_ADDR (c : hermit_config) (v : Nat) : Nat := v &&& PAGE_MASK c

/-- `SWAP_RA_VAL(addr, win, hits)`: the three fields packed into one word. The
shift of `win` is taken modulo `2 ^ 64`; the callers shift an `int` or an
`unsigned int`, which gives the same bits below `PAGE_SHIFT`, the only ones
that `SWAP_RA_WIN_MASK` keeps, for every `PAGE_SHIFT` up to 32. -/
def SWAP_RA_VAL (c : hermit_config) (addr win hits : Nat) : Nat :=
  (addr &&& PAGE_MASK c) |||
  (((win <<< SWAP_RA_WIN_SHIFT c) % ULONG_MOD) &&& SWAP_RA_WIN_MASK c) |||
  (hits &&& SWAP_RA_HITS_MASK c)

/-- `GET_SWAP_RA_VAL(vma)`: the stored word, or 4 when the stored word is 0
(`atomic_long_read(...) ? : 4`). -/
def GET_SWAP_RA_VAL (swap_readahead_info : Nat) : Nat :=
  if swap_readahead_info ≠ 0 then swap_readahead_info else 4

/-- `PFN_DOWN(x)`, that is `x >> PAGE_SHIFT`. -/
def PFN_DOWN (c : hermit_config) (x : Nat) : Nat := x >>> c.PAGE_SHIFT

/-- `PMD_SIZE`, that is `1UL << PMD_SHIFT`. -/
def PMD_SIZE (c : hermit_config) : Nat := (1 <<< c.PMD_SHIFT) % ULONG_MOD

/-- `PMD_MASK`, that is `~(PMD_SIZE - 1)`. -/
def PMD_MASK (c : hermit_config) : Nat := ul_not (PMD_SIZE c - 1)

/-! ## Window size: `__swapin_nr_pages` -/

/-- The loop `while (roundup < pages) roundup <<= 1;` on `unsigned int`
values; `none` when the fuel runs out before the loop condition fails. -/
def roundup_loop : Nat → Nat → Nat → Option Nat
  | 0, roundup, pages => if roundup < pages then none else some roundup
  | fuel + 1, roundup, pages =>
      if roundup < pages then roundup_loop fuel ((roundup <<< 1) % UINT_MOD) pages
      else some roundup

/-- The function `__swapin_nr_pages(prev_offset, offset, hits, max_pages, prev_win)`;
`readahead_win` is the global it reads first. The result is the returned
`unsigned int`, or `none` when the rounding loop does not end within `fuel`
iterations. -/
def __swapin_nr_pages (fuel : Nat) (readahead_win : Int) (prev_offset offset : Nat)
    (hits max_pages prev_win : Int) : Option Nat :=
  if readahead_win > 0 then some (to_uint readahead_win)
  else
    let pages : Nat := to_uint (hits + 2)
    let rounded : Option Nat :=
      if pages = 2 then
        if offset ≠ ul_add prev_offset 1 ∧ offset ≠ ul_sub prev_offset 1 then some 1
        else some pages
      else roundup_loop fuel 4 pages
    rounded.map fun pages =>
      let pages := if pages > to_uint max_pages then to_uint max_pages else pages
      let last_ra := to_uint (Int.tdiv prev_win 2)
      if pages < last_ra then last_ra else pages

/-- Conversion of a C `unsigned int` value to `int` (two's complement). -/
def to_int (x : Nat) : Int :=
  if x % UINT_MOD < 2147483648 then ((x % UINT_MOD : Nat) : Int)
  else ((x % UINT_MOD : Nat) : Int) - 4294967296

/-! ## Readahead window of a fault: `hermit_swap_ra_info` -/

/-- Modelled from the spec: the classification tag of an access domain
(`dsa->type`). The enum is declared in a Hermit header that is not among the
sources; the code names four tags and treats every other value as
un-recognized. -/
inductive dsa_type where
  | DSA_NON_DSA
  | DSA_STREAMING
  | DSA_PARFOR
  | DSA_RANDOM
  | DSA_UNRECOGNIZED (tag : Nat)
  deriving DecidableEq, Repr

/-- The fields of `struct ds_area_struct` that the code reads and writes. -/
structure ds_area_struct where
  type : dsa_type
  swap_readahead_info : Nat
  deriving DecidableEq, Repr

/-- The fields of `struct vm_area_struct` that the code reads and writes. -/
structure vm_area_struct where
  vm_start : Nat
  vm_end : Nat
  swap_readahead_info : Nat
  deriving DecidableEq, Repr

/-- The modulus of `unsigned short` arithmetic. -/
def USHRT_MOD : Nat := 65536

/-- The request `struct vma_swap_readahead`. The struct is declared in
`include/linux/swap.h`, which is not among the sources; as in the upstream
kernel of this version, `win`, `offset` and `nr_pte` are `unsigned short`
fields, so an assignment keeps the value modulo `USHRT_MOD`. `ptes` is the
page frame number whose page-table entry the pointer `ptes` designates. -/
structure vma_swap_readahead where
  win : Nat
  offset : Nat
  nr_pte : Nat
  ptes : Nat
  deriving DecidableEq, Repr

/-- The function `swap_ra_clamp_pfn`: the pair `(*start, *end)`. -/
def swap_ra_clamp_pfn (c : hermit_config) (vma : vm_area_struct)
    (faddr lpfn rpfn : Nat) : Nat × Nat :=
  (max (max lpfn (PFN_DOWN c vma.vm_start)) (PFN_DOWN c (faddr &&& PMD_MASK c)),
   min (min rpfn (PFN_DOWN c vma.vm_end))
     (PFN_DOWN c (ul_add (faddr &&& PMD_MASK c) (PMD_SIZE c))))

/-- The function `hermit_swap_ra_info(vmf, dsa, ra_info)` with `faddr` the
fault address `vmf->address` and `vma` the area `vmf->vma`. It returns the
area, the access domain and the request as the call leaves them; `none` when
a window computation does not end within `fuel` loop iterations. -/
def hermit_swap_ra_info (fuel : Nat) (c : hermit_config) (faddr : Nat)
    (vma : vm_area_struct) (dsa : Option ds_area_struct) (ra_info : vma_swap_readahead) :
    Option (vm_area_struct × Option ds_area_struct × vma_swap_readahead) :=
  let max_win : Nat :=
    (1 <<< min (to_uint c.page_cluster) c.SWAP_RA_ORDER_CEILING) % UINT_MOD
  if max_win = 1 then some (vma, dsa, { ra_info with win := 1 })
  else
    let fpfn := PFN_DOWN c faddr
    -- previous page frame number, computed window and the access domain afterwards
    let step : Option (Nat × Nat × Option ds_area_struct) :=
      match dsa with
      | some d =>
        let ra_val := GET_SWAP_RA_VAL d.swap_readahead_info
        let pfn := PFN_DOWN c (SWAP_RA_ADDR c ra_val)
        let prev_win := SWAP_RA_WIN c ra_val % UINT_MOD
        let hits := SWAP_RA_HITS c ra_val % UINT_MOD
        let win : Option Nat :=
          if d.type = dsa_type.DSA_PARFOR ∨ d.type = dsa_type.DSA_STREAMING then
            __swapin_nr_pages fuel c.readahead_win pfn fpfn
              (to_int ((hits + 4) % UINT_MOD)) (to_int 32) (to_int prev_win)
          else if d.type = dsa_type.DSA_RANDOM then some 1
          else if d.type = dsa_type.DSA_NON_DSA then
            __swapin_nr_pages fuel c.readahead_win pfn fpfn
              (to_int hits) (to_int max_win) (to_int prev_win)
          else
            __swapin_nr_pages fuel c.readahead_win pfn fpfn
              (to_int hits) (to_int max_win) (to_int prev_win)
        win.map fun win =>
          (pfn, win, some { d with swap_readahead_info := SWAP_RA_VAL c faddr win 0 })
      | none =>
        let ra_val := GET_SWAP_RA_VAL vma.swap_readahead_info
        let pfn := PFN_DOWN c (SWAP_RA_ADDR c ra_val)
        let prev_win := SWAP_RA_WIN c ra_val % UINT_MOD
        let hits := SWAP_RA_HITS c ra_val % UINT_MOD
        (__swapin_nr_pages fuel c.readahead_win pfn fpfn
            (to_int hits) (to_int max_win) (to_int prev_win)).map
          fun win => (pfn, win, none)
  step.map fun r =>
    let pfn := r.1
    let win := r.2.1
    let dsa1 := r.2.2
    let vma1 := { vma with swap_readahead_info := SWAP_RA_VAL c faddr win 0 }
    if win = 1 then (vma1, dsa1, { ra_info with win := win % USHRT_MOD })
    else
      let se : Nat × Nat :=
        if c.HMT_PREF_ALWYS_ASCEND = true ∨ fpfn = ul_add pfn 1 then
          swap_ra_clamp_pfn c vma faddr fpfn (ul_add fpfn win)
        else if pfn = ul_add fpfn 1 then
          swap_ra_clamp_pfn c vma faddr (ul_add (ul_sub fpfn win) 1) (ul_add fpfn 1)
        else
          let left := ((win + (UINT_MOD - 1)) % UINT_MOD) / 2
          swap_ra_clamp_pfn c vma faddr (ul_sub fpfn left) (ul_sub (ul_add fpfn win) left)
      let start := se.1
      let offset := ul_sub fpfn start % USHRT_MOD
      (vma1, dsa1,
        { win := win % USHRT_MOD, nr_pte := ul_sub se.2 start % USHRT_MOD, offset := offset,
          ptes := ul_sub fpfn offset })

/-! ## The swap cache -/

/-- The fields and flags of `struct page` that the swap cache code touches;
`compound` is `PageTransCompound(page)` and `nr_pages` is `thp_nr_pages(page)`. -/
structure page where
  PG_locked : Bool
  PG_swapcache : Bool
  PG_swapbacked : Bool
  PG_writeback : Bool
  PG_readahead : Bool
  compound : Bool
  nr_pages : Nat
  refcount : Int
  page_private : Nat
  deriving DecidableEq, Repr

/-- The type `swp_entry_t`: one `unsigned long`. -/
structure swp_entry_t where
  val : Nat
  deriving DecidableEq, Repr

/-- Modelled from the spec: `SWP_TYPE_SHIFT` of `swapops.h`, which is not among
the sources. A slot is the pair (device_id, offset); the device id sits in the
bits from this position upwards, the offset below it. -/
def SWP_TYPE_SHIFT : Nat := 58

/-- Modelled from the spec: `swp_type(entry)` of `swapops.h`, the device id of
the slot. -/
def swp_type (entry : swp_entry_t) : Nat := entry.val >>> SWP_TYPE_SHIFT

/-- Modelled from the spec: `swp_offset(entry)` of `swapops.h`, the offset of
the slot. -/
def swp_offset (entry : swp_entry_t) : Nat := entry.val &&& (2 ^ SWP_TYPE_SHIFT - 1)

/-- Modelled from the spec: `swp_entry(type, offset)` of `swapops.h`, the slot
(device_id, offset) packed into one word. -/
def swp_entry (type offset : Nat) : swp_entry_t :=
  { val := ((type <<< SWP_TYPE_SHIFT) % ULONG_MOD) ||| (offset &&& (2 ^ SWP_TYPE_SHIFT - 1)) }

/-- Modelled from the spec: `SWAP_ADDRESS_SPACE_SHIFT` of `swap.h`, which is not
among the sources: each address-space segment covers `2 ^ 14` slots. -/
def SWAP_ADDRESS_SPACE_SHIFT : Nat := 14

/-- The fields of `struct address_space` that the code touches: `nrpages` and
the entries of the XArray `i_pages` as (index, entry) pairs. -/
structure address_space where
  nrpages : Nat
  i_pages : List (Nat × Nat)
  deriving DecidableEq, Repr

/-- The static counters `swap_cache_info`. -/
structure swap_cache_info_t where
  add_total : Nat
  del_total : Nat
  find_success : Nat
  find_total : Nat
  deriving DecidableEq, Repr

/-- The memory the swap cache code works on. Pointers to `struct page` are
numbers and `mem` gives the page behind each of them; `hermit_swapcache` is the
global array of page pointers indexed by slot offset (`none` is `NULL`);
`swapper_spaces t i` is the address space `swapper_spaces[t][i]` and
`swapper_spaces_null t` tells whether the pointer `swapper_spaces[t]` is
`NULL`; `swap_device_live` is the answer of `get_swap_device` for an entry
value. Memory faults are not modelled. -/
structure swap_state where
  hermit_swapcache : Nat → Option Nat
  mem : Nat → page
  swapper_spaces : Nat → Nat → address_space
  swapper_spaces_null : Nat → Bool
  nr_swapper_spaces : Nat → Nat
  swap_cache_info : swap_cache_info_t
  swapin_readahead_hits : Int
  NR_FILE_PAGES : Int
  NR_SWAPCACHE : Int
  SWAP_RA_HIT : Nat
  swap_device_live : Nat → Bool

/-- How a call ends: it returns `v` in state `s`, or it stops in `BUG()` in
state `s` (`VM_BUG_ON` and `VM_BUG_ON_PAGE` expand to `BUG()` when
`CONFIG_DEBUG_VM` is set and to nothing otherwise). -/
inductive outcome (α : Type) where
  | ret (v : α) (s : swap_state)
  | BUG (s : swap_state)

/-- The state in which a call ends. -/
def outcome.state {α : Type} : outcome α → swap_state
  | .ret _ s => s
  | .BUG s => s

/-- The value a call returns, `none` when it stops in `BUG()`. -/
def outcome.value {α : Type} : outcome α → Option α
  | .ret v _ => some v
  | .BUG _ => none

/-- Apply `f` to the page behind pointer `p`. -/
def update_page (s : swap_state) (p : Nat) (f : page → page) : swap_state :=
  { s with mem := fun q => if q = p then f (s.mem q) else s.mem q }

/-- `page_ref_add(page, nr)`. -/
def page_ref_add (s : swap_state) (p : Nat) (nr : Int) : swap_state :=
  update_page s p fun pg => { pg with refcount := pg.refcount + nr }

/-- `SetPageSwapCache(page)`. -/
def SetPageSwapCache (s : swap_state) (p : Nat) : swap_state :=
  update_page s p fun pg => { pg with PG_swapcache := true }

/-- `ClearPageSwapCache(page)`. -/
def ClearPageSwapCache (s : swap_state) (p : Nat) : swap_state :=
  update_page s p fun pg => { pg with PG_swapcache := false }

/-- `set_page_private(page, v)`. -/
def set_page_private (s : swap_state) (p : Nat) (v : Nat) : swap_state :=
  update_page s p fun pg => { pg with page_private := v }

/-- Modelled from the spec: `hmt_sc_store(idx, page)` of the Hermit header
that is not among the sources: the cache entry of slot `idx` becomes `page`
(`none` removes it). -/
def hmt_sc_store (s : swap_state) (idx : Nat) (p : Option Nat) : swap_state :=
  { s with hermit_swapcache := fun i => if i = idx then p else s.hermit_swapcache i }

/-- Modelled from the spec: `hmt_sc_load(idx)` of the Hermit header that is not
among the sources: the cache entry of slot `idx`. -/
def hmt_sc_load (s : swap_state) (idx : Nat) : Option Nat := s.hermit_swapcache idx

/-- Modelled from the spec: `hmt_sc_load_get(idx)` of the Hermit header that is
not among the sources: the lookup of slot `idx`, which increments the
reference count of the page it finds. -/
def hmt_sc_load_get (s : swap_state) (idx : Nat) : Option Nat × swap_state :=
  match s.hermit_swapcache idx with
  | some p => (some p, page_ref_add s p 1)
  | none => (none, s)

/-- Add `d` (two's complement, modulo `2 ^ 64`) to `nrpages` of the address
space `swap_address_space(entry)`, which is
`swapper_spaces[swp_type(entry)][swp_offset(entry) >> SWAP_ADDRESS_SPACE_SHIFT]`. -/
def mod_nrpages (s : swap_state) (entry : swp_entry_t) (d : Int) : swap_state :=
  let t := swp_type entry
  let i := swp_offset entry >>> SWAP_ADDRESS_SPACE_SHIFT
  { s with swapper_spaces := fun t1 i1 =>
      if t1 = t ∧ i1 = i then
        { s.swapper_spaces t1 i1 with
          nrpages :=
            ((((s.swapper_spaces t1 i1).nrpages : Int) + d) % 18446744073709551616).toNat }
      else s.swapper_spaces t1 i1 }

/-- The address space `swap_address_space(entry)`. -/
def swap_address_space (s : swap_state) (entry : swp_entry_t) : address_space :=
  s.swapper_spaces (swp_type entry) (swp_offset entry >>> SWAP_ADDRESS_SPACE_SHIFT)

/-- The function `add_to_swap_cache(page, entry, gfp, shadowp)`; the body
uses neither `gfp` nor `shadowp`. The statements after `BUG()` are never
reached. -/
def add_to_swap_cache (c : hermit_config) (s : swap_state) (pagep : Nat)
    (entry : swp_entry_t) : outcome Int :=
  let idx := swp_offset entry
  let nr := (s.mem pagep).nr_pages
  if c.CONFIG_DEBUG_VM = true ∧ (s.mem pagep).PG_locked = false then outcome.BUG s
  else if c.CONFIG_DEBUG_VM = true ∧ (s.mem pagep).PG_swapcache = true then outcome.BUG s
  else if c.CONFIG_DEBUG_VM = true ∧ (s.mem pagep).PG_swapbacked = false then outcome.BUG s
  else if c.CONFIG_DEBUG_VM = true ∧ nr ≠ 1 then outcome.BUG s
  else
    let s1 := page_ref_add s pagep nr
    let s2 := SetPageSwapCache s1 pagep
    let old := s2.hermit_swapcache idx
    if old = none then
      let s3 := hmt_sc_store s2 idx (some pagep)
      let s4 := set_page_private s3 pagep entry.val
      let s5 := mod_nrpages s4 entry nr
      let s6 := { s5 with NR_FILE_PAGES := s5.NR_FILE_PAGES + nr }
      let s7 := { s6 with NR_SWAPCACHE := s6.NR_SWAPCACHE + nr }
      let s8 := { s7 with swap_cache_info :=
                    { s7.swap_cache_info with
                      add_total := (s7.swap_cache_info.add_total + nr) % ULONG_MOD } }
      outcome.ret 0 s8
    else outcome.BUG s2

/-- The loop of `__delete_from_swap_cache`, from index `i` for `n` more
iterations: `entry = hmt_sc_load(idx + i); VM_BUG_ON_PAGE(entry != page);
set_page_private(page + i, 0); hmt_sc_store(idx + i, NULL);`. -/
def delete_loop (c : hermit_config) (pagep idx : Nat) :
    Nat → Nat → swap_state → outcome Unit
  | 0, _, s => outcome.ret () s
  | n + 1, i, s =>
      if c.CONFIG_DEBUG_VM = true ∧ hmt_sc_load s (idx + i) ≠ some pagep then outcome.BUG s
      else
        delete_loop c pagep idx n (i + 1)
          (hmt_sc_store (set_page_private s (pagep + i) 0) (idx + i) none)

/-- The function `__delete_from_swap_cache(page, entry, shadow)`; the body
does not use `shadow`. -/
def __delete_from_swap_cache (c : hermit_config) (s : swap_state) (pagep : Nat)
    (entry : swp_entry_t) : outcome Unit :=
  let nr := (s.mem pagep).nr_pages
  let idx := swp_offset entry
  if c.CONFIG_DEBUG_VM = true ∧ (s.mem pagep).PG_locked = false then outcome.BUG s
  else if c.CONFIG_DEBUG_VM = true ∧ (s.mem pagep).PG_swapcache = false then outcome.BUG s
  else if c.CONFIG_DEBUG_VM = true ∧ (s.mem pagep).PG_writeback = true then outcome.BUG s
  else
    match delete_loop c pagep idx nr 0 s with
    | outcome.BUG s1 => outcome.BUG s1
    | outcome.ret _ s1 =>
      let s2 := ClearPageSwapCache s1 pagep
      let s3 := mod_nrpages s2 entry (-(nr : Int))
      let s4 := { s3 with NR_FILE_PAGES := s3.NR_FILE_PAGES - nr }
      let s5 := { s4 with NR_SWAPCACHE := s4.NR_SWAPCACHE - nr }
      outcome.ret ()
        { s5 with swap_cache_info :=
            { s5.swap_cache_info with
              del_total := (s5.swap_cache_info.del_total + nr) % ULONG_MOD } }

/-- The statistics update of `hermit_lookup_swap_cache` for one region word
(the same code for the vma and for the dsa): `win` and `hits` are read from
`GET_SWAP_RA_VAL`, `hits` becomes `min_t(int, hits + 1, SWAP_RA_HITS_MAX)`
when the page had its readahead flag set, and the word
`SWAP_RA_VAL(addr, win, hits)` is stored. -/
def lookup_ra_update (c : hermit_config) (swap_readahead_info addr : Nat)
    (readahead : Bool) : Nat :=
  let ra_val := GET_SWAP_RA_VAL swap_readahead_info
  let win := to_int (SWAP_RA_WIN c ra_val)
  let hits := to_int (SWAP_RA_HITS c ra_val)
  let hits :=
    if readahead then min (to_int (to_uint (hits + 1))) (to_int (SWAP_RA_HITS_MAX c)) else hits
  SWAP_RA_VAL c addr (win % 18446744073709551616).toNat (hits % 18446744073709551616).toNat

/-- The function `hermit_lookup_swap_cache(entry, vma, addr, dsa)`: the page
returned (`none` is `NULL`), the state, and the vma and dsa as the call leaves
them. -/
def hermit_lookup_swap_cache (c : hermit_config) (s : swap_state) (entry : swp_entry_t)
    (vma : Option vm_area_struct) (addr : Nat) (dsa : Option ds_area_struct) :
    Option Nat × swap_state × Option vm_area_struct × Option ds_area_struct :=
  if s.swap_device_live entry.val = false then (none, s, vma, dsa)
  else
    let r := hmt_sc_load_get s (swp_offset entry)
    let s1 := { r.2 with swap_cache_info :=
                  { r.2.swap_cache_info with
                    find_total := (r.2.swap_cache_info.find_total + 1) % ULONG_MOD } }
    match r.1 with
    | none => (none, s1, vma, dsa)
    | some p =>
      let vma_ra := c.enable_vma_readahead
      let s2 := { s1 with swap_cache_info :=
                    { s1.swap_cache_info with
                      find_success := (s1.swap_cache_info.find_success + 1) % ULONG_MOD } }
      if (s2.mem p).compound = true then (some p, s2, vma, dsa)
      else
        let readahead := (s2.mem p).PG_readahead
        let s3 := update_page s2 p fun pg => { pg with PG_readahead := false }
        let vma1 : Option vm_area_struct :=
          match vma with
          | some v =>
            if vma_ra = true then
              some { v with swap_readahead_info :=
                       lookup_ra_update c v.swap_readahead_info addr readahead }
            else some v
          | none => none
        let s4 :=
          if readahead = true then
            let s31 := { s3 with SWAP_RA_HIT := s3.SWAP_RA_HIT + 1 }
            let inc : Int := to_int (to_uint (s31.swapin_readahead_hits + 1))
            if vma.isNone = true ∨ vma_ra = false then
              { s31 with swapin_readahead_hits := inc }
            else s31
          else s3
        let dsa1 : Option ds_area_struct :=
          match dsa with
          | some d =>
            some { d with swap_readahead_info :=
                     lookup_ra_update c d.swap_readahead_info addr readahead }
          | none => none
        (some p, s4, vma1, dsa1)

/-- A value of C type `int`. -/
def is_int (x : Int) : Prop := -2147483648 ≤ x ∧ x ≤ 2147483647

instance (x : Int) : Decidable (is_int x) := by
  unfold is_int
  infer_instance

/-- The windows of successive faults on adjacent offsets: from the offset `o`
and the window `w`, each hit count `h` of the list gives the next window
`__swapin_nr_pages(o, o + 1, h, max_pages, w)` and moves the fault to `o + 1`.
The result lists all windows, the initial one included; `none` when one of the
calls does not end within `fuel` loop iterations. -/
def window_seq (fuel : Nat) (readahead_win max_pages : Int) :
    Nat → Nat → List Int → Option (List Nat)
  | _, w, [] => some [w]
  | o, w, h :: hs =>
    match __swapin_nr_pages fuel readahead_win o (ul_add o 1) h max_pages (to_int w) with
    | none => none
    | some w1 =>
      (window_seq fuel readahead_win max_pages (ul_add o 1) w1 hs).map fun ws => w :: ws

/-! ## Concrete states used to instantiate the theorems -/

/-- A base page that is locked and swap-backed, with one reference. -/
def locked_page : page :=
  { PG_locked := true, PG_swapcache := false, PG_swapbacked := true, PG_writeback := false,
    PG_readahead := false, compound := false, nr_pages := 1, refcount := 1,
    page_private := 0 }

/-- A state with an empty swap cache, every page as `locked_page`, all
counters zero and every swap device live. -/
def empty_state : swap_state :=
  { hermit_swapcache := fun _ => none,
    mem := fun _ => locked_page,
    swapper_spaces := fun _ _ => { nrpages := 0, i_pages := [] },
    swapper_spaces_null := fun _ => false,
    nr_swapper_spaces := fun _ => 1,
    swap_cache_info := { add_total := 0, del_total := 0, find_success := 0, find_total := 0 },
    swapin_readahead_hits := 4,
    NR_FILE_PAGES := 0,
    NR_SWAPCACHE := 0,
    SWAP_RA_HIT := 0,
    swap_device_live := fun _ => true }

/-! ## Address spaces of a swap device -/

/-- Modelled from the spec: `SWAP_ADDRESS_SPACE_PAGES` of `swap.h`, which is
not among the sources: the number of slots that one address-space segment
covers. -/
def SWAP_ADDRESS_SPACE_PAGES : Nat := 1 <<< SWAP_ADDRESS_SPACE_SHIFT

/-- `DIV_ROUND_UP(n, d)` on `unsigned long`. -/
def DIV_ROUND_UP (n d : Nat) : Nat := ((n + d - 1) % ULONG_MOD) / d

/-- Modelled from the spec: `mapping_empty(mapping)` of `pagemap.h`, which is
not among the sources: the XArray `i_pages` of the address space holds no
entry. -/
def mapping_empty (m : address_space) : Bool := m.i_pages.isEmpty

/-- The function `init_swap_address_space(type, nr_pages)`; `kvcalloc_ok` tells
whether the allocation of the array succeeds. The result is the returned
`int` (`-ENOMEM` is -12) and the state. -/
def init_swap_address_space (s : swap_state) (kvcalloc_ok : Bool) (type nr_pages : Nat) :
    Int × swap_state :=
  let nr := DIV_ROUND_UP nr_pages SWAP_ADDRESS_SPACE_PAGES % UINT_MOD
  if kvcalloc_ok = false then (-12, s)
  else
    (0, { s with
      swapper_spaces := fun t i =>
        if t = type ∧ i < nr then { nrpages := 0, i_pages := [] } else s.swapper_spaces t i,
      nr_swapper_spaces := fun t => if t = type then nr else s.nr_swapper_spaces t,
      swapper_spaces_null := fun t => if t = type then false else s.swapper_spaces_null t })

/-- The function `exit_swap_address_space(type)`. The first component tells
whether the condition of `VM_WARN_ON_ONCE(!mapping_empty(&spaces[i]))` held for
some segment `i < nr_swapper_spaces[type]`, with `CONFIG_DEBUG_VM` set (without
it the macro expands to nothing): the warning is then printed, unless it was
printed before. -/
def exit_swap_address_space (c : hermit_config) (s : swap_state) (type : Nat) :
    Bool × swap_state :=
  let warned := (List.range (s.nr_swapper_spaces type)).any fun i =>
    c.CONFIG_DEBUG_VM && !mapping_empty (s.swapper_spaces type i)
  (warned,
    { s with
      nr_swapper_spaces := fun t => if t = type then 0 else s.nr_swapper_spaces t,
      swapper_spaces_null := fun t => if t = type then true else s.swapper_spaces_null t })

/-- A state whose slot 5 holds page 7, a page with its readahead flag set. -/
def cached_state : swap_state :=
  update_page (hmt_sc_store empty_state 5 (some 7)) 7 fun pg => { pg with PG_readahead := true }

/-! ## The fetch path: resolving a swap entry to a page -/

/-- The calls that the fetch path makes to functions of other files, in the
order of the trace. Profiling counters (`adc_*`, `count_memcg_event_mm`) are
left out. -/
inductive io_event where
  | alloc_page_vma (page : Option Nat)
  | swapcache_prepare (entry : Nat) (err : Int)
  | swapcache_prepare_trylock (entry : Nat) (err : Int)
  | hermit_mem_cgroup_swapin_charge_page (page : Nat) (err : Int)
  | hermit_mem_cgroup_swapin_charge_batch (pages : List Nat)
  | put_swap_page (page entry : Nat)
  | unlock_page (page : Nat)
  | put_page (page : Nat)
  | lru_cache_add (page : Nat)
  | lru_add_drain
  | hermit_issue_read (page entry : Nat) (cpu : Int)
  | hermit_poll_read (cpu : Int) (page : Option Nat)
  | swap_readpage (page : Option Nat) (do_poll : Bool)
  | swap_readpage_async (page : Nat)
  | set_page_prefetch (page : Nat)
  | count_vm_event_SWAP_RA
  | pref_request_enqueue
  | frontswap_peek_load (cpu : Int) (ret : Int)
  | __frontswap_pref_async (page : Nat) (cpu : Int)
  | __frontswap_pref_async_early_map (page vaddr : Nat) (cpu : Int)
  | __frontswap_load_early_map (page vaddr : Nat)
  | __frontswap_peek_pref (cpu : Int)
  | __frontswap_poll_pref (cpu : Int)
  deriving DecidableEq, Repr

/-- A page-table entry as the prefetch loops classify it with `pte_none`,
`pte_present`, `pte_to_swp_entry` and `non_swap_entry`, which are declared in
headers that are not among the sources: empty, present, a swap entry, or an
entry in swap format that is not a swap entry (a migration entry, say). -/
inductive pte_t where
  | empty
  | present
  | swap (entry : swp_entry_t)
  | non_swap (entry : swp_entry_t)

/-- The answers of the collaborators of the fetch path. Each answer may depend
on the trace of calls made so far, which makes the environment an arbitrary
deterministic one: page allocator, swap map (`__swp_swapcount`,
`swapcache_prepare`), memory cgroup charge, transport (`hermit_issue_read`
returns the id of the cpu whose channel carries the read), the control flags
`HMT_SPEC_IO` and `HMT_PREF_THD`, the swap device of cluster readahead
(`si->flags & (SWP_BLKDEV | SWP_FS_OPS)`, `inode_read_congested`, `si->max`)
and the page table, indexed by page frame number. -/
structure fetch_env where
  alloc_page_vma : List io_event → Option Nat
  __swp_swapcount : List io_event → Nat → Int
  swap_slot_cache_enabled : List io_event → Bool
  swapcache_prepare : List io_event → Nat → Int
  swapcache_prepare_trylock : List io_event → Nat → Int
  hermit_mem_cgroup_swapin_charge_page : List io_event → Nat → Int
  hermit_issue_read : List io_event → Nat → Nat → Int
  get_cpu : List io_event → Nat
  frontswap_peek_load : List io_event → Int → Int
  hmt_spec_io : Bool
  hmt_pref_thd : Bool
  si_blkdev_or_fs_ops : Bool
  inode_read_congested : List io_event → Bool
  si_max : Nat
  page_table : List io_event → Nat → pte_t

/-- The swap cache state together with the trace of calls, latest call
first. -/
structure fetch_world where
  s : swap_state
  trace : List io_event

/-- Record a call. -/
def emit (w : fetch_world) (e : io_event) : fetch_world :=
  { w with trace := e :: w.trace }

/-- How a call of the fetch path ends: it returns `v`, or it stops in `BUG()`. -/
inductive fetch_result (α : Type) where
  | ret (v : α) (w : fetch_world)
  | BUG (w : fetch_world)

/-- The world in which a call ends. -/
def fetch_result.world {α : Type} : fetch_result α → fetch_world
  | .ret _ w => w
  | .BUG w => w

/-- The value `-EEXIST`. -/
def EEXIST_neg : Int := -17

/-- A page as the allocator hands it out: no flag set, one reference. -/
def fresh_page : page :=
  { PG_locked := false, PG_swapcache := false, PG_swapbacked := false, PG_writeback := false,
    PG_readahead := false, compound := false, nr_pages := 1, refcount := 1,
    page_private := 0 }

/-- Modelled from the spec: `alloc_page_vma(gfp_mask, vma, addr)`, the page
allocator `allocate(hint) -> Page | OutOfMemory`: the environment names the
page or fails, and an allocated page is a fresh base page. -/
def alloc_page_vma (env : fetch_env) (w : fetch_world) : Option Nat × fetch_world :=
  match env.alloc_page_vma w.trace with
  | none => (none, emit w (io_event.alloc_page_vma none))
  | some p =>
    (some p,
      emit { w with s := update_page w.s p fun _ => fresh_page }
        (io_event.alloc_page_vma (some p)))

/-- Modelled from the spec: `put_page(page)`, which drops one reference. -/
def put_page (w : fetch_world) (p : Nat) : fetch_world :=
  emit { w with s := page_ref_add w.s p (-1) } (io_event.put_page p)

/-- Modelled from the spec: `unlock_page(page)`, which clears the lock flag. -/
def unlock_page (w : fetch_world) (p : Nat) : fetch_world :=
  emit { w with s := update_page w.s p fun pg => { pg with PG_locked := false } }
    (io_event.unlock_page p)

/-- `__SetPageLocked(page); __SetPageSwapBacked(page);`. -/
def set_locked_swapbacked (s : swap_state) (p : Nat) : swap_state :=
  update_page s p fun pg => { pg with PG_locked := true, PG_swapbacked := true }

/-- The label `unlock:` of the three `__read_swap_cache_async*` functions:
`put_swap_page(page, entry); unlock_page(page); put_page(page); return NULL;`. -/
def read_swap_cache_unlock (w : fetch_world) (p : Nat) (entry : swp_entry_t) :
    fetch_result (Option Nat × Bool) :=
  fetch_result.ret (none, false)
    (put_page (unlock_page (emit w (io_event.put_swap_page p entry.val)) p) p)

/-- The statements after the loop of the three `__read_swap_cache_async*`
functions, which own the reservation here: lock the page, charge it (the
charge is commented out in the `without_charge` variant, `with_charge = false`),
insert it into the swap cache, add it to the LRU and return it with
`*new_page_allocated = true`; on a failed charge or insertion go to `unlock:`.
The result is the returned page and `*new_page_allocated`. -/
def read_swap_cache_tail (c : hermit_config) (env : fetch_env) (entry : swp_entry_t)
    (with_charge : Bool) (p : Nat) (w : fetch_world) : fetch_result (Option Nat × Bool) :=
  let w1 : fetch_world := { w with s := set_locked_swapbacked w.s p }
  let err : Int :=
    if with_charge = true then env.hermit_mem_cgroup_swapin_charge_page w1.trace p else 0
  let w2 : fetch_world :=
    if with_charge = true then emit w1 (io_event.hermit_mem_cgroup_swapin_charge_page p err)
    else w1
  if err ≠ 0 then read_swap_cache_unlock w2 p entry
  else
    match add_to_swap_cache c w2.s p entry with
    | outcome.BUG s1 => fetch_result.BUG { w2 with s := s1 }
    | outcome.ret v s1 =>
      if v ≠ 0 then read_swap_cache_unlock { w2 with s := s1 } p entry
      else fetch_result.ret (some p, true) (emit { w2 with s := s1 } (io_event.lru_cache_add p))

/-- The loop of `__read_swap_cache_async_profiling` (`with_charge = true`) and
of `__read_swap_cache_async_without_charge_profiling` (`with_charge = false`),
followed by the statements after it. `fuel` bounds the number of iterations;
`none` when it is used up. -/
def read_swap_cache_loop (c : hermit_config) (env : fetch_env) (entry : swp_entry_t)
    (with_charge : Bool) : Nat → fetch_world → Option (fetch_result (Option Nat × Bool))
  | 0, _ => none
  | fuel + 1, w =>
    if w.s.swap_device_live entry.val = false then some (fetch_result.ret (none, false) w)
    else
      let r := hmt_sc_load_get w.s (swp_offset entry)
      let w1 : fetch_world := { w with s := r.2 }
      match r.1 with
      | some p => some (fetch_result.ret (some p, false) w1)
      | none =>
        if env.__swp_swapcount w1.trace entry.val = 0 ∧
            env.swap_slot_cache_enabled w1.trace = true then
          some (fetch_result.ret (none, false) w1)
        else
          let a := alloc_page_vma env w1
          match a.1 with
          | none => some (fetch_result.ret (none, false) a.2)
          | some p =>
            let err := env.swapcache_prepare a.2.trace entry.val
            let w2 := emit a.2 (io_event.swapcache_prepare entry.val err)
            if err = 0 then some (read_swap_cache_tail c env entry with_charge p w2)
            else
              let w3 := put_page w2 p
              if err ≠ EEXIST_neg then some (fetch_result.ret (none, false) w3)
              else read_swap_cache_loop c env entry with_charge fuel w3

/-- The function `__read_swap_cache_async_profiling(entry, gfp_mask, vma, addr,
&new_page_allocated, ...)`: the returned page and `*new_page_allocated`. -/
def __read_swap_cache_async_profiling (c : hermit_config) (env : fetch_env)
    (entry : swp_entry_t) (fuel : Nat) (w : fetch_world) :
    Option (fetch_result (Option Nat × Bool)) :=
  read_swap_cache_loop c env entry true fuel w

/-- The function `__read_swap_cache_async_without_charge_profiling`. -/
def __read_swap_cache_async_without_charge_profiling (c : hermit_config) (env : fetch_env)
    (entry : swp_entry_t) (fuel : Nat) (w : fetch_world) :
    Option (fetch_result (Option Nat × Bool)) :=
  read_swap_cache_loop c env entry false fuel w

/-- The function `__read_swap_cache_async_profiling_trylock`. Every path
through the body of its `for (;;)` ends in `return` or `break`, so the body
runs once and no fuel is needed. -/
def __read_swap_cache_async_profiling_trylock (c : hermit_config) (env : fetch_env)
    (entry : swp_entry_t) (w : fetch_world) : fetch_result (Option Nat × Bool) :=
  if w.s.swap_device_live entry.val = false then fetch_result.ret (none, false) w
  else
    let r := hmt_sc_load_get w.s (swp_offset entry)
    let w1 : fetch_world := { w with s := r.2 }
    match r.1 with
    | some p => fetch_result.ret (some p, false) w1
    | none =>
      if env.__swp_swapcount w1.trace entry.val = 0 ∧
          env.swap_slot_cache_enabled w1.trace = true then
        fetch_result.ret (none, false) w1
      else
        let a := alloc_page_vma env w1
        match a.1 with
        | none => fetch_result.ret (none, false) a.2
        | some p =>
          let err := env.swapcache_prepare_trylock a.2.trace entry.val
          let w2 := emit a.2 (io_event.swapcache_prepare_trylock entry.val err)
          if err = 0 then read_swap_cache_tail c env entry true p w2
          else fetch_result.ret (none, false) (put_page w2 p)

/-- The function `read_swap_cache_async(entry, gfp_mask, vma, addr, do_poll)`:
the returned page. -/
def read_swap_cache_async (c : hermit_config) (env : fetch_env) (entry : swp_entry_t)
    (do_poll : Bool) (fuel : Nat) (w : fetch_world) : Option (fetch_result (Option Nat)) :=
  match __read_swap_cache_async_profiling c env entry fuel w with
  | none => none
  | some (fetch_result.BUG w1) => some (fetch_result.BUG w1)
  | some (fetch_result.ret r w1) =>
    if r.2 = true then
      let cpu : Int := env.get_cpu w1.trace
      let w2 := emit w1 (io_event.swap_readpage r.1 do_poll)
      some (fetch_result.ret r.1 (emit w2 (io_event.hermit_poll_read cpu r.1)))
    else some (fetch_result.ret r.1 w1)

/-- Modelled from the spec: `hermit_issue_read(page, entry)`, the transport
call `issue(page, slot, channel_hint) -> CompletionHandle` of a file that is
not among the sources: it issues the read of the slot into the page and
returns the id of the cpu whose channel carries it (an `int`). The page is
handed to the transport locked and swap-backed, which the insertion that
follows asserts and which the caller does not set. -/
def hermit_issue_read (env : fetch_env) (w : fetch_world) (p : Nat) (entry : swp_entry_t) :
    Int × fetch_world :=
  let cpu : Int := env.hermit_issue_read w.trace p entry.val
  (cpu, emit { w with s := set_locked_swapbacked w.s p }
    (io_event.hermit_issue_read p entry.val cpu))

/-- The label `fail_free:` of `__read_swap_cache_speculative`:
`if (cpu) hermit_poll_read(*cpu, new_page, ...); put_page(new_page); return page;`.
`cpu` is the pointer: `none` for `NULL`, `some v` when it points to `v`. -/
def speculative_fail_free (w : fetch_world) (cpu : Option Int) (new_page : Nat)
    (page : Option Nat) : fetch_result (Option Nat × Bool × Option Int) :=
  let w1 : fetch_world :=
    match cpu with
    | some v => emit w (io_event.hermit_poll_read v (some new_page))
    | none => w
  fetch_result.ret (page, false, cpu) (put_page w1 new_page)

/-- The label `fail_unlock:` of `__read_swap_cache_speculative`:
`put_swap_page(page, entry); unlock_page(page);
if (cpu) hermit_poll_read(*cpu, page, ...); put_page(page); return NULL;`. -/
def speculative_fail_unlock (w : fetch_world) (cpu : Option Int) (p : Nat)
    (entry : swp_entry_t) : fetch_result (Option Nat × Bool × Option Int) :=
  let w1 := unlock_page (emit w (io_event.put_swap_page p entry.val)) p
  let w2 : fetch_world :=
    match cpu with
    | some v => emit w1 (io_event.hermit_poll_read v (some p))
    | none => w1
  fetch_result.ret (none, false, cpu) (put_page w2 p)

/-- The statements of `__read_swap_cache_speculative` after its loop: charge
the page, insert it, add it to the LRU and return it with
`*new_page_allocated = true`; on failure go to `fail_unlock:`. -/
def speculative_tail (c : hermit_config) (env : fetch_env) (entry : swp_entry_t)
    (cpu : Option Int) (p : Nat) (w : fetch_world) :
    fetch_result (Option Nat × Bool × Option Int) :=
  let err := env.hermit_mem_cgroup_swapin_charge_page w.trace p
  let w1 := emit w (io_event.hermit_mem_cgroup_swapin_charge_page p err)
  if err ≠ 0 then speculative_fail_unlock w1 cpu p entry
  else
    match add_to_swap_cache c w1.s p entry with
    | outcome.BUG s1 => fetch_result.BUG { w1 with s := s1 }
    | outcome.ret v s1 =>
      if v ≠ 0 then speculative_fail_unlock { w1 with s := s1 } cpu p entry
      else
        fetch_result.ret (some p, true, cpu)
          (emit { w1 with s := s1 } (io_event.lru_cache_add p))

/-- The loop of `__read_swap_cache_speculative`, followed by the statements
after it; `new_page` is the page whose read has been issued. `none` when the
fuel is used up. -/
def speculative_loop (c : hermit_config) (env : fetch_env) (entry : swp_entry_t)
    (cpu : Option Int) (new_page : Nat) :
    Nat → fetch_world → Option (fetch_result (Option Nat × Bool × Option Int))
  | 0, _ => none
  | fuel + 1, w =>
    let r := hmt_sc_load_get w.s (swp_offset entry)
    let w1 : fetch_world := { w with s := r.2 }
    match r.1 with
    | some q => some (speculative_fail_free w1 cpu new_page (some q))
    | none =>
      if env.__swp_swapcount w1.trace entry.val = 0 ∧
          env.swap_slot_cache_enabled w1.trace = true then
        some (speculative_fail_free w1 cpu new_page none)
      else
        let err := env.swapcache_prepare w1.trace entry.val
        let w2 := emit w1 (io_event.swapcache_prepare entry.val err)
        if err = 0 then some (speculative_tail c env entry cpu new_page w2)
        else if err ≠ EEXIST_neg then some (speculative_fail_free w2 cpu new_page none)
        else speculative_loop c env entry cpu new_page fuel w2

/-- The function `__read_swap_cache_speculative(entry, gfp_mask, vma, addr,
&new_page_allocated, cpu, ...)`. `cpu` is the pointer argument (`none` for
`NULL`, `some v` when it points to `v`). The result is the returned page,
`*new_page_allocated` and the pointer `cpu` with the value it points to at
the return. -/
def __read_swap_cache_speculative (c : hermit_config) (env : fetch_env)
    (entry : swp_entry_t) (cpu : Option Int) (fuel : Nat) (w : fetch_world) :
    Option (fetch_result (Option Nat × Bool × Option Int)) :=
  match cpu with
  | none => some (fetch_result.ret (none, false, none) w)
  | some v =>
    let a := alloc_page_vma env w
    match a.1 with
    | none =>
      let r := hmt_sc_load_get a.2.s (swp_offset entry)
      some (fetch_result.ret (r.1, false, some v) { a.2 with s := r.2 })
    | some new_page =>
      let i := hermit_issue_read env a.2 new_page entry
      speculative_loop c env entry (some i.1) new_page fuel i.2

/-- An environment for instantiating the theorems: the allocator hands out the
pages 100, 101, ... (100 plus the length of the trace), every slot is in use,
every reservation and every charge succeeds, reads are carried by cpu 2,
`get_cpu` answers 3, and the page-table entry of page frame `n` is the swap
entry of slot `n` of device 0. -/
def example_env : fetch_env :=
  { alloc_page_vma := fun t => some (100 + t.length),
    __swp_swapcount := fun _ _ => 1,
    swap_slot_cache_enabled := fun _ => true,
    swapcache_prepare := fun _ _ => 0,
    swapcache_prepare_trylock := fun _ _ => 0,
    hermit_mem_cgroup_swapin_charge_page := fun _ _ => 0,
    hermit_issue_read := fun _ _ _ => 2,
    get_cpu := fun _ => 3,
    frontswap_peek_load := fun _ _ => 1,
    hmt_spec_io := false,
    hmt_pref_thd := false,
    si_blkdev_or_fs_ops := false,
    inode_read_congested := fun _ => false,
    si_max := 1024,
    page_table := fun _ pfn => pte_t.swap ⟨pfn⟩ }

/-- The world of `cached_state` before any call. -/
def cached_world : fetch_world := { s := cached_state, trace := [] }

/-- The world of `empty_state` before any call. -/
def empty_world : fetch_world := { s := empty_state, trace := [] }

/-- Whether a call is a `swapcache_prepare` of the entry that answered
`-EEXIST`, after which the loops of the fetch path go round again. -/
def is_retry (entry : swp_entry_t) : io_event → Bool
  | io_event.swapcache_prepare e err => decide (e = entry.val ∧ err = EEXIST_neg)
  | _ => false

/-- The number of `-EEXIST` answers to `swapcache_prepare(entry)` in a trace. -/
def prepare_retries (entry : swp_entry_t) (t : List io_event) : Nat :=
  (t.filter (is_retry entry)).length

/-- The environment `example_env` with a memory cgroup that refuses every
charge with `-ENOMEM`. -/
def charge_fail_env : fetch_env :=
  { example_env with hermit_mem_cgroup_swapin_charge_page := fun _ _ => -12 }

/-! ## Readahead: the demand read and the prefetch reads of one fault -/

/-- The fields of `struct pref_request` that the code reads and writes (the
struct is declared in a header that is not among the sources); `vma` holds
the area that the pointer `vma` designates. -/
structure pref_request where
  vma : vm_area_struct
  ra_info : vma_swap_readahead
  stt : Nat
  faddr : Nat

/-- `SetPageReadahead(page)`. -/
def SetPageReadahead (s : swap_state) (p : Nat) : swap_state :=
  update_page s p fun pg => { pg with PG_readahead := true }

/-- The statements that the prefetch loops run on a resolved page:
`if (!page) continue; if (page_allocated) { swap_readpage_async(page);
SetPageReadahead(page); count_vm_event(SWAP_RA); set_page_prefetch(page);
nr_prefed++; } put_page(page);`. The result is `nr_prefed` and the world. -/
def prefetch_resolved (r : Option Nat × Bool) (nr_prefed : Int) (w : fetch_world) :
    Int × fetch_world :=
  match r.1 with
  | none => (nr_prefed, w)
  | some p =>
    if r.2 = true then
      let w1 := emit w (io_event.swap_readpage_async p)
      let w2 : fetch_world := { w1 with s := SetPageReadahead w1.s p }
      let w3 := emit w2 io_event.count_vm_event_SWAP_RA
      let w4 := emit w3 (io_event.set_page_prefetch p)
      (to_int (to_uint (nr_prefed + 1)), put_page w4 p)
    else (nr_prefed, put_page w p)

/-- The loop of `hermit_vma_prefetch` from index `i` (an `unsigned int`) with
`nr_prefed` pages prefetched so far: the result is the index at which the loop
stops and `nr_prefed`. `rfuel` bounds the iterations of each resolve and the
first argument those of this loop; `none` when either is used up. -/
def hermit_vma_prefetch_loop (c : hermit_config) (env : fetch_env) (req : pref_request)
    (cpu : Int) (rfuel : Nat) :
    Nat → Nat → Int → fetch_world → Option (fetch_result (Nat × Int))
  | 0, _, _, _ => none
  | fuel + 1, i, nr_prefed, w =>
    if i < req.ra_info.nr_pte then
      let peek : Int := env.frontswap_peek_load w.trace cpu
      let w1 := if cpu ≠ -1 then emit w (io_event.frontswap_peek_load cpu peek) else w
      if cpu ≠ -1 ∧ peek = 0 then some (fetch_result.ret (i, nr_prefed) w1)
      else
        let next := (i + 1) % UINT_MOD
        if i = req.ra_info.offset then
          hermit_vma_prefetch_loop c env req cpu rfuel fuel next nr_prefed w1
        else
          match env.page_table w1.trace (req.ra_info.ptes + i) with
          | pte_t.empty => hermit_vma_prefetch_loop c env req cpu rfuel fuel next nr_prefed w1
          | pte_t.present => hermit_vma_prefetch_loop c env req cpu rfuel fuel next nr_prefed w1
          | pte_t.non_swap _ =>
            hermit_vma_prefetch_loop c env req cpu rfuel fuel next nr_prefed w1
          | pte_t.swap entry =>
            match __read_swap_cache_async_profiling c env entry rfuel w1 with
            | none => none
            | some (fetch_result.BUG w2) => some (fetch_result.BUG w2)
            | some (fetch_result.ret r w2) =>
              let a := prefetch_resolved r nr_prefed w2
              hermit_vma_prefetch_loop c env req cpu rfuel fuel next a.1 a.2
    else some (fetch_result.ret (i, nr_prefed) w)

/-- The function `hermit_vma_prefetch(pref_req, cpu, ...)`: the number of pages
prefetched and the request as the call leaves it. -/
def hermit_vma_prefetch (c : hermit_config) (env : fetch_env) (req : pref_request)
    (cpu : Int) (rfuel fuel : Nat) (w : fetch_world) :
    Option (fetch_result (Int × pref_request)) :=
  if req.ra_info.win = 1 then some (fetch_result.ret (0, req) w)
  else
    match hermit_vma_prefetch_loop c env req cpu rfuel fuel (req.stt % UINT_MOD) 0 w with
    | none => none
    | some (fetch_result.BUG w1) => some (fetch_result.BUG w1)
    | some (fetch_result.ret r w1) =>
      some (fetch_result.ret (r.2, { req with stt := r.1 }) w1)

/-- The statics `prev_offset` and `last_readahead_pages` of `swapin_nr_pages`. -/
structure swapin_statics where
  prev_offset : Nat
  last_readahead_pages : Int

/-- The function `swapin_nr_pages(offset)`: the number of pages, the state
(whose `swapin_readahead_hits` it exchanges for 0) and its statics. `none`
when the window computation does not end within `wfuel` iterations. -/
def swapin_nr_pages (c : hermit_config) (wfuel : Nat) (st : swapin_statics) (offset : Nat)
    (s : swap_state) : Option (Nat × swap_state × swapin_statics) :=
  let max_pages : Nat := (1 <<< to_uint c.page_cluster) % UINT_MOD
  if max_pages ≤ 1 then some (1, s, st)
  else
    let hits : Nat := to_uint s.swapin_readahead_hits
    let s1 := { s with swapin_readahead_hits := 0 }
    match __swapin_nr_pages wfuel c.readahead_win st.prev_offset offset
        (to_int hits) (to_int max_pages) st.last_readahead_pages with
    | none => none
    | some pages =>
      some (pages, s1,
        { prev_offset := if hits = 0 then offset else st.prev_offset,
          last_readahead_pages := to_int pages })

/-- Whether a call issues a prefetch read (`swap_readpage_async`). -/
def is_prefetch_read : io_event → Bool
  | io_event.swap_readpage_async _ => true
  | _ => false

/-- An area of 256 pages whose stored readahead state is address 16384,
window 0 and 3 hits: a fault at address 20480 is the next page. -/
def example_vma : vm_area_struct :=
  { vm_start := 0, vm_end := 1048576, swap_readahead_info := 16387 }

/-- The trace of `w1` is the trace of `w` with calls added in front, all of
which satisfy `ok`. -/
def trace_extends (ok : io_event → Bool) (w w1 : fetch_world) : Prop :=
  ∃ mid, w1.trace = mid ++ w.trace ∧ mid.all ok = true

/-! ## Further fixtures -/

/-- The environment `example_env` in which every reservation attempt loses the
race: `swapcache_prepare` and `swapcache_prepare_trylock` answer `-EEXIST`. -/
def lost_race_env : fetch_env :=
  { example_env with
    swapcache_prepare := fun _ _ => EEXIST_neg,
    swapcache_prepare_trylock := fun _ _ => EEXIST_neg }

/-! ## Prefetch workers -/

/-- `PAGE_SIZE`, that is `1UL << PAGE_SHIFT`. -/
def PAGE_SIZE (c : hermit_config) : Nat := (1 <<< c.PAGE_SHIFT) % ULONG_MOD

/-- The fields of `struct hermit_pref_work` that the workers read (the struct
is declared in a header that is not among the sources, so the fields hold
their values without narrowing); `ptes` is the page frame number whose
page-table entry the pointer `ptes` designates. -/
structure hermit_pref_work where
  vma : vm_area_struct
  faddr : Nat
  stt : Nat
  nr_pte : Nat
  offset : Nat
  ptes : Nat

/-- The address
`vaddr = faddr + ((unsigned long)i - (unsigned long)offset) * PAGE_SIZE`
that `hermit_vma_prefetch_early_map`, `hermit_vma_prefetch_direct_poll_work`
and `hermit_vma_prefetch_work` compute for index `i`, in `u64` arithmetic. -/
def early_map_vaddr (c : hermit_config) (faddr i offset : Nat) : Nat :=
  ul_add faddr ((ul_sub i offset * PAGE_SIZE c) % ULONG_MOD)

/-- The address that `hermit_vma_prefetch_direct_poll_direct_map_work`
computes for index `i`:
`if (i < offset) vaddr = faddr + ((unsigned long)offset - (unsigned long)i) * PAGE_SIZE;
else vaddr = faddr + ((unsigned long)i - (unsigned long)offset) * PAGE_SIZE;`. -/
def direct_map_vaddr (c : hermit_config) (faddr i offset : Nat) : Nat :=
  if i < offset then ul_add faddr ((ul_sub offset i * PAGE_SIZE c) % ULONG_MOD)
  else ul_add faddr ((ul_sub i offset * PAGE_SIZE c) % ULONG_MOD)

/-- The statements that the two direct-poll workers run on a resolved page:
`if (!page) continue; if (page_allocated) { __frontswap_pref_async(page, cpu);
SetPageReadahead(page); count_vm_event(SWAP_RA); set_page_prefetch(page);
nr_prefed++; if (nr_prefed % peek_freq == 0) __frontswap_peek_pref(cpu); }
put_page(page);` with `peek_freq = 4`; the direct-map worker calls
`__frontswap_pref_async_early_map(page, vaddr, vma, pte, pentry, cpu)` instead
(`direct_map = true`). The result is `nr_prefed` and the world. -/
def direct_poll_resolved (direct_map : Bool) (cpu : Int) (vaddr : Nat)
    (r : Option Nat × Bool) (nr_prefed : Int) (w : fetch_world) : Int × fetch_world :=
  match r.1 with
  | none => (nr_prefed, w)
  | some p =>
    if r.2 = true then
      let w1 := emit w
        (if direct_map = true then io_event.__frontswap_pref_async_early_map p vaddr cpu
         else io_event.__frontswap_pref_async p cpu)
      let w2 : fetch_world := { w1 with s := SetPageReadahead w1.s p }
      let w3 := emit w2 io_event.count_vm_event_SWAP_RA
      let w4 := emit w3 (io_event.set_page_prefetch p)
      let n : Int := to_int (to_uint (nr_prefed + 1))
      let w5 := if Int.tmod n 4 = 0 then emit w4 (io_event.__frontswap_peek_pref cpu) else w4
      (n, put_page w5 p)
    else (nr_prefed, put_page w p)

/-- The loop of `hermit_vma_prefetch_direct_poll_work` (`direct_map = false`)
and of `hermit_vma_prefetch_direct_poll_direct_map_work` (`direct_map = true`)
from index `i` (an `unsigned int`) with `nr_prefed` pages prefetched so far:
the result is `nr_prefed` after the loop. `none` when the fuel is used up. -/
def direct_poll_loop (c : hermit_config) (env : fetch_env) (work : hermit_pref_work)
    (direct_map : Bool) (cpu : Int) :
    Nat → Nat → Int → fetch_world → Option (fetch_result Int)
  | 0, _, _, _ => none
  | fuel + 1, i, nr_prefed, w =>
    if i < work.nr_pte then
      let next := (i + 1) % UINT_MOD
      if i = work.offset then direct_poll_loop c env work direct_map cpu fuel next nr_prefed w
      else
        match env.page_table w.trace (work.ptes + i) with
        | pte_t.empty => direct_poll_loop c env work direct_map cpu fuel next nr_prefed w
        | pte_t.present => direct_poll_loop c env work direct_map cpu fuel next nr_prefed w
        | pte_t.non_swap _ => direct_poll_loop c env work direct_map cpu fuel next nr_prefed w
        | pte_t.swap entry =>
          let vaddr :=
            if direct_map = true then direct_map_vaddr c work.faddr i work.offset
            else early_map_vaddr c work.faddr i work.offset
          match __read_swap_cache_async_profiling_trylock c env entry w with
          | fetch_result.BUG w1 => some (fetch_result.BUG w1)
          | fetch_result.ret r w1 =>
            let a := direct_poll_resolved direct_map cpu vaddr r nr_prefed w1
            direct_poll_loop c env work direct_map cpu fuel next a.1 a.2
    else some (fetch_result.ret nr_prefed w)

/-- The statements after the loop of the two direct-poll workers:
`if (nr_prefed) { ...; __frontswap_poll_pref(cpu); }`. The counter
`adc_counter_add` and the release of `pref_work` are left out. -/
def direct_poll_finish (cpu : Int) (r : Option (fetch_result Int)) :
    Option (fetch_result Unit) :=
  match r with
  | none => none
  | some (fetch_result.BUG w1) => some (fetch_result.BUG w1)
  | some (fetch_result.ret n w1) =>
    some (fetch_result.ret ()
      (if n ≠ 0 then emit w1 (io_event.__frontswap_poll_pref cpu) else w1))

/-- The function `hermit_vma_prefetch_direct_poll_work(work)`; `cpu` is the
value of `smp_processor_id()`. -/
def hermit_vma_prefetch_direct_poll_work (c : hermit_config) (env : fetch_env)
    (work : hermit_pref_work) (cpu : Int) (fuel : Nat) (w : fetch_world) :
    Option (fetch_result Unit) :=
  direct_poll_finish cpu
    (direct_poll_loop c env work false cpu fuel (work.stt % UINT_MOD) 0 w)

/-- The function `hermit_vma_prefetch_direct_poll_direct_map_work(work)`;
`cpu` is the value of `smp_processor_id()`. -/
def hermit_vma_prefetch_direct_poll_direct_map_work (c : hermit_config) (env : fetch_env)
    (work : hermit_pref_work) (cpu : Int) (fuel : Nat) (w : fetch_world) :
    Option (fetch_result Unit) :=
  direct_poll_finish cpu
    (direct_poll_loop c env work true cpu fuel (work.stt % UINT_MOD) 0 w)

/-- The statements that `hermit_vma_prefetch_work` runs on a resolved page:
`if (!page) continue; if (page_allocated) { swap_readpage_async(page);
SetPageReadahead(page); count_vm_event(SWAP_RA); set_page_prefetch(page);
if (batch_charge) pages[nr_prefed++] = page; else nr_prefed++; }
put_page(page);`. `pages` is the array as a list of the pages stored so far,
`none` for the pointer `NULL`. The result is `nr_prefed`, `pages` and the
world. -/
def prefetch_work_resolved (batch_charge : Bool) (r : Option Nat × Bool) (nr_prefed : Int)
    (pages : Option (List Nat)) (w : fetch_world) : Int × Option (List Nat) × fetch_world :=
  match r.1 with
  | none => (nr_prefed, pages, w)
  | some p =>
    if r.2 = true then
      let w1 := emit w (io_event.swap_readpage_async p)
      let w2 : fetch_world := { w1 with s := SetPageReadahead w1.s p }
      let w3 := emit w2 io_event.count_vm_event_SWAP_RA
      let w4 := emit w3 (io_event.set_page_prefetch p)
      (to_int (to_uint (nr_prefed + 1)),
        (if batch_charge = true then pages.map (fun l => l ++ [p]) else pages),
        put_page w4 p)
    else (nr_prefed, pages, put_page w p)

/-- The loop of `hermit_vma_prefetch_work` from index `i`: the result is
`nr_prefed` and `pages` after the loop. `rfuel` bounds the iterations of each
resolve and the first argument those of this loop. -/
def prefetch_work_loop (c : hermit_config) (env : fetch_env) (work : hermit_pref_work)
    (batch_charge : Bool) (rfuel : Nat) :
    Nat → Nat → Int → Option (List Nat) → fetch_world →
      Option (fetch_result (Int × Option (List Nat)))
  | 0, _, _, _, _ => none
  | fuel + 1, i, nr_prefed, pages, w =>
    if i < work.nr_pte then
      let next := (i + 1) % UINT_MOD
      if i = work.offset then
        prefetch_work_loop c env work batch_charge rfuel fuel next nr_prefed pages w
      else
        match env.page_table w.trace (work.ptes + i) with
        | pte_t.empty =>
          prefetch_work_loop c env work batch_charge rfuel fuel next nr_prefed pages w
        | pte_t.present =>
          prefetch_work_loop c env work batch_charge rfuel fuel next nr_prefed pages w
        | pte_t.non_swap _ =>
          prefetch_work_loop c env work batch_charge rfuel fuel next nr_prefed pages w
        | pte_t.swap entry =>
          match (if batch_charge = true then
                  __read_swap_cache_async_without_charge_profiling c env entry rfuel w
                else __read_swap_cache_async_profiling c env entry rfuel w) with
          | none => none
          | some (fetch_result.BUG w1) => some (fetch_result.BUG w1)
          | some (fetch_result.ret r w1) =>
            let a := prefetch_work_resolved batch_charge r nr_prefed pages w1
            prefetch_work_loop c env work batch_charge rfuel fuel next a.1 a.2.1 a.2.2
    else some (fetch_result.ret (nr_prefed, pages) w)

/-- The label `err:` of `hermit_vma_prefetch_work`:
`if (nr_prefed) { ...; if (batch_charge)
hermit_mem_cgroup_swapin_charge_batch_profiling(pages, nr_prefed, ...); }`.
The counter `adc_counter_add`, `kfree(pages)` and the release of `pref_work`
are left out. -/
def prefetch_work_err (batch_charge : Bool) (nr_prefed : Int) (pages : Option (List Nat))
    (w : fetch_world) : fetch_world :=
  if nr_prefed ≠ 0 ∧ batch_charge = true then
    emit w (io_event.hermit_mem_cgroup_swapin_charge_batch (pages.getD []))
  else w

/-- The function `hermit_vma_prefetch_work(work)`. `batch_charge` is
`hmt_ctl_flag(HMT_PREF_BATCH_CHARGE)` and `kmalloc_ok` says whether the
`kmalloc` of the page array succeeds. The source reads
`struct page** pages = NULL; ... if (batch_charge) { kmalloc(...);
if (!pages) goto err; }`: the value that `kmalloc` returns is not assigned, so
`pages` is still `NULL` at the test. -/
def hermit_vma_prefetch_work (c : hermit_config) (env : fetch_env) (work : hermit_pref_work)
    (batch_charge kmalloc_ok : Bool) (rfuel fuel : Nat) (w : fetch_world) :
    Option (fetch_result Unit) :=
  let pages : Option (List Nat) := none
  let _returned_by_kmalloc : Option (List Nat) := if kmalloc_ok = true then some [] else none
  if batch_charge = true ∧ pages = none then
    some (fetch_result.ret () (prefetch_work_err batch_charge 0 pages w))
  else
    match prefetch_work_loop c env work batch_charge rfuel fuel (work.stt % UINT_MOD) 0
        pages w with
    | none => none
    | some (fetch_result.BUG w1) => some (fetch_result.BUG w1)
    | some (fetch_result.ret r w1) =>
      some (fetch_result.ret () (prefetch_work_err batch_charge r.1 r.2 w1))

/-! ## Properties of traces used by the claims on prefetching -/

/-- Whether a call is one that a resolve function makes: allocation,
reservation, charge, roll-back, release, LRU insertion. -/
def is_resolve_call : io_event → Bool
  | io_event.alloc_page_vma _ => true
  | io_event.swapcache_prepare _ _ => true
  | io_event.swapcache_prepare_trylock _ _ => true
  | io_event.hermit_mem_cgroup_swapin_charge_page _ _ => true
  | io_event.put_swap_page _ _ => true
  | io_event.unlock_page _ => true
  | io_event.put_page _ => true
  | io_event.lru_cache_add _ => true
  | _ => false

/-- Whether a call issues a prefetch of a direct-poll worker
(`__frontswap_pref_async` or `__frontswap_pref_async_early_map`). -/
def is_pref_issue : io_event → Bool
  | io_event.__frontswap_pref_async _ _ => true
  | io_event.__frontswap_pref_async_early_map _ _ _ => true
  | _ => false

/-- Whether a call is `__frontswap_peek_pref`. -/
def is_peek_pref : io_event → Bool
  | io_event.__frontswap_peek_pref _ => true
  | _ => false

/-- Whether a call is `__frontswap_poll_pref`. -/
def is_poll_pref : io_event → Bool
  | io_event.__frontswap_poll_pref _ => true
  | _ => false

/-- The drain that the claim on `hermit_vma_prefetch` describes, over the
indices `is` in the order of the list: skip the fault's own offset and every
index whose page-table entry is empty, present or not a swap entry; resolve
the entry of every other index; on a newly allocated page issue the prefetch
read, set the readahead flag and the prefetch flag; release the reference on
every page that the resolve returned. The result is the list of the newly
allocated pages, in the order in which they were resolved. -/
def spec_prefetch_drain (c : hermit_config) (env : fetch_env) (req : pref_request)
    (rfuel : Nat) : List Nat → List Nat → fetch_world → Option (fetch_result (List Nat))
  | [], pages, w => some (fetch_result.ret pages w)
  | i :: rest, pages, w =>
    if i = req.ra_info.offset then spec_prefetch_drain c env req rfuel rest pages w
    else
      match env.page_table w.trace (req.ra_info.ptes + i) with
      | pte_t.swap entry =>
        match __read_swap_cache_async_profiling c env entry rfuel w with
        | none => none
        | some (fetch_result.BUG w1) => some (fetch_result.BUG w1)
        | some (fetch_result.ret (some p, true) w1) =>
          let w2 := emit w1 (io_event.swap_readpage_async p)
          let w3 : fetch_world := { w2 with s := SetPageReadahead w2.s p }
          let w4 := emit (emit w3 io_event.count_vm_event_SWAP_RA)
            (io_event.set_page_prefetch p)
          spec_prefetch_drain c env req rfuel rest (pages ++ [p]) (put_page w4 p)
        | some (fetch_result.ret (some p, false) w1) =>
          spec_prefetch_drain c env req rfuel rest pages (put_page w1 p)
        | some (fetch_result.ret (none, _) w1) =>
          spec_prefetch_drain c env req rfuel rest pages w1
      | _ => spec_prefetch_drain c env req rfuel rest pages w

/-- The result of `hermit_vma_prefetch` that corresponds to a result of
`spec_prefetch_drain`: the number of newly allocated pages and the request
with `stt = nr_pte`. -/
def drain_result (req : pref_request) (r : fetch_result (List Nat)) :
    fetch_result (Int × pref_request) :=
  match r with
  | fetch_result.BUG w => fetch_result.BUG w
  | fetch_result.ret pages w =>
    fetch_result.ret ((pages.length : Int), { req with stt := req.ra_info.nr_pte }) w

/-- A request as `hermit_swap_vma_readahead` builds it for the fault at
address 20480 in `example_vma`: window 8, the fault at offset 0 of the 8
entries from page frame 5. -/
def example_request : pref_request :=
  { vma := example_vma, ra_info := { win := 8, offset := 0, nr_pte := 8, ptes := 5 },
    stt := 0, faddr := 20480 }

/-- A work item of 8 entries from page frame 3 with the fault at offset 2
(address 20480). -/
def example_work : hermit_pref_work :=
  { vma := example_vma, faddr := 20480, stt := 0, nr_pte := 8, offset := 2, ptes := 3 }

/-- The page of a prefetch read (`swap_readpage_async(page)`). -/
def prefetched_page : io_event → Option Nat
  | io_event.swap_readpage_async p => some p
  | _ => none

/-- The page of a `set_page_prefetch(page)`. -/
def marked_page : io_event → Option Nat
  | io_event.set_page_prefetch p => some p
  | _ => none

/-- The peek discipline of a direct-poll worker on a trace `t` (latest call
first): every `__frontswap_peek_pref` is on `cpu` and comes right after the
calls `count_vm_event(SWAP_RA)` and `set_page_prefetch` that follow the issue
of a prefetch, when the number of prefetches issued so far is a positive
multiple of 4; and at every moment of the run (every suffix of `t`) the
number of prefetches issued so far is at least `4 *` the number of peeks and
at most 4 more. -/
def peek_discipline (cpu : Int) (t : List io_event) : Prop :=
  (∀ pre suf k, t = pre ++ io_event.__frontswap_peek_pref k :: suf →
    k = cpu ∧ 0 < suf.countP is_pref_issue ∧ suf.countP is_pref_issue % 4 = 0 ∧
    ∃ p e rest, suf = io_event.set_page_prefetch p ::
      io_event.count_vm_event_SWAP_RA :: e :: rest ∧ is_pref_issue e = true) ∧
  (∀ pre suf, t = pre ++ suf →
    4 * suf.countP is_peek_pref ≤ suf.countP is_pref_issue ∧
    suf.countP is_pref_issue ≤ 4 * suf.countP is_peek_pref + 4)

/-! ## Transport wrappers of `frontswap.h` -/

/-- What the wrappers of `frontswap.h` depend on: whether `CONFIG_FRONTSWAP` is
set, the static key `frontswap_enabled_key`, and the value of
`RSWAP_KERNEL_SUPPORT`, which is defined outside the sources (the wrappers
after `frontswap_load` exist only where it is defined). -/
structure frontswap_config where
  CONFIG_FRONTSWAP : Bool
  frontswap_enabled_key : Bool
  RSWAP_KERNEL_SUPPORT : Nat

/-- The calls into the backend (`extern` functions of `frontswap.c`, which is
not among the sources) that the wrappers make. -/
inductive backend_call where
  | __frontswap_store (page : Nat) (core : Int)
  | __frontswap_load (page : Nat) (sync : Bool)
  | __frontswap_poll_load (core : Int)
  | __frontswap_poll_store (core : Int)
  | __frontswap_peek_load (core : Int)
  | __frontswap_peek_store (core : Int)
  deriving DecidableEq, Repr

/-- The backend: the `int` that a call returns, which may depend on the calls
made before it (latest first). -/
structure frontswap_backend where
  answer : List backend_call → backend_call → Int

/-- A call into the backend: its result and the calls made so far. -/
def backend_invoke (b : frontswap_backend) (t : List backend_call) (call : backend_call) :
    Int × List backend_call :=
  (b.answer t call, call :: t)

/-- `frontswap_enabled()`: the static key when `CONFIG_FRONTSWAP` is set, and
`false` otherwise. -/
def frontswap_enabled (f : frontswap_config) : Bool :=
  if f.CONFIG_FRONTSWAP = true then f.frontswap_enabled_key else false

/-- `frontswap_store(page)`. -/
def frontswap_store (f : frontswap_config) (b : frontswap_backend) (t : List backend_call)
    (page : Nat) : Int × List backend_call :=
  if frontswap_enabled f = true then backend_invoke b t (backend_call.__frontswap_store page (-1))
  else (-1, t)

/-- `frontswap_load(page)`. -/
def frontswap_load (f : frontswap_config) (b : frontswap_backend) (t : List backend_call)
    (page : Nat) : Int × List backend_call :=
  if frontswap_enabled f = true then backend_invoke b t (backend_call.__frontswap_load page true)
  else (-1, t)

/-- `frontswap_load_async(page)`. -/
def frontswap_load_async (f : frontswap_config) (b : frontswap_backend)
    (t : List backend_call) (page : Nat) : Int × List backend_call :=
  if frontswap_enabled f = true then
    backend_invoke b t (backend_call.__frontswap_load page false)
  else (-1, t)

/-- `frontswap_poll_load(cpu)`. -/
def frontswap_poll_load (f : frontswap_config) (b : frontswap_backend)
    (t : List backend_call) (cpu : Int) : Int × List backend_call :=
  if frontswap_enabled f = true then backend_invoke b t (backend_call.__frontswap_poll_load cpu)
  else (-1, t)

/-- `frontswap_store_on_core(page, core)`: the definition for
`RSWAP_KERNEL_SUPPORT >= 2`, and the one for lower values, which calls
`frontswap_store(page)`. -/
def frontswap_store_on_core (f : frontswap_config) (b : frontswap_backend)
    (t : List backend_call) (page : Nat) (core : Int) : Int × List backend_call :=
  if f.RSWAP_KERNEL_SUPPORT ≥ 2 then
    if frontswap_enabled f = true then
      backend_invoke b t (backend_call.__frontswap_store page core)
    else (-1, t)
  else frontswap_store f b t page

/-- `frontswap_poll_store(core)`: the definition for
`RSWAP_KERNEL_SUPPORT >= 2`, and the one for lower values, which returns -1. -/
def frontswap_poll_store (f : frontswap_config) (b : frontswap_backend)
    (t : List backend_call) (core : Int) : Int × List backend_call :=
  if f.RSWAP_KERNEL_SUPPORT ≥ 2 then
    if frontswap_enabled f = true then
      backend_invoke b t (backend_call.__frontswap_poll_store core)
    else (-1, t)
  else (-1, t)

/-- `frontswap_peek_load(core)`: the definition for
`RSWAP_KERNEL_SUPPORT >= 3`, and the one for lower values, which returns -1. -/
def frontswap_peek_load (f : frontswap_config) (b : frontswap_backend)
    (t : List backend_call) (core : Int) : Int × List backend_call :=
  if f.RSWAP_KERNEL_SUPPORT ≥ 3 then
    if frontswap_enabled f = true then
      backend_invoke b t (backend_call.__frontswap_peek_load core)
    else (-1, t)
  else (-1, t)

/-- `frontswap_peek_store(core)`: the definition for
`RSWAP_KERNEL_SUPPORT >= 3`, and the one for lower values, which returns -1. -/
def frontswap_peek_store (f : frontswap_config) (b : frontswap_backend)
    (t : List backend_call) (core : Int) : Int × List backend_call :=
  if f.RSWAP_KERNEL_SUPPORT ≥ 3 then
    if frontswap_enabled f = true then
      backend_invoke b t (backend_call.__frontswap_peek_store core)
    else (-1, t)
  else (-1, t)

/-- A build with frontswap enabled and `RSWAP_KERNEL_SUPPORT = 3`. -/
def example_frontswap : frontswap_config :=
  { CONFIG_FRONTSWAP := true, frontswap_enabled_key := true, RSWAP_KERNEL_SUPPORT := 3 }

/-- A backend that answers every call with 0. -/
def example_backend : frontswap_backend := { answer := fun _ _ => 0 }

/-- Which resolve function a caller runs: `__read_swap_cache_async_profiling`
(`with_charge = true`) or `__read_swap_cache_async_without_charge_profiling`
(`with_charge = false`), `__read_swap_cache_async_profiling_trylock`, or
`__read_swap_cache_speculative`. -/
inductive resolve_kind where
  | profiling (with_charge : Bool)
  | trylock
  | speculative
  deriving DecidableEq, Repr

/-- Where a caller stands in its resolve function: at the top of the
`for (;;)` loop of the `__read_swap_cache_async*` functions or before the
allocation of `__read_swap_cache_speculative` (`start`); in the loop of a
`__read_swap_cache_async*` function with `page` allocated, before its
reservation attempt (`allocated`); at the top of the loop of
`__read_swap_cache_speculative`, with the read of `new_page` issued on `cpu`
(`issued`); in that loop after the lookup, before its reservation attempt
(`looked`); past the loop, its reservation attempt having returned 0, with
the statements that insert `page` still to run (`reserved`; `cpu` is the
pointer argument of the speculative function); returned; or stopped in
`BUG()`. -/
inductive resolve_phase where
  | start
  | allocated (page : Nat)
  | issued (new_page : Nat) (cpu : Int)
  | looked (new_page : Nat) (cpu : Int)
  | reserved (page : Nat) (cpu : Option Int)
  | returned (page : Option Nat) (new_page_allocated : Bool)
  | stopped
  deriving DecidableEq, Repr

/-- A caller of a resolve function: the function, its entry, and where it
stands. -/
structure resolve_thread where
  kind : resolve_kind
  entry : swp_entry_t
  phase : resolve_phase
  deriving DecidableEq, Repr

/-- The phase in which a call that ended leaves its caller. -/
def phase_of_result : fetch_result (Option Nat × Bool) → resolve_phase × fetch_world
  | fetch_result.ret v w => (resolve_phase.returned v.1 v.2, w)
  | fetch_result.BUG w => (resolve_phase.stopped, w)

/-- The phase in which a speculative call that ended leaves its caller. -/
def phase_of_speculative_result :
    fetch_result (Option Nat × Bool × Option Int) → resolve_phase × fetch_world
  | fetch_result.ret v w => (resolve_phase.returned v.1 v.2.1, w)
  | fetch_result.BUG w => (resolve_phase.stopped, w)

/-- The first part of the body of the `for (;;)` loop of the three
`__read_swap_cache_async*` functions, up to the allocation: the device check,
the lookup of the slot, the check of its count, `alloc_page_vma`. The caller
returns or goes on with its page (`allocated`). -/
def read_swap_cache_lookup (env : fetch_env) (entry : swp_entry_t) (w : fetch_world) :
    resolve_phase × fetch_world :=
  if w.s.swap_device_live entry.val = false then (resolve_phase.returned none false, w)
  else
    let r := hmt_sc_load_get w.s (swp_offset entry)
    let w1 : fetch_world := { w with s := r.2 }
    match r.1 with
    | some p => (resolve_phase.returned (some p) false, w1)
    | none =>
      if env.__swp_swapcount w1.trace entry.val = 0 ∧
          env.swap_slot_cache_enabled w1.trace = true then
        (resolve_phase.returned none false, w1)
      else
        let a := alloc_page_vma env w1
        match a.1 with
        | none => (resolve_phase.returned none false, a.2)
        | some p => (resolve_phase.allocated p, a.2)

/-- The second part of the body of that loop, the reservation attempt on the
swap map, `swapcache_prepare(entry)` in `__read_swap_cache_async_profiling` and
its `without_charge` variant (`trylock = false`) and
`swapcache_prepare_trylock(entry)` in `__read_swap_cache_async_profiling_trylock`
(`trylock = true`): the caller leaves the loop with its reservation
(`reserved`), returns, or releases its page and goes round again (`start`). -/
def read_swap_cache_prepare (env : fetch_env) (entry : swp_entry_t) (trylock : Bool)
    (p : Nat) (w : fetch_world) : resolve_phase × fetch_world :=
  if trylock = true then
    let err := env.swapcache_prepare_trylock w.trace entry.val
    let w2 := emit w (io_event.swapcache_prepare_trylock entry.val err)
    if err = 0 then (resolve_phase.reserved p none, w2)
    else (resolve_phase.returned none false, put_page w2 p)
  else
    let err := env.swapcache_prepare w.trace entry.val
    let w2 := emit w (io_event.swapcache_prepare entry.val err)
    if err = 0 then (resolve_phase.reserved p none, w2)
    else
      let w3 := put_page w2 p
      if err ≠ EEXIST_neg then (resolve_phase.returned none false, w3)
      else (resolve_phase.start, w3)

/-- The statements of `__read_swap_cache_speculative` before its loop, with a
pointer `cpu` that is not `NULL`: allocate `new_page` and issue its read. -/
def speculative_start (env : fetch_env) (entry : swp_entry_t) (w : fetch_world) :
    resolve_phase × fetch_world :=
  let a := alloc_page_vma env w
  match a.1 with
  | none =>
    let r := hmt_sc_load_get a.2.s (swp_offset entry)
    (resolve_phase.returned r.1 false, { a.2 with s := r.2 })
  | some new_page =>
    let i := hermit_issue_read env a.2 new_page entry
    (resolve_phase.issued new_page i.1, i.2)

/-- The first part of the body of the `for (;;)` loop of
`__read_swap_cache_speculative`: the lookup of the slot and the check of its
count. -/
def speculative_lookup (env : fetch_env) (entry : swp_entry_t) (new_page : Nat)
    (cpu : Int) (w : fetch_world) : resolve_phase × fetch_world :=
  let r := hmt_sc_load_get w.s (swp_offset entry)
  let w1 : fetch_world := { w with s := r.2 }
  match r.1 with
  | some q => phase_of_speculative_result (speculative_fail_free w1 (some cpu) new_page (some q))
  | none =>
    if env.__swp_swapcount w1.trace entry.val = 0 ∧
        env.swap_slot_cache_enabled w1.trace = true then
      phase_of_speculative_result (speculative_fail_free w1 (some cpu) new_page none)
    else (resolve_phase.looked new_page cpu, w1)

/-- The second part of the body of that loop, the reservation attempt
`swapcache_prepare(entry)`. -/
def speculative_prepare (env : fetch_env) (entry : swp_entry_t) (new_page : Nat)
    (cpu : Int) (w : fetch_world) : resolve_phase × fetch_world :=
  let err := env.swapcache_prepare w.trace entry.val
  let w2 := emit w (io_event.swapcache_prepare entry.val err)
  if err = 0 then (resolve_phase.reserved new_page (some cpu), w2)
  else if err ≠ EEXIST_neg then
    phase_of_speculative_result (speculative_fail_free w2 (some cpu) new_page none)
  else (resolve_phase.issued new_page cpu, w2)

/-- One step of a caller. Each step holds one access to what the callers
share: the lookup in the table `hermit_swapcache` (with the allocation, which
is the caller's own), the reservation attempt on the swap map, or, once the
caller holds the reservation, the statements after the loop, which insert the
page. A caller that has returned or stopped does nothing. A caller of
`__read_swap_cache_speculative` has a pointer `cpu` that is not `NULL` (with
`NULL` the function returns at once); it passes through `issued` and `looked`
and never through `allocated`, which is a phase of the other functions. -/
def resolve_step (c : hermit_config) (env : fetch_env) (th : resolve_thread)
    (w : fetch_world) : resolve_thread × fetch_world :=
  let r : resolve_phase × fetch_world :=
    match th.phase with
    | resolve_phase.start =>
      match th.kind with
      | resolve_kind.profiling _ => read_swap_cache_lookup env th.entry w
      | resolve_kind.trylock => read_swap_cache_lookup env th.entry w
      | resolve_kind.speculative => speculative_start env th.entry w
    | resolve_phase.allocated p =>
      match th.kind with
      | resolve_kind.trylock => read_swap_cache_prepare env th.entry true p w
      | _ => read_swap_cache_prepare env th.entry false p w
    | resolve_phase.issued new_page cpu => speculative_lookup env th.entry new_page cpu w
    | resolve_phase.looked new_page cpu => speculative_prepare env th.entry new_page cpu w
    | resolve_phase.reserved p cpu =>
      match th.kind with
      | resolve_kind.profiling with_charge =>
        phase_of_result (read_swap_cache_tail c env th.entry with_charge p w)
      | resolve_kind.trylock =>
        phase_of_result (read_swap_cache_tail c env th.entry true p w)
      | resolve_kind.speculative =>
        phase_of_speculative_result (speculative_tail c env th.entry cpu p w)
    | resolve_phase.returned page allocated => (resolve_phase.returned page allocated, w)
    | resolve_phase.stopped => (resolve_phase.stopped, w)
  ({ th with phase := r.1 }, r.2)

/-- An interleaving of concurrent resolve calls: the callers, indexed by
number, take steps in the order of the schedule (first element first) on the
shared world. -/
def resolve_run (c : hermit_config) (env : fetch_env) :
    List Nat → (Nat → resolve_thread) × fetch_world → (Nat → resolve_thread) × fetch_world
  | [], cfg => cfg
  | i :: rest, cfg =>
    let r := resolve_step c env (cfg.1 i) cfg.2
    resolve_run c env rest (fun j => if j = i then r.1 else cfg.1 j, r.2)

/-- What a call does to the reservation (`SWAP_HAS_CACHE`) of slot `e` in the
swap map: a reservation attempt that returns 0 sets it, `put_swap_page`
clears it. -/
def token_delta (e : Nat) : io_event → Int
  | io_event.swapcache_prepare x err => if x = e ∧ err = 0 then 1 else 0
  | io_event.swapcache_prepare_trylock x err => if x = e ∧ err = 0 then 1 else 0
  | io_event.put_swap_page _ x => if x = e then -1 else 0
  | _ => 0

/-- The reservations of slot `e` that the calls of a trace have set and not
cleared. -/
def token_count : List io_event → Nat → Int
  | [], _ => 0
  | ev :: t, e => token_delta e ev + token_count t e

/-- Whether a caller in this phase holds the reservation of its slot: from the
reservation on, also once its page is inserted (the page in the cache keeps
`SWAP_HAS_CACHE` set). -/
def holds_token : resolve_phase → Bool
  | resolve_phase.reserved _ _ => true
  | resolve_phase.returned (some _) true => true
  | resolve_phase.stopped => true
  | _ => false

/-- The first page number, from 100 on, above every page that the allocator
has handed out in the trace. -/
def next_page : List io_event → Nat
  | [] => 100
  | io_event.alloc_page_vma (some p) :: t => max (p + 1) (next_page t)
  | _ :: t => next_page t

/-- The environment `example_env` with an allocator that hands out a page it
has not handed out before, and a swap map that keeps reservations exclusive: a
reservation attempt on a slot returns 0 when the slot is not reserved and
`-EEXIST` when it is. -/
def exclusive_env : fetch_env :=
  { example_env with
    alloc_page_vma := fun t => some (next_page t),
    swapcache_prepare := fun t e => if token_count t e ≤ 0 then 0 else EEXIST_neg,
    swapcache_prepare_trylock := fun t e => if token_count t e ≤ 0 then 0 else EEXIST_neg }

/-- The flags of the page behind pointer `q` that `add_to_swap_cache` asserts:
`PageLocked`, `PageSwapCache`, `PageSwapBacked` and `thp_nr_pages`. -/
def page_flags (s : swap_state) (q : Nat) : Bool × Bool × Bool × Nat :=
  ((s.mem q).PG_locked, (s.mem q).PG_swapcache, (s.mem q).PG_swapbacked, (s.mem q).nr_pages)

/-- The page that a caller in this phase has allocated and not yet inserted
or released. -/
def phase_page : resolve_phase → Option Nat
  | resolve_phase.allocated p => some p
  | resolve_phase.issued p _ => some p
  | resolve_phase.looked p _ => some p
  | resolve_phase.reserved p _ => some p
  | _ => none

/-- The page of a caller is as its function left it: after
`hermit_issue_read` it is locked and swap-backed, after the allocation of a
`__read_swap_cache_async*` function it is a base page outside the swap cache
(these functions lock it after the loop). -/
def ready_page (kind : resolve_kind) (ph : resolve_phase) (s : swap_state) : Prop :=
  match ph with
  | resolve_phase.allocated p =>
    kind ≠ resolve_kind.speculative ∧ (s.mem p).PG_swapcache = false ∧ (s.mem p).nr_pages = 1
  | resolve_phase.issued p _ => page_flags s p = (true, false, true, 1)
  | resolve_phase.looked p _ => page_flags s p = (true, false, true, 1)
  | resolve_phase.reserved p _ =>
    (s.mem p).PG_swapcache = false ∧ (s.mem p).nr_pages = 1 ∧
      (kind = resolve_kind.speculative →
        (s.mem p).PG_locked = true ∧ (s.mem p).PG_swapbacked = true)
  | _ => True

/-- Two callers of `__read_swap_cache_async_profiling`, numbers 0 and 1, for
the entries `e0` and `e1`; every other number is a caller that has returned. -/
def two_callers (e0 e1 : swp_entry_t) : Nat → resolve_thread :=
  fun i =>
    if i = 0 then { kind := resolve_kind.profiling true, entry := e0,
                    phase := resolve_phase.start }
    else if i = 1 then { kind := resolve_kind.profiling true, entry := e1,
                         phase := resolve_phase.start }
    else { kind := resolve_kind.trylock, entry := e0,
           phase := resolve_phase.returned none false }

/-- The invariant of the interleavings of resolve calls on entries of the
device `d`, from the trace `t0` and the table `s0`: every slot carries the
reservations of `t0` and one more exactly when a caller holds its
reservation; no two callers hold the reservation of one entry; the slot of a
caller that is about to insert is empty; every page in the table was there
at the start or belongs to the slot of a caller that holds its reservation;
no page of the table has been replaced; and, without `CONFIG_DEBUG_VM`, no
caller has stopped in `BUG()`. -/
def resolve_inv (c : hermit_config) (d : Nat) (t0 : List io_event) (s0 : Nat → Option Nat)
    (ths : Nat → resolve_thread) (w : fetch_world) : Prop :=
  (∀ i, swp_type (ths i).entry = d) ∧
  (∀ e, (∃ i, (ths i).entry.val = e ∧ holds_token (ths i).phase = true) →
    token_count w.trace e = token_count t0 e + 1) ∧
  (∀ e, (¬ ∃ i, (ths i).entry.val = e ∧ holds_token (ths i).phase = true) →
    token_count w.trace e = token_count t0 e) ∧
  (∀ i j, i ≠ j → holds_token (ths i).phase = true → holds_token (ths j).phase = true →
    (ths i).entry ≠ (ths j).entry) ∧
  (∀ i p cpu, (ths i).phase = resolve_phase.reserved p cpu →
    w.s.hermit_swapcache (swp_offset (ths i).entry) = none) ∧
  (∀ o, w.s.hermit_swapcache o ≠ none →
    s0 o ≠ none ∨ ∃ i, swp_offset (ths i).entry = o ∧ holds_token (ths i).phase = true) ∧
  (∀ o q, s0 o = some q → w.s.hermit_swapcache o = some q) ∧
  (c.CONFIG_DEBUG_VM = false → ∀ i, (ths i).phase ≠ resolve_phase.stopped)

/-- The invariant of the interleavings on the pages of the callers: the page
of a caller was handed out by the allocator, no two callers have the same
page, the page of each caller is as its function left it, a page that a
caller has inserted is the page of its slot, which was empty at the start,
and no caller has stopped in `BUG()`. -/
def resolve_pages_inv (s0 : Nat → Option Nat) (ths : Nat → resolve_thread)
    (w : fetch_world) : Prop :=
  (∀ i p, phase_page (ths i).phase = some p → io_event.alloc_page_vma (some p) ∈ w.trace) ∧
  (∀ i j p, i ≠ j → phase_page (ths i).phase = some p → phase_page (ths j).phase ≠ some p) ∧
  (∀ i, ready_page (ths i).kind (ths i).phase w.s) ∧
  (∀ i p, (ths i).phase = resolve_phase.returned (some p) true →
    w.s.hermit_swapcache (swp_offset (ths i).entry) = some p ∧
      s0 (swp_offset (ths i).entry) = none) ∧
  (∀ i, (ths i).phase ≠ resolve_phase.stopped)

/-- What one step of a caller for `entry` does, from phase `ph` in world `w` to
phase `ph1` in world `w1`: it adds calls to the trace and (1) leaves
reservations and table as they are, (2) takes the reservation of its slot on
an answer 0 of the swap map, (3) gives the reservation back after a failed
charge, (4) inserts its page into its slot, which was empty, or (5) stops in
`BUG()`, which without `CONFIG_DEBUG_VM` happens only at an occupied slot. -/
def step_effect (c : hermit_config) (env : fetch_env) (entry : swp_entry_t)
    (ph ph1 : resolve_phase) (w w1 : fetch_world) : Prop :=
  ∃ mid, w1.trace = mid ++ w.trace ∧
    (((∀ x, token_count mid x = 0) ∧ w1.s.hermit_swapcache = w.s.hermit_swapcache ∧
        holds_token ph1 = holds_token ph ∧ (∀ p cpu, ph1 ≠ resolve_phase.reserved p cpu) ∧
        (ph1 = resolve_phase.stopped → ph = resolve_phase.stopped) ∧
        (∀ p cpu, ph ≠ resolve_phase.reserved p cpu)) ∨
     (holds_token ph = false ∧ (∃ p cpu, ph1 = resolve_phase.reserved p cpu) ∧
        (∀ x, token_count mid x = if x = entry.val then 1 else 0) ∧
        w1.s.hermit_swapcache = w.s.hermit_swapcache ∧
        ∃ t1, (env.swapcache_prepare t1 entry.val = 0 ∨
            env.swapcache_prepare_trylock t1 entry.val = 0) ∧
          ∀ x, token_count t1 x = token_count w.trace x) ∨
     ((∃ p cpu, ph = resolve_phase.reserved p cpu) ∧
        ph1 = resolve_phase.returned none false ∧
        (∀ x, token_count mid x = if x = entry.val then -1 else 0) ∧
        w1.s.hermit_swapcache = w.s.hermit_swapcache) ∨
     ((∃ p cpu, ph = resolve_phase.reserved p cpu ∧
          ph1 = resolve_phase.returned (some p) true ∧
          w1.s.hermit_swapcache =
            fun i => if i = swp_offset entry then some p else w.s.hermit_swapcache i) ∧
        (∀ x, token_count mid x = 0) ∧
        w.s.hermit_swapcache (swp_offset entry) = none) ∨
     ((∃ p cpu, ph = resolve_phase.reserved p cpu) ∧ ph1 = resolve_phase.stopped ∧
        (∀ x, token_count mid x = 0) ∧
        w1.s.hermit_swapcache = w.s.hermit_swapcache ∧
        (c.CONFIG_DEBUG_VM = false → w.s.hermit_swapcache (swp_offset entry) ≠ none)))

/-! # Theorems -/

/-! ## Lemmas on the rounding loop -/

theorem roundup_loop_zero (fuel pages : Nat) (h : 0 < pages) :
    roundup_loop fuel 0 pages = none := by
  induction fuel with
  | zero => simp [roundup_loop, h]
  | succ n ih => simp [roundup_loop, h, ih]

theorem two_pow_le_31 (k : Nat) (h : k ≤ 31) : 2 ^ k ≤ 2147483648 := by
  have := Nat.pow_le_pow_right (show 0 < 2 by norm_num) h
  norm_num at this
  exact this

theorem roundup_loop_spec (fuel : Nat) : ∀ (k pages r : Nat), k ≤ 31 →
    roundup_loop fuel (2 ^ k) pages = some r →
    ∃ j, k ≤ j ∧ j ≤ 31 ∧ r = 2 ^ j ∧ pages ≤ 2 ^ j ∧ (j = k ∨ 2 ^ (j - 1) < pages) := by
  induction fuel with
  | zero =>
    intro k pages r hk h
    simp only [roundup_loop] at h
    split at h
    · exact absurd h (by simp)
    · rename_i hlt
      refine ⟨k, le_refl _, hk, ?_, by omega, Or.inl rfl⟩
      simpa using h.symm
  | succ n ih =>
    intro k pages r hk h
    simp only [roundup_loop] at h
    split at h
    · rename_i hlt
      have hk31 := two_pow_le_31 k hk
      by_cases hk2 : k = 31
      · subst hk2
        have hz : ((2 ^ 31) <<< 1) % UINT_MOD = 0 := by decide
        rw [hz, roundup_loop_zero n pages (by omega)] at h
        exact absurd h (by simp)
      · have hshift : ((2 ^ k) <<< 1) % UINT_MOD = 2 ^ (k + 1) := by
          rw [Nat.shiftLeft_eq, pow_one, ← pow_succ]
          apply Nat.mod_eq_of_lt
          have := two_pow_le_31 (k + 1) (by omega)
          unfold UINT_MOD; omega
        rw [hshift] at h
        obtain ⟨j, hj1, hj2, hj3, hj4, hj5⟩ := ih (k + 1) pages r (by omega) h
        refine ⟨j, by omega, hj2, hj3, hj4, Or.inr ?_⟩
        rcases hj5 with hj5 | hj5
        · subst hj5; simpa using hlt
        · exact hj5
    · rename_i hlt
      refine ⟨k, le_refl _, hk, ?_, by omega, Or.inl rfl⟩
      simpa using h.symm

theorem roundup_loop_total (fuel : Nat) : ∀ (k pages : Nat), k ≤ 31 → pages ≤ 2147483648 →
    31 ≤ k + fuel → ∃ r, roundup_loop fuel (2 ^ k) pages = some r := by
  induction fuel with
  | zero =>
    intro k pages hk hp hf
    have hk2 : k = 31 := by omega
    subst hk2
    refine ⟨2 ^ 31, ?_⟩
    simp only [roundup_loop]
    rw [if_neg]
    norm_num; exact hp
  | succ n ih =>
    intro k pages hk hp hf
    simp only [roundup_loop]
    split
    · rename_i hlt
      have hk31 := two_pow_le_31 k hk
      have hk2 : k ≠ 31 := by
        intro he; subst he; norm_num at hlt; omega
      have hshift : ((2 ^ k) <<< 1) % UINT_MOD = 2 ^ (k + 1) := by
        rw [Nat.shiftLeft_eq, pow_one, ← pow_succ]
        apply Nat.mod_eq_of_lt
        have := two_pow_le_31 (k + 1) (by omega)
        unfold UINT_MOD; omega
      rw [hshift]
      exact ih (k + 1) pages (by omega) hp (by omega)
    · exact ⟨_, rfl⟩

/-! ## The window formula -/

theorem swapin_unfold (fuel : Nat) (rw : Int) (po o : Nat) (hits mx prev : Int) (hrw : rw ≤ 0) :
    __swapin_nr_pages fuel rw po o hits mx prev =
      (if to_uint (hits + 2) = 2 then
          (if o ≠ ul_add po 1 ∧ o ≠ ul_sub po 1 then some 1 else some (to_uint (hits + 2)))
        else roundup_loop fuel 4 (to_uint (hits + 2))).map
        (fun b => max (min b (to_uint mx)) (to_uint (Int.tdiv prev 2))) := by
  unfold __swapin_nr_pages
  rw [if_neg (by omega)]
  show Option.map _ _ = Option.map _ _
  congr 1
  funext b
  show (if (if b > to_uint mx then to_uint mx else b) < to_uint (Int.tdiv prev 2)
      then to_uint (Int.tdiv prev 2) else (if b > to_uint mx then to_uint mx else b)) = _
  split <;> split <;> omega

theorem tdiv_two_nonneg (x : Int) (h : 0 ≤ x) : Int.tdiv x 2 = x / 2 :=
  Int.tdiv_eq_ediv h (by norm_num)

/-- The shape of every result with the override off: a rounded size clamped to
`max_pages` and then raised to half of `prev_win`. -/
theorem swapin_result_form (fuel : Nat) (rw : Int) (po o : Nat) (hits mx prev : Int)
    (hrw : rw ≤ 0) (r : Nat) (h : __swapin_nr_pages fuel rw po o hits mx prev = some r) :
    ∃ b, r = max (min b (to_uint mx)) (to_uint (Int.tdiv prev 2)) := by
  rw [swapin_unfold fuel rw po o hits mx prev hrw] at h
  rw [Option.map_eq_some'] at h
  obtain ⟨b, _, hb⟩ := h
  exact ⟨b, hb.symm⟩

theorem to_uint_of_nonneg (x : Int) (h0 : 0 ≤ x) (h1 : x < 4294967296) :
    to_uint x = x.toNat := by
  unfold to_uint; omega

/-- With the override off and at least one hit the rounded size is a power of
two `2 ^ j` with `j ≥ 2`, the least one that is at least `hits + 2`. -/
theorem rounded_of_hits (fuel : Nat) (hits : Int) (h1 : 1 ≤ hits) (h2 : hits ≤ 2147483646)
    (hfuel : 29 ≤ fuel) :
    ∃ j, 2 ≤ j ∧ j ≤ 31 ∧ roundup_loop fuel 4 (to_uint (hits + 2)) = some (2 ^ j) ∧
      to_uint (hits + 2) ≤ 2 ^ j ∧ (j = 2 ∨ 2 ^ (j - 1) < to_uint (hits + 2)) := by
  have hp : to_uint (hits + 2) ≤ 2147483648 := by
    rw [to_uint_of_nonneg _ (by omega) (by omega)]; omega
  obtain ⟨r, hr⟩ := roundup_loop_total fuel 2 (to_uint (hits + 2)) (by omega) hp (by omega)
  obtain ⟨j, hj1, hj2, hj3, hj4, hj5⟩ :=
    roundup_loop_spec fuel 2 (to_uint (hits + 2)) r (by omega) hr
  refine ⟨j, hj1, hj2, ?_, hj4, hj5⟩
  rw [← hj3]
  exact hr

theorem two_pow_lt_two_pow (a b : Nat) (h : 2 ^ a < 2 ^ b) : a < b := by
  by_contra hn
  have := Nat.pow_le_pow_right (show 0 < 2 by norm_num) (show b ≤ a by omega)
  omega

/-- C2: with `readahead_win = 0`, `1 ≤ hits ≤ 2 ^ 30` and `prev_win = 0`
there is a least power of two `p` with `p ≥ 4` and `p ≥ hits + 2`, and
`__swapin_nr_pages` returns it whenever `max_pages ≥ p`; `p` is 4 for hits
1 and 2, 8 for hits 3 to 6 and 16 for hits 7 to 14. -/
theorem C2_rounds_to_least_power_of_two (fuel prev_offset offset : Nat)
    (hits max_pages : Int) (hfuel : 29 ≤ fuel) (hmax : is_int max_pages)
    (h1 : 1 ≤ hits) (h2 : hits ≤ 1073741824) :
    ∃ p : Nat,
      ((∃ k, p = 2 ^ k) ∧ 4 ≤ p ∧ hits + 2 ≤ (p : Int) ∧
        ∀ q : Nat, (∃ i, q = 2 ^ i) → 4 ≤ q → hits + 2 ≤ (q : Int) → p ≤ q) ∧
      ((p : Int) ≤ max_pages →
        __swapin_nr_pages fuel 0 prev_offset offset hits max_pages 0 = some p) ∧
      (hits ≤ 2 → p = 4) ∧ (3 ≤ hits → hits ≤ 6 → p = 8) ∧
      (7 ≤ hits → hits ≤ 14 → p = 16) := by
  obtain ⟨j, hj1, hj2, hloop, hle, hleast⟩ := rounded_of_hits fuel hits h1 (by omega) hfuel
  have hpages : to_uint (hits + 2) = (hits + 2).toNat :=
    to_uint_of_nonneg _ (by omega) (by omega)
  rw [hpages] at hloop hle hleast
  have h4 : 4 ≤ 2 ^ j := by
    have := Nat.pow_le_pow_right (show 0 < 2 by norm_num) hj1
    omega
  have hleast2 : ∀ q : Nat, (∃ i, q = 2 ^ i) → 4 ≤ q → hits + 2 ≤ (q : Int) → 2 ^ j ≤ q := by
    rintro q ⟨i, rfl⟩ hq4 hq
    rcases hleast with hj | hj
    · subst hj; exact hq4
    · have hlt : 2 ^ (j - 1) < 2 ^ i := by omega
      have := two_pow_lt_two_pow _ _ hlt
      exact Nat.pow_le_pow_right (by norm_num) (by omega)
  refine ⟨2 ^ j, ⟨⟨j, rfl⟩, h4, by omega, hleast2⟩, ?_, ?_, ?_, ?_⟩
  · intro hpm
    rw [swapin_unfold _ _ _ _ _ _ _ (le_refl _), hpages, if_neg (by omega), hloop]
    simp only [Option.map_some']
    have hz : to_uint (Int.tdiv 0 2) = 0 := by decide
    rw [hz]
    unfold is_int at hmax
    have hm : to_uint max_pages = max_pages.toNat := to_uint_of_nonneg _ (by omega) (by omega)
    rw [hm]
    congr 1
    omega
  · intro hh
    have := hleast2 4 ⟨2, by norm_num⟩ (le_refl _) (by omega)
    omega
  · intro ha hb
    have hq := hleast2 8 ⟨3, by norm_num⟩ (by norm_num) (by omega)
    rcases hleast with hj | hj
    · subst hj; omega
    · have h3 : 2 ^ 2 < 2 ^ j := by omega
      have := two_pow_lt_two_pow _ _ h3
      have := Nat.pow_le_pow_right (show 0 < 2 by norm_num) (show 3 ≤ j by omega)
      omega
  · intro ha hb
    have hq := hleast2 16 ⟨4, by norm_num⟩ (by norm_num) (by omega)
    rcases hleast with hj | hj
    · subst hj; omega
    · have h3 : 2 ^ 3 < 2 ^ j := by omega
      have := two_pow_lt_two_pow _ _ h3
      have := Nat.pow_le_pow_right (show 0 < 2 by norm_num) (show 4 ≤ j by omega)
      omega

/-- C2 (witness): seven hits with `max_pages = 16` give the window 16. -/
theorem C2_rounds_to_least_power_of_two_witness :
    (29 ≤ 29 ∧ is_int 16 ∧ (1 : Int) ≤ 7 ∧ (7 : Int) ≤ 1073741824) ∧
    ∃ p : Nat,
      ((∃ k, p = 2 ^ k) ∧ 4 ≤ p ∧ (7 : Int) + 2 ≤ (p : Int) ∧
        ∀ q : Nat, (∃ i, q = 2 ^ i) → 4 ≤ q → (7 : Int) + 2 ≤ (q : Int) → p ≤ q) ∧
      ((p : Int) ≤ 16 → __swapin_nr_pages 29 0 5 9 7 16 0 = some p) ∧
      ((7 : Int) ≤ 2 → p = 4) ∧ ((3 : Int) ≤ 7 → (7 : Int) ≤ 6 → p = 8) ∧
      ((7 : Int) ≤ 7 → (7 : Int) ≤ 14 → p = 16) :=
  ⟨by decide,
   C2_rounds_to_least_power_of_two 29 5 9 7 16 (by decide) (by decide) (by decide) (by decide)⟩

/-- C3 (counterexample): zero hits on the adjacent offset `101 = 100 + 1` with
`max_pages = 16` and `prev_win = 0` give the window 2, not 4: the size 2 is
kept and the rounding loop is not entered. -/
theorem C3_counterexample :
    (101 = ul_add 100 1 ∧ (4 : Int) ≤ 16) ∧
    __swapin_nr_pages 29 0 100 101 0 16 0 = some 2 ∧
    __swapin_nr_pages 29 0 100 101 0 16 0 ≠ some 4 := by
  decide

/-- C3 (amended): with `readahead_win = 0`, `max_pages ≥ 4` and `prev_win = 0`:
for zero hits on an adjacent offset (`prev_offset + 1` or `prev_offset - 1`)
the size stays 2 and `__swapin_nr_pages` returns 2; the rounding up to a power
of two `2 ^ k ≥ 4` with `2 ^ k ≥ hits + 2` happens when `hits ≥ 1`, and the
result is then that power clamped to `max_pages`. -/
theorem C3_adjacent_zero_hits_keeps_two (fuel prev_offset offset : Nat)
    (hits max_pages : Int) (hmax : is_int max_pages) (h4 : 4 ≤ max_pages) :
    ((offset = ul_add prev_offset 1 ∨ offset = ul_sub prev_offset 1) →
      __swapin_nr_pages fuel 0 prev_offset offset 0 max_pages 0 = some 2) ∧
    (1 ≤ hits → hits ≤ 2147483646 → 29 ≤ fuel →
      ∃ k, 2 ≤ k ∧ hits + 2 ≤ ((2 ^ k : Nat) : Int) ∧
        __swapin_nr_pages fuel 0 prev_offset offset hits max_pages 0 =
          some (min (2 ^ k) max_pages.toNat)) := by
  unfold is_int at hmax
  have hm : to_uint max_pages = max_pages.toNat := to_uint_of_nonneg _ (by omega) (by omega)
  have hz : to_uint (Int.tdiv 0 2) = 0 := by decide
  constructor
  · intro hadj
    rw [swapin_unfold _ _ _ _ _ _ _ (le_refl _)]
    have h2 : to_uint (0 + 2) = 2 := by decide
    rw [if_pos h2, if_neg (by
      intro hcon
      rcases hadj with h | h
      · exact hcon.1 h
      · exact hcon.2 h)]
    simp only [Option.map_some']
    rw [h2, hz, hm]
    congr 1
    omega
  · intro h1 h2 hfuel
    obtain ⟨j, hj1, hj2, hloop, hle, hleast⟩ := rounded_of_hits fuel hits h1 h2 hfuel
    have hpages : to_uint (hits + 2) = (hits + 2).toNat :=
      to_uint_of_nonneg _ (by omega) (by omega)
    refine ⟨j, hj1, ?_, ?_⟩
    · rw [hpages] at hle
      omega
    · rw [swapin_unfold _ _ _ _ _ _ _ (le_refl _), if_neg (by rw [hpages]; omega), hloop]
      simp only [Option.map_some']
      rw [hz, hm]
      congr 1
      omega

/-- C3 (witness): the adjacent zero-hit call of the counterexample, and three
hits rounded to 8. -/
theorem C3_adjacent_zero_hits_keeps_two_witness :
    (is_int 16 ∧ (4 : Int) ≤ 16) ∧
    (((101 : Nat) = ul_add 100 1 ∨ (101 : Nat) = ul_sub 100 1) →
      __swapin_nr_pages 29 0 100 101 0 16 0 = some 2) ∧
    ((1 : Int) ≤ 3 → (3 : Int) ≤ 2147483646 → 29 ≤ 29 →
      ∃ k, 2 ≤ k ∧ (3 : Int) + 2 ≤ ((2 ^ k : Nat) : Int) ∧
        __swapin_nr_pages 29 0 100 101 3 16 0 = some (min (2 ^ k) (16 : Int).toNat)) :=
  ⟨by decide, C3_adjacent_zero_hits_keeps_two 29 100 101 3 16 (by decide) (by decide)⟩

/-- C4: with `readahead_win = 0`, for all offsets and all `int` values
`hits ≥ 0`, `max_pages ≥ 0`, `prev_win ≥ 0`, every result of
`__swapin_nr_pages` is at least `prev_win / 2`; and a result exists (29 loop
iterations suffice) for every `hits ≤ 2 ^ 31 - 2`, the values for which
`hits + 2` does not exceed `2 ^ 31`. -/
theorem C4_never_shrinks_below_half (prev_offset offset : Nat)
    (hits max_pages prev_win : Int) (hh : is_int hits)
    (hp : is_int prev_win) (h0 : 0 ≤ hits) (_m0 : 0 ≤ max_pages) (p0 : 0 ≤ prev_win) :
    (∀ fuel r, __swapin_nr_pages fuel 0 prev_offset offset hits max_pages prev_win = some r →
      prev_win / 2 ≤ (r : Int)) ∧
    (hits ≤ 2147483646 → ∀ fuel, 29 ≤ fuel →
      ∃ r, __swapin_nr_pages fuel 0 prev_offset offset hits max_pages prev_win = some r ∧
        prev_win / 2 ≤ (r : Int)) := by
  unfold is_int at hh hp
  have hl : to_uint (Int.tdiv prev_win 2) = (prev_win / 2).toNat := by
    rw [tdiv_two_nonneg _ p0]
    exact to_uint_of_nonneg _ (by omega) (by omega)
  have part : ∀ fuel r,
      __swapin_nr_pages fuel 0 prev_offset offset hits max_pages prev_win = some r →
      prev_win / 2 ≤ (r : Int) := by
    intro fuel r hr
    obtain ⟨b, hb⟩ := swapin_result_form _ _ _ _ _ _ _ (le_refl _) r hr
    rw [hl] at hb
    omega
  refine ⟨part, ?_⟩
  intro h2 fuel hfuel
  have hex : ∃ r, __swapin_nr_pages fuel 0 prev_offset offset hits max_pages prev_win = some r := by
    rw [swapin_unfold _ _ _ _ _ _ _ (le_refl _)]
    by_cases hz : hits = 0
    · subst hz
      have h2 : to_uint (0 + 2) = 2 := by decide
      rw [if_pos h2]
      split <;> exact ⟨_, rfl⟩
    · obtain ⟨j, hj1, hj2, hloop, hle, hleast⟩ :=
        rounded_of_hits fuel hits (by omega) h2 hfuel
      have hpages : to_uint (hits + 2) = (hits + 2).toNat :=
        to_uint_of_nonneg _ (by omega) (by omega)
      rw [if_neg (by rw [hpages]; omega), hloop]
      exact ⟨_, rfl⟩
  obtain ⟨r, hr⟩ := hex
  exact ⟨r, hr, part fuel r hr⟩

/-- C4 (witness): from a previous window of 16 with no hits on a non-adjacent
offset the window is still 8. -/
theorem C4_never_shrinks_below_half_witness :
    (is_int 0 ∧ is_int 16 ∧ (0 : Int) ≤ 0 ∧ (0 : Int) ≤ 16 ∧ (0 : Int) ≤ 16) ∧
    ((∀ fuel r, __swapin_nr_pages fuel 0 100 250 0 16 16 = some r → (16 : Int) / 2 ≤ (r : Int)) ∧
    ((0 : Int) ≤ 2147483646 → ∀ fuel, 29 ≤ fuel →
      ∃ r, __swapin_nr_pages fuel 0 100 250 0 16 16 = some r ∧ (16 : Int) / 2 ≤ (r : Int))) :=
  ⟨by decide,
   C4_never_shrinks_below_half 100 250 0 16 16 (by decide) (by decide) (by decide)
     (by decide) (by decide)⟩

theorem swapin_total (fuel : Nat) (rw : Int) (po o : Nat) (hits mx prev : Int)
    (hrw : rw ≤ 0) (h1 : -2 ≤ hits) (h2 : hits ≤ 2147483646) (hfuel : 29 ≤ fuel) :
    ∃ r, __swapin_nr_pages fuel rw po o hits mx prev = some r := by
  rw [swapin_unfold _ _ _ _ _ _ _ hrw]
  by_cases hz : to_uint (hits + 2) = 2
  · rw [if_pos hz]
    split <;> exact ⟨_, rfl⟩
  · rw [if_neg hz]
    have hpages : to_uint (hits + 2) = (hits + 2).toNat :=
      to_uint_of_nonneg _ (by omega) (by omega)
    obtain ⟨r, hr⟩ := roundup_loop_total fuel 2 (to_uint (hits + 2)) (by omega)
      (by rw [hpages]; omega) (by omega)
    have h4 : (2 : Nat) ^ 2 = 4 := by norm_num
    rw [h4] at hr
    rw [hr]
    exact ⟨_, rfl⟩

/-- One step of the adjacent sequence with `max_pages = 16`: the window is the
base size of the hit count (2, 4, 8 or 16) or half the previous window,
whichever is larger. -/
theorem step16 (fuel o w : Nat) (h : Int) (r : Nat) (h0 : 0 ≤ h) (hi : is_int h)
    (hw : w ≤ 16)
    (hr : __swapin_nr_pages fuel 0 o (ul_add o 1) h 16 (to_int w) = some r) :
    (h = 0 → r = max 2 (w / 2)) ∧ (1 ≤ h → h ≤ 2 → r = max 4 (w / 2)) ∧
    (3 ≤ h → h ≤ 6 → r = max 8 (w / 2)) ∧ (7 ≤ h → r = 16) := by
  unfold is_int at hi
  have hti : to_int w = (w : Int) := by
    unfold to_int UINT_MOD
    rw [if_pos (by omega)]
    congr 1
    omega
  have hl : to_uint (Int.tdiv (to_int w) 2) = w / 2 := by
    rw [hti, tdiv_two_nonneg _ (by omega)]
    unfold to_uint
    omega
  have hm : to_uint 16 = 16 := by decide
  have hpages : to_uint (h + 2) = (h + 2).toNat := to_uint_of_nonneg _ (by omega) (by omega)
  rw [swapin_unfold _ _ _ _ _ _ _ (le_refl _), hl, hm, hpages] at hr
  by_cases hz : h = 0
  · subst hz
    rw [if_pos (by decide), if_neg (by simp)] at hr
    simp only [Option.map_some', Option.some.injEq] at hr
    refine ⟨fun _ => ?_, fun _ _ => ?_, fun _ _ => ?_, fun _ => ?_⟩ <;> omega
  · rw [if_neg (by omega)] at hr
    rw [Option.map_eq_some'] at hr
    obtain ⟨b, hb, hrb⟩ := hr
    have h4 : (4 : Nat) = 2 ^ 2 := by norm_num
    rw [h4] at hb
    obtain ⟨j, hj1, hj2, hj3, hj4, hj5⟩ := roundup_loop_spec fuel 2 _ b (by omega) hb
    refine ⟨fun hc => absurd hc hz, fun ha hb2 => ?_, fun ha hb2 => ?_, fun ha => ?_⟩
    · have hj : j = 2 := by
        rcases hj5 with hj5 | hj5
        · exact hj5
        · have hlt : 2 ^ (j - 1) < 2 ^ 2 := by omega
          have := two_pow_lt_two_pow _ _ hlt
          omega
      subst hj
      omega
    · have hj : j = 3 := by
        rcases hj5 with hj5 | hj5
        · subst hj5; omega
        · have hlt : 2 ^ (j - 1) < 2 ^ 3 := by omega
          have := two_pow_lt_two_pow _ _ hlt
          have hlt2 : 2 ^ 2 < 2 ^ j := by omega
          have := two_pow_lt_two_pow _ _ hlt2
          omega
      subst hj
      omega
    · have hlt2 : 2 ^ 3 < 2 ^ j := by omega
      have hj := two_pow_lt_two_pow _ _ hlt2
      have := Nat.pow_le_pow_right (show 0 < 2 by norm_num) (show 4 ≤ j by omega)
      omega

theorem window_seq_adjacent (fuel : Nat) : ∀ (hs : List Int) (o w : Nat) (ws : List Nat),
    hs.Pairwise (· ≤ ·) → (∀ h ∈ hs, 0 ≤ h ∧ is_int h) → w ≤ 16 →
    (∀ h ∈ hs, w ≤ 2 ∨ (w ≤ 4 ∧ 1 ≤ h) ∨ (w ≤ 8 ∧ 3 ≤ h) ∨ 7 ≤ h) →
    window_seq fuel 0 16 o w hs = some ws →
    ws.length = hs.length + 1 ∧ ws.Pairwise (· ≤ ·) ∧ (∀ x ∈ ws, w ≤ x ∧ x ≤ 16) ∧
    ws[0]? = some w ∧ (∀ (k : Nat) (h : Int), hs[k]? = some h → 7 ≤ h → ws[k + 1]? = some 16) := by
  intro hs
  induction hs with
  | nil =>
    intro o w ws _ _ hw _ hrun
    simp only [window_seq, Option.some.injEq] at hrun
    subst hrun
    simp [hw]
  | cons h t ih =>
    intro o w ws hsorted hrange hw hinv hrun
    simp only [window_seq] at hrun
    cases hstep : __swapin_nr_pages fuel 0 o (ul_add o 1) h 16 (to_int w) with
    | none => rw [hstep] at hrun; exact absurd hrun (by simp)
    | some w1 =>
      rw [hstep] at hrun
      simp only [Option.map_eq_some'] at hrun
      obtain ⟨ws1, hws1, hws⟩ := hrun
      subst hws
      have hh := hrange h (List.mem_cons_self _ _)
      obtain ⟨s0, s1, s2, s3⟩ := step16 fuel o w h w1 hh.1 hh.2 hw hstep
      have hinvh := hinv h (List.mem_cons_self _ _)
      have hsorted2 := List.pairwise_cons.mp hsorted
      have hw1 : w ≤ w1 ∧ w1 ≤ 16 ∧ (7 ≤ h → w1 = 16) ∧
          (w1 ≤ 2 ∨ (w1 ≤ 4 ∧ 1 ≤ h) ∨ (w1 ≤ 8 ∧ 3 ≤ h) ∨ 7 ≤ h) := by
        by_cases c0 : h = 0
        · have := s0 c0; omega
        · by_cases c1 : h ≤ 2
          · have := s1 (by omega) c1; omega
          · by_cases c2 : h ≤ 6
            · have := s2 (by omega) c2; omega
            · have := s3 (by omega); omega
      obtain ⟨i1, i2, i3, i4, i5⟩ := ih (ul_add o 1) w1 ws1 hsorted2.2
        (fun x hx => hrange x (List.mem_cons_of_mem _ hx)) hw1.2.1
        (fun x hx => by
          have := hsorted2.1 x hx
          have := hw1.2.2.2
          omega) hws1
      refine ⟨by simp [i1], ?_, ?_, by simp, ?_⟩
      · rw [List.pairwise_cons]
        refine ⟨fun x hx => ?_, i2⟩
        have := (i3 x hx).1
        omega
      · intro x hx
        rcases List.mem_cons.mp hx with hx | hx
        · subst hx; omega
        · have := i3 x hx
          omega
      · intro k hk hget h7
        cases k with
        | zero =>
          simp only [List.getElem?_cons_zero, Option.some.injEq] at hget
          subst hget
          simp only [List.getElem?_cons_succ]
          rw [i4, hw1.2.2.1 h7]
        | succ n =>
          simp only [List.getElem?_cons_succ] at hget ⊢
          exact i5 n hk hget h7

theorem window_seq_total (fuel : Nat) (hfuel : 29 ≤ fuel) : ∀ (hs : List Int) (o w : Nat),
    (∀ h ∈ hs, 0 ≤ h ∧ h ≤ 2147483646) →
    ∃ ws, window_seq fuel 0 16 o w hs = some ws := by
  intro hs
  induction hs with
  | nil => intro o w _; exact ⟨[w], rfl⟩
  | cons h t ih =>
    intro o w hrange
    have hh := hrange h (List.mem_cons_self _ _)
    obtain ⟨w1, hw1⟩ := swapin_total fuel 0 o (ul_add o 1) h 16 (to_int w) (le_refl _)
      (by omega) hh.2 hfuel
    obtain ⟨ws1, hws1⟩ := ih (ul_add o 1) w1 (fun x hx => hrange x (List.mem_cons_of_mem _ hx))
    refine ⟨w :: ws1, ?_⟩
    simp only [window_seq, hw1, hws1, Option.map_some']

theorem swapin_zero_hits_total (fuel : Nat) (rw : Int) (po o : Nat) (mx prev : Int)
    (hrw : rw ≤ 0) : ∃ r, __swapin_nr_pages fuel rw po o 0 mx prev = some r := by
  rw [swapin_unfold _ _ _ _ _ _ _ hrw]
  have h2 : to_uint (0 + 2) = 2 := by decide
  rw [if_pos h2]
  split <;> exact ⟨_, rfl⟩

/-- C6: with `readahead_win = 0` and `max_pages = 16`, for faults on adjacent
offsets with non-decreasing hit counts `hs` (values of type `int`, at least 0)
and a first window `w0` of 0 or 1: every run of the windows
`w_{k+1} = __swapin_nr_pages(o_k, o_k + 1, h_k, 16, w_k)` is non-decreasing,
never exceeds 16 and has `w_{k+1} = 16` wherever `h_k ≥ 7`; after it a step
with zero hits, on any offsets, returns a window of at least half the last
one; and the run exists (29 loop iterations suffice) when all hit counts are
at most `2 ^ 31 - 2`. -/
theorem C6_window_monotone_smooth (o0 w0 : Nat) (hs : List Int) (hw0 : w0 ≤ 1)
    (hsorted : hs.Pairwise (· ≤ ·)) (hrange : ∀ h ∈ hs, 0 ≤ h ∧ is_int h) :
    (∀ fuel ws, window_seq fuel 0 16 o0 w0 hs = some ws →
      ws.length = hs.length + 1 ∧ ws[0]? = some w0 ∧ ws.Pairwise (· ≤ ·) ∧
      (∀ w ∈ ws, w ≤ 16) ∧
      (∀ (k : Nat) (h : Int), hs[k]? = some h → 7 ≤ h → ws[k + 1]? = some 16) ∧
      (∀ wl, ws.getLast? = some wl → ∀ fuel2 po o,
        ∃ r, __swapin_nr_pages fuel2 0 po o 0 16 (to_int wl) = some r ∧ wl / 2 ≤ r)) ∧
    ((∀ h ∈ hs, h ≤ 2147483646) → ∀ fuel, 29 ≤ fuel →
      ∃ ws, window_seq fuel 0 16 o0 w0 hs = some ws) := by
  constructor
  · intro fuel ws hrun
    obtain ⟨a1, a2, a3, a4, a5⟩ := window_seq_adjacent fuel hs o0 w0 ws hsorted hrange
      (by omega) (fun h _ => Or.inl (by omega)) hrun
    refine ⟨a1, a4, a2, fun w hw => (a3 w hw).2, a5, ?_⟩
    intro wl hwl fuel2 po o
    have hmem : wl ∈ ws := List.mem_of_mem_getLast? hwl
    have hwl16 := (a3 wl hmem).2
    have hti : to_int wl = (wl : Int) := by
      unfold to_int UINT_MOD
      rw [if_pos (by omega)]
      congr 1
      omega
    obtain ⟨r, hr⟩ := swapin_zero_hits_total fuel2 0 po o 16 (to_int wl) (le_refl _)
    refine ⟨r, hr, ?_⟩
    obtain ⟨b, hb⟩ := swapin_result_form _ _ _ _ _ _ _ (le_refl _) r hr
    rw [hti, tdiv_two_nonneg _ (by omega)] at hb
    unfold to_uint at hb
    omega
  · intro hb fuel hfuel
    exact window_seq_total fuel hfuel hs o0 w0 (fun h hh => ⟨(hrange h hh).1, hb h hh⟩)

/-- C6 (witness): hit counts 0, 1, 3, 7, 7 from the window 0 give the windows
0, 2, 4, 8, 16, 16. -/
theorem C6_window_monotone_smooth_witness :
    ((0 : Nat) ≤ 1 ∧ ([0, 1, 3, 7, 7] : List Int).Pairwise (· ≤ ·) ∧
      (∀ h ∈ ([0, 1, 3, 7, 7] : List Int), 0 ≤ h ∧ is_int h)) ∧
    window_seq 29 0 16 10 0 [0, 1, 3, 7, 7] = some [0, 2, 4, 8, 16, 16] ∧
    ((∀ fuel ws, window_seq fuel 0 16 10 0 [0, 1, 3, 7, 7] = some ws →
      ws.length = ([0, 1, 3, 7, 7] : List Int).length + 1 ∧ ws[0]? = some 0 ∧
      ws.Pairwise (· ≤ ·) ∧ (∀ w ∈ ws, w ≤ 16) ∧
      (∀ (k : Nat) (h : Int), ([0, 1, 3, 7, 7] : List Int)[k]? = some h → 7 ≤ h →
        ws[k + 1]? = some 16) ∧
      (∀ wl, ws.getLast? = some wl → ∀ fuel2 po o,
        ∃ r, __swapin_nr_pages fuel2 0 po o 0 16 (to_int wl) = some r ∧ wl / 2 ≤ r)) ∧
    ((∀ h ∈ ([0, 1, 3, 7, 7] : List Int), h ≤ 2147483646) → ∀ fuel, 29 ≤ fuel →
      ∃ ws, window_seq fuel 0 16 10 0 [0, 1, 3, 7, 7] = some ws)) :=
  ⟨⟨by decide, by decide, by decide⟩, by decide,
   C6_window_monotone_smooth 10 0 [0, 1, 3, 7, 7] (by decide) (by decide) (by decide)⟩

/-! ## The window of a fault -/

theorem roundup_loop_six (fuel : Nat) (hfuel : 1 ≤ fuel) : roundup_loop fuel 4 6 = some 8 := by
  cases fuel with
  | zero => omega
  | succ n => cases n <;> simp [roundup_loop, UINT_MOD]

theorem roundup_loop_ten (fuel : Nat) (hfuel : 2 ≤ fuel) : roundup_loop fuel 4 10 = some 16 := by
  cases fuel with
  | zero => omega
  | succ n =>
    cases n with
    | zero => omega
    | succ m => cases m <;> simp [roundup_loop, UINT_MOD]

/-- The window for 4 hits: `readahead_win` when the override is on, else the
size 8 clamped to `max_pages` and raised to half of `prev_win`. -/
theorem swapin_four_hits (fuel : Nat) (rw : Int) (po o : Nat) (mx prev : Int)
    (hfuel : 1 ≤ fuel) :
    __swapin_nr_pages fuel rw po o 4 mx prev =
      if rw > 0 then some (to_uint rw)
      else some (max (min 8 (to_uint mx)) (to_uint (Int.tdiv prev 2))) := by
  by_cases hrw : rw > 0
  · rw [if_pos hrw]; unfold __swapin_nr_pages; rw [if_pos hrw]
  · rw [if_neg hrw, swapin_unfold _ _ _ _ _ _ _ (by omega)]
    have h6 : to_uint (4 + 2) = 6 := by decide
    rw [h6, if_neg (by decide), roundup_loop_six fuel hfuel]
    rfl

/-- The window for 8 hits. -/
theorem swapin_eight_hits (fuel : Nat) (rw : Int) (po o : Nat) (mx prev : Int)
    (hfuel : 2 ≤ fuel) :
    __swapin_nr_pages fuel rw po o 8 mx prev =
      if rw > 0 then some (to_uint rw)
      else some (max (min 16 (to_uint mx)) (to_uint (Int.tdiv prev 2))) := by
  by_cases hrw : rw > 0
  · rw [if_pos hrw]; unfold __swapin_nr_pages; rw [if_pos hrw]
  · rw [if_neg hrw, swapin_unfold _ _ _ _ _ _ _ (by omega)]
    have h6 : to_uint (8 + 2) = 10 := by decide
    rw [h6, if_neg (by decide), roundup_loop_ten fuel hfuel]
    rfl

theorem SWAP_RA_HITS_zero (c : hermit_config) : SWAP_RA_HITS c 0 = 0 := by
  unfold SWAP_RA_HITS; exact Nat.zero_and _

theorem SWAP_RA_WIN_zero (c : hermit_config) : SWAP_RA_WIN c 0 = 0 := by
  unfold SWAP_RA_WIN; rw [Nat.zero_and, Nat.zero_shiftRight]

theorem SWAP_RA_HITS_idem (c : hermit_config) (v : Nat) :
    SWAP_RA_HITS c (SWAP_RA_HITS c v) = SWAP_RA_HITS c v := by
  unfold SWAP_RA_HITS; rw [Nat.and_assoc, Nat.and_self]

/-! ## The swap cache -/

/-- C10: for every slot that already holds a page, `add_to_swap_cache` for an
entry of that slot does not return: it stops in `BUG()`, in a state where
every slot of `hermit_swapcache` (so also this one) holds what it held before
and where every address space (so also `nrpages` of the segment of the entry)
and the counter `add_total` are unchanged. When the entry assertions
do not fire, the state is the one reached at the `BUG()` statement of the
function: the page has the SwapCache flag set and `nr` more references. -/
theorem C10_add_never_overwrites (c : hermit_config) (s : swap_state) (pagep : Nat)
    (entry : swp_entry_t) (old : Nat)
    (hold : s.hermit_swapcache (swp_offset entry) = some old) :
    ∃ s1, add_to_swap_cache c s pagep entry = outcome.BUG s1 ∧
      (add_to_swap_cache c s pagep entry).value = none ∧
      s1.hermit_swapcache (swp_offset entry) = some old ∧
      s1.hermit_swapcache = s.hermit_swapcache ∧
      s1.swapper_spaces = s.swapper_spaces ∧
      (swap_address_space s1 entry).nrpages = (swap_address_space s entry).nrpages ∧
      s1.swap_cache_info.add_total = s.swap_cache_info.add_total ∧
      ((c.CONFIG_DEBUG_VM = false ∨
          ((s.mem pagep).PG_locked = true ∧ (s.mem pagep).PG_swapcache = false ∧
            (s.mem pagep).PG_swapbacked = true ∧ (s.mem pagep).nr_pages = 1)) →
        s1 = SetPageSwapCache (page_ref_add s pagep (s.mem pagep).nr_pages) pagep) := by
  have hmain : (SetPageSwapCache (page_ref_add s pagep (s.mem pagep).nr_pages)
      pagep).hermit_swapcache (swp_offset entry) ≠ none := by
    simp [SetPageSwapCache, page_ref_add, update_page, hold]
  unfold add_to_swap_cache
  simp only []
  split
  · rename_i h1
    refine ⟨s, rfl, rfl, hold, rfl, rfl, rfl, rfl, ?_⟩
    rintro (h | h)
    · simp [h] at h1
    · simp [h.1] at h1
  · split
    · rename_i h1 h2
      refine ⟨s, rfl, rfl, hold, rfl, rfl, rfl, rfl, ?_⟩
      rintro (h | h)
      · simp [h] at h2
      · simp [h.2.1] at h2
    · split
      · rename_i h1 h2 h3
        refine ⟨s, rfl, rfl, hold, rfl, rfl, rfl, rfl, ?_⟩
        rintro (h | h)
        · simp [h] at h3
        · simp [h.2.2.1] at h3
      · split
        · rename_i h1 h2 h3 h4
          refine ⟨s, rfl, rfl, hold, rfl, rfl, rfl, rfl, ?_⟩
          rintro (h | h)
          · simp [h] at h4
          · simp [h.2.2.2] at h4
        · refine ⟨_, rfl, rfl, ?_, rfl, rfl, rfl, rfl, fun _ => rfl⟩
          simp [SetPageSwapCache, page_ref_add, update_page, hold]

/-- A successful `add_to_swap_cache`: the page passes the entry assertions and
the slot is empty. -/
theorem add_to_swap_cache_ok (c : hermit_config) (s : swap_state) (pagep : Nat)
    (entry : swp_entry_t)
    (hlocked : (s.mem pagep).PG_locked = true)
    (hbacked : (s.mem pagep).PG_swapbacked = true)
    (hnr : (s.mem pagep).nr_pages = 1)
    (hnsc : c.CONFIG_DEBUG_VM = true → (s.mem pagep).PG_swapcache = false)
    (hempty : s.hermit_swapcache (swp_offset entry) = none) :
    ∃ s1, add_to_swap_cache c s pagep entry = outcome.ret 0 s1 ∧
      s1.hermit_swapcache (swp_offset entry) = some pagep ∧
      (∀ i, i ≠ swp_offset entry → s1.hermit_swapcache i = s.hermit_swapcache i) ∧
      s1.mem pagep = { s.mem pagep with
        refcount := (s.mem pagep).refcount + 1, PG_swapcache := true,
        page_private := entry.val } ∧
      (∀ q, q ≠ pagep → s1.mem q = s.mem q) ∧
      s1.swap_device_live = s.swap_device_live := by
  unfold add_to_swap_cache
  simp only []
  rw [if_neg (by simp [hlocked]), if_neg (by
    intro h; have := hnsc h.1; simp [this] at h), if_neg (by simp [hbacked]),
    if_neg (by simp [hnr])]
  have hs2 : (SetPageSwapCache (page_ref_add s pagep (s.mem pagep).nr_pages)
      pagep).hermit_swapcache (swp_offset entry) = none := by
    simp [SetPageSwapCache, page_ref_add, update_page, hempty]
  rw [if_pos hs2]
  refine ⟨_, rfl, ?_, ?_, ?_, ?_, ?_⟩
  · simp [mod_nrpages, set_page_private, hmt_sc_store, update_page]
  · intro i hi
    simp [mod_nrpages, set_page_private, hmt_sc_store, update_page, SetPageSwapCache,
      page_ref_add, hi]
  · simp [mod_nrpages, set_page_private, hmt_sc_store, update_page, SetPageSwapCache,
      page_ref_add, hnr]
  · intro q hq
    simp [mod_nrpages, set_page_private, hmt_sc_store, update_page, SetPageSwapCache,
      page_ref_add, hq]
  · simp [mod_nrpages, set_page_private, hmt_sc_store, update_page, SetPageSwapCache,
      page_ref_add]

/-- A lookup of an occupied slot of a live device returns the page of the slot;
it changes neither the cache nor the flags `PG_locked`, `PG_swapcache`,
`PG_swapbacked`, `PG_writeback`, the size or the private word of any page. -/
theorem hermit_lookup_swap_cache_hit (c : hermit_config) (s : swap_state)
    (entry : swp_entry_t) (vma : Option vm_area_struct) (addr : Nat)
    (dsa : Option ds_area_struct) (pagep : Nat)
    (hlive : s.swap_device_live entry.val = true)
    (hslot : s.hermit_swapcache (swp_offset entry) = some pagep) :
    ∃ s1 v d, hermit_lookup_swap_cache c s entry vma addr dsa = (some pagep, s1, v, d) ∧
      s1.hermit_swapcache = s.hermit_swapcache ∧
      s1.swap_device_live = s.swap_device_live ∧
      (∀ q, (s1.mem q).PG_locked = (s.mem q).PG_locked ∧
        (s1.mem q).PG_swapcache = (s.mem q).PG_swapcache ∧
        (s1.mem q).PG_swapbacked = (s.mem q).PG_swapbacked ∧
        (s1.mem q).PG_writeback = (s.mem q).PG_writeback ∧
        (s1.mem q).nr_pages = (s.mem q).nr_pages ∧
        (s1.mem q).page_private = (s.mem q).page_private) := by
  unfold hermit_lookup_swap_cache
  rw [if_neg (by simp [hlive])]
  simp only [hmt_sc_load_get, hslot]
  split
  · refine ⟨_, _, _, rfl, rfl, rfl, ?_⟩
    intro q
    by_cases hq : q = pagep <;> simp [page_ref_add, update_page, hq]
  · refine ⟨_, _, _, rfl, ?_, ?_, ?_⟩
    · split <;> [split; skip] <;> simp [page_ref_add, update_page]
    · split <;> [split; skip] <;> simp [page_ref_add, update_page]
    · intro q
      by_cases hq : q = pagep <;>
        (split <;> [split; skip] <;> simp [page_ref_add, update_page, hq])

/-- A lookup of an empty slot returns no page. -/
theorem hermit_lookup_swap_cache_miss (c : hermit_config) (s : swap_state)
    (entry : swp_entry_t) (vma : Option vm_area_struct) (addr : Nat)
    (dsa : Option ds_area_struct)
    (hslot : s.hermit_swapcache (swp_offset entry) = none) :
    (hermit_lookup_swap_cache c s entry vma addr dsa).1 = none := by
  unfold hermit_lookup_swap_cache
  split
  · rfl
  · simp only [hmt_sc_load_get, hslot]

/-- A successful `__delete_from_swap_cache` of a base page from its slot. -/
theorem delete_from_swap_cache_ok (c : hermit_config) (s : swap_state) (pagep : Nat)
    (entry : swp_entry_t)
    (hlocked : (s.mem pagep).PG_locked = true)
    (hsc : (s.mem pagep).PG_swapcache = true)
    (hnwb : c.CONFIG_DEBUG_VM = true → (s.mem pagep).PG_writeback = false)
    (hnr : (s.mem pagep).nr_pages = 1)
    (hslot : s.hermit_swapcache (swp_offset entry) = some pagep) :
    ∃ s1, __delete_from_swap_cache c s pagep entry = outcome.ret () s1 ∧
      s1.hermit_swapcache (swp_offset entry) = none ∧
      (∀ i, i ≠ swp_offset entry → s1.hermit_swapcache i = s.hermit_swapcache i) ∧
      (s1.mem pagep).page_private = 0 ∧ (s1.mem pagep).PG_swapcache = false ∧
      s1.swap_device_live = s.swap_device_live := by
  unfold __delete_from_swap_cache
  simp only []
  rw [if_neg (by simp [hlocked]), if_neg (by simp [hsc]), if_neg (by
    intro h; have := hnwb h.1; simp [this] at h), hnr]
  simp only [delete_loop, hmt_sc_load, Nat.add_zero, hslot, ne_eq, not_true_eq_false,
    and_false, if_false]
  refine ⟨_, rfl, ?_, ?_, ?_, ?_, ?_⟩
  · simp [mod_nrpages, ClearPageSwapCache, set_page_private, hmt_sc_store, update_page]
  · intro i hi
    simp [mod_nrpages, ClearPageSwapCache, set_page_private, hmt_sc_store, update_page, hi]
  · simp [mod_nrpages, ClearPageSwapCache, set_page_private, hmt_sc_store, update_page]
  · simp [mod_nrpages, ClearPageSwapCache, set_page_private, hmt_sc_store, update_page]
  · simp [mod_nrpages, ClearPageSwapCache, set_page_private, hmt_sc_store, update_page]

/-- C9 (counterexample): three states in which page 7 is locked, swap-backed
and not huge and slot 5 is empty, yet the round trip fails. (1) The swap
device of the entry is not live: `add_to_swap_cache` returns 0 and the lookup
returns no page. (2) With `CONFIG_DEBUG_VM`, the page already carries the
SwapCache flag: `add_to_swap_cache` stops in `BUG()`. (3) With
`CONFIG_DEBUG_VM`, the page is under writeback: the insertion and the lookup
succeed and `__delete_from_swap_cache` stops in `BUG()`. -/
theorem C9_counterexample :
    (((({ empty_state with swap_device_live := fun _ => false } : swap_state).mem 7).PG_locked
          = true ∧
        (({ empty_state with swap_device_live := fun _ => false } : swap_state).mem
          7).PG_swapbacked = true ∧
        (({ empty_state with swap_device_live := fun _ => false } : swap_state).mem
          7).nr_pages = 1 ∧
        (({ empty_state with swap_device_live := fun _ => false } : swap_state).mem
          7).compound = false ∧
        ({ empty_state with swap_device_live := fun _ => false } : swap_state).hermit_swapcache
          (swp_offset { val := 5 }) = none) ∧
      (add_to_swap_cache default_config
        { empty_state with swap_device_live := fun _ => false } 7 { val := 5 }).value = some 0 ∧
      (hermit_lookup_swap_cache default_config
        (add_to_swap_cache default_config
          { empty_state with swap_device_live := fun _ => false } 7 { val := 5 }).state
        { val := 5 } none 0 none).1 = none) ∧
    ((((SetPageSwapCache empty_state 7).mem 7).PG_locked = true ∧
        ((SetPageSwapCache empty_state 7).mem 7).PG_swapbacked = true ∧
        ((SetPageSwapCache empty_state 7).mem 7).nr_pages = 1 ∧
        (SetPageSwapCache empty_state 7).hermit_swapcache (swp_offset { val := 5 }) = none) ∧
      (add_to_swap_cache default_config
        (SetPageSwapCache empty_state 7) 7 { val := 5 }).value = none) ∧
    ((((update_page empty_state 7 fun pg => { pg with PG_writeback := true }).mem 7).PG_locked
          = true ∧
        ((update_page empty_state 7 fun pg => { pg with PG_writeback := true }).mem
          7).PG_swapbacked = true ∧
        ((update_page empty_state 7 fun pg => { pg with PG_writeback := true }).mem
          7).nr_pages = 1 ∧
        (update_page empty_state 7 fun pg => { pg with PG_writeback := true }).hermit_swapcache
          (swp_offset { val := 5 }) = none ∧
        (update_page empty_state 7 fun pg => { pg with PG_writeback := true }).swap_device_live
          5 = true) ∧
      (add_to_swap_cache default_config
        (update_page empty_state 7 fun pg => { pg with PG_writeback := true })
        7 { val := 5 }).value = some 0 ∧
      (hermit_lookup_swap_cache default_config
        (add_to_swap_cache default_config
          (update_page empty_state 7 fun pg => { pg with PG_writeback := true })
          7 { val := 5 }).state { val := 5 } none 0 none).1 = some 7 ∧
      (__delete_from_swap_cache default_config
        (hermit_lookup_swap_cache default_config
          (add_to_swap_cache default_config
            (update_page empty_state 7 fun pg => { pg with PG_writeback := true })
            7 { val := 5 }).state { val := 5 } none 0 none).2.1
        7 { val := 5 }).value = none) := by
  decide

/-- C9 (amended): for every page that is locked, swap-backed and not huge and
that, where `CONFIG_DEBUG_VM` compiles the assertions in, does not already
carry the SwapCache flag and is not under writeback, and for every entry whose
slot is empty and whose swap device is live: `add_to_swap_cache` returns 0; a
following lookup of the entry returns exactly that page, which then has
`page_private = entry.val` and the SwapCache flag set; after it
`__delete_from_swap_cache` returns, a further lookup returns no page,
`page_private` is 0 and the SwapCache flag is clear. -/
theorem C9_cache_round_trip (c : hermit_config) (s : swap_state) (pagep : Nat)
    (entry : swp_entry_t) (vma1 vma2 : Option vm_area_struct) (addr1 addr2 : Nat)
    (dsa1 dsa2 : Option ds_area_struct)
    (hlocked : (s.mem pagep).PG_locked = true)
    (hbacked : (s.mem pagep).PG_swapbacked = true)
    (hnr : (s.mem pagep).nr_pages = 1)
    (hnsc : c.CONFIG_DEBUG_VM = true → (s.mem pagep).PG_swapcache = false)
    (hnwb : c.CONFIG_DEBUG_VM = true → (s.mem pagep).PG_writeback = false)
    (hempty : s.hermit_swapcache (swp_offset entry) = none)
    (hlive : s.swap_device_live entry.val = true) :
    ∃ s1 s2 s3 v d,
      add_to_swap_cache c s pagep entry = outcome.ret 0 s1 ∧
      hermit_lookup_swap_cache c s1 entry vma1 addr1 dsa1 = (some pagep, s2, v, d) ∧
      (s2.mem pagep).page_private = entry.val ∧ (s2.mem pagep).PG_swapcache = true ∧
      __delete_from_swap_cache c s2 pagep entry = outcome.ret () s3 ∧
      (hermit_lookup_swap_cache c s3 entry vma2 addr2 dsa2).1 = none ∧
      (s3.mem pagep).page_private = 0 ∧ (s3.mem pagep).PG_swapcache = false := by
  obtain ⟨s1, hadd, a1, _, a3, _, a5⟩ :=
    add_to_swap_cache_ok c s pagep entry hlocked hbacked hnr hnsc hempty
  obtain ⟨s2, v, d, hlook, b1, b2, b3⟩ :=
    hermit_lookup_swap_cache_hit c s1 entry vma1 addr1 dsa1 pagep (by rw [a5]; exact hlive) a1
  have hp := b3 pagep
  rw [a3] at hp
  obtain ⟨s3, hdel, d1, _, d3, d4, _⟩ :=
    delete_from_swap_cache_ok c s2 pagep entry (by rw [hp.1]; exact hlocked)
      (by rw [hp.2.1]) (by intro h; rw [hp.2.2.2.1]; exact hnwb h)
      (by rw [hp.2.2.2.2.1]; exact hnr) (by rw [b1]; exact a1)
  refine ⟨s1, s2, s3, v, d, hadd, hlook, ?_, ?_, hdel, ?_, d3, d4⟩
  · rw [hp.2.2.2.2.2]
  · rw [hp.2.1]
  · exact hermit_lookup_swap_cache_miss c s3 entry vma2 addr2 dsa2 d1

/-- C9 (witness): page 7 and the entry of slot 5 in the empty cache. -/
theorem C9_cache_round_trip_witness :
    ((empty_state.mem 7).PG_locked = true ∧ (empty_state.mem 7).PG_swapbacked = true ∧
      (empty_state.mem 7).nr_pages = 1 ∧
      (default_config.CONFIG_DEBUG_VM = true → (empty_state.mem 7).PG_swapcache = false) ∧
      (default_config.CONFIG_DEBUG_VM = true → (empty_state.mem 7).PG_writeback = false) ∧
      empty_state.hermit_swapcache (swp_offset { val := 5 }) = none ∧
      empty_state.swap_device_live 5 = true) ∧
    ∃ s1 s2 s3 v d,
      add_to_swap_cache default_config empty_state 7 { val := 5 } = outcome.ret 0 s1 ∧
      hermit_lookup_swap_cache default_config s1 { val := 5 } none 0 none
        = (some 7, s2, v, d) ∧
      (s2.mem 7).page_private = 5 ∧ (s2.mem 7).PG_swapcache = true ∧
      __delete_from_swap_cache default_config s2 7 { val := 5 } = outcome.ret () s3 ∧
      (hermit_lookup_swap_cache default_config s3 { val := 5 } none 0 none).1 = none ∧
      (s3.mem 7).page_private = 0 ∧ (s3.mem 7).PG_swapcache = false :=
  ⟨by decide,
   C9_cache_round_trip default_config empty_state 7 { val := 5 } none none 0 0 none none
     (by decide) (by decide) (by decide) (by decide) (by decide) (by decide) (by decide)⟩

/-- C10 (witness): slot 5 holds page 7 and page 9 is offered for the same
slot. -/
theorem C10_add_never_overwrites_witness :
    ((hmt_sc_store empty_state 5 (some 7)).hermit_swapcache (swp_offset { val := 5 })
      = some 7) ∧
    ∃ s1, add_to_swap_cache default_config (hmt_sc_store empty_state 5 (some 7)) 9
        { val := 5 } = outcome.BUG s1 ∧
      (add_to_swap_cache default_config (hmt_sc_store empty_state 5 (some 7)) 9
        { val := 5 }).value = none ∧
      s1.hermit_swapcache (swp_offset { val := 5 }) = some 7 ∧
      s1.hermit_swapcache = (hmt_sc_store empty_state 5 (some 7)).hermit_swapcache ∧
      s1.swapper_spaces = (hmt_sc_store empty_state 5 (some 7)).swapper_spaces ∧
      (swap_address_space s1 { val := 5 }).nrpages =
        (swap_address_space (hmt_sc_store empty_state 5 (some 7)) { val := 5 }).nrpages ∧
      s1.swap_cache_info.add_total =
        (hmt_sc_store empty_state 5 (some 7)).swap_cache_info.add_total ∧
      ((default_config.CONFIG_DEBUG_VM = false ∨
          (((hmt_sc_store empty_state 5 (some 7)).mem 9).PG_locked = true ∧
            ((hmt_sc_store empty_state 5 (some 7)).mem 9).PG_swapcache = false ∧
            ((hmt_sc_store empty_state 5 (some 7)).mem 9).PG_swapbacked = true ∧
            ((hmt_sc_store empty_state 5 (some 7)).mem 9).nr_pages = 1)) →
        s1 = SetPageSwapCache (page_ref_add (hmt_sc_store empty_state 5 (some 7)) 9
          ((hmt_sc_store empty_state 5 (some 7)).mem 9).nr_pages) 9) :=
  ⟨by decide,
   C10_add_never_overwrites default_config (hmt_sc_store empty_state 5 (some 7)) 9
     { val := 5 } 7 (by decide)⟩

/-! ## The packed readahead state, bit by bit -/

theorem ul_not_testBit (x i : Nat) (hx : x < ULONG_MOD) :
    (ul_not x).testBit i = (decide (i < 64) && !x.testBit i) := by
  unfold ul_not
  rw [Nat.mod_eq_of_lt hx]
  have h : ULONG_MOD - 1 - x = 2 ^ 64 - (x + 1) := by unfold ULONG_MOD; omega
  rw [h]
  exact Nat.testBit_two_pow_sub_succ (by unfold ULONG_MOD at hx; omega) i

theorem two_pow_lt_ULONG (s : Nat) (hs : s ≤ 63) : 2 ^ s < 18446744073709551616 := by
  have := Nat.pow_le_pow_right (show 0 < 2 by norm_num) hs
  omega

theorem PAGE_MASK_testBit (c : hermit_config) (i : Nat) (hs : c.PAGE_SHIFT ≤ 63) :
    (PAGE_MASK c).testBit i = (decide (c.PAGE_SHIFT ≤ i) && decide (i < 64)) := by
  unfold PAGE_MASK
  have h2 := two_pow_lt_ULONG c.PAGE_SHIFT hs
  have h5 : 2 ^ c.PAGE_SHIFT - 1 < ULONG_MOD := by unfold ULONG_MOD; omega
  rw [Nat.one_shiftLeft, Nat.mod_eq_of_lt (by unfold ULONG_MOD; exact h2),
    ul_not_testBit _ _ h5, Nat.testBit_two_pow_sub_one]
  rw [Bool.eq_iff_iff]
  simp only [Bool.and_eq_true, Bool.not_eq_true', decide_eq_true_eq, decide_eq_false_iff_not,
    Bool.and_eq_false_iff, Bool.or_eq_true, Bool.or_eq_false_iff]
  omega

theorem SWAP_RA_HITS_MASK_eq (c : hermit_config) (hs : c.PAGE_SHIFT ≤ 63) :
    SWAP_RA_HITS_MASK c = 2 ^ (c.PAGE_SHIFT / 2) - 1 := by
  unfold SWAP_RA_HITS_MASK SWAP_RA_WIN_SHIFT ul_sub
  have h2 := two_pow_lt_ULONG (c.PAGE_SHIFT / 2) (by omega)
  have h3 : 0 < 2 ^ (c.PAGE_SHIFT / 2) := Nat.pow_pos (by norm_num)
  have h4 : 2 ^ (c.PAGE_SHIFT / 2) < ULONG_MOD := by unfold ULONG_MOD; exact h2
  rw [Nat.one_shiftLeft, Nat.mod_eq_of_lt h4, Nat.mod_eq_of_lt h4]
  unfold ULONG_MOD
  omega

theorem SWAP_RA_HITS_MASK_testBit (c : hermit_config) (i : Nat) (hs : c.PAGE_SHIFT ≤ 63) :
    (SWAP_RA_HITS_MASK c).testBit i = decide (i < c.PAGE_SHIFT / 2) := by
  rw [SWAP_RA_HITS_MASK_eq c hs, Nat.testBit_two_pow_sub_one]

theorem PAGE_MASK_lt (c : hermit_config) : PAGE_MASK c < ULONG_MOD := by
  unfold PAGE_MASK ul_not ULONG_MOD; omega

theorem SWAP_RA_WIN_MASK_testBit (c : hermit_config) (i : Nat) (hs : c.PAGE_SHIFT ≤ 63) :
    (SWAP_RA_WIN_MASK c).testBit i =
      (decide (c.PAGE_SHIFT / 2 ≤ i) && decide (i < c.PAGE_SHIFT)) := by
  unfold SWAP_RA_WIN_MASK
  have hh : SWAP_RA_HITS_MASK c < ULONG_MOD := by
    rw [SWAP_RA_HITS_MASK_eq c hs]
    have := two_pow_lt_ULONG (c.PAGE_SHIFT / 2) (by omega)
    unfold ULONG_MOD
    omega
  rw [Nat.testBit_and, ul_not_testBit _ _ (PAGE_MASK_lt c), ul_not_testBit _ _ hh,
    PAGE_MASK_testBit c i hs, SWAP_RA_HITS_MASK_testBit c i hs]
  rw [Bool.eq_iff_iff]
  simp only [Bool.and_eq_true, Bool.not_eq_true', decide_eq_true_eq, decide_eq_false_iff_not,
    Bool.and_eq_false_iff, Bool.or_eq_true, Bool.or_eq_false_iff]
  omega

theorem testBit_of_lt_two_pow_le (x k i : Nat) (hx : x < 2 ^ k) (hi : k ≤ i) :
    x.testBit i = false := by
  apply Nat.testBit_lt_two_pow
  exact Nat.lt_of_lt_of_le hx (Nat.pow_le_pow_right (by norm_num) hi)

theorem SWAP_RA_VAL_testBit (c : hermit_config) (a w h i : Nat) (hs : c.PAGE_SHIFT ≤ 63) :
    (SWAP_RA_VAL c a w h).testBit i =
      ((a.testBit i && (decide (c.PAGE_SHIFT ≤ i) && decide (i < 64))) ||
       ((decide (i < 64) && (decide (c.PAGE_SHIFT / 2 ≤ i) && w.testBit (i - c.PAGE_SHIFT / 2))) &&
          (decide (c.PAGE_SHIFT / 2 ≤ i) && decide (i < c.PAGE_SHIFT))) ||
       (h.testBit i && decide (i < c.PAGE_SHIFT / 2))) := by
  unfold SWAP_RA_VAL
  have hM : ULONG_MOD = 2 ^ 64 := by unfold ULONG_MOD; norm_num
  rw [Nat.testBit_or, Nat.testBit_or, Nat.testBit_and, Nat.testBit_and, Nat.testBit_and,
    PAGE_MASK_testBit c i hs, SWAP_RA_WIN_MASK_testBit c i hs, SWAP_RA_HITS_MASK_testBit c i hs,
    hM, Nat.testBit_mod_two_pow, Nat.testBit_shiftLeft]
  rfl

theorem SWAP_RA_ADDR_VAL (c : hermit_config) (a w h : Nat) (hs : c.PAGE_SHIFT ≤ 63) :
    SWAP_RA_ADDR c (SWAP_RA_VAL c a w h) = a &&& PAGE_MASK c := by
  apply Nat.eq_of_testBit_eq
  intro i
  unfold SWAP_RA_ADDR
  rw [Nat.testBit_and, Nat.testBit_and, SWAP_RA_VAL_testBit c a w h i hs,
    PAGE_MASK_testBit c i hs]
  by_cases h1 : c.PAGE_SHIFT ≤ i
  · have h2 : ¬ i < c.PAGE_SHIFT := by omega
    have h3 : ¬ i < c.PAGE_SHIFT / 2 := by omega
    simp [h1, h2, h3]
  · simp [h1]

theorem SWAP_RA_HITS_VAL (c : hermit_config) (a w h : Nat) (hs : c.PAGE_SHIFT ≤ 63)
    (hh : h < 2 ^ (c.PAGE_SHIFT / 2)) :
    SWAP_RA_HITS c (SWAP_RA_VAL c a w h) = h := by
  apply Nat.eq_of_testBit_eq
  intro i
  unfold SWAP_RA_HITS
  rw [Nat.testBit_and, SWAP_RA_VAL_testBit c a w h i hs, SWAP_RA_HITS_MASK_testBit c i hs]
  by_cases h1 : i < c.PAGE_SHIFT / 2
  · have h2 : ¬ c.PAGE_SHIFT ≤ i := by omega
    have h3 : ¬ c.PAGE_SHIFT / 2 ≤ i := by omega
    simp [h1, h2, h3]
  · rw [testBit_of_lt_two_pow_le h _ i hh (by omega)]
    simp [h1]

theorem SWAP_RA_WIN_VAL (c : hermit_config) (a w h : Nat) (hs : c.PAGE_SHIFT ≤ 63)
    (hw : w < 2 ^ (c.PAGE_SHIFT - c.PAGE_SHIFT / 2)) :
    SWAP_RA_WIN c (SWAP_RA_VAL c a w h) = w := by
  apply Nat.eq_of_testBit_eq
  intro j
  unfold SWAP_RA_WIN SWAP_RA_WIN_SHIFT
  rw [Nat.testBit_shiftRight, Nat.testBit_and, SWAP_RA_VAL_testBit c a w h _ hs,
    SWAP_RA_WIN_MASK_testBit c _ hs]
  by_cases h1 : c.PAGE_SHIFT / 2 + j < c.PAGE_SHIFT
  · have h2 : ¬ c.PAGE_SHIFT ≤ c.PAGE_SHIFT / 2 + j := by omega
    have h3 : c.PAGE_SHIFT / 2 + j < 64 := by omega
    have h4 : ¬ c.PAGE_SHIFT / 2 + j < c.PAGE_SHIFT / 2 := by omega
    simp [h1, h2, h3, h4]
  · rw [testBit_of_lt_two_pow_le w _ j hw (by omega)]
    simp [h1]

theorem and_PAGE_MASK_eq (c : hermit_config) (a : Nat) (hs : c.PAGE_SHIFT ≤ 63)
    (ha : a < 2 ^ 64) : a &&& PAGE_MASK c = a / 2 ^ c.PAGE_SHIFT * 2 ^ c.PAGE_SHIFT := by
  apply Nat.eq_of_testBit_eq
  intro i
  rw [Nat.testBit_and, PAGE_MASK_testBit c i hs, ← Nat.shiftRight_eq_div_pow,
    ← Nat.shiftLeft_eq, Nat.testBit_shiftLeft, Nat.testBit_shiftRight]
  by_cases h1 : c.PAGE_SHIFT ≤ i
  · have h2 : c.PAGE_SHIFT + (i - c.PAGE_SHIFT) = i := by omega
    rw [h2]
    by_cases h3 : i < 64
    · simp [h1, h3]
    · rw [testBit_of_lt_two_pow_le a 64 i ha (by omega)]
      simp
  · simp [h1]

theorem masks_disjoint (c : hermit_config) (hs : c.PAGE_SHIFT ≤ 63) :
    PAGE_MASK c &&& SWAP_RA_WIN_MASK c = 0 ∧ PAGE_MASK c &&& SWAP_RA_HITS_MASK c = 0 ∧
    SWAP_RA_WIN_MASK c &&& SWAP_RA_HITS_MASK c = 0 := by
  refine ⟨?_, ?_, ?_⟩ <;>
  · apply Nat.eq_of_testBit_eq
    intro i
    rw [Nat.testBit_and, Nat.zero_testBit]
    first
      | rw [PAGE_MASK_testBit c i hs, SWAP_RA_WIN_MASK_testBit c i hs]
      | rw [PAGE_MASK_testBit c i hs, SWAP_RA_HITS_MASK_testBit c i hs]
      | rw [SWAP_RA_WIN_MASK_testBit c i hs, SWAP_RA_HITS_MASK_testBit c i hs]
    simp only [Bool.and_eq_false_iff, decide_eq_false_iff_not]
    omega

/-- C19: for every page shift up to 63 (so that `1UL << PAGE_SHIFT` is
defined), every address `a`, and every window `w` and hit count `h` below
`2 ^ (PAGE_SHIFT / 2)`, the word `v = SWAP_RA_VAL(a, w, h)` unpacks to
`SWAP_RA_ADDR(v) = a & PAGE_MASK` (for a 64-bit `a` this is `a` rounded down to
a multiple of the page size), `SWAP_RA_WIN(v) = w` and `SWAP_RA_HITS(v) = h`;
the three masks have no bit in common. -/
theorem C19_packed_state_round_trip (c : hermit_config) (a w h : Nat)
    (hs : c.PAGE_SHIFT ≤ 63) (hw : w < 2 ^ (c.PAGE_SHIFT / 2))
    (hh : h < 2 ^ (c.PAGE_SHIFT / 2)) :
    SWAP_RA_ADDR c (SWAP_RA_VAL c a w h) = a &&& PAGE_MASK c ∧
    (a < 2 ^ 64 → SWAP_RA_ADDR c (SWAP_RA_VAL c a w h) =
      a / 2 ^ c.PAGE_SHIFT * 2 ^ c.PAGE_SHIFT) ∧
    SWAP_RA_WIN c (SWAP_RA_VAL c a w h) = w ∧
    SWAP_RA_HITS c (SWAP_RA_VAL c a w h) = h ∧
    PAGE_MASK c &&& SWAP_RA_WIN_MASK c = 0 ∧ PAGE_MASK c &&& SWAP_RA_HITS_MASK c = 0 ∧
    SWAP_RA_WIN_MASK c &&& SWAP_RA_HITS_MASK c = 0 := by
  have hw2 : w < 2 ^ (c.PAGE_SHIFT - c.PAGE_SHIFT / 2) :=
    Nat.lt_of_lt_of_le hw (Nat.pow_le_pow_right (by norm_num) (by omega))
  refine ⟨SWAP_RA_ADDR_VAL c a w h hs, ?_, SWAP_RA_WIN_VAL c a w h hs hw2,
    SWAP_RA_HITS_VAL c a w h hs hh, masks_disjoint c hs⟩
  intro ha
  rw [SWAP_RA_ADDR_VAL c a w h hs, and_PAGE_MASK_eq c a hs ha]

/-- C19 (witness): 4 KiB pages, address `0x7fff12345678`, window 17, 5 hits. -/
theorem C19_packed_state_round_trip_witness :
    (default_config.PAGE_SHIFT ≤ 63 ∧ 17 < 2 ^ (default_config.PAGE_SHIFT / 2) ∧
      5 < 2 ^ (default_config.PAGE_SHIFT / 2)) ∧
    (SWAP_RA_ADDR default_config (SWAP_RA_VAL default_config 140733499528824 17 5) =
      140733499528824 &&& PAGE_MASK default_config ∧
    (140733499528824 < 2 ^ 64 →
      SWAP_RA_ADDR default_config (SWAP_RA_VAL default_config 140733499528824 17 5) =
        140733499528824 / 2 ^ default_config.PAGE_SHIFT * 2 ^ default_config.PAGE_SHIFT) ∧
    SWAP_RA_WIN default_config (SWAP_RA_VAL default_config 140733499528824 17 5) = 17 ∧
    SWAP_RA_HITS default_config (SWAP_RA_VAL default_config 140733499528824 17 5) = 5 ∧
    PAGE_MASK default_config &&& SWAP_RA_WIN_MASK default_config = 0 ∧
    PAGE_MASK default_config &&& SWAP_RA_HITS_MASK default_config = 0 ∧
    SWAP_RA_WIN_MASK default_config &&& SWAP_RA_HITS_MASK default_config = 0) :=
  ⟨by decide,
   C19_packed_state_round_trip default_config 140733499528824 17 5 (by decide) (by decide)
     (by decide)⟩

theorem SWAP_RA_WIN_lt (c : hermit_config) (v : Nat) (hs : c.PAGE_SHIFT ≤ 63) :
    SWAP_RA_WIN c v < 2 ^ (c.PAGE_SHIFT - c.PAGE_SHIFT / 2) := by
  apply Nat.lt_pow_two_of_testBit
  intro i hi
  unfold SWAP_RA_WIN SWAP_RA_WIN_SHIFT
  rw [Nat.testBit_shiftRight, Nat.testBit_and, SWAP_RA_WIN_MASK_testBit c _ hs]
  have h1 : ¬ c.PAGE_SHIFT / 2 + i < c.PAGE_SHIFT := by omega
  simp [h1]

theorem SWAP_RA_HITS_lt (c : hermit_config) (v : Nat) (hs : c.PAGE_SHIFT ≤ 63) :
    SWAP_RA_HITS c v < 2 ^ (c.PAGE_SHIFT / 2) := by
  unfold SWAP_RA_HITS
  rw [SWAP_RA_HITS_MASK_eq c hs, Nat.and_pow_two_sub_one_eq_mod]
  exact Nat.mod_lt _ (Nat.pow_pos (by norm_num))

theorem to_int_of_lt (x : Nat) (hx : x < 2147483648) : to_int x = (x : Int) := by
  unfold to_int UINT_MOD
  rw [if_pos (by omega)]
  congr 1
  omega

theorem win_repack (w p : Nat) (hwl : w < p) (hp1 : p ≤ 2147483648) :
    ((to_int w) % 18446744073709551616).toNat = w := by
  rw [to_int_of_lt _ (by omega)]; omega

theorem hits_repack (h M p : Nat) (readahead : Bool) (hhl : h < p) (hp2 : p ≤ 1073741824)
    (hM : M = p - 1) (hp3 : 0 < p) :
    ((if readahead = true then min (to_int (to_uint (to_int h + 1))) (to_int M)
      else to_int h) % 18446744073709551616).toNat
      = (if readahead = true then min (h + 1) M else h) := by
  rw [to_int_of_lt h (by omega), to_int_of_lt M (by omega)]
  have h1 : to_uint ((h : Int) + 1) = h + 1 := by
    unfold to_uint; omega
  rw [h1, to_int_of_lt _ (by omega)]
  split <;> omega

/-- The word that a found page makes `hermit_lookup_swap_cache` store for a
region: the address is `addr` with the page-offset bits cleared, the window is
the one read through `GET_SWAP_RA_VAL`, the hits are those read, plus one and
capped at `SWAP_RA_HITS_MAX` when the page had its readahead flag set. -/
theorem lookup_ra_update_fields (c : hermit_config) (v addr : Nat) (readahead : Bool)
    (hs : c.PAGE_SHIFT ≤ 61) :
    SWAP_RA_ADDR c (lookup_ra_update c v addr readahead) = addr &&& PAGE_MASK c ∧
    SWAP_RA_WIN c (lookup_ra_update c v addr readahead) =
      SWAP_RA_WIN c (GET_SWAP_RA_VAL v) ∧
    SWAP_RA_HITS c (lookup_ra_update c v addr readahead) =
      (if readahead = true then
        min (SWAP_RA_HITS c (GET_SWAP_RA_VAL v) + 1) (SWAP_RA_HITS_MAX c)
       else SWAP_RA_HITS c (GET_SWAP_RA_VAL v)) ∧
    SWAP_RA_HITS c (lookup_ra_update c v addr readahead) ≤ SWAP_RA_HITS_MAX c := by
  have hs63 : c.PAGE_SHIFT ≤ 63 := by omega
  have hwl := SWAP_RA_WIN_lt c (GET_SWAP_RA_VAL v) hs63
  have hhl := SWAP_RA_HITS_lt c (GET_SWAP_RA_VAL v) hs63
  have hp1 : 2 ^ (c.PAGE_SHIFT - c.PAGE_SHIFT / 2) ≤ 2 ^ 31 :=
    Nat.pow_le_pow_right (by norm_num) (by omega)
  have hp2 : 2 ^ (c.PAGE_SHIFT / 2) ≤ 2 ^ 30 :=
    Nat.pow_le_pow_right (by norm_num) (by omega)
  have hp3 : 0 < 2 ^ (c.PAGE_SHIFT / 2) := Nat.pow_pos (by norm_num)
  norm_num at hp1 hp2
  have hmax : SWAP_RA_HITS_MAX c = 2 ^ (c.PAGE_SHIFT / 2) - 1 := by
    unfold SWAP_RA_HITS_MAX; exact SWAP_RA_HITS_MASK_eq c hs63
  have hwin := win_repack _ _ hwl hp1
  have hhits := hits_repack _ _ _ readahead hhl hp2 hmax hp3
  have hle : (if readahead = true then
          min (SWAP_RA_HITS c (GET_SWAP_RA_VAL v) + 1) (SWAP_RA_HITS_MAX c)
         else SWAP_RA_HITS c (GET_SWAP_RA_VAL v)) < 2 ^ (c.PAGE_SHIFT / 2) := by
    clear hwin hhits hwl hp1
    split <;> omega
  unfold lookup_ra_update
  simp only []
  rw [hwin, hhits]
  refine ⟨SWAP_RA_ADDR_VAL c _ _ _ hs63, SWAP_RA_WIN_VAL c _ _ _ hs63 hwl,
    SWAP_RA_HITS_VAL c _ _ _ hs63 hle, ?_⟩
  rw [SWAP_RA_HITS_VAL c _ _ _ hs63 hle]
  clear hwin hhits hwl hp1
  omega

/-- The result of `hermit_lookup_swap_cache` when it finds a page that is not
compound. -/
theorem hermit_lookup_swap_cache_regions (c : hermit_config) (s : swap_state)
    (entry : swp_entry_t) (vma : Option vm_area_struct) (addr : Nat)
    (dsa : Option ds_area_struct) (pagep : Nat)
    (hlive : s.swap_device_live entry.val = true)
    (hslot : s.hermit_swapcache (swp_offset entry) = some pagep)
    (hbase : (s.mem pagep).compound = false) :
    ∃ s1, hermit_lookup_swap_cache c s entry vma addr dsa =
      (some pagep, s1,
        (match vma with
          | some v =>
            if c.enable_vma_readahead = true then
              some { v with swap_readahead_info :=
                lookup_ra_update c v.swap_readahead_info addr (s.mem pagep).PG_readahead }
            else some v
          | none => none),
        (match dsa with
          | some d =>
            some { d with swap_readahead_info :=
              lookup_ra_update c d.swap_readahead_info addr (s.mem pagep).PG_readahead }
          | none => none)) := by
  unfold hermit_lookup_swap_cache
  rw [if_neg (by simp [hlive])]
  simp only [hmt_sc_load_get, hslot]
  have hc : (page_ref_add s pagep 1).mem pagep = { s.mem pagep with
      refcount := (s.mem pagep).refcount + 1 } := by
    simp [page_ref_add, update_page]
  rw [if_neg (by simp [hc, hbase])]
  simp only [hc]
  exact ⟨_, rfl⟩

/-- C20 (counterexample): a region whose stored word is 0, that is stored
hits 0, and a found page without the readahead flag: the word stored by the
lookup has 4 hits, not 0. -/
theorem C20_counterexample :
    (SWAP_RA_HITS default_config 0 = 0 ∧
      ((hmt_sc_store empty_state 5 (some 7)).mem 7).PG_readahead = false ∧
      ((hmt_sc_store empty_state 5 (some 7)).mem 7).compound = false ∧
      default_config.enable_vma_readahead = true) ∧
    (hermit_lookup_swap_cache default_config (hmt_sc_store empty_state 5 (some 7))
      { val := 5 } (some { vm_start := 0, vm_end := 1048576, swap_readahead_info := 0 })
      8192 none).1 = some 7 ∧
    (hermit_lookup_swap_cache default_config (hmt_sc_store empty_state 5 (some 7))
      { val := 5 } (some { vm_start := 0, vm_end := 1048576, swap_readahead_info := 0 })
      8192 none).2.2.1.map (fun v => SWAP_RA_HITS default_config v.swap_readahead_info)
      = some 4 := by
  decide

/-- C20 (amended): for every page shift up to 61, when
`hermit_lookup_swap_cache` finds a page that is not compound, each region (the
vma when vma readahead is enabled, and the dsa) gets the word with address
`addr & PAGE_MASK`, the window read from `GET_SWAP_RA_VAL` of its old word,
and hits `min(hits + 1, SWAP_RA_HITS_MAX)` if the page had its readahead flag
set and `hits` otherwise, where `hits` is read from `GET_SWAP_RA_VAL` of the
old word: the old word itself when it is not 0, and 4 when it is 0. The
stored hits never exceed `SWAP_RA_HITS_MAX`. A vma is left as it is when vma
readahead is disabled, and a lookup that finds no page leaves both regions as
they are. -/
theorem C20_lookup_updates_hits (c : hermit_config) (s : swap_state)
    (entry : swp_entry_t) (vma : Option vm_area_struct) (addr : Nat)
    (dsa : Option ds_area_struct) (hs : c.PAGE_SHIFT ≤ 61) :
    (∀ pagep, s.swap_device_live entry.val = true →
      s.hermit_swapcache (swp_offset entry) = some pagep →
      (s.mem pagep).compound = false →
      ∃ s1 vma1 dsa1,
        hermit_lookup_swap_cache c s entry vma addr dsa = (some pagep, s1, vma1, dsa1) ∧
        (∀ v, vma = some v → c.enable_vma_readahead = true →
          ∃ v1, vma1 = some v1 ∧ v1.vm_start = v.vm_start ∧ v1.vm_end = v.vm_end ∧
            SWAP_RA_ADDR c v1.swap_readahead_info = addr &&& PAGE_MASK c ∧
            SWAP_RA_WIN c v1.swap_readahead_info =
              SWAP_RA_WIN c (GET_SWAP_RA_VAL v.swap_readahead_info) ∧
            SWAP_RA_HITS c v1.swap_readahead_info =
              (if (s.mem pagep).PG_readahead = true then
                min (SWAP_RA_HITS c (GET_SWAP_RA_VAL v.swap_readahead_info) + 1)
                  (SWAP_RA_HITS_MAX c)
               else SWAP_RA_HITS c (GET_SWAP_RA_VAL v.swap_readahead_info)) ∧
            SWAP_RA_HITS c v1.swap_readahead_info ≤ SWAP_RA_HITS_MAX c) ∧
        (∀ v, vma = some v → c.enable_vma_readahead = false → vma1 = some v) ∧
        (∀ d, dsa = some d →
          ∃ d1, dsa1 = some d1 ∧ d1.type = d.type ∧
            SWAP_RA_ADDR c d1.swap_readahead_info = addr &&& PAGE_MASK c ∧
            SWAP_RA_WIN c d1.swap_readahead_info =
              SWAP_RA_WIN c (GET_SWAP_RA_VAL d.swap_readahead_info) ∧
            SWAP_RA_HITS c d1.swap_readahead_info =
              (if (s.mem pagep).PG_readahead = true then
                min (SWAP_RA_HITS c (GET_SWAP_RA_VAL d.swap_readahead_info) + 1)
                  (SWAP_RA_HITS_MAX c)
               else SWAP_RA_HITS c (GET_SWAP_RA_VAL d.swap_readahead_info)) ∧
            SWAP_RA_HITS c d1.swap_readahead_info ≤ SWAP_RA_HITS_MAX c)) ∧
    ((hermit_lookup_swap_cache c s entry vma addr dsa).1 = none →
      (hermit_lookup_swap_cache c s entry vma addr dsa).2.2 = (vma, dsa)) ∧
    (∀ x, x ≠ 0 → GET_SWAP_RA_VAL x = x) ∧ GET_SWAP_RA_VAL 0 = 4 := by
  refine ⟨?_, ?_, ?_, ?_⟩
  · intro pagep hlive hslot hbase
    obtain ⟨s1, h1⟩ :=
      hermit_lookup_swap_cache_regions c s entry vma addr dsa pagep hlive hslot hbase
    refine ⟨s1, _, _, h1, ?_, ?_, ?_⟩
    · intro v hv hen
      subst hv
      simp only [hen, if_true]
      obtain ⟨f1, f2, f3, f4⟩ := lookup_ra_update_fields c v.swap_readahead_info addr
        (s.mem pagep).PG_readahead hs
      exact ⟨_, rfl, rfl, rfl, f1, f2, f3, f4⟩
    · intro v hv hen
      subst hv
      simp [hen]
    · intro d hd
      subst hd
      obtain ⟨f1, f2, f3, f4⟩ := lookup_ra_update_fields c d.swap_readahead_info addr
        (s.mem pagep).PG_readahead hs
      exact ⟨_, rfl, rfl, f1, f2, f3, f4⟩
  · intro hnone
    unfold hermit_lookup_swap_cache at hnone ⊢
    split
    · rfl
    · rename_i hl
      rw [if_neg hl] at hnone
      cases hc : (hmt_sc_load_get s (swp_offset entry)).1 with
      | none => simp only [hc]
      | some p =>
        simp only [hc] at hnone
        split at hnone <;> simp at hnone
  · intro x hx
    unfold GET_SWAP_RA_VAL
    rw [if_pos hx]
  · rfl

/-- C20 (witness): slot 5 holds page 7 with its readahead flag set, and
the lookup at address 8192 updates a vma whose stored word is 0 (read as 4
hits) and a dsa whose stored word is 12295 (address 12288, window 0, hits
7). -/
theorem C20_lookup_updates_hits_witness :
    default_config.PAGE_SHIFT ≤ 61 ∧
    ∃ s1 vma1 dsa1,
      hermit_lookup_swap_cache default_config cached_state ⟨5⟩
        (some { vm_start := 0, vm_end := 1048576, swap_readahead_info := 0 }) 8192
        (some { type := dsa_type.DSA_STREAMING, swap_readahead_info := 12295 })
        = (some 7, s1, vma1, dsa1) ∧
      (∀ v : vm_area_struct,
        some { vm_start := 0, vm_end := 1048576, swap_readahead_info := 0 } = some v →
        default_config.enable_vma_readahead = true →
        ∃ v1, vma1 = some v1 ∧ v1.vm_start = v.vm_start ∧ v1.vm_end = v.vm_end ∧
          SWAP_RA_ADDR default_config v1.swap_readahead_info
            = 8192 &&& PAGE_MASK default_config ∧
          SWAP_RA_WIN default_config v1.swap_readahead_info =
            SWAP_RA_WIN default_config (GET_SWAP_RA_VAL v.swap_readahead_info) ∧
          SWAP_RA_HITS default_config v1.swap_readahead_info =
            (if (cached_state.mem 7).PG_readahead = true then
              min (SWAP_RA_HITS default_config (GET_SWAP_RA_VAL v.swap_readahead_info) + 1)
                (SWAP_RA_HITS_MAX default_config)
             else SWAP_RA_HITS default_config (GET_SWAP_RA_VAL v.swap_readahead_info)) ∧
          SWAP_RA_HITS default_config v1.swap_readahead_info
            ≤ SWAP_RA_HITS_MAX default_config) ∧
      (∀ v : vm_area_struct,
        some { vm_start := 0, vm_end := 1048576, swap_readahead_info := 0 } = some v →
        default_config.enable_vma_readahead = false → vma1 = some v) ∧
      (∀ d : ds_area_struct,
        some { type := dsa_type.DSA_STREAMING, swap_readahead_info := 12295 } = some d →
        ∃ d1, dsa1 = some d1 ∧ d1.type = d.type ∧
          SWAP_RA_ADDR default_config d1.swap_readahead_info
            = 8192 &&& PAGE_MASK default_config ∧
          SWAP_RA_WIN default_config d1.swap_readahead_info =
            SWAP_RA_WIN default_config (GET_SWAP_RA_VAL d.swap_readahead_info) ∧
          SWAP_RA_HITS default_config d1.swap_readahead_info =
            (if (cached_state.mem 7).PG_readahead = true then
              min (SWAP_RA_HITS default_config (GET_SWAP_RA_VAL d.swap_readahead_info) + 1)
                (SWAP_RA_HITS_MAX default_config)
             else SWAP_RA_HITS default_config (GET_SWAP_RA_VAL d.swap_readahead_info)) ∧
          SWAP_RA_HITS default_config d1.swap_readahead_info
            ≤ SWAP_RA_HITS_MAX default_config) :=
  ⟨by decide,
    (C20_lookup_updates_hits default_config cached_state ⟨5⟩
      (some { vm_start := 0, vm_end := 1048576, swap_readahead_info := 0 }) 8192
      (some { type := dsa_type.DSA_STREAMING, swap_readahead_info := 12295 })
      (by decide)).1 7 (by decide) (by decide) (by decide)⟩

/-! ## Address spaces and the key of the cache -/

/-- C12 (the code at the failing input): device 0 gets its address spaces for
100 slots, page 7 is inserted for slot 5 of device 0 and stays resident; then
`exit_swap_address_space(0)` raises no warning, although the slot still holds
the page and `nrpages` of its segment is 1. It resets `nr_swapper_spaces[0]`
to 0 and `swapper_spaces[0]` to `NULL`. -/
theorem C12_exit_does_not_warn_on_resident_page :
    (init_swap_address_space empty_state true 0 100).1 = 0 ∧
    (add_to_swap_cache default_config (init_swap_address_space empty_state true 0 100).2 7
      (swp_entry 0 5)).value = some 0 ∧
    (add_to_swap_cache default_config (init_swap_address_space empty_state true 0 100).2 7
      (swp_entry 0 5)).state.hermit_swapcache 5 = some 7 ∧
    ((add_to_swap_cache default_config (init_swap_address_space empty_state true 0 100).2 7
      (swp_entry 0 5)).state.swapper_spaces 0 0).nrpages = 1 ∧
    default_config.CONFIG_DEBUG_VM = true ∧
    (exit_swap_address_space default_config
      (add_to_swap_cache default_config (init_swap_address_space empty_state true 0 100).2 7
        (swp_entry 0 5)).state 0).1 = false ∧
    (exit_swap_address_space default_config
      (add_to_swap_cache default_config (init_swap_address_space empty_state true 0 100).2 7
        (swp_entry 0 5)).state 0).2.nr_swapper_spaces 0 = 0 ∧
    (exit_swap_address_space default_config
      (add_to_swap_cache default_config (init_swap_address_space empty_state true 0 100).2 7
        (swp_entry 0 5)).state 0).2.swapper_spaces_null 0 = true := by
  decide

/-! ## The fetch path -/

/-- A lookup that finds a page ends the loop at once. -/
theorem read_swap_cache_loop_hit (c : hermit_config) (env : fetch_env) (entry : swp_entry_t)
    (with_charge : Bool) (fuel pagep : Nat) (w : fetch_world)
    (hlive : w.s.swap_device_live entry.val = true)
    (hslot : w.s.hermit_swapcache (swp_offset entry) = some pagep) :
    read_swap_cache_loop c env entry with_charge (fuel + 1) w =
      some (fetch_result.ret (some pagep, false) { w with s := page_ref_add w.s pagep 1 }) := by
  unfold read_swap_cache_loop
  rw [if_neg (by simp [hlive])]
  simp only [hmt_sc_load_get, hslot]

/-- C13: for every entry whose swap device is live and whose slot holds a
page, `__read_swap_cache_async_profiling`, its `without_charge` variant and
its `trylock` variant return that page with `*new_page_allocated = false`;
the only change is the reference taken on the page and the trace of calls is
unchanged, so no page is allocated and no reservation is attempted.
`read_swap_cache_async` returns the page with the same unchanged trace, so it
calls neither `swap_readpage` nor `hermit_poll_read`. One loop iteration
suffices. -/
theorem C13_hit_before_fetch (c : hermit_config) (env : fetch_env) (entry : swp_entry_t)
    (do_poll : Bool) (fuel pagep : Nat) (w : fetch_world)
    (hlive : w.s.swap_device_live entry.val = true)
    (hslot : w.s.hermit_swapcache (swp_offset entry) = some pagep) :
    __read_swap_cache_async_profiling c env entry (fuel + 1) w =
      some (fetch_result.ret (some pagep, false) { w with s := page_ref_add w.s pagep 1 }) ∧
    __read_swap_cache_async_without_charge_profiling c env entry (fuel + 1) w =
      some (fetch_result.ret (some pagep, false) { w with s := page_ref_add w.s pagep 1 }) ∧
    __read_swap_cache_async_profiling_trylock c env entry w =
      fetch_result.ret (some pagep, false) { w with s := page_ref_add w.s pagep 1 } ∧
    read_swap_cache_async c env entry do_poll (fuel + 1) w =
      some (fetch_result.ret (some pagep) { w with s := page_ref_add w.s pagep 1 }) ∧
    ({ w with s := page_ref_add w.s pagep 1 } : fetch_world).trace = w.trace := by
  have h1 := read_swap_cache_loop_hit c env entry true fuel pagep w hlive hslot
  have h2 := read_swap_cache_loop_hit c env entry false fuel pagep w hlive hslot
  refine ⟨h1, h2, ?_, ?_, rfl⟩
  · unfold __read_swap_cache_async_profiling_trylock
    rw [if_neg (by simp [hlive])]
    simp only [hmt_sc_load_get, hslot]
  · unfold read_swap_cache_async __read_swap_cache_async_profiling
    rw [h1]
    simp

/-- C13 (witness): slot 5 of `cached_world` holds page 7. -/
theorem C13_hit_before_fetch_witness :
    (cached_world.s.swap_device_live 5 = true ∧
      cached_world.s.hermit_swapcache (swp_offset { val := 5 }) = some 7) ∧
    __read_swap_cache_async_profiling default_config example_env { val := 5 } 1 cached_world =
      some (fetch_result.ret (some 7, false)
        { cached_world with s := page_ref_add cached_world.s 7 1 }) ∧
    read_swap_cache_async default_config example_env { val := 5 } true 1 cached_world =
      some (fetch_result.ret (some 7)
        { cached_world with s := page_ref_add cached_world.s 7 1 }) :=
  ⟨by decide,
   (C13_hit_before_fetch default_config example_env { val := 5 } true 0 7 cached_world
     (by decide) (by decide)).1,
   (C13_hit_before_fetch default_config example_env { val := 5 } true 0 7 cached_world
     (by decide) (by decide)).2.2.2.1⟩

/-- C14: for every entry that misses the cache and whose swap count is zero
while the swap slot cache is enabled, `__read_swap_cache_async_profiling`, its
`without_charge` variant and its `trylock` variant return `NULL` with
`*new_page_allocated = false` in the unchanged world: no call is made (no
allocation, no reservation) and the cache is as before. `read_swap_cache_async`
then returns `NULL` in the unchanged world as well, so it issues no read. One
loop iteration suffices. -/
theorem C14_unused_slot_short_circuit (c : hermit_config) (env : fetch_env)
    (entry : swp_entry_t) (do_poll : Bool) (fuel : Nat) (w : fetch_world)
    (hslot : w.s.hermit_swapcache (swp_offset entry) = none)
    (hcount : env.__swp_swapcount w.trace entry.val = 0)
    (henabled : env.swap_slot_cache_enabled w.trace = true) :
    __read_swap_cache_async_profiling c env entry (fuel + 1) w =
      some (fetch_result.ret (none, false) w) ∧
    __read_swap_cache_async_without_charge_profiling c env entry (fuel + 1) w =
      some (fetch_result.ret (none, false) w) ∧
    __read_swap_cache_async_profiling_trylock c env entry w =
      fetch_result.ret (none, false) w ∧
    read_swap_cache_async c env entry do_poll (fuel + 1) w =
      some (fetch_result.ret none w) := by
  have hloop : ∀ b, read_swap_cache_loop c env entry b (fuel + 1) w =
      some (fetch_result.ret (none, false) w) := by
    intro b
    unfold read_swap_cache_loop
    split
    · rfl
    · simp only [hmt_sc_load_get, hslot]
      rw [if_pos ⟨hcount, henabled⟩]
  refine ⟨hloop true, hloop false, ?_, ?_⟩
  · unfold __read_swap_cache_async_profiling_trylock
    split
    · rfl
    · simp only [hmt_sc_load_get, hslot]
      rw [if_pos ⟨hcount, henabled⟩]
  · unfold read_swap_cache_async __read_swap_cache_async_profiling
    rw [hloop true]
    simp

/-- C14 (witness): an unused slot in the empty cache. -/
theorem C14_unused_slot_short_circuit_witness :
    (empty_world.s.hermit_swapcache (swp_offset { val := 5 }) = none ∧
      ({ example_env with __swp_swapcount := fun _ _ => 0 } : fetch_env).__swp_swapcount
        empty_world.trace 5 = 0 ∧
      ({ example_env with __swp_swapcount := fun _ _ => 0 } : fetch_env).swap_slot_cache_enabled
        empty_world.trace = true) ∧
    __read_swap_cache_async_profiling default_config
      { example_env with __swp_swapcount := fun _ _ => 0 } { val := 5 } 1 empty_world =
      some (fetch_result.ret (none, false) empty_world) :=
  ⟨⟨by decide, by decide, by decide⟩,
   (C14_unused_slot_short_circuit default_config
     { example_env with __swp_swapcount := fun _ _ => 0 } { val := 5 } true 0 empty_world
     (by decide) (by decide) (by decide)).1⟩

/-! ## Roll-back of a failed fetch -/

/-- Whenever `add_to_swap_cache` returns, it returns 0, the slot was empty
before and holds the page afterwards. -/
theorem add_to_swap_cache_ret (c : hermit_config) (s s1 : swap_state) (pagep : Nat)
    (entry : swp_entry_t) (v : Int)
    (h : add_to_swap_cache c s pagep entry = outcome.ret v s1) :
    v = 0 ∧ s.hermit_swapcache (swp_offset entry) = none ∧
    s1.hermit_swapcache (swp_offset entry) = some pagep := by
  unfold add_to_swap_cache at h
  simp only [] at h
  split at h
  · exact absurd h (by simp)
  · split at h
    · exact absurd h (by simp)
    · split at h
      · exact absurd h (by simp)
      · split at h
        · exact absurd h (by simp)
        · split at h
          · rename_i hnone
            simp only [outcome.ret.injEq] at h
            refine ⟨h.1.symm, ?_, ?_⟩
            · simpa [SetPageSwapCache, page_ref_add, update_page] using hnone
            · rw [← h.2]
              simp [mod_nrpages, set_page_private, hmt_sc_store, update_page]
          · exact absurd h (by simp)

/-- The lookup `hmt_sc_load_get` leaves the slots as they are. -/
theorem hmt_sc_load_get_cache (s : swap_state) (i : Nat) :
    (hmt_sc_load_get s i).2.hermit_swapcache = s.hermit_swapcache := by
  unfold hmt_sc_load_get
  split <;> rfl

/-- A lookup that finds nothing: the slot is empty and the state is unchanged. -/
theorem hmt_sc_load_get_none (s : swap_state) (i : Nat)
    (h : (hmt_sc_load_get s i).1 = none) :
    s.hermit_swapcache i = none ∧ (hmt_sc_load_get s i).2 = s := by
  unfold hmt_sc_load_get at h ⊢
  split at h
  · simp at h
  · rename_i hn
    simp [hn]

/-- A successful allocation: the world afterwards. -/
theorem alloc_page_vma_some (env : fetch_env) (w : fetch_world) (p : Nat)
    (h : (alloc_page_vma env w).1 = some p) :
    (alloc_page_vma env w).2 =
      emit { w with s := update_page w.s p fun _ => fresh_page }
        (io_event.alloc_page_vma (some p)) := by
  unfold alloc_page_vma at h ⊢
  cases ha : env.alloc_page_vma w.trace with
  | none => simp [ha] at h
  | some q =>
    simp only [ha] at h ⊢
    simp only [Option.some.injEq] at h
    rw [h]

/-- A failed allocation: the world afterwards. -/
theorem alloc_page_vma_none (env : fetch_env) (w : fetch_world)
    (h : (alloc_page_vma env w).1 = none) :
    (alloc_page_vma env w).2 = emit w (io_event.alloc_page_vma none) := by
  unfold alloc_page_vma at h ⊢
  cases ha : env.alloc_page_vma w.trace with
  | none => rfl
  | some q => simp [ha] at h

/-- The statements after the loop of `__read_swap_cache_async_profiling`, run
on a fresh base page and an empty slot: either the charge fails and the
reservation and the page are released, or the page is inserted and returned. -/
theorem read_swap_cache_tail_spec (c : hermit_config) (env : fetch_env) (entry : swp_entry_t)
    (p : Nat) (w : fetch_world)
    (hnr : (w.s.mem p).nr_pages = 1) (hnsc : (w.s.mem p).PG_swapcache = false)
    (hempty : w.s.hermit_swapcache (swp_offset entry) = none) :
    ∃ v w1, read_swap_cache_tail c env entry true p w = fetch_result.ret v w1 ∧
      ((∃ err : Int, err ≠ 0 ∧ v = (none, false) ∧
          w1.trace = io_event.put_page p :: io_event.unlock_page p ::
            io_event.put_swap_page p entry.val ::
            io_event.hermit_mem_cgroup_swapin_charge_page p err :: w.trace ∧
          w1.s.hermit_swapcache = w.s.hermit_swapcache ∧
          (w1.s.mem p).PG_locked = false) ∨
       (v = (some p, true) ∧
          w1.trace = io_event.lru_cache_add p ::
            io_event.hermit_mem_cgroup_swapin_charge_page p 0 :: w.trace ∧
          w1.s.hermit_swapcache (swp_offset entry) = some p ∧
          ∀ i, i ≠ swp_offset entry → w1.s.hermit_swapcache i = w.s.hermit_swapcache i)) := by
  unfold read_swap_cache_tail
  simp only [if_true]
  by_cases herr : env.hermit_mem_cgroup_swapin_charge_page w.trace p = 0
  · obtain ⟨s1, hadd, a1, a2, _⟩ := add_to_swap_cache_ok c (set_locked_swapbacked w.s p) p entry
      (by simp [set_locked_swapbacked, update_page])
      (by simp [set_locked_swapbacked, update_page])
      (by simp [set_locked_swapbacked, update_page, hnr])
      (by intro _; simp [set_locked_swapbacked, update_page, hnsc])
      (by simp [set_locked_swapbacked, update_page, hempty])
    refine ⟨(some p, true),
      emit { s := s1, trace := io_event.hermit_mem_cgroup_swapin_charge_page p 0 :: w.trace }
        (io_event.lru_cache_add p), ?_, Or.inr ⟨rfl, ?_, ?_, ?_⟩⟩
    · simp only [herr, ne_eq, not_true_eq_false, if_false, emit, hadd]
    · simp [emit]
    · simpa [emit] using a1
    · intro i hi
      simpa [emit, set_locked_swapbacked, update_page] using a2 i hi
  · refine ⟨(none, false),
      put_page (unlock_page (emit (emit { w with s := set_locked_swapbacked w.s p }
        (io_event.hermit_mem_cgroup_swapin_charge_page p
          (env.hermit_mem_cgroup_swapin_charge_page w.trace p)))
        (io_event.put_swap_page p entry.val)) p) p,
      ?_, Or.inl ⟨_, herr, rfl, ?_, ?_, ?_⟩⟩
    · simp only [ne_eq, herr, not_false_eq_true, if_true, read_swap_cache_unlock]
    · simp [put_page, unlock_page, emit]
    · simp [put_page, unlock_page, emit, page_ref_add, update_page, set_locked_swapbacked]
    · simp [put_page, unlock_page, emit, page_ref_add, update_page, set_locked_swapbacked]

/-- Every result of the loop of `__read_swap_cache_async_profiling` is a
return of one of three kinds: the new page inserted, the roll-back after a
failed charge, or a return without a won reservation. -/
theorem read_swap_cache_loop_spec (c : hermit_config) (env : fetch_env) (entry : swp_entry_t)
    (fuel : Nat) : ∀ (w : fetch_world) (r : fetch_result (Option Nat × Bool)),
    read_swap_cache_loop c env entry true fuel w = some r →
    ∃ v w1, r = fetch_result.ret v w1 ∧
      ((∃ p mid, v = (some p, true) ∧
          w1.trace = io_event.lru_cache_add p ::
            io_event.hermit_mem_cgroup_swapin_charge_page p 0 ::
            io_event.swapcache_prepare entry.val 0 ::
            io_event.alloc_page_vma (some p) :: (mid ++ w.trace) ∧
          w1.s.hermit_swapcache (swp_offset entry) = some p ∧
          w.s.hermit_swapcache (swp_offset entry) = none ∧
          ∀ i, i ≠ swp_offset entry → w1.s.hermit_swapcache i = w.s.hermit_swapcache i) ∨
       (∃ p mid, ∃ err : Int, err ≠ 0 ∧ v = (none, false) ∧
          w1.trace = io_event.put_page p :: io_event.unlock_page p ::
            io_event.put_swap_page p entry.val ::
            io_event.hermit_mem_cgroup_swapin_charge_page p err ::
            io_event.swapcache_prepare entry.val 0 ::
            io_event.alloc_page_vma (some p) :: (mid ++ w.trace) ∧
          w1.s.hermit_swapcache = w.s.hermit_swapcache ∧
          (w1.s.mem p).PG_locked = false) ∨
       (v.2 = false ∧ w1.s.hermit_swapcache = w.s.hermit_swapcache ∧
          ∃ mid, w1.trace = mid ++ w.trace ∧
            ∀ x, io_event.swapcache_prepare x 0 ∉ mid)) := by
  induction fuel with
  | zero => intro w r h; simp [read_swap_cache_loop] at h
  | succ n ih =>
    intro w r h
    unfold read_swap_cache_loop at h
    split at h
    · simp only [Option.some.injEq] at h
      exact ⟨_, _, h.symm, Or.inr (Or.inr ⟨rfl, rfl, [], rfl, by simp⟩)⟩
    · simp only [] at h
      split at h
      · simp only [Option.some.injEq] at h
        exact ⟨_, _, h.symm, Or.inr (Or.inr ⟨rfl, hmt_sc_load_get_cache _ _, [], rfl, by simp⟩)⟩
      · rename_i hnone
        obtain ⟨hslot, hsame⟩ := hmt_sc_load_get_none _ _ hnone
        rw [hsame] at h
        split at h
        · simp only [Option.some.injEq] at h
          exact ⟨_, _, h.symm, Or.inr (Or.inr ⟨rfl, rfl, [], rfl, by simp⟩)⟩
        · split at h
          · rename_i ha
            rw [alloc_page_vma_none _ _ ha] at h
            simp only [Option.some.injEq] at h
            exact ⟨_, _, h.symm, Or.inr (Or.inr ⟨rfl, rfl, [io_event.alloc_page_vma none],
              rfl, by simp⟩)⟩
          · rename_i p hp
            rw [alloc_page_vma_some _ _ _ hp] at h
            split at h
            · rename_i herr
              simp only [Option.some.injEq] at h
              obtain ⟨v, w1, ht, hcase⟩ := read_swap_cache_tail_spec c env entry p
                (emit (emit { w with s := update_page w.s p fun _ => fresh_page }
                  (io_event.alloc_page_vma (some p)))
                  (io_event.swapcache_prepare entry.val
                    (env.swapcache_prepare (emit { w with s := update_page w.s p fun _ =>
                      fresh_page } (io_event.alloc_page_vma (some p))).trace entry.val)))
                (by simp [emit, update_page, fresh_page])
                (by simp [emit, update_page, fresh_page])
                (by simpa [emit, update_page] using hslot)
              rw [ht] at h
              refine ⟨v, w1, h.symm, ?_⟩
              rcases hcase with ⟨err, he, hv, htr, hc, hl⟩ | ⟨hv, htr, hc, hoth⟩
              · right; left
                refine ⟨p, [], err, he, hv, ?_, ?_, hl⟩
                · rw [htr]; simp [emit] at herr ⊢; exact herr
                · rw [hc]; simp [emit, update_page]
              · left
                refine ⟨p, [], hv, ?_, hc, hslot, ?_⟩
                · rw [htr]; simp [emit] at herr ⊢; exact herr
                · intro i hi; rw [hoth i hi]; simp [emit, update_page]
            · rename_i herr
              split at h
              · simp only [Option.some.injEq] at h
                refine ⟨_, _, h.symm, Or.inr (Or.inr ⟨rfl, ?_, [io_event.put_page p,
                  io_event.swapcache_prepare entry.val
                    (env.swapcache_prepare (io_event.alloc_page_vma (some p) :: w.trace)
                      entry.val),
                  io_event.alloc_page_vma (some p)], ?_, ?_⟩)⟩
                · simp [put_page, emit, page_ref_add, update_page]
                · simp [put_page, emit]
                · intro x hx
                  simp only [List.mem_cons, io_event.swapcache_prepare.injEq, List.mem_singleton,
                    List.not_mem_nil, or_false, reduceCtorEq, false_or] at hx
                  exact herr (by simpa [emit] using hx.2.symm)
              · rename_i hee
                obtain ⟨v, w1, hr, hcase⟩ := ih _ r h
                refine ⟨v, w1, hr, ?_⟩
                have hcache : (put_page (emit (emit { w with s := update_page w.s p fun _ =>
                    fresh_page } (io_event.alloc_page_vma (some p)))
                    (io_event.swapcache_prepare entry.val
                      (env.swapcache_prepare (emit { w with s := update_page w.s p fun _ =>
                        fresh_page } (io_event.alloc_page_vma (some p))).trace entry.val)))
                    p).s.hermit_swapcache = w.s.hermit_swapcache := by
                  simp [put_page, emit, page_ref_add, update_page]
                have htrace : (put_page (emit (emit { w with s := update_page w.s p fun _ =>
                    fresh_page } (io_event.alloc_page_vma (some p)))
                    (io_event.swapcache_prepare entry.val
                      (env.swapcache_prepare (emit { w with s := update_page w.s p fun _ =>
                        fresh_page } (io_event.alloc_page_vma (some p))).trace entry.val)))
                    p).trace = [io_event.put_page p,
                      io_event.swapcache_prepare entry.val
                        (env.swapcache_prepare (io_event.alloc_page_vma (some p) :: w.trace)
                          entry.val),
                      io_event.alloc_page_vma (some p)] ++ w.trace := by
                  simp [put_page, emit]
                rw [hcache, htrace] at hcase
                rcases hcase with ⟨q, mid, hv, htr, hc, hs, hoth⟩ |
                  ⟨q, mid, err, he, hv, htr, hc, hl⟩ | ⟨hv, hc, mid, htr, hno⟩
                · left
                  exact ⟨q, mid ++ _, hv, by rw [htr, List.append_assoc], hc, hs, hoth⟩
                · right; left
                  exact ⟨q, mid ++ _, err, he, hv, by rw [htr, List.append_assoc], hc, hl⟩
                · right; right
                  refine ⟨hv, hc, mid ++ _, by rw [htr, List.append_assoc], ?_⟩
                  intro x hx
                  rw [List.mem_append] at hx
                  rcases hx with hx | hx
                  · exact hno x hx
                  · simp only [List.mem_cons, io_event.swapcache_prepare.injEq,
                      List.mem_singleton, List.not_mem_nil, or_false, reduceCtorEq,
                      false_or] at hx
                    exact herr (by simpa [emit] using hx.2.symm)

/-- The loop of the fetch path ends when the environment answers `-EEXIST` to
`swapcache_prepare` at most `n` times: more than `n` iterations are enough. -/
theorem read_swap_cache_loop_total (c : hermit_config) (env : fetch_env) (entry : swp_entry_t)
    (with_charge : Bool) (n : Nat)
    (hbound : ∀ t, env.swapcache_prepare t entry.val = EEXIST_neg →
      prepare_retries entry t < n)
    (fuel : Nat) : ∀ (w : fetch_world), n < fuel + prepare_retries entry w.trace → 1 ≤ fuel →
    ∃ r, read_swap_cache_loop c env entry with_charge fuel w = some r := by
  induction fuel with
  | zero => intro w _ h; omega
  | succ k ih =>
    intro w hn _
    unfold read_swap_cache_loop
    split
    · exact ⟨_, rfl⟩
    · simp only []
      split
      · exact ⟨_, rfl⟩
      · rename_i hnone
        obtain ⟨_, hsame⟩ := hmt_sc_load_get_none _ _ hnone
        rw [hsame]
        split
        · exact ⟨_, rfl⟩
        · split
          · exact ⟨_, rfl⟩
          · rename_i p hp
            rw [alloc_page_vma_some _ _ _ hp]
            split
            · exact ⟨_, rfl⟩
            · split
              · exact ⟨_, rfl⟩
              · rename_i hee
                have hee1 : env.swapcache_prepare
                    (io_event.alloc_page_vma (some p) :: w.trace) entry.val = EEXIST_neg := by
                  simpa [emit] using hee
                have hlt := hbound _ hee1
                have hr0 : prepare_retries entry (io_event.alloc_page_vma (some p) :: w.trace)
                    = prepare_retries entry w.trace := by
                  simp [prepare_retries, List.filter_cons, is_retry]
                have hr1 : prepare_retries entry
                    (put_page (emit (emit { w with s := update_page w.s p fun _ => fresh_page }
                      (io_event.alloc_page_vma (some p)))
                      (io_event.swapcache_prepare entry.val
                        (env.swapcache_prepare (emit { w with s := update_page w.s p fun _ =>
                          fresh_page } (io_event.alloc_page_vma (some p))).trace entry.val)))
                      p).trace = prepare_retries entry w.trace + 1 := by
                  simp [put_page, emit, prepare_retries, List.filter_cons, is_retry, hee1]
                apply ih
                · rw [hr1]; omega
                · omega

/-- C15: every result of `__read_swap_cache_async_profiling` is a return
(never `BUG()`), on every NULL return `*new_page_allocated` is false, and the
return is of one of three kinds. (a) `*new_page_allocated = true`: the
returned page is the one this call allocated, for which `swapcache_prepare`
answered 0 and the charge succeeded, and it is now in the slot of the entry,
the other slots unchanged. (b) Roll-back: the reservation was won and the
charge failed; the last calls are `put_swap_page`, `unlock_page`, `put_page`
on the allocated page, NULL is returned with `*new_page_allocated = false`,
the page is unlocked and the cache contents are unchanged. (c) No
`swapcache_prepare` of this call answered 0; `*new_page_allocated = false`
and the cache contents are unchanged. The insertion itself never fails: when
`add_to_swap_cache` returns, it returns 0. A result exists as soon as the
fuel exceeds the number of `-EEXIST` answers that the environment gives. -/
theorem C15_rollback_on_failure (c : hermit_config) (env : fetch_env) (entry : swp_entry_t)
    (fuel : Nat) (w : fetch_world) :
    (∀ r, __read_swap_cache_async_profiling c env entry fuel w = some r →
      ∃ v w1, r = fetch_result.ret v w1 ∧ (v.1 = none → v.2 = false) ∧
        ((∃ p mid, v = (some p, true) ∧
            w1.trace = io_event.lru_cache_add p ::
              io_event.hermit_mem_cgroup_swapin_charge_page p 0 ::
              io_event.swapcache_prepare entry.val 0 ::
              io_event.alloc_page_vma (some p) :: (mid ++ w.trace) ∧
            w1.s.hermit_swapcache (swp_offset entry) = some p ∧
            w.s.hermit_swapcache (swp_offset entry) = none ∧
            ∀ i, i ≠ swp_offset entry → w1.s.hermit_swapcache i = w.s.hermit_swapcache i) ∨
         (∃ p mid, ∃ err : Int, err ≠ 0 ∧ v = (none, false) ∧
            w1.trace = io_event.put_page p :: io_event.unlock_page p ::
              io_event.put_swap_page p entry.val ::
              io_event.hermit_mem_cgroup_swapin_charge_page p err ::
              io_event.swapcache_prepare entry.val 0 ::
              io_event.alloc_page_vma (some p) :: (mid ++ w.trace) ∧
            w1.s.hermit_swapcache = w.s.hermit_swapcache ∧
            (w1.s.mem p).PG_locked = false) ∨
         (v.2 = false ∧ w1.s.hermit_swapcache = w.s.hermit_swapcache ∧
            ∃ mid, w1.trace = mid ++ w.trace ∧
              ∀ x, io_event.swapcache_prepare x 0 ∉ mid))) ∧
    (∀ n, (∀ t, env.swapcache_prepare t entry.val = EEXIST_neg →
        prepare_retries entry t < n) →
      ∃ r, __read_swap_cache_async_profiling c env entry (n + 1) w = some r) ∧
    (∀ s s1 p v, add_to_swap_cache c s p entry = outcome.ret v s1 → v = 0) := by
  refine ⟨?_, ?_, ?_⟩
  · intro r h
    obtain ⟨v, w1, hr, hcase⟩ := read_swap_cache_loop_spec c env entry fuel w r h
    refine ⟨v, w1, hr, ?_, hcase⟩
    intro hnone
    rcases hcase with ⟨p, _, hv, _⟩ | ⟨_, _, _, _, hv, _⟩ | ⟨hv, _⟩
    · rw [hv] at hnone; simp at hnone
    · rw [hv]
    · exact hv
  · intro n hbound
    exact read_swap_cache_loop_total c env entry true n hbound (n + 1) w (by omega) (by omega)
  · intro s s1 p v h
    exact (add_to_swap_cache_ret c s s1 p entry v h).1

/-- C15 (witness): the memory cgroup refuses the charge for slot 5 of an
empty cache, one iteration gives a result, and that result is a return of one
of the three kinds. -/
theorem C15_rollback_on_failure_witness :
    ∃ r, __read_swap_cache_async_profiling default_config charge_fail_env ⟨5⟩ 1 empty_world
        = some r ∧
      ∃ v w1, r = fetch_result.ret v w1 ∧ (v.1 = none → v.2 = false) ∧
        ((∃ p mid, v = (some p, true) ∧
            w1.trace = io_event.lru_cache_add p ::
              io_event.hermit_mem_cgroup_swapin_charge_page p 0 ::
              io_event.swapcache_prepare 5 0 ::
              io_event.alloc_page_vma (some p) :: (mid ++ empty_world.trace) ∧
            w1.s.hermit_swapcache (swp_offset ⟨5⟩) = some p ∧
            empty_world.s.hermit_swapcache (swp_offset ⟨5⟩) = none ∧
            ∀ i, i ≠ swp_offset ⟨5⟩ →
              w1.s.hermit_swapcache i = empty_world.s.hermit_swapcache i) ∨
         (∃ p mid, ∃ err : Int, err ≠ 0 ∧ v = (none, false) ∧
            w1.trace = io_event.put_page p :: io_event.unlock_page p ::
              io_event.put_swap_page p 5 ::
              io_event.hermit_mem_cgroup_swapin_charge_page p err ::
              io_event.swapcache_prepare 5 0 ::
              io_event.alloc_page_vma (some p) :: (mid ++ empty_world.trace) ∧
            w1.s.hermit_swapcache = empty_world.s.hermit_swapcache ∧
            (w1.s.mem p).PG_locked = false) ∨
         (v.2 = false ∧ w1.s.hermit_swapcache = empty_world.s.hermit_swapcache ∧
            ∃ mid, w1.trace = mid ++ empty_world.trace ∧
              ∀ x, io_event.swapcache_prepare x 0 ∉ mid)) :=
  ⟨_, rfl,
    (C15_rollback_on_failure default_config charge_fail_env ⟨5⟩ 1 empty_world).1 _ rfl⟩

/-! ## The speculative fetch -/

/-- The label `fail_free:` reached with `cpu` pointing to `v`: the issued page
is polled once and released, in this order. -/
theorem speculative_fail_free_spec (w : fetch_world) (v : Int) (p : Nat) (q : Option Nat) :
    speculative_fail_free w (some v) p q =
      fetch_result.ret (q, false, some v)
        (put_page (emit w (io_event.hermit_poll_read v (some p))) p) := rfl

/-- Every result of the loop of `__read_swap_cache_speculative` on a locked,
swap-backed fresh base page is a return: either the new page inserted, with
no poll, or a return that polls the issued page once and then releases it. -/
theorem speculative_loop_spec (c : hermit_config) (env : fetch_env) (entry : swp_entry_t)
    (cpu : Int) (p : Nat) (fuel : Nat) :
    ∀ (w : fetch_world) (r : fetch_result (Option Nat × Bool × Option Int)),
    (w.s.mem p).PG_locked = true → (w.s.mem p).PG_swapbacked = true →
    (w.s.mem p).nr_pages = 1 → (w.s.mem p).PG_swapcache = false →
    speculative_loop c env entry (some cpu) p fuel w = some r →
    ∃ v w1, r = fetch_result.ret v w1 ∧ v.2.2 = some cpu ∧
      ((v.1 = some p ∧ v.2.1 = true ∧
          w1.s.hermit_swapcache (swp_offset entry) = some p ∧
          ∃ mid, w1.trace = mid ++ w.trace ∧
            ∀ e ∈ mid, (∀ k q, e ≠ io_event.hermit_poll_read k q) ∧ e ≠ io_event.put_page p) ∨
       (v.2.1 = false ∧
          ∃ mid, w1.trace = io_event.put_page p ::
              io_event.hermit_poll_read cpu (some p) :: (mid ++ w.trace) ∧
            ∀ e ∈ mid, (∀ k q, e ≠ io_event.hermit_poll_read k q) ∧
              e ≠ io_event.put_page p)) := by
  induction fuel with
  | zero => intro w r _ _ _ _ h; simp [speculative_loop] at h
  | succ n ih =>
    intro w r hl hb hnr hnsc h
    unfold speculative_loop at h
    simp only [] at h
    split at h
    · simp only [Option.some.injEq] at h
      rw [speculative_fail_free_spec] at h
      exact ⟨_, _, h.symm, rfl, Or.inr ⟨rfl, [], by simp [put_page, emit], by simp⟩⟩
    · rename_i hnone
      obtain ⟨hslot, hsame⟩ := hmt_sc_load_get_none _ _ hnone
      rw [hsame] at h
      split at h
      · simp only [Option.some.injEq] at h
        rw [speculative_fail_free_spec] at h
        exact ⟨_, _, h.symm, rfl, Or.inr ⟨rfl, [], by simp [put_page, emit], by simp⟩⟩
      · split at h
        · rename_i herr
          simp only [Option.some.injEq] at h
          unfold speculative_tail at h
          simp only [] at h
          split at h
          · unfold speculative_fail_unlock at h
            simp only [] at h
            refine ⟨_, _, h.symm, rfl, Or.inr ⟨rfl, ?_⟩⟩
            refine ⟨[io_event.unlock_page p, io_event.put_swap_page p entry.val,
              io_event.hermit_mem_cgroup_swapin_charge_page p
                (env.hermit_mem_cgroup_swapin_charge_page
                  (io_event.swapcache_prepare entry.val (env.swapcache_prepare w.trace entry.val) ::
                    w.trace) p),
              io_event.swapcache_prepare entry.val (env.swapcache_prepare w.trace entry.val)], ?_, ?_⟩
            · simp [put_page, unlock_page, emit]
            · simp
          · obtain ⟨s1, hadd, a1, _⟩ := add_to_swap_cache_ok c w.s p entry hl hb hnr
              (fun _ => hnsc) hslot
            simp only [emit] at h
            rw [hadd] at h
            simp only [ne_eq, not_true_eq_false, if_false] at h
            refine ⟨_, _, h.symm, rfl, Or.inl ⟨rfl, rfl, by simpa [emit] using a1, ?_⟩⟩
            refine ⟨[io_event.lru_cache_add p,
              io_event.hermit_mem_cgroup_swapin_charge_page p
                (env.hermit_mem_cgroup_swapin_charge_page
                  (io_event.swapcache_prepare entry.val (env.swapcache_prepare w.trace entry.val) ::
                    w.trace) p),
              io_event.swapcache_prepare entry.val (env.swapcache_prepare w.trace entry.val)], ?_, ?_⟩
            · simp [emit]
            · simp
        · split at h
          · simp only [Option.some.injEq] at h
            rw [speculative_fail_free_spec] at h
            refine ⟨_, _, h.symm, rfl, Or.inr ⟨rfl,
              [io_event.swapcache_prepare entry.val (env.swapcache_prepare w.trace entry.val)], ?_, ?_⟩⟩
            · simp [put_page, emit]
            · simp
          · obtain ⟨v, w1, hr, hcpu, hcase⟩ := ih _ r (by simpa [emit] using hl)
              (by simpa [emit] using hb) (by simpa [emit] using hnr)
              (by simpa [emit] using hnsc) h
            refine ⟨v, w1, hr, hcpu, ?_⟩
            rcases hcase with ⟨h1, h2, h3, mid, htr, hno⟩ | ⟨h1, mid, htr, hno⟩
            · left
              refine ⟨h1, h2, h3, mid ++ [io_event.swapcache_prepare entry.val
                (env.swapcache_prepare w.trace entry.val)], ?_, ?_⟩
              · rw [htr]; simp [emit]
              · intro e he
                rw [List.mem_append] at he
                rcases he with he | he
                · exact hno e he
                · simp only [List.mem_singleton] at he
                  rw [he]; simp
            · right
              refine ⟨h1, mid ++ [io_event.swapcache_prepare entry.val
                (env.swapcache_prepare w.trace entry.val)], ?_, ?_⟩
              · rw [htr]; simp [emit]
              · intro e he
                rw [List.mem_append] at he
                rcases he with he | he
                · exact hno e he
                · simp only [List.mem_singleton] at he
                  rw [he]; simp

/-- The loop of `__read_swap_cache_speculative` ends when the environment
answers `-EEXIST` to `swapcache_prepare` at most `n` times. -/
theorem speculative_loop_total (c : hermit_config) (env : fetch_env) (entry : swp_entry_t)
    (cpu : Option Int) (p : Nat) (n : Nat)
    (hbound : ∀ t, env.swapcache_prepare t entry.val = EEXIST_neg →
      prepare_retries entry t < n)
    (fuel : Nat) : ∀ (w : fetch_world), n < fuel + prepare_retries entry w.trace → 1 ≤ fuel →
    ∃ r, speculative_loop c env entry cpu p fuel w = some r := by
  induction fuel with
  | zero => intro w _ h; omega
  | succ k ih =>
    intro w hn _
    unfold speculative_loop
    simp only []
    split
    · exact ⟨_, rfl⟩
    · rename_i hnone
      obtain ⟨_, hsame⟩ := hmt_sc_load_get_none _ _ hnone
      rw [hsame]
      split
      · exact ⟨_, rfl⟩
      · split
        · exact ⟨_, rfl⟩
        · split
          · exact ⟨_, rfl⟩
          · rename_i hee
            have hee1 : env.swapcache_prepare w.trace entry.val = EEXIST_neg := by
              simpa using hee
            have hlt := hbound _ hee1
            have hr1 : prepare_retries entry
                (emit { w with s := w.s } (io_event.swapcache_prepare entry.val
                  (env.swapcache_prepare w.trace entry.val))).trace
                = prepare_retries entry w.trace + 1 := by
              simp [emit, prepare_retries, List.filter_cons, is_retry, hee1]
            apply ih
            · rw [hr1]; omega
            · omega

/-- C16: `__read_swap_cache_speculative` called with `cpu` pointing to
`v0`. When the allocation fails, no transport read is issued: the only call is
the failed allocation and `*cpu` is still `v0`. When page `p` is allocated and
its read issued on cpu `k`, every result is a return with `*cpu = k`: either
`p` is returned as the inserted entry with `*new_page_allocated = true`, or
`*new_page_allocated = false` and the calls since the issue end in
`hermit_poll_read(k, p)` followed by `put_page(p)`, with no other
`hermit_poll_read` and no other `put_page(p)` between the issue and these
two. A result exists as soon as the fuel exceeds the number of `-EEXIST`
answers that the environment gives. -/
theorem C16_no_operation_abandoned (c : hermit_config) (env : fetch_env) (entry : swp_entry_t)
    (v0 : Int) (fuel : Nat) (w : fetch_world) :
    (env.alloc_page_vma w.trace = none →
      ∃ w1, __read_swap_cache_speculative c env entry (some v0) fuel w =
          some (fetch_result.ret ((hmt_sc_load_get w.s (swp_offset entry)).1, false, some v0) w1) ∧
        w1.trace = io_event.alloc_page_vma none :: w.trace) ∧
    (∀ p, env.alloc_page_vma w.trace = some p →
      ∀ r, __read_swap_cache_speculative c env entry (some v0) fuel w = some r →
      ∃ v w1 k, r = fetch_result.ret v w1 ∧ v.2.2 = some k ∧
        k = env.hermit_issue_read (io_event.alloc_page_vma (some p) :: w.trace) p entry.val ∧
        ((v.1 = some p ∧ v.2.1 = true ∧
            w1.s.hermit_swapcache (swp_offset entry) = some p ∧
            ∃ mid, w1.trace = mid ++ io_event.hermit_issue_read p entry.val k ::
                io_event.alloc_page_vma (some p) :: w.trace ∧
              ∀ e ∈ mid, (∀ j q, e ≠ io_event.hermit_poll_read j q) ∧
                e ≠ io_event.put_page p) ∨
         (v.2.1 = false ∧
            ∃ mid, w1.trace = io_event.put_page p ::
                io_event.hermit_poll_read k (some p) ::
                (mid ++ io_event.hermit_issue_read p entry.val k ::
                  io_event.alloc_page_vma (some p) :: w.trace) ∧
              ∀ e ∈ mid, (∀ j q, e ≠ io_event.hermit_poll_read j q) ∧
                e ≠ io_event.put_page p))) ∧
    (∀ n, (∀ t, env.swapcache_prepare t entry.val = EEXIST_neg →
        prepare_retries entry t < n) →
      ∃ r, __read_swap_cache_speculative c env entry (some v0) (n + 1) w = some r) := by
  refine ⟨?_, ?_, ?_⟩
  · intro ha
    refine ⟨{ s := (hmt_sc_load_get w.s (swp_offset entry)).2,
              trace := io_event.alloc_page_vma none :: w.trace }, ?_, rfl⟩
    unfold __read_swap_cache_speculative alloc_page_vma
    simp only [ha, emit]
  · intro p ha r h
    unfold __read_swap_cache_speculative alloc_page_vma at h
    simp only [ha] at h
    obtain ⟨v, w1, hr, hcpu, hcase⟩ := speculative_loop_spec c env entry _ p fuel _ r
      (by simp [hermit_issue_read, emit, set_locked_swapbacked, update_page])
      (by simp [hermit_issue_read, emit, set_locked_swapbacked, update_page])
      (by simp [hermit_issue_read, emit, set_locked_swapbacked, update_page, fresh_page])
      (by simp [hermit_issue_read, emit, set_locked_swapbacked, update_page, fresh_page])
      h
    refine ⟨v, w1, _, hr, hcpu, ?_, ?_⟩
    · simp [hermit_issue_read, emit]
    · simpa [hermit_issue_read, emit] using hcase
  · intro n hbound
    unfold __read_swap_cache_speculative
    simp only []
    split
    · exact ⟨_, rfl⟩
    · apply speculative_loop_total c env entry _ _ n hbound (n + 1) _ (by omega) (by omega)

/-- C16 (witness): slot 5 already holds page 7 of a racer; the read
issued for the new page 100 on cpu 2 is polled once before the page is
released, and page 7 is returned. -/
theorem C16_no_operation_abandoned_witness :
    ∃ r, __read_swap_cache_speculative default_config example_env ⟨5⟩ (some (-1)) 1
        cached_world = some r ∧
      ∃ v w1 k, r = fetch_result.ret v w1 ∧ v.2.2 = some k ∧
        k = example_env.hermit_issue_read
          (io_event.alloc_page_vma (some 100) :: cached_world.trace) 100 5 ∧
        ((v.1 = some 100 ∧ v.2.1 = true ∧
            w1.s.hermit_swapcache (swp_offset ⟨5⟩) = some 100 ∧
            ∃ mid, w1.trace = mid ++ io_event.hermit_issue_read 100 5 k ::
                io_event.alloc_page_vma (some 100) :: cached_world.trace ∧
              ∀ e ∈ mid, (∀ j q, e ≠ io_event.hermit_poll_read j q) ∧
                e ≠ io_event.put_page 100) ∨
         (v.2.1 = false ∧
            ∃ mid, w1.trace = io_event.put_page 100 ::
                io_event.hermit_poll_read k (some 100) ::
                (mid ++ io_event.hermit_issue_read 100 5 k ::
                  io_event.alloc_page_vma (some 100) :: cached_world.trace) ∧
              ∀ e ∈ mid, (∀ j q, e ≠ io_event.hermit_poll_read j q) ∧
                e ≠ io_event.put_page 100)) :=
  ⟨_, rfl,
    (C16_no_operation_abandoned default_config example_env ⟨5⟩ (-1) 1 cached_world).2.1
      100 rfl _ rfl⟩

/-! ## The demand read comes before the prefetch reads -/

theorem extends_eq (ok : io_event → Bool) (w w1 : fetch_world)
    (h : w1.trace = w.trace) : trace_extends ok w w1 :=
  ⟨[], by simp [h], by simp⟩

theorem extends_emit (ok : io_event → Bool) (w w1 : fetch_world) (e : io_event)
    (he : ok e = true) (h : trace_extends ok w w1) : trace_extends ok w (emit w1 e) := by
  obtain ⟨mid, hm, hq⟩ := h
  exact ⟨e :: mid, by simp [emit, hm], by simp [he, hq]⟩

theorem extends_state (ok : io_event → Bool) (w w1 : fetch_world) (s1 : swap_state)
    (h : trace_extends ok w w1) : trace_extends ok w { w1 with s := s1 } := h

theorem extends_trans (ok : io_event → Bool) (w w1 w2 : fetch_world)
    (h1 : trace_extends ok w w1) (h2 : trace_extends ok w1 w2) : trace_extends ok w w2 := by
  obtain ⟨m1, hm1, hq1⟩ := h1
  obtain ⟨m2, hm2, hq2⟩ := h2
  exact ⟨m2 ++ m1, by rw [hm2, hm1, List.append_assoc], by rw [List.all_append, hq1, hq2]; rfl⟩

theorem to_uint_to_int_of_lt (x : Nat) (hx : x < 2147483648) : to_uint (to_int x) = x := by
  rw [to_int_of_lt x hx]
  unfold to_uint
  omega

/-- The bound `max_win` of `hermit_swap_ra_info` is at most `2 ^ 5` when
`SWAP_RA_ORDER_CEILING` is at most 5. -/
theorem max_win_le (c : hermit_config) (hceil : c.SWAP_RA_ORDER_CEILING ≤ 5) :
    (1 <<< min (to_uint c.page_cluster) c.SWAP_RA_ORDER_CEILING) % UINT_MOD ≤ 32 := by
  have hm : min (to_uint c.page_cluster) c.SWAP_RA_ORDER_CEILING ≤ 5 :=
    le_trans (Nat.min_le_right _ _) hceil
  rw [Nat.one_shiftLeft]
  have h1 : 2 ^ min (to_uint c.page_cluster) c.SWAP_RA_ORDER_CEILING ≤ 2 ^ 5 :=
    Nat.pow_le_pow_right (by norm_num) hm
  have h2 : (2 : Nat) ^ 5 = 32 := by norm_num
  exact le_trans (Nat.mod_le _ _) (by omega)

/-- Half of a previous window read from a packed state, as the `unsigned int
last_ra` of `__swapin_nr_pages`. -/
theorem last_ra_of_packed (w : Nat) (hw : w < 2147483648) :
    to_uint (Int.tdiv (to_int (w % UINT_MOD)) 2) = w / 2 := by
  have h1 : w % UINT_MOD = w := Nat.mod_eq_of_lt (by unfold UINT_MOD; omega)
  rw [h1, to_int_of_lt w hw, tdiv_two_nonneg _ (by omega)]
  unfold to_uint
  omega

/-- With the override off, a window computed by `hermit_swap_ra_info` is at
most the larger of 32 and half of the stored previous window, so it fits the
window field of the packed state. -/
theorem swapin_window_fits (fuel : Nat) (c : hermit_config) (v pfn fpfn : Nat)
    (hits mx : Int) (win : Nat)
    (hs1 : 11 ≤ c.PAGE_SHIFT) (hs2 : c.PAGE_SHIFT ≤ 61)
    (hceil : c.SWAP_RA_ORDER_CEILING ≤ 5) (hrw : c.readahead_win ≤ 0)
    (hmx : mx = to_int 32 ∨
      mx = to_int ((1 <<< min (to_uint c.page_cluster) c.SWAP_RA_ORDER_CEILING) % UINT_MOD))
    (h : __swapin_nr_pages fuel c.readahead_win pfn fpfn hits mx
      (to_int (SWAP_RA_WIN c v % UINT_MOD)) = some win) :
    win < 2 ^ (c.PAGE_SHIFT - c.PAGE_SHIFT / 2) ∧ (c.PAGE_SHIFT ≤ 12 → win ≤ 32) := by
  obtain ⟨b, hb⟩ := swapin_result_form fuel _ pfn fpfn hits mx _ hrw win h
  have hW := SWAP_RA_WIN_lt c v (by omega)
  have hP1 : 2 ^ 6 ≤ 2 ^ (c.PAGE_SHIFT - c.PAGE_SHIFT / 2) :=
    Nat.pow_le_pow_right (by norm_num) (by omega)
  have hP2 : 2 ^ (c.PAGE_SHIFT - c.PAGE_SHIFT / 2) ≤ 2 ^ 31 :=
    Nat.pow_le_pow_right (by norm_num) (by omega)
  have hP3 : c.PAGE_SHIFT ≤ 12 → 2 ^ (c.PAGE_SHIFT - c.PAGE_SHIFT / 2) ≤ 2 ^ 6 :=
    fun h12 => Nat.pow_le_pow_right (by norm_num) (by omega)
  have e6 : (2 : Nat) ^ 6 = 64 := by norm_num
  have e31 : (2 : Nat) ^ 31 = 2147483648 := by norm_num
  rw [e6] at hP1 hP3
  rw [e31] at hP2
  have hlast := last_ra_of_packed (SWAP_RA_WIN c v) (by omega)
  have hmxle : to_uint mx ≤ 32 := by
    rcases hmx with hm | hm
    · rw [hm, to_uint_to_int_of_lt 32 (by norm_num)]
    · have hle := max_win_le c hceil
      rw [hm, to_uint_to_int_of_lt _ (by omega)]
      exact hle
  rw [hlast] at hb
  have hmin : min b (to_uint mx) ≤ 32 := le_trans (Nat.min_le_right _ _) hmxle
  generalize 2 ^ (c.PAGE_SHIFT - c.PAGE_SHIFT / 2) = P at *
  generalize SWAP_RA_WIN c v = W at *
  generalize min b (to_uint mx) = m at *
  constructor
  · rw [hb]; omega
  · intro h12
    have := hP3 h12
    rw [hb]; omega

/-- The window computation of `hermit_swap_ra_info` ends within 29 iterations
for every page shift up to 61: the hit count read from a packed state is
below `2 ^ 30`, also with the 4 added for a streaming domain. -/
theorem hermit_swap_ra_info_total (fuel : Nat) (c : hermit_config) (faddr : Nat)
    (vma : vm_area_struct) (dsa : Option ds_area_struct) (ra_info : vma_swap_readahead)
    (hs : c.PAGE_SHIFT ≤ 61) (hfuel : 29 ≤ fuel) :
    ∃ r, hermit_swap_ra_info fuel c faddr vma dsa ra_info = some r := by
  have htot : ∀ (v : Nat) (add4 : Bool) (po o : Nat) (mx prev : Int),
      ∃ r, __swapin_nr_pages fuel c.readahead_win po o
        (to_int (if add4 = true then (SWAP_RA_HITS c v % UINT_MOD + 4) % UINT_MOD
          else SWAP_RA_HITS c v % UINT_MOD)) mx prev = some r := by
    intro v add4 po o mx prev
    by_cases hrw : c.readahead_win > 0
    · exact ⟨_, by unfold __swapin_nr_pages; rw [if_pos hrw]⟩
    · have hH := SWAP_RA_HITS_lt c v (by omega)
      have hP : 2 ^ (c.PAGE_SHIFT / 2) ≤ 2 ^ 30 :=
        Nat.pow_le_pow_right (by norm_num) (by omega)
      have e30 : (2 : Nat) ^ 30 = 1073741824 := by norm_num
      rw [e30] at hP
      generalize SWAP_RA_HITS c v = H at *
      generalize 2 ^ (c.PAGE_SHIFT / 2) = P at *
      have h1 : H % UINT_MOD = H := Nat.mod_eq_of_lt (by unfold UINT_MOD; omega)
      have h2 : (H + 4) % UINT_MOD = H + 4 := Nat.mod_eq_of_lt (by unfold UINT_MOD; omega)
      rw [h1, h2]
      cases add4
      · simp only [Bool.false_eq_true, if_false]
        rw [to_int_of_lt H (by omega)]
        exact swapin_total fuel _ po o (H : Int) mx prev (by omega) (by omega) (by omega) hfuel
      · simp only [if_true]
        rw [to_int_of_lt (H + 4) (by omega)]
        exact swapin_total fuel _ po o ((H + 4 : Nat) : Int) mx prev (by omega)
          (by omega) (by omega) hfuel
  unfold hermit_swap_ra_info
  simp only []
  split
  · exact ⟨_, rfl⟩
  · cases dsa with
    | none =>
      obtain ⟨r, hr⟩ := htot (GET_SWAP_RA_VAL vma.swap_readahead_info) false
        (PFN_DOWN c (SWAP_RA_ADDR c (GET_SWAP_RA_VAL vma.swap_readahead_info)))
        (PFN_DOWN c faddr)
        (to_int ((1 <<< min (to_uint c.page_cluster) c.SWAP_RA_ORDER_CEILING) % UINT_MOD))
        (to_int (SWAP_RA_WIN c (GET_SWAP_RA_VAL vma.swap_readahead_info) % UINT_MOD))
      simp only [Bool.false_eq_true, if_false] at hr
      simp only [hr, Option.map_some']
      exact ⟨_, rfl⟩
    | some d =>
      simp only []
      obtain ⟨r1, hr1⟩ := htot (GET_SWAP_RA_VAL d.swap_readahead_info) true
        (PFN_DOWN c (SWAP_RA_ADDR c (GET_SWAP_RA_VAL d.swap_readahead_info)))
        (PFN_DOWN c faddr) (to_int 32)
        (to_int (SWAP_RA_WIN c (GET_SWAP_RA_VAL d.swap_readahead_info) % UINT_MOD))
      obtain ⟨r2, hr2⟩ := htot (GET_SWAP_RA_VAL d.swap_readahead_info) false
        (PFN_DOWN c (SWAP_RA_ADDR c (GET_SWAP_RA_VAL d.swap_readahead_info)))
        (PFN_DOWN c faddr)
        (to_int ((1 <<< min (to_uint c.page_cluster) c.SWAP_RA_ORDER_CEILING) % UINT_MOD))
        (to_int (SWAP_RA_WIN c (GET_SWAP_RA_VAL d.swap_readahead_info) % UINT_MOD))
      simp only [Bool.false_eq_true, if_false, if_true] at hr1 hr2
      split
      · simp only [hr1, Option.map_some']; exact ⟨_, rfl⟩
      · split
        · simp only [Option.map_some']; exact ⟨_, rfl⟩
        · split
          · simp only [hr2, Option.map_some']; exact ⟨_, rfl⟩
          · simp only [hr2, Option.map_some']; exact ⟨_, rfl⟩

/-- C29: for every `hits` with `0 ≤ hits ≤ 2 ^ 31 - 2` the doubling loop of
`__swapin_nr_pages`, started at 4, ends within 29 doublings, so that
`__swapin_nr_pages` returns for every value of its other arguments and of
`readahead_win`; 28 doublings are not enough at `hits = 2 ^ 31 - 2`. The hit
count of a packed state is at most `SWAP_RA_HITS_MAX`, and with the 4 that
`hermit_swap_ra_info` adds for a streaming domain it stays within this range
for every page shift up to 61, so that `hermit_swap_ra_info` returns as
well. -/
theorem C29_rounding_loop_terminates (hits : Int) (h0 : 0 ≤ hits) (h1 : hits ≤ 2147483646) :
    (∃ r, roundup_loop 29 4 (to_uint (hits + 2)) = some r) ∧
    (∀ fuel rw po o mx prev, 29 ≤ fuel →
      ∃ r, __swapin_nr_pages fuel rw po o hits mx prev = some r) ∧
    roundup_loop 28 4 (to_uint (2147483646 + 2)) = none ∧
    (∀ (c : hermit_config) (v : Nat), c.PAGE_SHIFT ≤ 61 →
      SWAP_RA_HITS c v ≤ SWAP_RA_HITS_MAX c ∧ SWAP_RA_HITS_MAX c + 4 ≤ 2147483646) ∧
    (∀ (c : hermit_config) (faddr : Nat) (vma : vm_area_struct) (dsa : Option ds_area_struct)
      (ra_info : vma_swap_readahead) (fuel : Nat), c.PAGE_SHIFT ≤ 61 → 29 ≤ fuel →
      ∃ r, hermit_swap_ra_info fuel c faddr vma dsa ra_info = some r) := by
  refine ⟨?_, ?_, by decide, ?_, ?_⟩
  · have hp : to_uint (hits + 2) ≤ 2147483648 := by
      rw [to_uint_of_nonneg _ (by omega) (by omega)]; omega
    have := roundup_loop_total 29 2 (to_uint (hits + 2)) (by omega) hp (by omega)
    simpa using this
  · intro fuel rw po o mx prev hfuel
    by_cases hrw : rw > 0
    · exact ⟨_, by unfold __swapin_nr_pages; rw [if_pos hrw]⟩
    · exact swapin_total fuel rw po o hits mx prev (by omega) (by omega) h1 hfuel
  · intro c v hs
    have hH := SWAP_RA_HITS_lt c v (by omega)
    have hP : 2 ^ (c.PAGE_SHIFT / 2) ≤ 2 ^ 30 :=
      Nat.pow_le_pow_right (by norm_num) (by omega)
    have hpos : 0 < 2 ^ (c.PAGE_SHIFT / 2) := Nat.pow_pos (by norm_num)
    have e30 : (2 : Nat) ^ 30 = 1073741824 := by norm_num
    rw [e30] at hP
    unfold SWAP_RA_HITS_MAX
    rw [SWAP_RA_HITS_MASK_eq c (by omega)]
    omega
  · intro c faddr vma dsa ra_info fuel hs hfuel
    exact hermit_swap_ra_info_total fuel c faddr vma dsa ra_info hs hfuel

/-- C29 (witness): the largest hit count of the domain, `2 ^ 31 - 2`. -/
theorem C29_rounding_loop_terminates_witness :
    ((0 : Int) ≤ 2147483646 ∧ (2147483646 : Int) ≤ 2147483646) ∧
    (∃ r, roundup_loop 29 4 (to_uint (2147483646 + 2)) = some r) ∧
    (∀ fuel rw po o mx prev, 29 ≤ fuel →
      ∃ r, __swapin_nr_pages fuel rw po o 2147483646 mx prev = some r) :=
  ⟨by decide,
    (C29_rounding_loop_terminates 2147483646 (by decide) (by decide)).1,
    (C29_rounding_loop_terminates 2147483646 (by decide) (by decide)).2.1⟩

/-- With `page_cluster ≥ 1` and `SWAP_RA_ORDER_CEILING` between 1 and 5 the
bound `max_win` is not 1, so that `hermit_swap_ra_info` computes a window. -/
theorem max_win_ne_one (c : hermit_config) (hc1 : 1 ≤ c.SWAP_RA_ORDER_CEILING)
    (hc5 : c.SWAP_RA_ORDER_CEILING ≤ 5) (hpc : 1 ≤ c.page_cluster)
    (hint : is_int c.page_cluster) :
    (1 <<< min (to_uint c.page_cluster) c.SWAP_RA_ORDER_CEILING) % UINT_MOD ≠ 1 := by
  unfold is_int at hint
  have hu : 1 ≤ to_uint c.page_cluster := by
    rw [to_uint_of_nonneg _ (by omega) (by omega)]; omega
  have hm1 : 1 ≤ min (to_uint c.page_cluster) c.SWAP_RA_ORDER_CEILING := le_min hu hc1
  have hm5 : min (to_uint c.page_cluster) c.SWAP_RA_ORDER_CEILING ≤ 5 :=
    le_trans (Nat.min_le_right _ _) hc5
  rw [Nat.one_shiftLeft]
  have h1 : 2 ^ 1 ≤ 2 ^ min (to_uint c.page_cluster) c.SWAP_RA_ORDER_CEILING :=
    Nat.pow_le_pow_right (by norm_num) hm1
  have h2 : 2 ^ min (to_uint c.page_cluster) c.SWAP_RA_ORDER_CEILING ≤ 2 ^ 5 :=
    Nat.pow_le_pow_right (by norm_num) hm5
  have e1 : (2 : Nat) ^ 1 = 2 := by norm_num
  have e5 : (2 : Nat) ^ 5 = 32 := by norm_num
  rw [e1] at h1
  rw [e5] at h2
  generalize 2 ^ min (to_uint c.page_cluster) c.SWAP_RA_ORDER_CEILING = M at *
  unfold UINT_MOD
  omega

/-- C24: `__read_swap_cache_async_profiling_trylock` is a total function of
its arguments (its loop body runs once, no iteration count is needed). Every
call returns, in one of six ways: (1) nothing is called and NULL is returned
(device gone or slot unused); (2) the one lookup finds a page, which is
returned with one more reference; (3) the one allocation fails; (4) the one
reservation attempt fails, for whatever reason, and the new page is released
with `put_page`; (5) the charge fails and reservation and page are released;
(6) the new page is inserted and returned with `*new_page_allocated = true`.
In each, the calls made contain at most one allocation and at most one
`swapcache_prepare_trylock`, and all but (6) leave the cache contents as they
were and `*new_page_allocated = false`. Stated once more for a failed
attempt: whatever non-zero value `swapcache_prepare_trylock` answers, also
`-EEXIST` of a lost race, the calls are the allocation, the attempt and
`put_page`, and NULL is returned. -/
theorem C24_trylock_never_retries (c : hermit_config) (env : fetch_env)
    (entry : swp_entry_t) (w : fetch_world) :
    (∃ v w1, __read_swap_cache_async_profiling_trylock c env entry w = fetch_result.ret v w1 ∧
      ((v = (none, false) ∧ w1 = w) ∨
       (∃ q, v = (some q, false) ∧ w.s.hermit_swapcache (swp_offset entry) = some q ∧
          w1 = { w with s := page_ref_add w.s q 1 }) ∨
       (v = (none, false) ∧ w1.trace = io_event.alloc_page_vma none :: w.trace ∧
          w1.s.hermit_swapcache = w.s.hermit_swapcache) ∨
       (∃ p, ∃ err : Int, err ≠ 0 ∧ v = (none, false) ∧
          w1.trace = io_event.put_page p ::
            io_event.swapcache_prepare_trylock entry.val err ::
            io_event.alloc_page_vma (some p) :: w.trace ∧
          w1.s.hermit_swapcache = w.s.hermit_swapcache) ∨
       (∃ p, ∃ err : Int, err ≠ 0 ∧ v = (none, false) ∧
          w1.trace = io_event.put_page p :: io_event.unlock_page p ::
            io_event.put_swap_page p entry.val ::
            io_event.hermit_mem_cgroup_swapin_charge_page p err ::
            io_event.swapcache_prepare_trylock entry.val 0 ::
            io_event.alloc_page_vma (some p) :: w.trace ∧
          w1.s.hermit_swapcache = w.s.hermit_swapcache) ∨
       (∃ p, v = (some p, true) ∧
          w1.trace = io_event.lru_cache_add p ::
            io_event.hermit_mem_cgroup_swapin_charge_page p 0 ::
            io_event.swapcache_prepare_trylock entry.val 0 ::
            io_event.alloc_page_vma (some p) :: w.trace ∧
          w1.s.hermit_swapcache (swp_offset entry) = some p ∧
          w.s.hermit_swapcache (swp_offset entry) = none))) ∧
    (∀ p, w.s.swap_device_live entry.val = true →
      w.s.hermit_swapcache (swp_offset entry) = none →
      ¬ (env.__swp_swapcount w.trace entry.val = 0 ∧
        env.swap_slot_cache_enabled w.trace = true) →
      env.alloc_page_vma w.trace = some p →
      env.swapcache_prepare_trylock (io_event.alloc_page_vma (some p) :: w.trace) entry.val
        ≠ 0 →
      ∃ w1, __read_swap_cache_async_profiling_trylock c env entry w =
          fetch_result.ret (none, false) w1 ∧
        w1.trace = io_event.put_page p ::
          io_event.swapcache_prepare_trylock entry.val
            (env.swapcache_prepare_trylock (io_event.alloc_page_vma (some p) :: w.trace)
              entry.val) ::
          io_event.alloc_page_vma (some p) :: w.trace ∧
        w1.s.hermit_swapcache = w.s.hermit_swapcache) := by
  constructor
  · unfold __read_swap_cache_async_profiling_trylock
    split
    · exact ⟨_, _, rfl, Or.inl ⟨rfl, rfl⟩⟩
    · simp only []
      split
      · rename_i q hq
        refine ⟨_, _, rfl, Or.inr (Or.inl ⟨q, rfl, ?_, ?_⟩)⟩
        · unfold hmt_sc_load_get at hq
          split at hq
          · rename_i q1 hq1
            simp only [Option.some.injEq] at hq
            rw [hq1, hq]
          · simp at hq
        · unfold hmt_sc_load_get at hq ⊢
          split at hq
          · rename_i q1 hq1
            simp only [Option.some.injEq] at hq
            simp only [hq1, hq]
          · simp at hq
      · rename_i hnone
        obtain ⟨hslot, hsame⟩ := hmt_sc_load_get_none _ _ hnone
        rw [hsame]
        split
        · exact ⟨_, _, rfl, Or.inl ⟨rfl, rfl⟩⟩
        · split
          · rename_i ha
            rw [alloc_page_vma_none _ _ ha]
            exact ⟨_, _, rfl, Or.inr (Or.inr (Or.inl ⟨rfl, rfl, rfl⟩))⟩
          · rename_i p hp
            rw [alloc_page_vma_some _ _ _ hp]
            split
            · rename_i herr
              have herr0 : env.swapcache_prepare_trylock
                  (io_event.alloc_page_vma (some p) :: w.trace) entry.val = 0 := by
                simpa [emit] using herr
              obtain ⟨v, w1, ht, hcase⟩ := read_swap_cache_tail_spec c env entry p
                (emit (emit ⟨update_page w.s p (fun _ => fresh_page), w.trace⟩
                  (io_event.alloc_page_vma (some p)))
                  (io_event.swapcache_prepare_trylock entry.val
                    (env.swapcache_prepare_trylock
                      (io_event.alloc_page_vma (some p) :: w.trace) entry.val)))
                (by simp [emit, update_page, fresh_page])
                (by simp [emit, update_page, fresh_page])
                (by simpa [emit, update_page] using hslot)
              refine ⟨v, w1, ht, ?_⟩
              rcases hcase with ⟨err, he, hv, htr, hc, _⟩ | ⟨hv, htr, hc, _⟩
              · right; right; right; right; left
                refine ⟨p, err, he, hv, ?_, ?_⟩
                · rw [htr]; simp [emit, herr0]
                · rw [hc]; simp [emit, update_page]
              · right; right; right; right; right
                refine ⟨p, hv, ?_, hc, hslot⟩
                rw [htr]; simp [emit, herr0]
            · rename_i herr
              refine ⟨_, _, rfl, Or.inr (Or.inr (Or.inr (Or.inl ⟨p, _, herr, rfl, ?_, ?_⟩)))⟩
              · simp [put_page, emit]
              · simp [put_page, emit, page_ref_add, update_page]
  · intro p hlive hslot hused ha herr
    refine ⟨put_page (emit (emit { w with s := update_page w.s p fun _ => fresh_page }
      (io_event.alloc_page_vma (some p)))
      (io_event.swapcache_prepare_trylock entry.val
        (env.swapcache_prepare_trylock (io_event.alloc_page_vma (some p) :: w.trace)
          entry.val))) p, ?_, ?_, ?_⟩
    · unfold __read_swap_cache_async_profiling_trylock
      rw [if_neg (by simp [hlive])]
      have hl : hmt_sc_load_get w.s (swp_offset entry) = (none, w.s) := by
        unfold hmt_sc_load_get; rw [hslot]
      simp only [hl]
      rw [if_neg hused]
      have hal : alloc_page_vma env w = (some p,
          emit { w with s := update_page w.s p fun _ => fresh_page }
            (io_event.alloc_page_vma (some p))) := by
        unfold alloc_page_vma; rw [ha]
      simp only [hal]
      rw [if_neg (by simpa [emit] using herr)]
      simp [emit]
    · simp [put_page, emit]
    · simp [put_page, emit, page_ref_add, update_page]

/-- C24 (witness): every reservation attempt for slot 5 loses the race
(`-EEXIST`): page 100 is allocated, the one attempt fails, the page is
released and NULL is returned. -/
theorem C24_trylock_never_retries_witness :
    (empty_world.s.swap_device_live 5 = true ∧
      empty_world.s.hermit_swapcache (swp_offset ⟨5⟩) = none ∧
      ¬ (lost_race_env.__swp_swapcount empty_world.trace 5 = 0 ∧
        lost_race_env.swap_slot_cache_enabled empty_world.trace = true) ∧
      lost_race_env.alloc_page_vma empty_world.trace = some 100 ∧
      lost_race_env.swapcache_prepare_trylock
        (io_event.alloc_page_vma (some 100) :: empty_world.trace) 5 ≠ 0) ∧
    ∃ w1, __read_swap_cache_async_profiling_trylock default_config lost_race_env ⟨5⟩
        empty_world = fetch_result.ret (none, false) w1 ∧
      w1.trace = [io_event.put_page 100, io_event.swapcache_prepare_trylock 5 (-17),
        io_event.alloc_page_vma (some 100)] ∧
      w1.s.hermit_swapcache = empty_world.s.hermit_swapcache :=
  ⟨by decide,
    (C24_trylock_never_retries default_config lost_race_env ⟨5⟩ empty_world).2 100
      (by decide) (by decide) (by decide) (by decide) (by decide)⟩

/-- C27: with frontswap not enabled, each of the eight wrappers returns -1 and
makes no call into the backend. `frontswap_store(page)` gives the same result
and the same backend calls as `frontswap_store_on_core(page, -1)`, whatever the
build; with frontswap enabled it is the one call `__frontswap_store(page, -1)`,
and for `RSWAP_KERNEL_SUPPORT >= 2` `frontswap_store_on_core(page, core)` is
the one call `__frontswap_store(page, core)`, with the core as given. (Below
2, `frontswap_store_on_core` is `frontswap_store` and has no core to pass.) -/
theorem C27_transport_wrappers (f : frontswap_config) (b : frontswap_backend)
    (t : List backend_call) (page : Nat) (core : Int) :
    (frontswap_enabled f = false →
      frontswap_store f b t page = (-1, t) ∧ frontswap_load f b t page = (-1, t) ∧
      frontswap_load_async f b t page = (-1, t) ∧ frontswap_poll_load f b t core = (-1, t) ∧
      frontswap_store_on_core f b t page core = (-1, t) ∧
      frontswap_poll_store f b t core = (-1, t) ∧
      frontswap_peek_load f b t core = (-1, t) ∧ frontswap_peek_store f b t core = (-1, t)) ∧
    frontswap_store f b t page = frontswap_store_on_core f b t page (-1) ∧
    (frontswap_enabled f = true →
      frontswap_store f b t page =
        (b.answer t (backend_call.__frontswap_store page (-1)),
          backend_call.__frontswap_store page (-1) :: t) ∧
      (2 ≤ f.RSWAP_KERNEL_SUPPORT →
        frontswap_store_on_core f b t page core =
          (b.answer t (backend_call.__frontswap_store page core),
            backend_call.__frontswap_store page core :: t))) := by
  refine ⟨?_, ?_, ?_⟩
  · intro h
    unfold frontswap_store frontswap_load frontswap_load_async frontswap_poll_load
      frontswap_store_on_core frontswap_poll_store frontswap_peek_load frontswap_peek_store
      frontswap_store
    simp [h]
  · unfold frontswap_store_on_core
    by_cases h2 : f.RSWAP_KERNEL_SUPPORT ≥ 2
    · rw [if_pos h2]; rfl
    · rw [if_neg h2]
  · intro h
    unfold frontswap_store frontswap_store_on_core backend_invoke
    refine ⟨by simp [h], fun h2 => by simp [h, h2]⟩

/-- C27 (witness): frontswap enabled with `RSWAP_KERNEL_SUPPORT = 3`: the
default channel is core -1 and an explicit core 5 is passed through. -/
theorem C27_transport_wrappers_witness :
    (frontswap_enabled example_frontswap = true ∧
      2 ≤ example_frontswap.RSWAP_KERNEL_SUPPORT) ∧
    frontswap_store example_frontswap example_backend [] 7 =
      (0, [backend_call.__frontswap_store 7 (-1)]) ∧
    frontswap_store_on_core example_frontswap example_backend [] 7 5 =
      (0, [backend_call.__frontswap_store 7 5]) :=
  ⟨by decide,
    ((C27_transport_wrappers example_frontswap example_backend [] 7 5).2.2 (by decide)).1,
    ((C27_transport_wrappers example_frontswap example_backend [] 7 5).2.2 (by decide)).2
      (by decide)⟩

/-- C25 (the code in batch mode): with `HMT_PREF_BATCH_CHARGE` set,
`hermit_vma_prefetch_work` returns at once, whether or not `kmalloc` succeeds
and whatever the work item holds: no entry is resolved, no read is issued and
the batch charge is not called. In the example, the same work item without
the flag has seven eligible entries and prefetches seven pages. -/
theorem C25_batch_mode_does_nothing :
    (∀ (c : hermit_config) (env : fetch_env) (work : hermit_pref_work) (kmalloc_ok : Bool)
        (rfuel fuel : Nat) (w : fetch_world),
      hermit_vma_prefetch_work c env work true kmalloc_ok rfuel fuel w =
        some (fetch_result.ret () w)) ∧
    (hermit_vma_prefetch_work default_config example_env example_work true true 1 9
        empty_world).map (fun r => r.world.trace) = some [] ∧
    (hermit_vma_prefetch_work default_config example_env example_work false true 1 9
        empty_world).map (fun r => r.world.trace.filter is_prefetch_read) =
      some [io_event.swap_readpage_async 148, io_event.swap_readpage_async 140,
        io_event.swap_readpage_async 132, io_event.swap_readpage_async 124,
        io_event.swap_readpage_async 116, io_event.swap_readpage_async 108,
        io_event.swap_readpage_async 100] := by
  refine ⟨?_, by decide, by decide⟩
  intro c env work kmalloc_ok rfuel fuel w
  unfold hermit_vma_prefetch_work prefetch_work_err
  simp

/-- C28 (the code at the failing input): for the index 1 below the fault's
offset 2, with the fault at address `0x5000`, the direct-map worker computes
`0x6000`, one page above the fault, where `hermit_vma_prefetch_early_map`
computes `0x4000`, the address that entry 1 maps; for indices at or above the
offset the two agree. In the run on `example_work` the early-map prefetches of
the entries 0 and 1 are passed the addresses of the entries 4 and 3. -/
theorem C28_direct_map_address_mirrored :
    direct_map_vaddr default_config 20480 1 2 = 24576 ∧
    early_map_vaddr default_config 20480 1 2 = 16384 ∧
    (∀ (c : hermit_config) (faddr i offset : Nat), offset ≤ i →
      direct_map_vaddr c faddr i offset = early_map_vaddr c faddr i offset) ∧
    (hermit_vma_prefetch_direct_poll_direct_map_work default_config example_env example_work
        3 9 empty_world).map (fun r => r.world.trace.filter is_pref_issue) =
      some [io_event.__frontswap_pref_async_early_map 149 40960 3,
        io_event.__frontswap_pref_async_early_map 141 36864 3,
        io_event.__frontswap_pref_async_early_map 133 32768 3,
        io_event.__frontswap_pref_async_early_map 124 28672 3,
        io_event.__frontswap_pref_async_early_map 116 24576 3,
        io_event.__frontswap_pref_async_early_map 108 24576 3,
        io_event.__frontswap_pref_async_early_map 100 28672 3] := by
  refine ⟨by decide, by decide, ?_, by decide⟩
  intro c faddr i offset h
  unfold direct_map_vaddr
  rw [if_neg (by omega)]
  rfl

theorem to_int_to_uint_succ (n : Nat) (h : n + 1 < 2147483648) :
    to_int (to_uint ((n : Int) + 1)) = ((n + 1 : Nat) : Int) := by
  have h1 : to_uint ((n : Int) + 1) = n + 1 := by
    unfold to_uint; omega
  rw [h1, to_int_of_lt _ h]

/-- The statements on a resolved page, as the drain of the claim has them. -/
theorem prefetch_resolved_cases (r : Option Nat × Bool) (n : Nat) (w : fetch_world)
    (hn : n + 1 < 2147483648) :
    (∀ p, r = (some p, true) →
      prefetch_resolved r (n : Int) w = (((n + 1 : Nat) : Int),
        put_page (emit (emit
          { emit w (io_event.swap_readpage_async p) with
            s := SetPageReadahead (emit w (io_event.swap_readpage_async p)).s p }
          io_event.count_vm_event_SWAP_RA) (io_event.set_page_prefetch p)) p)) ∧
    (∀ p, r = (some p, false) → prefetch_resolved r (n : Int) w = ((n : Int), put_page w p)) ∧
    (∀ b, r = (none, b) → prefetch_resolved r (n : Int) w = ((n : Int), w)) := by
  refine ⟨?_, ?_, ?_⟩
  · intro p hr
    subst hr
    unfold prefetch_resolved
    simp only [if_true]
    rw [to_int_to_uint_succ n hn]
  · intro p hr
    subst hr
    unfold prefetch_resolved
    simp
  · intro b hr
    subst hr
    unfold prefetch_resolved
    simp

/-- With `cpu = -1` and without wrap-around of the index, the loop of
`hermit_vma_prefetch` from index `i` is the drain of the claim over the
indices `i`, ..., `nr_pte - 1`, and it stops at `nr_pte`. -/
theorem hermit_vma_prefetch_loop_drain (c : hermit_config) (env : fetch_env)
    (req : pref_request) (rfuel : Nat) (hnr : req.ra_info.nr_pte < 2147483648)
    (fuel : Nat) : ∀ (i : Nat) (pages : List Nat) (w : fetch_world),
    i ≤ req.ra_info.nr_pte → pages.length ≤ i → req.ra_info.nr_pte - i < fuel →
    hermit_vma_prefetch_loop c env req (-1) rfuel fuel i (pages.length : Int) w =
      (spec_prefetch_drain c env req rfuel (List.range' i (req.ra_info.nr_pte - i)) pages w).map
        (fun r => match r with
          | fetch_result.BUG w1 => fetch_result.BUG w1
          | fetch_result.ret ps w1 =>
            fetch_result.ret (req.ra_info.nr_pte, (ps.length : Int)) w1) := by
  induction fuel with
  | zero => intro i pages w _ _ hf; omega
  | succ k ih =>
    intro i pages w hi hp hf
    unfold hermit_vma_prefetch_loop
    by_cases hlt : i < req.ra_info.nr_pte
    · rw [if_pos hlt]
      have hrange : List.range' i (req.ra_info.nr_pte - i) =
          i :: List.range' (i + 1) (req.ra_info.nr_pte - (i + 1)) := by
        have : req.ra_info.nr_pte - i = (req.ra_info.nr_pte - (i + 1)) + 1 := by omega
        rw [this, List.range'_succ]
      have hnext : (i + 1) % UINT_MOD = i + 1 := Nat.mod_eq_of_lt (by unfold UINT_MOD; omega)
      rw [hrange]
      simp only [ne_eq, not_true_eq_false, if_false, false_and, hnext]
      unfold spec_prefetch_drain
      by_cases hoff : i = req.ra_info.offset
      · rw [if_pos hoff, if_pos hoff]
        exact ih (i + 1) pages w (by omega) (by omega) (by omega)
      · rw [if_neg hoff, if_neg hoff]
        cases hpt : env.page_table w.trace (req.ra_info.ptes + i) with
        | empty => exact ih (i + 1) pages w (by omega) (by omega) (by omega)
        | present => exact ih (i + 1) pages w (by omega) (by omega) (by omega)
        | non_swap e => exact ih (i + 1) pages w (by omega) (by omega) (by omega)
        | swap entry =>
          simp only []
          cases hres : __read_swap_cache_async_profiling c env entry rfuel w with
          | none => rfl
          | some res =>
            cases res with
            | BUG w1 => rfl
            | ret r w1 =>
              obtain ⟨c1, c2, c3⟩ := prefetch_resolved_cases r pages.length w1 (by omega)
              obtain ⟨r1, r2⟩ := r
              cases r1 with
              | none =>
                simp only [c3 r2 rfl]
                exact ih (i + 1) pages w1 (by omega) (by omega) (by omega)
              | some p =>
                cases r2 with
                | false =>
                  simp only [c2 p rfl]
                  exact ih (i + 1) pages (put_page w1 p) (by omega) (by omega) (by omega)
                | true =>
                  simp only [c1 p rfl]
                  have hl : ((pages.length + 1 : Nat) : Int) = ((pages ++ [p]).length : Int) := by
                    simp
                  rw [hl]
                  exact ih (i + 1) (pages ++ [p]) _ (by omega) (by simp; omega) (by omega)
    · rw [if_neg hlt]
      have : req.ra_info.nr_pte - i = 0 := by omega
      rw [this]
      have hi2 : i = req.ra_info.nr_pte := by omega
      simp [spec_prefetch_drain, hi2]

/-- The statements after the loop of the resolve functions make only calls of
a resolve (charge, roll-back, release, LRU insertion). -/
theorem read_swap_cache_tail_calls (c : hermit_config) (env : fetch_env) (entry : swp_entry_t)
    (wc : Bool) (p : Nat) (w : fetch_world) :
    trace_extends is_resolve_call w
      (read_swap_cache_tail c env entry wc p w).world := by
  unfold read_swap_cache_tail
  cases wc
  · simp only [Bool.false_eq_true, if_false, ne_eq, not_true_eq_false]
    split
    · exact extends_eq _ _ _ rfl
    · split
      · simp only [read_swap_cache_unlock, fetch_result.world, put_page, unlock_page]
        repeat (first | exact extends_eq _ _ _ rfl | apply extends_emit _ _ _ _ rfl | apply extends_state)
      · simp only [fetch_result.world]
        repeat (first | exact extends_eq _ _ _ rfl | apply extends_emit _ _ _ _ rfl | apply extends_state)
  · simp only [if_true]
    split
    · simp only [read_swap_cache_unlock, fetch_result.world, put_page, unlock_page]
      repeat (first | exact extends_eq _ _ _ rfl | apply extends_emit _ _ _ _ rfl | apply extends_state)
    · split
      · simp only [fetch_result.world]
        repeat (first | exact extends_eq _ _ _ rfl | apply extends_emit _ _ _ _ rfl | apply extends_state)
      · split
        · simp only [read_swap_cache_unlock, fetch_result.world, put_page, unlock_page]
          repeat (first | exact extends_eq _ _ _ rfl | apply extends_emit _ _ _ _ rfl | apply extends_state)
        · simp only [fetch_result.world]
          repeat (first | exact extends_eq _ _ _ rfl | apply extends_emit _ _ _ _ rfl | apply extends_state)

/-- A resolve with `__read_swap_cache_async_profiling` or its `without_charge`
variant makes only calls of a resolve. -/
theorem read_swap_cache_loop_calls (c : hermit_config) (env : fetch_env) (entry : swp_entry_t)
    (wc : Bool) (fuel : Nat) : ∀ (w : fetch_world) (r : fetch_result (Option Nat × Bool)),
    read_swap_cache_loop c env entry wc fuel w = some r →
    trace_extends is_resolve_call w r.world := by
  induction fuel with
  | zero => intro w r h; simp [read_swap_cache_loop] at h
  | succ n ih =>
    intro w r h
    unfold read_swap_cache_loop at h
    split at h
    · simp only [Option.some.injEq] at h
      rw [← h]; exact extends_eq _ _ _ rfl
    · simp only [] at h
      split at h
      · simp only [Option.some.injEq] at h
        rw [← h]; exact extends_eq _ _ _ rfl
      · split at h
        · simp only [Option.some.injEq] at h
          rw [← h]; exact extends_eq _ _ _ rfl
        · split at h
          · rename_i ha
            rw [alloc_page_vma_none _ _ ha] at h
            simp only [Option.some.injEq] at h
            rw [← h]
            exact extends_emit _ _ _ _ rfl (extends_eq _ _ _ rfl)
          · rename_i p hp
            rw [alloc_page_vma_some _ _ _ hp] at h
            split at h
            · simp only [Option.some.injEq] at h
              rw [← h]
              refine extends_trans _ _ _ _ ?_ (read_swap_cache_tail_calls c env entry wc p _)
              exact extends_emit _ _ _ _ rfl
                (extends_emit _ _ _ _ rfl (extends_eq _ _ _ rfl))
            · split at h
              · simp only [Option.some.injEq] at h
                rw [← h]
                simp only [fetch_result.world, put_page]
                repeat (first | exact extends_eq _ _ _ rfl | apply extends_emit _ _ _ _ rfl | apply extends_state)
              · refine extends_trans _ _ _ _ ?_ (ih _ r h)
                simp only [put_page]
                repeat (first | exact extends_eq _ _ _ rfl | apply extends_emit _ _ _ _ rfl | apply extends_state)

/-- A resolve with `__read_swap_cache_async_profiling_trylock` makes only calls
of a resolve. -/
theorem trylock_calls (c : hermit_config) (env : fetch_env) (entry : swp_entry_t)
    (w : fetch_world) :
    trace_extends is_resolve_call w
      (__read_swap_cache_async_profiling_trylock c env entry w).world := by
  unfold __read_swap_cache_async_profiling_trylock
  split
  · exact extends_eq _ _ _ rfl
  · simp only []
    split
    · exact extends_eq _ _ _ rfl
    · split
      · exact extends_eq _ _ _ rfl
      · split
        · rename_i ha
          rw [alloc_page_vma_none _ _ ha]
          exact extends_emit _ _ _ _ rfl (extends_eq _ _ _ rfl)
        · rename_i p hp
          rw [alloc_page_vma_some _ _ _ hp]
          split
          · refine extends_trans _ _ _ _ ?_ (read_swap_cache_tail_calls c env entry true p _)
            exact extends_emit _ _ _ _ rfl (extends_emit _ _ _ _ rfl (extends_eq _ _ _ rfl))
          · simp only [fetch_result.world, put_page]
            repeat (first | exact extends_eq _ _ _ rfl | apply extends_emit _ _ _ _ rfl | apply extends_state)

/-- Every result of `__read_swap_cache_async_profiling_trylock` is a return. -/
theorem trylock_returns (c : hermit_config) (env : fetch_env) (entry : swp_entry_t)
    (w : fetch_world) :
    ∃ v w1, __read_swap_cache_async_profiling_trylock c env entry w = fetch_result.ret v w1 ∧
      (v.2 = true → ∃ p, v.1 = some p) := by
  unfold __read_swap_cache_async_profiling_trylock
  split
  · exact ⟨_, _, rfl, by simp⟩
  · simp only []
    split
    · exact ⟨_, _, rfl, by simp⟩
    · rename_i hnone
      obtain ⟨hslot, hsame⟩ := hmt_sc_load_get_none _ _ hnone
      rw [hsame]
      split
      · exact ⟨_, _, rfl, by simp⟩
      · split
        · exact ⟨_, _, rfl, by simp⟩
        · rename_i p hp
          rw [alloc_page_vma_some _ _ _ hp]
          split
          · obtain ⟨v, w1, ht, hcase⟩ := read_swap_cache_tail_spec c env entry p
              (emit (emit ⟨update_page w.s p (fun _ => fresh_page), w.trace⟩
                (io_event.alloc_page_vma (some p)))
                (io_event.swapcache_prepare_trylock entry.val
                  (env.swapcache_prepare_trylock
                    (io_event.alloc_page_vma (some p) :: w.trace) entry.val)))
              (by simp [emit, update_page, fresh_page])
              (by simp [emit, update_page, fresh_page])
              (by simpa [emit, update_page] using hslot)
            refine ⟨v, w1, ht, ?_⟩
            rcases hcase with ⟨_, _, hv, _⟩ | ⟨hv, _⟩
            · rw [hv]; simp
            · rw [hv]; simp
          · exact ⟨_, _, rfl, by simp⟩

theorem filterMap_resolve_calls (f : io_event → Option Nat)
    (hf : ∀ e, is_resolve_call e = true → f e = none) (mid : List io_event)
    (h : mid.all is_resolve_call = true) : mid.filterMap f = [] := by
  rw [List.filterMap_eq_nil_iff]
  rw [List.all_eq_true] at h
  exact fun e he => hf e (h e he)

theorem prefetched_page_resolve (e : io_event) (h : is_resolve_call e = true) :
    prefetched_page e = none := by
  cases e <;> simp_all [is_resolve_call, prefetched_page]

theorem marked_page_resolve (e : io_event) (h : is_resolve_call e = true) :
    marked_page e = none := by
  cases e <;> simp_all [is_resolve_call, marked_page]

/-- The drain of the claim: the pages it reports are, in order, the pages of
the prefetch reads it issued, and they are the pages it marked with
`set_page_prefetch`. -/
theorem spec_prefetch_drain_pages (c : hermit_config) (env : fetch_env) (req : pref_request)
    (rfuel : Nat) (idx : List Nat) : ∀ (pages : List Nat) (w : fetch_world)
    (r : fetch_result (List Nat)),
    spec_prefetch_drain c env req rfuel idx pages w = some r →
    ∃ mid, r.world.trace = mid ++ w.trace ∧
      ∀ ps w1, r = fetch_result.ret ps w1 →
        ps = pages ++ (mid.filterMap prefetched_page).reverse ∧
        ps = pages ++ (mid.filterMap marked_page).reverse := by
  induction idx with
  | nil =>
    intro pages w r h
    simp only [spec_prefetch_drain, Option.some.injEq] at h
    refine ⟨[], by rw [← h]; simp [fetch_result.world], ?_⟩
    intro ps w1 hr
    rw [← h] at hr
    simp only [fetch_result.ret.injEq] at hr
    simp [hr.1]
  | cons i rest ih =>
    intro pages w r h
    unfold spec_prefetch_drain at h
    split at h
    · exact ih pages w r h
    · split at h
      · rename_i entry hpt
        split at h
        · exact absurd h (by simp)
        · simp only [Option.some.injEq] at h
          rename_i w1 hres
          obtain ⟨mid, hm, hq⟩ := read_swap_cache_loop_calls c env entry true rfuel w _ hres
          refine ⟨mid, by rw [← h]; exact hm, ?_⟩
          intro ps w2 hr
          rw [← h] at hr
          exact absurd hr (by simp)
        · rename_i p w1 hres
          obtain ⟨mid, hm, hq⟩ := read_swap_cache_loop_calls c env entry true rfuel w _ hres
          simp only [fetch_result.world] at hm
          obtain ⟨mid2, hm2, hps⟩ := ih _ _ r h
          refine ⟨mid2 ++ (io_event.put_page p :: io_event.set_page_prefetch p ::
            io_event.count_vm_event_SWAP_RA :: io_event.swap_readpage_async p :: mid), ?_, ?_⟩
          · rw [hm2]; simp [put_page, emit, hm]
          · intro ps w2 hr
            obtain ⟨e1, e2⟩ := hps ps w2 hr
            have f1 := filterMap_resolve_calls prefetched_page prefetched_page_resolve mid hq
            have f2 := filterMap_resolve_calls marked_page marked_page_resolve mid hq
            constructor
            · rw [e1]
              simp [List.filterMap_append, List.filterMap_cons, prefetched_page, f1]
            · rw [e2]
              simp [List.filterMap_append, List.filterMap_cons, marked_page, f2]
        · rename_i p w1 hres
          obtain ⟨mid, hm, hq⟩ := read_swap_cache_loop_calls c env entry true rfuel w _ hres
          simp only [fetch_result.world] at hm
          obtain ⟨mid2, hm2, hps⟩ := ih _ _ r h
          refine ⟨mid2 ++ (io_event.put_page p :: mid), ?_, ?_⟩
          · rw [hm2]; simp [put_page, emit, hm]
          · intro ps w2 hr
            obtain ⟨e1, e2⟩ := hps ps w2 hr
            have f1 := filterMap_resolve_calls prefetched_page prefetched_page_resolve mid hq
            have f2 := filterMap_resolve_calls marked_page marked_page_resolve mid hq
            constructor
            · rw [e1]
              simp [List.filterMap_append, List.filterMap_cons, prefetched_page, f1]
            · rw [e2]
              simp [List.filterMap_append, List.filterMap_cons, marked_page, f2]
        · rename_i b w1 hres
          obtain ⟨mid, hm, hq⟩ := read_swap_cache_loop_calls c env entry true rfuel w _ hres
          simp only [fetch_result.world] at hm
          obtain ⟨mid2, hm2, hps⟩ := ih _ _ r h
          refine ⟨mid2 ++ mid, ?_, ?_⟩
          · rw [hm2, hm, List.append_assoc]
          · intro ps w2 hr
            obtain ⟨e1, e2⟩ := hps ps w2 hr
            have f1 := filterMap_resolve_calls prefetched_page prefetched_page_resolve mid hq
            have f2 := filterMap_resolve_calls marked_page marked_page_resolve mid hq
            constructor
            · rw [e1]
              simp [List.filterMap_append, f1]
            · rw [e2]
              simp [List.filterMap_append, f2]
      · exact ih pages w r h

/-- The drain of the claim returns when every resolve does; one iteration per
resolve is enough when `swapcache_prepare` never answers `-EEXIST`. -/
theorem spec_prefetch_drain_total (c : hermit_config) (env : fetch_env) (req : pref_request)
    (rfuel : Nat) (hr : 1 ≤ rfuel)
    (hne : ∀ t e, env.swapcache_prepare t e ≠ EEXIST_neg) (idx : List Nat) :
    ∀ (pages : List Nat) (w : fetch_world),
    ∃ r, spec_prefetch_drain c env req rfuel idx pages w = some r := by
  induction idx with
  | nil => intro pages w; exact ⟨_, rfl⟩
  | cons i rest ih =>
    intro pages w
    unfold spec_prefetch_drain
    split
    · exact ih pages w
    · split
      · rename_i entry hpt
        obtain ⟨r, hres⟩ := read_swap_cache_loop_total c env entry true 0
          (fun t ht => absurd ht (hne t entry.val)) rfuel w (by omega) hr
        have hres2 : __read_swap_cache_async_profiling c env entry rfuel w = some r := hres
        obtain ⟨v, w1, hv, _⟩ := read_swap_cache_loop_spec c env entry rfuel w r hres
        subst hv
        rw [hres2]
        obtain ⟨v1, v2⟩ := v
        cases v1 with
        | none => exact ih _ _
        | some p =>
          cases v2 with
          | false => exact ih _ _
          | true => exact ih _ _
      · exact ih pages w

/-- C23: `hermit_vma_prefetch` on a request with window 1 resolves nothing,
returns 0 and leaves the request, `stt` included, as it is. On a request with
another window, `cpu = -1`, `stt ≤ nr_pte` and `nr_pte < 2 ^ 31`, and with
enough iterations, it is the drain `spec_prefetch_drain` over the indices
`stt`, ..., `nr_pte - 1` in increasing order: it resolves, with
`__read_swap_cache_async_profiling`, the entry of exactly those indices other
than the fault's offset whose page-table entry is a swap entry (not empty, not
present, not another entry in swap format); it issues `swap_readpage_async`,
sets the readahead flag and calls `set_page_prefetch` on exactly the pages
that the resolve reports as newly allocated; it returns the number of these
pages and leaves `stt = nr_pte`. The pages that the drain reports are the
pages of its prefetch reads, in order. The drain returns whenever every
resolve does. -/
theorem C23_prefetch_drain_selection (c : hermit_config) (env : fetch_env)
    (req : pref_request) (cpu : Int) (rfuel fuel : Nat) (w : fetch_world) :
    (req.ra_info.win = 1 →
      hermit_vma_prefetch c env req cpu rfuel fuel w = some (fetch_result.ret (0, req) w)) ∧
    (req.ra_info.win ≠ 1 → req.stt ≤ req.ra_info.nr_pte →
      req.ra_info.nr_pte < 2147483648 → req.ra_info.nr_pte - req.stt < fuel →
      hermit_vma_prefetch c env req (-1) rfuel fuel w =
        (spec_prefetch_drain c env req rfuel
          (List.range' req.stt (req.ra_info.nr_pte - req.stt)) [] w).map (drain_result req)) ∧
    (∀ idx r, spec_prefetch_drain c env req rfuel idx [] w = some r →
      ∃ mid, r.world.trace = mid ++ w.trace ∧
        ∀ ps w1, r = fetch_result.ret ps w1 →
          ps = (mid.filterMap prefetched_page).reverse ∧
          ps = (mid.filterMap marked_page).reverse) ∧
    (1 ≤ rfuel → (∀ t e, env.swapcache_prepare t e ≠ EEXIST_neg) →
      ∀ idx, ∃ r, spec_prefetch_drain c env req rfuel idx [] w = some r) := by
  refine ⟨?_, ?_, ?_, ?_⟩
  · intro h1
    unfold hermit_vma_prefetch
    rw [if_pos h1]
  · intro h1 hstt hnr hfuel
    unfold hermit_vma_prefetch
    rw [if_neg h1]
    have hmod : req.stt % UINT_MOD = req.stt := Nat.mod_eq_of_lt (by unfold UINT_MOD; omega)
    have hloop := hermit_vma_prefetch_loop_drain c env req rfuel hnr fuel req.stt [] w hstt
      (by simp) hfuel
    simp only [List.length_nil, Nat.cast_zero] at hloop
    rw [hmod, hloop]
    cases spec_prefetch_drain c env req rfuel
        (List.range' req.stt (req.ra_info.nr_pte - req.stt)) [] w with
    | none => rfl
    | some r =>
      cases r with
      | BUG w1 => rfl
      | ret ps w1 => rfl
  · intro idx r h
    obtain ⟨mid, hm, hps⟩ := spec_prefetch_drain_pages c env req rfuel idx [] w r h
    refine ⟨mid, hm, fun ps w1 hr => ?_⟩
    have := hps ps w1 hr
    simpa using this
  · intro hr hne idx
    exact spec_prefetch_drain_total c env req rfuel hr hne idx [] w

/-- C23 (witness): the request of the fault at address 20480 (window 8, eight
entries from page frame 5, the fault at offset 0) in the empty cache: the
entries 1 to 7 are resolved and prefetched, 7 is returned and `stt` is 8. -/
theorem C23_prefetch_drain_selection_witness :
    (example_request.ra_info.win ≠ 1 ∧ example_request.stt ≤ example_request.ra_info.nr_pte ∧
      example_request.ra_info.nr_pte < 2147483648 ∧
      example_request.ra_info.nr_pte - example_request.stt < 9) ∧
    hermit_vma_prefetch default_config example_env example_request (-1) 1 9 empty_world =
      (spec_prefetch_drain default_config example_env example_request 1
        (List.range' example_request.stt
          (example_request.ra_info.nr_pte - example_request.stt)) [] empty_world).map
        (drain_result example_request) ∧
    (hermit_vma_prefetch default_config example_env example_request (-1) 1 9 empty_world).map
      (fun r => match r with
        | fetch_result.ret v w1 =>
          some (v.1, v.2.stt, w1.trace.filterMap prefetched_page)
        | fetch_result.BUG _ => none) =
      some (some (7, 8, [148, 140, 132, 124, 116, 108, 100])) :=
  ⟨by decide,
    (C23_prefetch_drain_selection default_config example_env example_request (-1) 1 9
      empty_world).2.1 (by decide) (by decide) (by decide) (by decide),
    by decide⟩

theorem to_int_counter_succ (m : Nat) : to_int (to_uint (to_int m + 1)) = to_int (m + 1) := by
  unfold to_int to_uint UINT_MOD
  split <;> split <;> omega

theorem to_int_tmod_four (m : Nat) : Int.tmod (to_int m) 4 = 0 ↔ m % 4 = 0 := by
  rw [← Int.dvd_iff_tmod_eq_zero]
  unfold to_int UINT_MOD
  split <;> omega

theorem to_int_ne_zero (m : Nat) (h : m < 4294967296) : to_int m ≠ 0 ↔ 0 < m := by
  unfold to_int UINT_MOD
  split <;> omega

/-- A call of a resolve is no prefetch issue, no peek and no poll. -/
theorem resolve_call_plain (e : io_event) (h : is_resolve_call e = true) :
    is_pref_issue e = false ∧ is_peek_pref e = false ∧ is_poll_pref e = false := by
  cases e <;> first | exact ⟨rfl, rfl, rfl⟩ | exact Bool.noConfusion h

theorem peek_discipline_nil (cpu : Int) : peek_discipline cpu [] := by
  constructor
  · intro pre suf k h
    have := congrArg List.length h
    simp at this
    omega
  · intro pre suf h
    have h2 : suf = [] := by
      have := congrArg List.length h
      simp at this
      exact List.length_eq_zero.mp (by omega)
    subst h2
    simp

/-- A call that neither issues a prefetch nor peeks keeps the discipline. -/
theorem peek_discipline_plain (cpu : Int) (e : io_event) (t : List io_event)
    (h : peek_discipline cpu t)
    (h1 : is_pref_issue e = false) (h2 : is_peek_pref e = false) :
    peek_discipline cpu (e :: t) := by
  obtain ⟨ha, hb⟩ := h
  constructor
  · intro pre suf k hk
    cases pre with
    | nil =>
      simp only [List.nil_append, List.cons.injEq] at hk
      rw [hk.1] at h2
      simp [is_peek_pref] at h2
    | cons a pre1 =>
      simp only [List.cons_append, List.cons.injEq] at hk
      exact ha pre1 suf k hk.2
  · intro pre suf hs
    cases pre with
    | nil =>
      simp only [List.nil_append] at hs
      rw [← hs]
      have := hb [] t rfl
      simp only [List.countP_cons, h1, h2]
      simpa using this
    | cons a pre1 =>
      simp only [List.cons_append, List.cons.injEq] at hs
      exact hb pre1 suf hs.2

/-- Calls of a resolve keep the discipline and the counts. -/
theorem peek_discipline_calls (cpu : Int) (mid t : List io_event)
    (h : peek_discipline cpu t) (hq : mid.all is_resolve_call = true) :
    peek_discipline cpu (mid ++ t) ∧
    (mid ++ t).countP is_pref_issue = t.countP is_pref_issue ∧
    (mid ++ t).countP is_peek_pref = t.countP is_peek_pref ∧
    (mid ++ t).countP is_poll_pref = t.countP is_poll_pref := by
  induction mid with
  | nil => exact ⟨h, rfl, rfl, rfl⟩
  | cons e rest ih =>
    simp only [List.all_cons, Bool.and_eq_true] at hq
    obtain ⟨d, c1, c2, c3⟩ := ih hq.2
    obtain ⟨e1, e2, e3⟩ := resolve_call_plain e hq.1
    refine ⟨peek_discipline_plain cpu e _ d e1 e2, ?_, ?_, ?_⟩
    · simp only [List.cons_append, List.countP_cons, e1]; simpa using c1
    · simp only [List.cons_append, List.countP_cons, e2]; simpa using c2
    · simp only [List.cons_append, List.countP_cons, e3]; simpa using c3

/-- The issue of a prefetch at a moment when the peeks are up to date keeps
the discipline. -/
theorem peek_discipline_issue (cpu : Int) (e : io_event) (t : List io_event)
    (h : peek_discipline cpu t) (he : is_pref_issue e = true)
    (hK : t.countP is_peek_pref = t.countP is_pref_issue / 4) :
    peek_discipline cpu (e :: t) := by
  obtain ⟨ha, hb⟩ := h
  have e2 : is_peek_pref e = false := by
    cases e <;> first | rfl | exact Bool.noConfusion he
  constructor
  · intro pre suf k hk
    cases pre with
    | nil =>
      simp only [List.nil_append, List.cons.injEq] at hk
      rw [hk.1] at e2
      simp [is_peek_pref] at e2
    | cons a pre1 =>
      simp only [List.cons_append, List.cons.injEq] at hk
      exact ha pre1 suf k hk.2
  · intro pre suf hs
    cases pre with
    | nil =>
      simp only [List.nil_append] at hs
      rw [← hs]
      have := hb [] t rfl
      simp only [List.countP_cons, he, e2, if_true]
      simp only [Bool.false_eq_true, if_false, Nat.add_zero]
      omega
    | cons a pre1 =>
      simp only [List.cons_append, List.cons.injEq] at hs
      exact hb pre1 suf hs.2

/-- A peek on `cpu` right after the flag calls of the 4th, 8th, ... issued
prefetch keeps the discipline. -/
theorem peek_discipline_peek (cpu : Int) (p : Nat) (e : io_event) (rest : List io_event)
    (h : peek_discipline cpu
      (io_event.set_page_prefetch p :: io_event.count_vm_event_SWAP_RA :: e :: rest))
    (he : is_pref_issue e = true)
    (h4 : (io_event.set_page_prefetch p :: io_event.count_vm_event_SWAP_RA :: e ::
      rest).countP is_pref_issue % 4 = 0)
    (hK : 4 * (io_event.set_page_prefetch p :: io_event.count_vm_event_SWAP_RA :: e ::
      rest).countP is_peek_pref + 4 ≤ (io_event.set_page_prefetch p ::
      io_event.count_vm_event_SWAP_RA :: e :: rest).countP is_pref_issue) :
    peek_discipline cpu (io_event.__frontswap_peek_pref cpu ::
      io_event.set_page_prefetch p :: io_event.count_vm_event_SWAP_RA :: e :: rest) := by
  obtain ⟨ha, hb⟩ := h
  have hpos : 0 < (io_event.set_page_prefetch p :: io_event.count_vm_event_SWAP_RA :: e ::
      rest).countP is_pref_issue := by
    simp only [List.countP_cons, he, if_true]
    omega
  constructor
  · intro pre suf k hk
    cases pre with
    | nil =>
      simp only [List.nil_append, List.cons.injEq, io_event.__frontswap_peek_pref.injEq] at hk
      obtain ⟨hk1, hk2⟩ := hk
      rw [← hk2]
      exact ⟨hk1.symm, hpos, h4, p, e, rest, rfl, he⟩
    | cons a pre1 =>
      simp only [List.cons_append, List.cons.injEq] at hk
      exact ha pre1 suf k hk.2
  · intro pre suf hs
    cases pre with
    | nil =>
      simp only [List.nil_append] at hs
      rw [← hs]
      have := hb [] _ rfl
      simp only [List.countP_cons, is_pref_issue, is_peek_pref] at this hK ⊢
      simp only [Bool.false_eq_true, if_false, if_true, Nat.add_zero] at this hK ⊢
      omega
    | cons a pre1 =>
      simp only [List.cons_append, List.cons.injEq] at hs
      exact hb pre1 suf hs.2

/-- Under the peek discipline at most 4 prefetches are issued in any stretch
of the run without a peek. -/
theorem peek_discipline_between (cpu : Int) (t : List io_event)
    (h : peek_discipline cpu t) (pre mid suf : List io_event)
    (ht : t = pre ++ mid ++ suf) (hmid : mid.countP is_peek_pref = 0) :
    mid.countP is_pref_issue ≤ 4 := by
  have h1 := h.2 pre (mid ++ suf) (by rw [ht, List.append_assoc])
  have h2 := h.2 (pre ++ mid) suf ht
  rw [List.countP_append, List.countP_append] at h1
  omega

/-- One resolved entry of a direct-poll worker keeps the peek discipline: with
`acc` the calls of the run so far, the counter is the number of prefetches
issued, and the peeks are `1/4` of them. -/
theorem direct_poll_resolved_inv (dm : Bool) (cpu : Int) (vaddr : Nat)
    (r : Option Nat × Bool) (w : fetch_world) (base acc : List io_event)
    (ht : w.trace = acc ++ base) (hd : peek_discipline cpu acc)
    (hK : acc.countP is_peek_pref = acc.countP is_pref_issue / 4)
    (hP : acc.countP is_poll_pref = 0) :
    ∃ acc1, (direct_poll_resolved dm cpu vaddr r
        (to_int (acc.countP is_pref_issue)) w).2.trace = acc1 ++ base ∧
      (direct_poll_resolved dm cpu vaddr r (to_int (acc.countP is_pref_issue)) w).1 =
        to_int (acc1.countP is_pref_issue) ∧
      peek_discipline cpu acc1 ∧
      acc1.countP is_peek_pref = acc1.countP is_pref_issue / 4 ∧
      acc1.countP is_poll_pref = 0 ∧
      acc1.countP is_pref_issue ≤ acc.countP is_pref_issue + 1 := by
  unfold direct_poll_resolved
  cases h1 : r.1 with
  | none => exact ⟨acc, ht, rfl, hd, hK, hP, by omega⟩
  | some p =>
    simp only []
    by_cases h2 : r.2 = true
    · rw [if_pos h2]
      simp only [to_int_counter_succ, to_int_tmod_four]
      have hev : ∃ e, (if dm = true then io_event.__frontswap_pref_async_early_map p vaddr cpu
          else io_event.__frontswap_pref_async p cpu) = e ∧ is_pref_issue e = true ∧
          is_poll_pref e = false ∧ is_peek_pref e = false := by
        cases dm
        · exact ⟨_, rfl, rfl, rfl, rfl⟩
        · exact ⟨_, rfl, rfl, rfl, rfl⟩
      obtain ⟨e, he, he1, he2, he3⟩ := hev
      rw [he]
      have d1 := peek_discipline_issue cpu e acc hd he1 hK
      have d2 := peek_discipline_plain cpu io_event.count_vm_event_SWAP_RA _ d1 rfl rfl
      have d3 := peek_discipline_plain cpu (io_event.set_page_prefetch p) _ d2 rfl rfl
      have cI : (io_event.set_page_prefetch p :: io_event.count_vm_event_SWAP_RA :: e ::
          acc).countP is_pref_issue = acc.countP is_pref_issue + 1 := by
        rw [List.countP_cons_of_neg _ _ (by simp [is_pref_issue]),
          List.countP_cons_of_neg _ _ (by simp [is_pref_issue]),
          List.countP_cons_of_pos _ _ he1]
      have cK : (io_event.set_page_prefetch p :: io_event.count_vm_event_SWAP_RA :: e ::
          acc).countP is_peek_pref = acc.countP is_peek_pref := by
        rw [List.countP_cons_of_neg _ _ (by simp [is_peek_pref]),
          List.countP_cons_of_neg _ _ (by simp [is_peek_pref]),
          List.countP_cons_of_neg _ _ (by simp [he3])]
      have cP : (io_event.set_page_prefetch p :: io_event.count_vm_event_SWAP_RA :: e ::
          acc).countP is_poll_pref = 0 := by
        rw [List.countP_cons_of_neg _ _ (by simp [is_poll_pref]),
          List.countP_cons_of_neg _ _ (by simp [is_poll_pref]),
          List.countP_cons_of_neg _ _ (by simp [he2])]
        exact hP
      by_cases h4 : (acc.countP is_pref_issue + 1) % 4 = 0
      · rw [if_pos h4]
        have d4 := peek_discipline_peek cpu p e acc d3 he1 (by rw [cI]; exact h4)
          (by rw [cI, cK]; omega)
        have d5 := peek_discipline_plain cpu (io_event.put_page p) _ d4 rfl rfl
        refine ⟨io_event.put_page p :: io_event.__frontswap_peek_pref cpu ::
          io_event.set_page_prefetch p :: io_event.count_vm_event_SWAP_RA :: e :: acc,
          ?_, ?_, d5, ?_, ?_, ?_⟩
        · simp [put_page, emit, ht]
        · rw [List.countP_cons_of_neg _ _ (by simp [is_pref_issue]),
            List.countP_cons_of_neg _ _ (by simp [is_pref_issue]), cI]
        · rw [List.countP_cons_of_neg _ _ (by simp [is_peek_pref]),
            List.countP_cons_of_pos _ _ (by simp [is_peek_pref]), cK,
            List.countP_cons_of_neg _ _ (by simp [is_pref_issue]),
            List.countP_cons_of_neg _ _ (by simp [is_pref_issue]), cI]
          omega
        · rw [List.countP_cons_of_neg _ _ (by simp [is_poll_pref]),
            List.countP_cons_of_neg _ _ (by simp [is_poll_pref]), cP]
        · rw [List.countP_cons_of_neg _ _ (by simp [is_pref_issue]),
            List.countP_cons_of_neg _ _ (by simp [is_pref_issue]), cI]
      · rw [if_neg h4]
        have d5 := peek_discipline_plain cpu (io_event.put_page p) _ d3 rfl rfl
        refine ⟨io_event.put_page p ::
          io_event.set_page_prefetch p :: io_event.count_vm_event_SWAP_RA :: e :: acc,
          ?_, ?_, d5, ?_, ?_, ?_⟩
        · simp [put_page, emit, ht]
        · rw [List.countP_cons_of_neg _ _ (by simp [is_pref_issue]), cI]
        · rw [List.countP_cons_of_neg _ _ (by simp [is_peek_pref]), cK,
            List.countP_cons_of_neg _ _ (by simp [is_pref_issue]), cI]
          omega
        · rw [List.countP_cons_of_neg _ _ (by simp [is_poll_pref]), cP]
        · rw [List.countP_cons_of_neg _ _ (by simp [is_pref_issue]), cI]
    · rw [if_neg h2]
      have d5 := peek_discipline_plain cpu (io_event.put_page p) _ hd rfl rfl
      refine ⟨io_event.put_page p :: acc, ?_, ?_, d5, ?_, ?_, ?_⟩
      · simp [put_page, emit, ht]
      · rw [List.countP_cons_of_neg _ _ (by simp [is_pref_issue])]
      · rw [List.countP_cons_of_neg _ _ (by simp [is_peek_pref]),
          List.countP_cons_of_neg _ _ (by simp [is_pref_issue])]
        exact hK
      · rw [List.countP_cons_of_neg _ _ (by simp [is_poll_pref])]
        exact hP
      · rw [List.countP_cons_of_neg _ _ (by simp [is_pref_issue])]
        omega

/-- The loop of a direct-poll worker keeps the peek discipline: `acc` holds
the calls of the run so far, the counter `nr_prefed` is the number of
prefetches issued. -/
theorem direct_poll_loop_inv (c : hermit_config) (env : fetch_env) (work : hermit_pref_work)
    (dm : Bool) (cpu : Int) (base : List io_event) (hnr : work.nr_pte < 4294967296) :
    ∀ (fuel i : Nat) (w : fetch_world) (acc : List io_event) (r : fetch_result Int),
      w.trace = acc ++ base → peek_discipline cpu acc →
      acc.countP is_peek_pref = acc.countP is_pref_issue / 4 →
      acc.countP is_poll_pref = 0 →
      acc.countP is_pref_issue ≤ i → acc.countP is_pref_issue ≤ work.nr_pte →
      direct_poll_loop c env work dm cpu fuel i (to_int (acc.countP is_pref_issue)) w =
        some r →
      ∃ w1 acc1, r = fetch_result.ret (to_int (acc1.countP is_pref_issue)) w1 ∧
        w1.trace = acc1 ++ base ∧ peek_discipline cpu acc1 ∧
        acc1.countP is_peek_pref = acc1.countP is_pref_issue / 4 ∧
        acc1.countP is_poll_pref = 0 ∧ acc1.countP is_pref_issue < 4294967296 := by
  intro fuel
  induction fuel with
  | zero =>
    intro i w acc r _ _ _ _ _ _ h
    simp [direct_poll_loop] at h
  | succ fuel ih =>
    intro i w acc r ht hd hK hP hi hn h
    unfold direct_poll_loop at h
    by_cases hlt : i < work.nr_pte
    · rw [if_pos hlt] at h
      simp only [] at h
      have hnext : (i + 1) % UINT_MOD = i + 1 := Nat.mod_eq_of_lt (by unfold UINT_MOD; omega)
      rw [hnext] at h
      have hskip : ∀ r, direct_poll_loop c env work dm cpu fuel (i + 1)
          (to_int (acc.countP is_pref_issue)) w = some r →
          ∃ w1 acc1, r = fetch_result.ret (to_int (acc1.countP is_pref_issue)) w1 ∧
            w1.trace = acc1 ++ base ∧ peek_discipline cpu acc1 ∧
            acc1.countP is_peek_pref = acc1.countP is_pref_issue / 4 ∧
            acc1.countP is_poll_pref = 0 ∧ acc1.countP is_pref_issue < 4294967296 :=
        fun r hr => ih (i + 1) w acc r ht hd hK hP (by omega) hn hr
      by_cases hoff : i = work.offset
      · rw [if_pos hoff] at h
        exact hskip r h
      · rw [if_neg hoff] at h
        cases hp : env.page_table w.trace (work.ptes + i) with
        | empty => rw [hp] at h; exact hskip r h
        | present => rw [hp] at h; exact hskip r h
        | non_swap e => rw [hp] at h; exact hskip r h
        | swap entry =>
          rw [hp] at h
          simp only [] at h
          obtain ⟨v, w1, hv, _⟩ := trylock_returns c env entry w
          have hc := trylock_calls c env entry w
          rw [hv] at h hc
          simp only [] at h
          obtain ⟨mid, hmid, hall⟩ := hc
          simp only [fetch_result.world] at hmid
          obtain ⟨d1, c1, c2, c3⟩ := peek_discipline_calls cpu mid acc hd hall
          have ht1 : w1.trace = (mid ++ acc) ++ base := by
            rw [hmid, ht, List.append_assoc]
          rw [← c1] at h
          obtain ⟨acc1, e1, e2, e3, e4, e5, e6⟩ := direct_poll_resolved_inv dm cpu
            (if dm = true then direct_map_vaddr c work.faddr i work.offset
              else early_map_vaddr c work.faddr i work.offset)
            v w1 base (mid ++ acc) ht1 d1 (by rw [c1, c2]; exact hK) (by rw [c3]; exact hP)
          rw [e2] at h
          exact ih (i + 1) _ acc1 r e1 e3 e4 e5 (by omega) (by omega) h
    · rw [if_neg hlt] at h
      simp only [Option.some.injEq] at h
      exact ⟨w, acc, h.symm, ht, hd, hK, hP, by omega⟩

/-- The loop of a direct-poll worker ends within `nr_pte - i + 1` iterations. -/
theorem direct_poll_loop_total (c : hermit_config) (env : fetch_env) (work : hermit_pref_work)
    (dm : Bool) (cpu : Int) (hnr : work.nr_pte < 4294967296) :
    ∀ (fuel i : Nat) (n : Int) (w : fetch_world), work.nr_pte - i < fuel →
      ∃ r, direct_poll_loop c env work dm cpu fuel i n w = some r := by
  intro fuel
  induction fuel with
  | zero => intro i n w h; omega
  | succ fuel ih =>
    intro i n w hf
    unfold direct_poll_loop
    by_cases hlt : i < work.nr_pte
    · rw [if_pos hlt]
      simp only []
      have hnext : (i + 1) % UINT_MOD = i + 1 := Nat.mod_eq_of_lt (by unfold UINT_MOD; omega)
      rw [hnext]
      by_cases hoff : i = work.offset
      · rw [if_pos hoff]
        exact ih _ _ _ (by omega)
      · rw [if_neg hoff]
        cases hp : env.page_table w.trace (work.ptes + i) with
        | empty => exact ih _ _ _ (by omega)
        | present => exact ih _ _ _ (by omega)
        | non_swap e => exact ih _ _ _ (by omega)
        | swap entry =>
          simp only []
          obtain ⟨v, w1, hv, _⟩ := trylock_returns c env entry w
          rw [hv]
          exact ih _ _ _ (by omega)
    · rw [if_neg hlt]
      exact ⟨_, rfl⟩

/-- With `nr_pte` beyond the range of the `unsigned int` index the loop of a
direct-poll worker does not end. -/
theorem direct_poll_loop_diverges (c : hermit_config) (env : fetch_env)
    (work : hermit_pref_work) (dm : Bool) (cpu : Int) (hnr : 4294967296 ≤ work.nr_pte) :
    ∀ (fuel i : Nat) (n : Int) (w : fetch_world), i < 4294967296 →
      direct_poll_loop c env work dm cpu fuel i n w = none := by
  intro fuel
  induction fuel with
  | zero => intro i n w _; rfl
  | succ fuel ih =>
    intro i n w hi
    unfold direct_poll_loop
    have hlt : i < work.nr_pte := by omega
    rw [if_pos hlt]
    simp only []
    have hnext : (i + 1) % UINT_MOD < 4294967296 := Nat.mod_lt _ (by unfold UINT_MOD; omega)
    by_cases hoff : i = work.offset
    · rw [if_pos hoff]
      exact ih _ _ _ hnext
    · rw [if_neg hoff]
      cases hp : env.page_table w.trace (work.ptes + i) with
      | empty => exact ih _ _ _ hnext
      | present => exact ih _ _ _ hnext
      | non_swap e => exact ih _ _ _ hnext
      | swap entry =>
        simp only []
        obtain ⟨v, w1, hv, _⟩ := trylock_returns c env entry w
        rw [hv]
        exact ih _ _ _ hnext

/-- The run of a direct-poll worker from the start index: the calls `body` of
the loop obey the peek discipline, hold no poll and `n / 4` peeks for `n`
issued prefetches, and one poll follows the loop exactly when `n > 0`. -/
theorem direct_poll_run (c : hermit_config) (env : fetch_env) (work : hermit_pref_work)
    (dm : Bool) (cpu : Int) (fuel : Nat) (w : fetch_world) (r : fetch_result Unit)
    (h : direct_poll_finish cpu (direct_poll_loop c env work dm cpu fuel
      (work.stt % UINT_MOD) 0 w) = some r) :
    ∃ body w1, r = fetch_result.ret () w1 ∧
      w1.trace = (if 0 < body.countP is_pref_issue then [io_event.__frontswap_poll_pref cpu]
        else []) ++ body ++ w.trace ∧
      body.countP is_poll_pref = 0 ∧
      body.countP is_peek_pref = body.countP is_pref_issue / 4 ∧
      peek_discipline cpu body ∧
      (∀ pre mid suf, body = pre ++ mid ++ suf → mid.countP is_peek_pref = 0 →
        mid.countP is_pref_issue ≤ 4) := by
  by_cases hnr : work.nr_pte < 4294967296
  · cases hl : direct_poll_loop c env work dm cpu fuel (work.stt % UINT_MOD) 0 w with
    | none => rw [hl] at h; simp [direct_poll_finish] at h
    | some r1 =>
      rw [hl] at h
      have h0 : (0 : Int) = to_int (([] : List io_event).countP is_pref_issue) := by
        simp [to_int, UINT_MOD]
      rw [h0] at hl
      obtain ⟨w1, acc1, e1, e2, e3, e4, e5, e6⟩ := direct_poll_loop_inv c env work dm cpu
        w.trace hnr fuel (work.stt % UINT_MOD) w [] r1 (by simp) (peek_discipline_nil cpu)
        (by simp) (by simp) (by simp) (by simp) hl
      rw [e1] at h
      simp only [direct_poll_finish, Option.some.injEq] at h
      refine ⟨acc1, _, h.symm, ?_, e5, e4, e3,
        fun pre mid suf hb hm => peek_discipline_between cpu acc1 e3 pre mid suf hb hm⟩
      have hz := to_int_ne_zero (acc1.countP is_pref_issue) e6
      by_cases hpos : 0 < acc1.countP is_pref_issue
      · rw [if_pos (hz.mpr hpos), if_pos hpos]
        simp [emit, e2]
      · rw [if_neg (fun hh => hpos (hz.mp hh)), if_neg hpos]
        simp [e2]
  · have hlt : work.stt % UINT_MOD < 4294967296 := Nat.mod_lt _ (by unfold UINT_MOD; omega)
    rw [direct_poll_loop_diverges c env work dm cpu (by omega) fuel (work.stt % UINT_MOD) 0 w
      hlt] at h
    simp [direct_poll_finish] at h

/-- C26: a run of `hermit_vma_prefetch_direct_poll_work` or of
`hermit_vma_prefetch_direct_poll_direct_map_work` that returns, returns with
the calls `body` of its loop in front of the trace and, with `n` the number of
prefetches issued in `body` (the pages the resolve reports as newly
allocated), exactly `n / 4` calls of `__frontswap_peek_pref` in `body`, each on
the worker's cpu and right after the flag calls (`count_vm_event(SWAP_RA)`,
`set_page_prefetch`) of the 4th, 8th, ... issued page, so that any stretch of
the run without a peek issues at most 4 prefetches; `__frontswap_poll_pref` is
not called in the loop and is called once after it when `n > 0`, not at all
when `n = 0`. With `nr_pte` in the range of the `unsigned int` index the run
returns within `nr_pte - stt + 1` iterations. -/
theorem C26_periodic_peek (c : hermit_config) (env : fetch_env) (work : hermit_pref_work)
    (cpu : Int) (w : fetch_world)
    (worker : hermit_config → fetch_env → hermit_pref_work → Int → Nat → fetch_world →
      Option (fetch_result Unit))
    (hworker : worker = hermit_vma_prefetch_direct_poll_work ∨
      worker = hermit_vma_prefetch_direct_poll_direct_map_work) :
    (∀ fuel r, worker c env work cpu fuel w = some r →
      ∃ body w1, r = fetch_result.ret () w1 ∧
        w1.trace = (if 0 < body.countP is_pref_issue
          then [io_event.__frontswap_poll_pref cpu] else []) ++ body ++ w.trace ∧
        body.countP is_poll_pref = 0 ∧
        body.countP is_peek_pref = body.countP is_pref_issue / 4 ∧
        peek_discipline cpu body ∧
        (∀ pre mid suf, body = pre ++ mid ++ suf → mid.countP is_peek_pref = 0 →
          mid.countP is_pref_issue ≤ 4)) ∧
    (work.nr_pte < 4294967296 → ∀ fuel, work.nr_pte - work.stt % UINT_MOD < fuel →
      ∃ r, worker c env work cpu fuel w = some r) := by
  constructor
  · intro fuel r h
    rcases hworker with hw | hw
    · rw [hw] at h
      exact direct_poll_run c env work false cpu fuel w r h
    · rw [hw] at h
      exact direct_poll_run c env work true cpu fuel w r h
  · intro hnr fuel hf
    rcases hworker with hw | hw
    · obtain ⟨r, hr⟩ := direct_poll_loop_total c env work false cpu hnr fuel
        (work.stt % UINT_MOD) 0 w hf
      rw [hw]
      unfold hermit_vma_prefetch_direct_poll_work
      rw [hr]
      cases r with
      | ret n w1 => exact ⟨_, rfl⟩
      | BUG w1 => exact ⟨_, rfl⟩
    · obtain ⟨r, hr⟩ := direct_poll_loop_total c env work true cpu hnr fuel
        (work.stt % UINT_MOD) 0 w hf
      rw [hw]
      unfold hermit_vma_prefetch_direct_poll_direct_map_work
      rw [hr]
      cases r with
      | ret n w1 => exact ⟨_, rfl⟩
      | BUG w1 => exact ⟨_, rfl⟩

/-- C26 (witness): the worker on the work item of eight entries (offset 2) on
cpu 3 in the empty cache issues seven prefetches, peeks once, right after the
4th, and polls once at the end. -/
theorem C26_periodic_peek_witness :
    (example_work.nr_pte < 4294967296 ∧ example_work.nr_pte - example_work.stt % UINT_MOD < 9) ∧
    (∃ r, hermit_vma_prefetch_direct_poll_work default_config example_env example_work 3 9
      empty_world = some r) ∧
    (hermit_vma_prefetch_direct_poll_work default_config example_env example_work 3 9
      empty_world).map (fun r => r.world.trace.filter
        (fun e => is_pref_issue e || is_peek_pref e || is_poll_pref e)) =
      some [io_event.__frontswap_poll_pref 3, io_event.__frontswap_pref_async 149 3,
        io_event.__frontswap_pref_async 141 3, io_event.__frontswap_pref_async 133 3,
        io_event.__frontswap_peek_pref 3, io_event.__frontswap_pref_async 124 3,
        io_event.__frontswap_pref_async 116 3, io_event.__frontswap_pref_async 108 3,
        io_event.__frontswap_pref_async 100 3] :=
  ⟨by decide,
    (C26_periodic_peek default_config example_env example_work 3 empty_world
      hermit_vma_prefetch_direct_poll_work (Or.inl rfl)).2 (by decide) 9 (by decide),
    by decide⟩

/-- The window that `hermit_swap_ra_info` computes for an access domain, as
the request holds it (an `unsigned short`). -/
theorem hermit_swap_ra_info_win_dsa (fuel : Nat) (c : hermit_config) (faddr : Nat)
    (vma : vm_area_struct) (d : ds_area_struct) (ra_info : vma_swap_readahead) :
    (hermit_swap_ra_info fuel c faddr vma (some d) ra_info).map (fun r => r.2.2.win) =
      if (1 <<< min (to_uint c.page_cluster) c.SWAP_RA_ORDER_CEILING) % UINT_MOD = 1 then some 1
      else if d.type = dsa_type.DSA_PARFOR ∨ d.type = dsa_type.DSA_STREAMING then
        (__swapin_nr_pages fuel c.readahead_win
          (PFN_DOWN c (SWAP_RA_ADDR c (GET_SWAP_RA_VAL d.swap_readahead_info)))
          (PFN_DOWN c faddr)
          (to_int ((SWAP_RA_HITS c (GET_SWAP_RA_VAL d.swap_readahead_info) % UINT_MOD + 4)
            % UINT_MOD))
          (to_int 32)
          (to_int (SWAP_RA_WIN c (GET_SWAP_RA_VAL d.swap_readahead_info) % UINT_MOD))).map
          (fun win => win % USHRT_MOD)
      else if d.type = dsa_type.DSA_RANDOM then some 1
      else
        (__swapin_nr_pages fuel c.readahead_win
          (PFN_DOWN c (SWAP_RA_ADDR c (GET_SWAP_RA_VAL d.swap_readahead_info)))
          (PFN_DOWN c faddr)
          (to_int (SWAP_RA_HITS c (GET_SWAP_RA_VAL d.swap_readahead_info) % UINT_MOD))
          (to_int ((1 <<< min (to_uint c.page_cluster) c.SWAP_RA_ORDER_CEILING) % UINT_MOD))
          (to_int (SWAP_RA_WIN c (GET_SWAP_RA_VAL d.swap_readahead_info) % UINT_MOD))).map
          (fun win => win % USHRT_MOD) := by
  have h1 : 1 % USHRT_MOD = 1 := by decide
  unfold hermit_swap_ra_info
  simp only []
  split
  · rfl
  · simp only [Option.map_map]
    split
    · cases __swapin_nr_pages fuel c.readahead_win _ _ _ _ _ with
      | none => rfl
      | some w =>
        simp only [Option.map_some', Function.comp]
        split <;> simp_all
    · split
      · simp [h1]
      · split <;>
        · cases __swapin_nr_pages fuel c.readahead_win _ _ _ _ _ with
          | none => rfl
          | some w =>
            simp only [Option.map_some', Function.comp]
            split <;> simp_all

/-- C7: for every access domain of type `DSA_RANDOM`, `hermit_swap_ra_info`
returns with `ra_info->win = 1`, for every stored word of the domain (hit
count, previous window, previous address), fault address, `page_cluster`,
`readahead_win` and every other input. -/
theorem C7_random_domain_window_one (fuel : Nat) (c : hermit_config) (faddr : Nat)
    (vma : vm_area_struct) (d : ds_area_struct) (ra_info : vma_swap_readahead)
    (hrandom : d.type = dsa_type.DSA_RANDOM) :
    ∃ r, hermit_swap_ra_info fuel c faddr vma (some d) ra_info = some r ∧ r.2.2.win = 1 := by
  have h := hermit_swap_ra_info_win_dsa fuel c faddr vma d ra_info
  rw [hrandom] at h
  simp only [reduceCtorEq, or_self, if_false, if_true, ite_self] at h
  rw [Option.map_eq_some'] at h
  obtain ⟨r, hr, hw⟩ := h
  exact ⟨r, hr, hw⟩

/-- C7 (witness): a random domain with 63 stored hits and a stored window of
32, with `page_cluster = 3`. -/
theorem C7_random_domain_window_one_witness :
    (dsa_type.DSA_RANDOM = dsa_type.DSA_RANDOM) ∧
    ∃ r, hermit_swap_ra_info 29 default_config 139637976748032
        { vm_start := 139637976727552, vm_end := 139637977776128, swap_readahead_info := 0 }
        (some { type := dsa_type.DSA_RANDOM,
                swap_readahead_info := SWAP_RA_VAL default_config 139637976743936 32 63 })
        { win := 0, offset := 0, nr_pte := 0, ptes := 0 } = some r ∧ r.2.2.win = 1 :=
  ⟨rfl, C7_random_domain_window_one 29 default_config 139637976748032 _
    { type := dsa_type.DSA_RANDOM,
      swap_readahead_info := SWAP_RA_VAL default_config 139637976743936 32 63 } _ rfl⟩

/-- C8: in `hermit_swap_ra_info` (with a ceiling `max_win` other than 1, which
returns the window 1 for every domain) the branch of a `DSA_STREAMING` or
`DSA_PARFOR` domain passes `hits + 4` and the ceiling 32 to
`__swapin_nr_pages`, where the branch of a `DSA_NON_DSA` domain passes `hits`
and `max_win`, for every stored word, and the request keeps the result as an
`unsigned short`. With all other inputs equal (fault address, vma,
configuration, previous window of the stored word; the previous address plays
no part), 0 stored hits in the sequential domain and 4 in the default one,
both calls return (2 loop iterations suffice) and the sequential window is at
least the default one: with the override off the sequential window is the
size 8 (16 when the stored word is all zero, which `GET_SWAP_RA_VAL` reads as
4 hits), not clamped by `max_win`, and the default window is the size 8
clamped to `max_win`, each raised to half of the previous window. -/
theorem C8_sequential_at_least_default (fuel : Nat) (c : hermit_config) (faddr : Nat)
    (vma : vm_area_struct) (ra_info : vma_swap_readahead) (d_seq d_def : ds_area_struct)
    (hfuel : 2 ≤ fuel)
    (hseq : d_seq.type = dsa_type.DSA_STREAMING ∨ d_seq.type = dsa_type.DSA_PARFOR)
    (hdef : d_def.type = dsa_type.DSA_NON_DSA)
    (hhits_seq : SWAP_RA_HITS c d_seq.swap_readahead_info = 0)
    (hhits_def : SWAP_RA_HITS c d_def.swap_readahead_info = 4)
    (hwin : SWAP_RA_WIN c d_seq.swap_readahead_info =
      SWAP_RA_WIN c d_def.swap_readahead_info) :
    ((1 <<< min (to_uint c.page_cluster) c.SWAP_RA_ORDER_CEILING) % UINT_MOD ≠ 1 →
      (hermit_swap_ra_info fuel c faddr vma (some d_seq) ra_info).map (fun r => r.2.2.win) =
        (__swapin_nr_pages fuel c.readahead_win
          (PFN_DOWN c (SWAP_RA_ADDR c (GET_SWAP_RA_VAL d_seq.swap_readahead_info)))
          (PFN_DOWN c faddr)
          (to_int ((SWAP_RA_HITS c (GET_SWAP_RA_VAL d_seq.swap_readahead_info) % UINT_MOD + 4)
            % UINT_MOD))
          (to_int 32)
          (to_int (SWAP_RA_WIN c (GET_SWAP_RA_VAL d_seq.swap_readahead_info) % UINT_MOD))).map
          (fun win => win % USHRT_MOD) ∧
      (hermit_swap_ra_info fuel c faddr vma (some d_def) ra_info).map (fun r => r.2.2.win) =
        (__swapin_nr_pages fuel c.readahead_win
          (PFN_DOWN c (SWAP_RA_ADDR c (GET_SWAP_RA_VAL d_def.swap_readahead_info)))
          (PFN_DOWN c faddr)
          (to_int (SWAP_RA_HITS c (GET_SWAP_RA_VAL d_def.swap_readahead_info) % UINT_MOD))
          (to_int ((1 <<< min (to_uint c.page_cluster) c.SWAP_RA_ORDER_CEILING) % UINT_MOD))
          (to_int (SWAP_RA_WIN c (GET_SWAP_RA_VAL d_def.swap_readahead_info) % UINT_MOD))).map
          (fun win => win % USHRT_MOD)) ∧
    ∃ rs rd,
      hermit_swap_ra_info fuel c faddr vma (some d_seq) ra_info = some rs ∧
      hermit_swap_ra_info fuel c faddr vma (some d_def) ra_info = some rd ∧
      rd.2.2.win ≤ rs.2.2.win ∧
      ((1 <<< min (to_uint c.page_cluster) c.SWAP_RA_ORDER_CEILING) % UINT_MOD ≠ 1 →
        c.readahead_win ≤ 0 →
        rs.2.2.win =
          max (if d_seq.swap_readahead_info = 0 then 16 else 8)
            (to_uint (Int.tdiv
              (to_int (SWAP_RA_WIN c (GET_SWAP_RA_VAL d_seq.swap_readahead_info) % UINT_MOD))
              2)) % USHRT_MOD ∧
        rd.2.2.win =
          max (min 8 (to_uint (to_int
              ((1 <<< min (to_uint c.page_cluster) c.SWAP_RA_ORDER_CEILING) % UINT_MOD))))
            (to_uint (Int.tdiv
              (to_int (SWAP_RA_WIN c d_def.swap_readahead_info % UINT_MOD)) 2)) % USHRT_MOD) := by
  have hs := hermit_swap_ra_info_win_dsa fuel c faddr vma d_seq ra_info
  have hd := hermit_swap_ra_info_win_dsa fuel c faddr vma d_def ra_info
  have hseq2 : d_seq.type = dsa_type.DSA_PARFOR ∨ d_seq.type = dsa_type.DSA_STREAMING :=
    hseq.symm
  rw [if_pos hseq2] at hs
  rw [hdef] at hd
  simp only [reduceCtorEq, or_self, if_false] at hd
  refine ⟨fun hK => ⟨by rw [hs, if_neg hK], by rw [hd, if_neg hK]⟩, ?_⟩
  have key : ∃ ws wd,
      (hermit_swap_ra_info fuel c faddr vma (some d_seq) ra_info).map (fun r => r.2.2.win)
        = some ws ∧
      (hermit_swap_ra_info fuel c faddr vma (some d_def) ra_info).map (fun r => r.2.2.win)
        = some wd ∧ wd ≤ ws ∧
      ((1 <<< min (to_uint c.page_cluster) c.SWAP_RA_ORDER_CEILING) % UINT_MOD ≠ 1 →
        c.readahead_win ≤ 0 →
        ws = max (if d_seq.swap_readahead_info = 0 then 16 else 8)
            (to_uint (Int.tdiv
              (to_int (SWAP_RA_WIN c (GET_SWAP_RA_VAL d_seq.swap_readahead_info) % UINT_MOD))
              2)) % USHRT_MOD ∧
        wd = max (min 8 (to_uint (to_int
              ((1 <<< min (to_uint c.page_cluster) c.SWAP_RA_ORDER_CEILING) % UINT_MOD))))
            (to_uint (Int.tdiv
              (to_int (SWAP_RA_WIN c d_def.swap_readahead_info % UINT_MOD)) 2)) % USHRT_MOD) := by
    rw [hs, hd]
    by_cases hK : (1 <<< min (to_uint c.page_cluster) c.SWAP_RA_ORDER_CEILING) % UINT_MOD = 1
    · rw [if_pos hK, if_pos hK]
      exact ⟨1, 1, rfl, rfl, le_refl _, fun h => absurd hK h⟩
    · rw [if_neg hK, if_neg hK]
      have hvd : d_def.swap_readahead_info ≠ 0 := by
        intro h0
        rw [h0, SWAP_RA_HITS_zero] at hhits_def
        omega
      have hgd : GET_SWAP_RA_VAL d_def.swap_readahead_info = d_def.swap_readahead_info := by
        unfold GET_SWAP_RA_VAL; rw [if_pos hvd]
      have h4 : SWAP_RA_HITS c 4 = 4 := by
        have := SWAP_RA_HITS_idem c d_def.swap_readahead_info
        rw [hhits_def] at this
        exact this
      have ti4 : to_int (4 % UINT_MOD) = 4 := by decide
      have ti44 : to_int ((0 % UINT_MOD + 4) % UINT_MOD) = 4 := by decide
      have ti8 : to_int ((4 % UINT_MOD + 4) % UINT_MOD) = 8 := by decide
      have tu32 : to_uint (to_int 32) = 32 := by decide
      rw [hgd, hhits_def, ti4, swapin_four_hits _ _ _ _ _ _ (by omega)]
      generalize to_uint (to_int
        ((1 <<< min (to_uint c.page_cluster) c.SWAP_RA_ORDER_CEILING) % UINT_MOD)) = M
      by_cases hvs : d_seq.swap_readahead_info = 0
      · have hgs : GET_SWAP_RA_VAL d_seq.swap_readahead_info = 4 := by
          unfold GET_SWAP_RA_VAL; rw [if_neg (by simp [hvs])]
        have hwd : SWAP_RA_WIN c d_def.swap_readahead_info = 0 := by
          rw [← hwin, hvs, SWAP_RA_WIN_zero]
        have hl0 : to_uint (Int.tdiv (to_int (0 % UINT_MOD)) 2) = 0 := by decide
        rw [hgs, h4, ti8, swapin_eight_hits _ _ _ _ _ _ hfuel, tu32, hwd, hl0, if_pos hvs]
        have hw4 : SWAP_RA_WIN c 4 ≤ 4 := by
          unfold SWAP_RA_WIN
          rw [Nat.shiftRight_eq_div_pow]
          exact le_trans (Nat.div_le_self _ _) Nat.and_le_left
        have hL : ∀ w, w ≤ 4 → to_uint (Int.tdiv (to_int (w % UINT_MOD)) 2) ≤ 2 := by decide
        have hL4 := hL _ hw4
        generalize to_uint (Int.tdiv (to_int (SWAP_RA_WIN c 4 % UINT_MOD)) 2) = L at hL4 ⊢
        by_cases hrw : c.readahead_win > 0
        · rw [if_pos hrw, if_pos hrw]
          exact ⟨_, _, rfl, rfl, le_refl _, fun _ h => absurd hrw (by omega)⟩
        · rw [if_neg hrw, if_neg hrw]
          simp only [Option.map_some']
          refine ⟨_, _, rfl, rfl, ?_, fun _ _ => ⟨rfl, rfl⟩⟩
          unfold USHRT_MOD
          omega
      · have hgs : GET_SWAP_RA_VAL d_seq.swap_readahead_info = d_seq.swap_readahead_info := by
          unfold GET_SWAP_RA_VAL; rw [if_pos hvs]
        rw [hgs, hhits_seq, ti44, swapin_four_hits _ _ _ _ _ _ (by omega), tu32, hwin,
          if_neg hvs]
        generalize to_uint (Int.tdiv
          (to_int (SWAP_RA_WIN c d_def.swap_readahead_info % UINT_MOD)) 2) = L
        by_cases hrw : c.readahead_win > 0
        · rw [if_pos hrw, if_pos hrw]
          exact ⟨_, _, rfl, rfl, le_refl _, fun _ h => absurd hrw (by omega)⟩
        · rw [if_neg hrw, if_neg hrw]
          simp only [Option.map_some']
          refine ⟨_, _, rfl, rfl, ?_, fun _ _ => ⟨rfl, rfl⟩⟩
          unfold USHRT_MOD
          omega
  obtain ⟨ws, wd, h1, h2, h3, h4⟩ := key
  rw [Option.map_eq_some'] at h1 h2
  obtain ⟨rs, hrs, hws⟩ := h1
  obtain ⟨rd, hrd, hwd⟩ := h2
  refine ⟨rs, rd, hrs, hrd, ?_, ?_⟩
  · rw [hws, hwd]
    exact h3
  · rw [hws, hwd]
    exact h4

/-- C8 (witness): previous address `0x7f0000004000`, previous window 8, fault
at `0x7f0000005000` and `page_cluster = 2`, so that `max_win` is 4: the
streaming domain with 0 stored hits gets the window 8 and the default domain
with 4 stored hits the window 4. -/
theorem C8_sequential_at_least_default_witness :
    (2 ≤ 29 ∧
      (dsa_type.DSA_STREAMING = dsa_type.DSA_STREAMING ∨
        dsa_type.DSA_STREAMING = dsa_type.DSA_PARFOR) ∧
      dsa_type.DSA_NON_DSA = dsa_type.DSA_NON_DSA ∧
      SWAP_RA_HITS { default_config with page_cluster := 2 } 139637976744448 = 0 ∧
      SWAP_RA_HITS { default_config with page_cluster := 2 } 139637976744452 = 4 ∧
      SWAP_RA_WIN { default_config with page_cluster := 2 } 139637976744448 =
        SWAP_RA_WIN { default_config with page_cluster := 2 } 139637976744452) ∧
    (∃ rs rd,
      hermit_swap_ra_info 29 { default_config with page_cluster := 2 } 139637976748032
        { vm_start := 139637976727552, vm_end := 139637977776128, swap_readahead_info := 0 }
        (some { type := dsa_type.DSA_STREAMING, swap_readahead_info := 139637976744448 })
        { win := 0, offset := 0, nr_pte := 0, ptes := 0 } = some rs ∧
      hermit_swap_ra_info 29 { default_config with page_cluster := 2 } 139637976748032
        { vm_start := 139637976727552, vm_end := 139637977776128, swap_readahead_info := 0 }
        (some { type := dsa_type.DSA_NON_DSA, swap_readahead_info := 139637976744452 })
        { win := 0, offset := 0, nr_pte := 0, ptes := 0 } = some rd ∧
      rd.2.2.win ≤ rs.2.2.win) ∧
    (hermit_swap_ra_info 29 { default_config with page_cluster := 2 } 139637976748032
        { vm_start := 139637976727552, vm_end := 139637977776128, swap_readahead_info := 0 }
        (some { type := dsa_type.DSA_STREAMING, swap_readahead_info := 139637976744448 })
        { win := 0, offset := 0, nr_pte := 0, ptes := 0 }).map (fun r => r.2.2.win) = some 8 ∧
    (hermit_swap_ra_info 29 { default_config with page_cluster := 2 } 139637976748032
        { vm_start := 139637976727552, vm_end := 139637977776128, swap_readahead_info := 0 }
        (some { type := dsa_type.DSA_NON_DSA, swap_readahead_info := 139637976744452 })
        { win := 0, offset := 0, nr_pte := 0, ptes := 0 }).map (fun r => r.2.2.win) = some 4 :=
  ⟨by decide,
   (match (C8_sequential_at_least_default 29 { default_config with page_cluster := 2 }
     139637976748032
     { vm_start := 139637976727552, vm_end := 139637977776128, swap_readahead_info := 0 }
     { win := 0, offset := 0, nr_pte := 0, ptes := 0 }
     { type := dsa_type.DSA_STREAMING, swap_readahead_info := 139637976744448 }
     { type := dsa_type.DSA_NON_DSA, swap_readahead_info := 139637976744452 }
     (by decide) (by decide) (by decide) (by decide) (by decide) (by decide)).2 with
    | ⟨rs, rd, h1, h2, h3, _⟩ => ⟨rs, rd, h1, h2, h3⟩),
   by decide, by decide⟩

/-- With the override off and a page shift of at most 34, a window computed
by `hermit_swap_ra_info` is below `2 ^ 16`: it is at most the larger of 32 and
half of the stored previous window, whose field has at most 17 bits. -/
theorem swapin_window_ushort (fuel : Nat) (c : hermit_config) (v pfn fpfn : Nat)
    (hits mx : Int) (win : Nat)
    (hs2 : c.PAGE_SHIFT ≤ 34)
    (hceil : c.SWAP_RA_ORDER_CEILING ≤ 5) (hrw : c.readahead_win ≤ 0)
    (hmx : mx = to_int 32 ∨
      mx = to_int ((1 <<< min (to_uint c.page_cluster) c.SWAP_RA_ORDER_CEILING) % UINT_MOD))
    (h : __swapin_nr_pages fuel c.readahead_win pfn fpfn hits mx
      (to_int (SWAP_RA_WIN c v % UINT_MOD)) = some win) :
    win < 65536 := by
  obtain ⟨b, hb⟩ := swapin_result_form fuel _ pfn fpfn hits mx _ hrw win h
  have hW := SWAP_RA_WIN_lt c v (by omega)
  have hP2 : 2 ^ (c.PAGE_SHIFT - c.PAGE_SHIFT / 2) ≤ 2 ^ 17 :=
    Nat.pow_le_pow_right (by norm_num) (by omega)
  have e17 : (2 : Nat) ^ 17 = 131072 := by norm_num
  rw [e17] at hP2
  have hlast := last_ra_of_packed (SWAP_RA_WIN c v) (by omega)
  have hmxle : to_uint mx ≤ 32 := by
    rcases hmx with hm | hm
    · rw [hm, to_uint_to_int_of_lt 32 (by norm_num)]
    · have hle := max_win_le c hceil
      rw [hm, to_uint_to_int_of_lt _ (by omega)]
      exact hle
  rw [hlast] at hb
  have hmin : min b (to_uint mx) ≤ 32 := le_trans (Nat.min_le_right _ _) hmxle
  generalize 2 ^ (c.PAGE_SHIFT - c.PAGE_SHIFT / 2) = P at *
  generalize SWAP_RA_WIN c v = W at *
  generalize min b (to_uint mx) = m at *
  rw [hb]; omega

/-- Every result of `hermit_swap_ra_info` that computes a window (that is, with
`max_win` other than 1): the window is 1 for a random access domain and a
result of `__swapin_nr_pages` otherwise, both stored states are
`SWAP_RA_VAL(faddr, win, 0)`, the request holds the window as an
`unsigned short`, and for a window other than 1 it holds, again as
`unsigned short` values, the clamped range of the shape chosen from the
previous and the faulting page frame number. -/
theorem hermit_swap_ra_info_result (fuel : Nat) (c : hermit_config) (faddr : Nat)
    (vma : vm_area_struct) (dsa : Option ds_area_struct) (ra_info : vma_swap_readahead)
    (r : vm_area_struct × Option ds_area_struct × vma_swap_readahead)
    (h : hermit_swap_ra_info fuel c faddr vma dsa ra_info = some r)
    (hmw : (1 <<< min (to_uint c.page_cluster) c.SWAP_RA_ORDER_CEILING) % UINT_MOD ≠ 1) :
    ∃ v win,
      (win = 1 ∨ ∃ hits mx,
        (mx = to_int 32 ∨
          mx = to_int ((1 <<< min (to_uint c.page_cluster) c.SWAP_RA_ORDER_CEILING)
            % UINT_MOD)) ∧
        __swapin_nr_pages fuel c.readahead_win (PFN_DOWN c (SWAP_RA_ADDR c v))
          (PFN_DOWN c faddr) hits mx (to_int (SWAP_RA_WIN c v % UINT_MOD)) = some win) ∧
      r.1 = { vma with swap_readahead_info := SWAP_RA_VAL c faddr win 0 } ∧
      r.2.1 = dsa.map (fun d => { d with swap_readahead_info := SWAP_RA_VAL c faddr win 0 }) ∧
      r.2.2.win = win % USHRT_MOD ∧
      (win ≠ 1 →
        ∃ se : Nat × Nat,
          (se =
            if c.HMT_PREF_ALWYS_ASCEND = true ∨
                PFN_DOWN c faddr = ul_add (PFN_DOWN c (SWAP_RA_ADDR c v)) 1 then
              swap_ra_clamp_pfn c vma faddr (PFN_DOWN c faddr) (ul_add (PFN_DOWN c faddr) win)
            else if PFN_DOWN c (SWAP_RA_ADDR c v) = ul_add (PFN_DOWN c faddr) 1 then
              swap_ra_clamp_pfn c vma faddr (ul_add (ul_sub (PFN_DOWN c faddr) win) 1)
                (ul_add (PFN_DOWN c faddr) 1)
            else
              swap_ra_clamp_pfn c vma faddr
                (ul_sub (PFN_DOWN c faddr) (((win + (UINT_MOD - 1)) % UINT_MOD) / 2))
                (ul_sub (ul_add (PFN_DOWN c faddr) win)
                  (((win + (UINT_MOD - 1)) % UINT_MOD) / 2))) ∧
          r.2.2 = { win := win % USHRT_MOD, nr_pte := ul_sub se.2 se.1 % USHRT_MOD,
                    offset := ul_sub (PFN_DOWN c faddr) se.1 % USHRT_MOD,
                    ptes := ul_sub (PFN_DOWN c faddr)
                      (ul_sub (PFN_DOWN c faddr) se.1 % USHRT_MOD) }) := by
  unfold hermit_swap_ra_info at h
  simp only [] at h
  rw [if_neg hmw] at h
  rw [Option.map_eq_some'] at h
  obtain ⟨st, hst, hr⟩ := h
  cases dsa with
  | none =>
    simp only [Option.map_eq_some'] at hst
    obtain ⟨win, hwin, hst2⟩ := hst
    subst hst2
    refine ⟨GET_SWAP_RA_VAL vma.swap_readahead_info, win, Or.inr ⟨_, _, Or.inr rfl, hwin⟩, ?_⟩
    simp only [] at hr
    by_cases hw1 : win = 1
    · rw [if_pos hw1] at hr
      rw [← hr]
      exact ⟨rfl, rfl, rfl, fun hne => absurd hw1 hne⟩
    · rw [if_neg hw1] at hr
      rw [← hr]
      exact ⟨rfl, rfl, rfl, fun _ => ⟨_, rfl, rfl⟩⟩
  | some d =>
    simp only [Option.map_eq_some'] at hst
    obtain ⟨win, hwin, hst2⟩ := hst
    subst hst2
    have hsrc : win = 1 ∨ ∃ hits mx,
        (mx = to_int 32 ∨
          mx = to_int ((1 <<< min (to_uint c.page_cluster) c.SWAP_RA_ORDER_CEILING)
            % UINT_MOD)) ∧
        __swapin_nr_pages fuel c.readahead_win
          (PFN_DOWN c (SWAP_RA_ADDR c (GET_SWAP_RA_VAL d.swap_readahead_info)))
          (PFN_DOWN c faddr) hits mx
          (to_int (SWAP_RA_WIN c (GET_SWAP_RA_VAL d.swap_readahead_info) % UINT_MOD))
          = some win := by
      split at hwin
      · exact Or.inr ⟨_, _, Or.inl rfl, hwin⟩
      · split at hwin
        · left; simpa using hwin.symm
        · split at hwin
          · exact Or.inr ⟨_, _, Or.inr rfl, hwin⟩
          · exact Or.inr ⟨_, _, Or.inr rfl, hwin⟩
    refine ⟨GET_SWAP_RA_VAL d.swap_readahead_info, win, hsrc, ?_⟩
    simp only [] at hr
    by_cases hw1 : win = 1
    · rw [if_pos hw1] at hr
      rw [← hr]
      exact ⟨rfl, rfl, rfl, fun hne => absurd hw1 hne⟩
    · rw [if_neg hw1] at hr
      rw [← hr]
      exact ⟨rfl, rfl, rfl, fun _ => ⟨_, rfl, rfl⟩⟩

/-- Why the stored window is the returned `ra_info->win` only modulo `2 ^ 16`
beyond a page shift of 34: with a page shift of 40 the window field has 20
bits; from a stored window of `2 ^ 17` the computed window is `2 ^ 16`, the
vma stores it, and the `unsigned short ra_info->win` is 0. -/
theorem hermit_swap_ra_info_win_narrowed :
    (hermit_swap_ra_info 29 { default_config with PAGE_SHIFT := 40 } 5497558138880
      { vm_start := 0, vm_end := 1125899906842624, swap_readahead_info := 137438953473 } none
      { win := 1, offset := 0, nr_pte := 0, ptes := 0 }).map
      (fun r => (SWAP_RA_WIN { default_config with PAGE_SHIFT := 40 } r.1.swap_readahead_info,
        r.2.2.win)) = some (65536, 0) := by
  decide

/-- C21: with `readahead_win = 0`, `page_cluster ≥ 1`, `SWAP_RA_ORDER_CEILING`
between 1 and 5 and a page shift between 11 and 61, every result of
`hermit_swap_ra_info` leaves in the vma, and in the dsa when one is supplied,
a state that unpacks to the address `faddr & PAGE_MASK` (the fault address
with the page-offset bits cleared), 0 hits and the computed window, which
fits the window field; the other fields of the vma and the type of the dsa
are unchanged. The `unsigned short ra_info->win` that the call returns is
this window modulo `2 ^ 16`: for page shifts up to 34 the window is below
`2 ^ 16` and the stored window is exactly `ra_info->win`. It is at most 32
when the page shift is at most 12. A result exists with 29 loop iterations. -/
theorem C21_state_reset (c : hermit_config) (faddr : Nat) (vma : vm_area_struct)
    (dsa : Option ds_area_struct) (ra_info : vma_swap_readahead)
    (hs1 : 11 ≤ c.PAGE_SHIFT) (hs2 : c.PAGE_SHIFT ≤ 61)
    (hc1 : 1 ≤ c.SWAP_RA_ORDER_CEILING) (hc5 : c.SWAP_RA_ORDER_CEILING ≤ 5)
    (hpc : 1 ≤ c.page_cluster) (hint : is_int c.page_cluster)
    (hrw : c.readahead_win = 0) :
    (∀ fuel r, hermit_swap_ra_info fuel c faddr vma dsa ra_info = some r →
      SWAP_RA_ADDR c r.1.swap_readahead_info = faddr &&& PAGE_MASK c ∧
      (faddr < 2 ^ 64 → SWAP_RA_ADDR c r.1.swap_readahead_info =
        faddr / 2 ^ c.PAGE_SHIFT * 2 ^ c.PAGE_SHIFT) ∧
      SWAP_RA_HITS c r.1.swap_readahead_info = 0 ∧
      SWAP_RA_WIN c r.1.swap_readahead_info % USHRT_MOD = r.2.2.win ∧
      (c.PAGE_SHIFT ≤ 34 → SWAP_RA_WIN c r.1.swap_readahead_info = r.2.2.win) ∧
      r.1.vm_start = vma.vm_start ∧ r.1.vm_end = vma.vm_end ∧
      (dsa = none → r.2.1 = none) ∧
      (∀ d, dsa = some d → ∃ d1, r.2.1 = some d1 ∧ d1.type = d.type ∧
        SWAP_RA_ADDR c d1.swap_readahead_info = faddr &&& PAGE_MASK c ∧
        SWAP_RA_HITS c d1.swap_readahead_info = 0 ∧
        SWAP_RA_WIN c d1.swap_readahead_info % USHRT_MOD = r.2.2.win ∧
        (c.PAGE_SHIFT ≤ 34 → SWAP_RA_WIN c d1.swap_readahead_info = r.2.2.win)) ∧
      SWAP_RA_WIN c r.1.swap_readahead_info < 2 ^ (c.PAGE_SHIFT - c.PAGE_SHIFT / 2) ∧
      r.2.2.win < 2 ^ (c.PAGE_SHIFT - c.PAGE_SHIFT / 2) ∧
      (c.PAGE_SHIFT ≤ 12 → r.2.2.win ≤ 32)) ∧
    (∀ fuel, 29 ≤ fuel → ∃ r, hermit_swap_ra_info fuel c faddr vma dsa ra_info = some r) := by
  refine ⟨?_, fun fuel hfuel =>
    hermit_swap_ra_info_total fuel c faddr vma dsa ra_info hs2 hfuel⟩
  intro fuel r h
  obtain ⟨v, win, hsrc, hvma, hdsa, hwin, _⟩ :=
    hermit_swap_ra_info_result fuel c faddr vma dsa ra_info r h
      (max_win_ne_one c hc1 hc5 hpc hint)
  have hs63 : c.PAGE_SHIFT ≤ 63 := by omega
  have hP1 : 2 ^ 6 ≤ 2 ^ (c.PAGE_SHIFT - c.PAGE_SHIFT / 2) :=
    Nat.pow_le_pow_right (by norm_num) (by omega)
  have e6 : (2 : Nat) ^ 6 = 64 := by norm_num
  rw [e6] at hP1
  have hfit : win < 2 ^ (c.PAGE_SHIFT - c.PAGE_SHIFT / 2) ∧ (c.PAGE_SHIFT ≤ 12 → win ≤ 32) := by
    rcases hsrc with h1 | ⟨hits, mx, hmx, hsw⟩
    · subst h1
      exact ⟨by omega, fun _ => by omega⟩
    · exact swapin_window_fits fuel c v _ _ hits mx win hs1 hs2 hc5 (by omega) hmx hsw
  have hshort : c.PAGE_SHIFT ≤ 34 → win % USHRT_MOD = win := by
    intro h34
    apply Nat.mod_eq_of_lt
    unfold USHRT_MOD
    rcases hsrc with h1 | ⟨hits, mx, hmx, hsw⟩
    · subst h1; omega
    · exact swapin_window_ushort fuel c v _ _ hits mx win h34 hc5 (by omega) hmx hsw
  have hmodle : win % USHRT_MOD ≤ win := Nat.mod_le _ _
  have hzero : (0 : Nat) < 2 ^ (c.PAGE_SHIFT / 2) := Nat.pow_pos (by norm_num)
  have hW : SWAP_RA_WIN c (SWAP_RA_VAL c faddr win 0) = win :=
    SWAP_RA_WIN_VAL c faddr win 0 hs63 hfit.1
  rw [hwin]
  refine ⟨?_, ?_, ?_, ?_, ?_, ?_, ?_, ?_, ?_, ?_, ?_, ?_⟩
  · rw [hvma]; exact SWAP_RA_ADDR_VAL c faddr win 0 hs63
  · intro hf
    rw [hvma]
    exact (SWAP_RA_ADDR_VAL c faddr win 0 hs63).trans (and_PAGE_MASK_eq c faddr hs63 hf)
  · rw [hvma]; exact SWAP_RA_HITS_VAL c faddr win 0 hs63 hzero
  · rw [hvma]; simp only []; rw [hW]
  · intro h34; rw [hvma]; simp only []; rw [hW, hshort h34]
  · rw [hvma]
  · rw [hvma]
  · intro hd; rw [hdsa, hd]; rfl
  · intro d hd
    rw [hdsa, hd]
    refine ⟨_, rfl, rfl, SWAP_RA_ADDR_VAL c faddr win 0 hs63,
      SWAP_RA_HITS_VAL c faddr win 0 hs63 hzero, ?_, ?_⟩
    · simp only []; rw [hW]
    · intro h34; simp only []; rw [hW, hshort h34]
  · rw [hvma]; simp only []; rw [hW]; exact hfit.1
  · exact lt_of_le_of_lt hmodle hfit.1
  · intro h12; exact le_trans hmodle (hfit.2 h12)

/-- C21 (witness): the default configuration and a fault at `0x5123` in
`example_vma` with a streaming domain: the window is 16 and both stored
states are 21504, which unpacks to the address `0x5000`, the window 16 and 0
hits. -/
theorem C21_state_reset_witness :
    (11 ≤ default_config.PAGE_SHIFT ∧ default_config.PAGE_SHIFT ≤ 61 ∧
      1 ≤ default_config.SWAP_RA_ORDER_CEILING ∧ default_config.SWAP_RA_ORDER_CEILING ≤ 5 ∧
      1 ≤ default_config.page_cluster ∧ is_int default_config.page_cluster ∧
      default_config.readahead_win = 0) ∧
    hermit_swap_ra_info 29 default_config 20771 example_vma
      (some { type := dsa_type.DSA_STREAMING, swap_readahead_info := 16387 })
      { win := 1, offset := 0, nr_pte := 0, ptes := 0 } =
      some ({ vm_start := 0, vm_end := 1048576, swap_readahead_info := 21504 },
        some { type := dsa_type.DSA_STREAMING, swap_readahead_info := 21504 },
        { win := 16, offset := 0, nr_pte := 16, ptes := 5 }) ∧
    SWAP_RA_ADDR default_config 21504 = 20771 &&& PAGE_MASK default_config ∧
    SWAP_RA_HITS default_config 21504 = 0 ∧
    SWAP_RA_WIN default_config 21504 = 16 :=
  ⟨by decide, by decide,
    ((C21_state_reset default_config 20771 example_vma
      (some { type := dsa_type.DSA_STREAMING, swap_readahead_info := 16387 })
      { win := 1, offset := 0, nr_pte := 0, ptes := 0 }
      (by decide) (by decide) (by decide) (by decide) (by decide) (by decide) (by decide)).1
      29 ({ vm_start := 0, vm_end := 1048576, swap_readahead_info := 21504 },
        some { type := dsa_type.DSA_STREAMING, swap_readahead_info := 21504 },
        { win := 16, offset := 0, nr_pte := 16, ptes := 5 }) (by decide)).1,
    ((C21_state_reset default_config 20771 example_vma
      (some { type := dsa_type.DSA_STREAMING, swap_readahead_info := 16387 })
      { win := 1, offset := 0, nr_pte := 0, ptes := 0 }
      (by decide) (by decide) (by decide) (by decide) (by decide) (by decide) (by decide)).1
      29 ({ vm_start := 0, vm_end := 1048576, swap_readahead_info := 21504 },
        some { type := dsa_type.DSA_STREAMING, swap_readahead_info := 21504 },
        { win := 16, offset := 0, nr_pte := 16, ptes := 5 }) (by decide)).2.2.1,
    ((C21_state_reset default_config 20771 example_vma
      (some { type := dsa_type.DSA_STREAMING, swap_readahead_info := 16387 })
      { win := 1, offset := 0, nr_pte := 0, ptes := 0 }
      (by decide) (by decide) (by decide) (by decide) (by decide) (by decide) (by decide)).1
      29 ({ vm_start := 0, vm_end := 1048576, swap_readahead_info := 21504 },
        some { type := dsa_type.DSA_STREAMING, swap_readahead_info := 21504 },
        { win := 16, offset := 0, nr_pte := 16, ptes := 5 }) (by decide)).2.2.2.2.1
      (by decide)⟩

/-- The previous window that `hermit_swap_ra_info` passes to
`__swapin_nr_pages`, the window field of a packed state read into an
`unsigned int` and converted to `int`, is not negative (the field has at most
31 bits for page shifts up to 62). -/
theorem packed_prev_win_nonneg (c : hermit_config) (v : Nat) (hs : c.PAGE_SHIFT ≤ 62) :
    0 ≤ to_int (SWAP_RA_WIN c v % UINT_MOD) ∧ is_int (to_int (SWAP_RA_WIN c v % UINT_MOD)) := by
  have hW := SWAP_RA_WIN_lt c v (by omega)
  have hP : 2 ^ (c.PAGE_SHIFT - c.PAGE_SHIFT / 2) ≤ 2 ^ 31 :=
    Nat.pow_le_pow_right (by norm_num) (by omega)
  have e31 : (2 : Nat) ^ 31 = 2147483648 := by norm_num
  rw [e31] at hP
  have hlt : SWAP_RA_WIN c v < 2147483648 := by omega
  have hmod : SWAP_RA_WIN c v % UINT_MOD = SWAP_RA_WIN c v :=
    Nat.mod_eq_of_lt (by unfold UINT_MOD; omega)
  rw [hmod, to_int_of_lt _ hlt]
  unfold is_int
  omega

/-- The previous window that `swapin_nr_pages` passes to `__swapin_nr_pages`,
the static `last_readahead_pages`, stays a non-negative `int` from call to
call (it starts as 0), for `page_cluster` up to 30. -/
theorem swapin_nr_pages_prev_win_nonneg (c : hermit_config) (wfuel : Nat)
    (st : swapin_statics) (offset : Nat) (s : swap_state)
    (r : Nat × swap_state × swapin_statics)
    (hrw : is_int c.readahead_win) (hpc : to_uint c.page_cluster ≤ 30)
    (h0 : 0 ≤ st.last_readahead_pages) (hi : is_int st.last_readahead_pages)
    (h : swapin_nr_pages c wfuel st offset s = some r) :
    0 ≤ r.2.2.last_readahead_pages ∧ is_int r.2.2.last_readahead_pages := by
  unfold swapin_nr_pages at h
  simp only [] at h
  split at h
  · simp only [Option.some.injEq] at h
    rw [← h]
    exact ⟨h0, hi⟩
  · split at h
    · exact absurd h (by simp)
    · rename_i pages hp
      simp only [Option.some.injEq] at h
      rw [← h]
      simp only []
      have hmax : (1 <<< to_uint c.page_cluster) % UINT_MOD ≤ 1073741824 := by
        rw [Nat.one_shiftLeft]
        have h1 : 2 ^ to_uint c.page_cluster ≤ 2 ^ 30 :=
          Nat.pow_le_pow_right (by norm_num) hpc
        have e30 : (2 : Nat) ^ 30 = 1073741824 := by norm_num
        exact le_trans (Nat.mod_le _ _) (by omega)
      have hlt : pages < 2147483648 := by
        unfold is_int at hrw hi
        by_cases hpos : c.readahead_win > 0
        · unfold __swapin_nr_pages at hp
          rw [if_pos hpos] at hp
          simp only [Option.some.injEq] at hp
          rw [← hp]
          unfold to_uint
          omega
        · obtain ⟨b, hb⟩ := swapin_result_form wfuel _ _ _ _ _ _ (by omega) pages hp
          have hl : to_uint (Int.tdiv st.last_readahead_pages 2) =
              (st.last_readahead_pages / 2).toNat := by
            rw [tdiv_two_nonneg _ h0]
            exact to_uint_of_nonneg _ (by omega) (by omega)
          have hm2 := to_uint_to_int_of_lt ((1 <<< to_uint c.page_cluster) % UINT_MOD)
            (by omega)
          rw [hl, hm2] at hb
          have hmin : min b ((1 <<< to_uint c.page_cluster) % UINT_MOD) ≤ 1073741824 :=
            le_trans (Nat.min_le_right _ _) hmax
          rw [hb]
          omega
      rw [to_int_of_lt _ hlt]
      unfold is_int
      omega

/-- C1: with `readahead_win = 0`, zero hits, an offset that is not adjacent to
the previous one (the code compares with `prev_offset + 1` and
`prev_offset - 1` in `unsigned long`), `max_pages ≥ 1` and `prev_win ≤ 3`,
`__swapin_nr_pages` returns 1, for every `prev_win` that the function can
receive: it is `static`, and its two callers never pass a negative
`prev_win`. `hermit_swap_ra_info` passes the window field of a packed state,
and `swapin_nr_pages` passes `last_readahead_pages`, which is 0 at first and
then the result of its previous call, again not negative. -/
theorem C1_random_single_access (fuel prev_offset offset : Nat) (max_pages prev_win : Int)
    (hmax : is_int max_pages) (hadj1 : offset ≠ ul_add prev_offset 1)
    (hadj2 : offset ≠ ul_sub prev_offset 1) (hm : 1 ≤ max_pages)
    (hp0 : 0 ≤ prev_win) (hp3 : prev_win ≤ 3) :
    __swapin_nr_pages fuel 0 prev_offset offset 0 max_pages prev_win = some 1 ∧
    (∀ (c : hermit_config) (v : Nat), c.PAGE_SHIFT ≤ 62 →
      0 ≤ to_int (SWAP_RA_WIN c v % UINT_MOD)) ∧
    (∀ (c : hermit_config) (wfuel : Nat) (st : swapin_statics) (o : Nat) (s : swap_state)
      (r : Nat × swap_state × swapin_statics),
      is_int c.readahead_win → to_uint c.page_cluster ≤ 30 →
      0 ≤ st.last_readahead_pages → is_int st.last_readahead_pages →
      swapin_nr_pages c wfuel st o s = some r →
      0 ≤ r.2.2.last_readahead_pages ∧ is_int r.2.2.last_readahead_pages) := by
  refine ⟨?_, fun c v hs => (packed_prev_win_nonneg c v hs).1,
    fun c wfuel st o s r h1 h2 h3 h4 h5 =>
      swapin_nr_pages_prev_win_nonneg c wfuel st o s r h1 h2 h3 h4 h5⟩
  rw [swapin_unfold _ _ _ _ _ _ _ (le_refl _)]
  have h2 : to_uint (0 + 2) = 2 := by decide
  rw [if_pos h2, if_pos ⟨hadj1, hadj2⟩]
  simp only [Option.map_some']
  rw [tdiv_two_nonneg _ hp0]
  unfold is_int at hmax
  unfold to_uint
  congr 1
  omega

/-- C1 (witness): the example of the specification,
`__swapin_nr_pages(100, 250, 0, 16, 1) = 1`. -/
theorem C1_random_single_access_witness :
    (is_int 16 ∧ 250 ≠ ul_add 100 1 ∧ 250 ≠ ul_sub 100 1 ∧ (1 : Int) ≤ 16 ∧
      (0 : Int) ≤ 1 ∧ (1 : Int) ≤ 3) ∧
    __swapin_nr_pages 29 0 100 250 0 16 1 = some 1 :=
  ⟨by decide,
   (C1_random_single_access 29 100 250 16 1 (by decide) (by decide) (by decide) (by decide)
     (by decide) (by decide)).1⟩

/-- C5: with `readahead_win = 0`, for every input with `max_pages ≥ 1` that
the function can receive, every result of `__swapin_nr_pages` is at most
`max(max_pages, prev_win / 2)`, and at most `max_pages` when
`prev_win / 2 ≤ max_pages`; a result exists for every `hits` from `-2` to
`2 ^ 31 - 2`. The function is `static`, and its two callers never pass a
negative `prev_win`: `hermit_swap_ra_info` passes the window field of a packed
state, and `swapin_nr_pages` passes `last_readahead_pages`, which is 0 at
first and then the result of its previous call, again not negative. -/
theorem C5_clamped_to_max_pages (prev_offset offset : Nat)
    (hits max_pages prev_win : Int) (hm : is_int max_pages) (hp : is_int prev_win)
    (m1 : 1 ≤ max_pages) (p0 : 0 ≤ prev_win) :
    (∀ fuel r, __swapin_nr_pages fuel 0 prev_offset offset hits max_pages prev_win = some r →
      (r : Int) ≤ max max_pages (prev_win / 2) ∧
      (prev_win / 2 ≤ max_pages → (r : Int) ≤ max_pages)) ∧
    (-2 ≤ hits → hits ≤ 2147483646 → ∀ fuel, 29 ≤ fuel →
      ∃ r, __swapin_nr_pages fuel 0 prev_offset offset hits max_pages prev_win = some r) ∧
    (∀ (c : hermit_config) (v : Nat), c.PAGE_SHIFT ≤ 62 →
      0 ≤ to_int (SWAP_RA_WIN c v % UINT_MOD) ∧ is_int (to_int (SWAP_RA_WIN c v % UINT_MOD))) ∧
    (∀ (c : hermit_config) (wfuel : Nat) (st : swapin_statics) (o : Nat) (s : swap_state)
      (r : Nat × swap_state × swapin_statics),
      is_int c.readahead_win → to_uint c.page_cluster ≤ 30 →
      0 ≤ st.last_readahead_pages → is_int st.last_readahead_pages →
      swapin_nr_pages c wfuel st o s = some r →
      0 ≤ r.2.2.last_readahead_pages ∧ is_int r.2.2.last_readahead_pages) := by
  refine ⟨?_, ?_, fun c v hs => packed_prev_win_nonneg c v hs,
    fun c wfuel st o s r h1 h2 h3 h4 h5 =>
      swapin_nr_pages_prev_win_nonneg c wfuel st o s r h1 h2 h3 h4 h5⟩
  · unfold is_int at hm hp
    have hl : to_uint (Int.tdiv prev_win 2) = (prev_win / 2).toNat := by
      rw [tdiv_two_nonneg _ p0]
      exact to_uint_of_nonneg _ (by omega) (by omega)
    have hmx : to_uint max_pages = max_pages.toNat :=
      to_uint_of_nonneg _ (by omega) (by omega)
    intro fuel r hr
    obtain ⟨b, hb⟩ := swapin_result_form _ _ _ _ _ _ _ (le_refl _) r hr
    rw [hl, hmx] at hb
    constructor
    · omega
    · intro hle
      omega
  · intro h1 h2 fuel hfuel
    exact swapin_total fuel 0 prev_offset offset hits max_pages prev_win (le_refl _) h1 h2 hfuel

/-- C5 (witness): fourteen hits would round to 16 and are clamped to
`max_pages = 8`. -/
theorem C5_clamped_to_max_pages_witness :
    (is_int 8 ∧ is_int 4 ∧ (1 : Int) ≤ 8 ∧ (0 : Int) ≤ 4) ∧
    __swapin_nr_pages 29 0 7 8 14 8 4 = some 8 ∧
    (∀ fuel r, __swapin_nr_pages fuel 0 7 8 14 8 4 = some r →
      (r : Int) ≤ max 8 ((4 : Int) / 2) ∧ ((4 : Int) / 2 ≤ 8 → (r : Int) ≤ 8)) :=
  ⟨by decide, by decide,
    (C5_clamped_to_max_pages 7 8 14 8 4 (by decide) (by decide) (by decide) (by decide)).1⟩

/-- C11 (counterexample): from the empty cache, page 7 is inserted for the
slot (device 0, offset 5); the lookup for (device 1, offset 5) returns page 7
and the insertion of page 9 for (device 1, offset 5) stops in `BUG()`. -/
theorem C11_counterexample :
    (swp_type (swp_entry 0 5) = 0 ∧ swp_type (swp_entry 1 5) = 1 ∧
      swp_offset (swp_entry 0 5) = 5 ∧ swp_offset (swp_entry 1 5) = 5 ∧
      (∀ i, empty_state.hermit_swapcache i = none)) ∧
    (add_to_swap_cache default_config empty_state 7 (swp_entry 0 5)).value = some 0 ∧
    (hermit_lookup_swap_cache default_config
      (add_to_swap_cache default_config empty_state 7 (swp_entry 0 5)).state
      (swp_entry 1 5) none 0 none).1 = some 7 ∧
    (add_to_swap_cache default_config
      (add_to_swap_cache default_config empty_state 7 (swp_entry 0 5)).state
      9 (swp_entry 1 5)).value = none :=
  ⟨⟨by decide, by decide, by decide, by decide, fun _ => rfl⟩, by decide, by decide, by decide⟩

/-- C11 (amended): the cache is keyed by the slot offset alone. After
`add_to_swap_cache` has inserted a page for the slot `(d1, o)`, whatever the
cache held before (so also from an empty cache), a lookup for a slot `(d2, o)`
of the same offset, whatever its device (so also for `d2 ≠ d1`), returns that
same page when the device `d2` is live, and no page when it is not (as every
lookup on such a device); and `add_to_swap_cache` of any page for `(d2, o)`
does not succeed: it stops in `BUG()`, because the slot is occupied. -/
theorem C11_cache_keyed_by_offset (c : hermit_config) (s s1 : swap_state)
    (pagep other : Nat) (e1 e2 : swp_entry_t) (vma : Option vm_area_struct) (addr : Nat)
    (dsa : Option ds_area_struct)
    (hadd : add_to_swap_cache c s pagep e1 = outcome.ret 0 s1)
    (hoff : swp_offset e2 = swp_offset e1) :
    (s1.swap_device_live e2.val = true →
      (hermit_lookup_swap_cache c s1 e2 vma addr dsa).1 = some pagep) ∧
    (s1.swap_device_live e2.val = false →
      (hermit_lookup_swap_cache c s1 e2 vma addr dsa).1 = none) ∧
    ∃ s2, add_to_swap_cache c s1 other e2 = outcome.BUG s2 := by
  obtain ⟨_, _, a1⟩ := add_to_swap_cache_ret c s s1 pagep e1 0 hadd
  have hocc : s1.hermit_swapcache (swp_offset e2) = some pagep := by rw [hoff]; exact a1
  refine ⟨?_, ?_, ?_⟩
  · intro hlive
    obtain ⟨s2, v, d, hl, _⟩ :=
      hermit_lookup_swap_cache_hit c s1 e2 vma addr dsa pagep hlive hocc
    rw [hl]
  · intro hdead
    unfold hermit_lookup_swap_cache
    rw [if_pos hdead]
  · have hmain : (SetPageSwapCache (page_ref_add s1 other (s1.mem other).nr_pages)
        other).hermit_swapcache (swp_offset e2) ≠ none := by
      simp [SetPageSwapCache, page_ref_add, update_page, hocc]
    unfold add_to_swap_cache
    simp only []
    split
    · exact ⟨_, rfl⟩
    · split
      · exact ⟨_, rfl⟩
      · split
        · exact ⟨_, rfl⟩
        · split
          · exact ⟨_, rfl⟩
          · exact ⟨_, rfl⟩

/-- C11 (witness): page 7 for (device 0, offset 5) in the empty cache, then the
entry (device 1, offset 5) of another, live device. -/
theorem C11_cache_keyed_by_offset_witness :
    ((∀ i, empty_state.hermit_swapcache i = none) ∧
      swp_type (swp_entry 1 5) ≠ swp_type (swp_entry 0 5) ∧
      swp_offset (swp_entry 1 5) = swp_offset (swp_entry 0 5)) ∧
    ∃ s1, add_to_swap_cache default_config empty_state 7 (swp_entry 0 5) = outcome.ret 0 s1 ∧
      s1.swap_device_live (swp_entry 1 5).val = true ∧
      (hermit_lookup_swap_cache default_config s1 (swp_entry 1 5) none 0 none).1 = some 7 ∧
      ∃ s2, add_to_swap_cache default_config s1 9 (swp_entry 1 5) = outcome.BUG s2 :=
  ⟨⟨fun _ => rfl, by decide, by decide⟩,
    (add_to_swap_cache default_config empty_state 7 (swp_entry 0 5)).state, rfl, rfl,
    (C11_cache_keyed_by_offset default_config empty_state _ 7 9 (swp_entry 0 5)
      (swp_entry 1 5) none 0 none rfl (by decide)).1 rfl,
    (C11_cache_keyed_by_offset default_config empty_state _ 7 9 (swp_entry 0 5)
      (swp_entry 1 5) none 0 none rfl (by decide)).2.2⟩

/-! ## The readahead functions return -/

theorem token_count_append (mid t : List io_event) (e : Nat) :
    token_count (mid ++ t) e = token_count mid e + token_count t e := by
  induction mid with
  | nil => simp [token_count]
  | cons a rest ih =>
    show token_delta e a + token_count (rest ++ t) e =
      token_delta e a + token_count rest e + token_count t e
    rw [ih]; omega

/-- An entry is determined by its device and its offset. -/
theorem swp_entry_ext (e1 e2 : swp_entry_t) (ht : swp_type e1 = swp_type e2)
    (ho : swp_offset e1 = swp_offset e2) : e1 = e2 := by
  unfold swp_type at ht
  unfold swp_offset at ho
  rw [Nat.shiftRight_eq_div_pow, Nat.shiftRight_eq_div_pow] at ht
  rw [Nat.and_pow_two_sub_one_eq_mod, Nat.and_pow_two_sub_one_eq_mod] at ho
  have h1 := Nat.div_add_mod e1.val (2 ^ SWP_TYPE_SHIFT)
  have h2 := Nat.div_add_mod e2.val (2 ^ SWP_TYPE_SHIFT)
  have hv : e1.val = e2.val := by rw [← h1, ← h2, ht, ho]
  cases e1; cases e2; simp only [swp_entry_t.mk.injEq]; exact hv

/-- The two ways `add_to_swap_cache` ends: it inserts the page into a slot
that was empty, or it stops in `BUG()` without writing the table; without
`CONFIG_DEBUG_VM` it stops only at an occupied slot. -/
theorem add_to_swap_cache_cases (c : hermit_config) (s : swap_state) (p : Nat)
    (entry : swp_entry_t) :
    (∃ s1, add_to_swap_cache c s p entry = outcome.ret 0 s1 ∧
      s.hermit_swapcache (swp_offset entry) = none ∧
      s1.hermit_swapcache =
        fun i => if i = swp_offset entry then some p else s.hermit_swapcache i) ∨
    (∃ s1, add_to_swap_cache c s p entry = outcome.BUG s1 ∧
      s1.hermit_swapcache = s.hermit_swapcache ∧
      (c.CONFIG_DEBUG_VM = false → s.hermit_swapcache (swp_offset entry) ≠ none)) := by
  unfold add_to_swap_cache
  simp only []
  split
  · rename_i h
    exact Or.inr ⟨_, rfl, rfl, fun hd => by rw [hd] at h; simp at h⟩
  · split
    · rename_i h
      exact Or.inr ⟨_, rfl, rfl, fun hd => by rw [hd] at h; simp at h⟩
    · split
      · rename_i h
        exact Or.inr ⟨_, rfl, rfl, fun hd => by rw [hd] at h; simp at h⟩
      · split
        · rename_i h
          exact Or.inr ⟨_, rfl, rfl, fun hd => by rw [hd] at h; simp at h⟩
        · split
          · rename_i h
            refine Or.inl ⟨_, rfl, ?_, ?_⟩
            · simpa [SetPageSwapCache, page_ref_add, update_page] using h
            · funext i
              simp [mod_nrpages, set_page_private, hmt_sc_store, update_page, SetPageSwapCache,
                page_ref_add]
          · rename_i h
            refine Or.inr ⟨_, rfl, ?_, fun _ => ?_⟩
            · simp [SetPageSwapCache, page_ref_add, update_page]
            · simpa [SetPageSwapCache, page_ref_add, update_page] using h

/-- A lookup leaves the table as it is. -/
theorem hmt_sc_load_get_table (s : swap_state) (idx : Nat) :
    (hmt_sc_load_get s idx).2.hermit_swapcache = s.hermit_swapcache ∧
    (hmt_sc_load_get s idx).1 = s.hermit_swapcache idx := by
  unfold hmt_sc_load_get
  cases h : s.hermit_swapcache idx with
  | none => exact ⟨rfl, rfl⟩
  | some p => exact ⟨rfl, rfl⟩

/-- A step between two phases without reservation that leaves reservations and
table as they are. -/
theorem step_effect_quiet (c : hermit_config) (env : fetch_env) (entry : swp_entry_t)
    (ph ph1 : resolve_phase) (w w1 : fetch_world) (mid : List io_event)
    (hph : holds_token ph = false) (hph1 : holds_token ph1 = false)
    (h1 : w1.trace = mid ++ w.trace) (h2 : ∀ x, token_count mid x = 0)
    (h3 : w1.s.hermit_swapcache = w.s.hermit_swapcache) :
    step_effect c env entry ph ph1 w w1 :=
  ⟨mid, h1, Or.inl ⟨h2, h3, hph1.trans hph.symm,
    fun _ _ h => Bool.noConfusion ((congrArg holds_token h).symm.trans hph1),
    fun h => Bool.noConfusion ((congrArg holds_token h).symm.trans hph1),
    fun _ _ h => Bool.noConfusion ((congrArg holds_token h).symm.trans hph)⟩⟩

theorem holds_token_returned_false (q : Option Nat) :
    holds_token (resolve_phase.returned q false) = false := by
  cases q <;> rfl

/-- The lookup and the allocation of a `__read_swap_cache_async*` function
leave reservations and table as they are. -/
theorem read_swap_cache_lookup_effect (c : hermit_config) (env : fetch_env)
    (entry : swp_entry_t) (w : fetch_world) :
    step_effect c env entry resolve_phase.start (read_swap_cache_lookup env entry w).1 w
      (read_swap_cache_lookup env entry w).2 := by
  obtain ⟨ht, hl⟩ := hmt_sc_load_get_table w.s (swp_offset entry)
  unfold read_swap_cache_lookup
  simp only []
  split
  · exact step_effect_quiet c env entry _ _ _ _ [] rfl rfl rfl (fun _ => rfl) rfl
  · split
    · exact step_effect_quiet c env entry _ _ _ _ [] rfl rfl rfl (fun _ => rfl) ht
    · split
      · exact step_effect_quiet c env entry _ _ _ _ [] rfl rfl rfl (fun _ => rfl) ht
      · unfold alloc_page_vma
        simp only []
        cases ha : env.alloc_page_vma w.trace with
        | none =>
          simp only []
          exact step_effect_quiet c env entry _ _ _ _ [io_event.alloc_page_vma none] rfl rfl
            rfl (fun _ => rfl) ht
        | some p =>
          simp only []
          exact step_effect_quiet c env entry _ _ _ _ [io_event.alloc_page_vma (some p)] rfl rfl
            rfl (fun _ => rfl) (by simp [emit, update_page, ht])

/-- The reservation attempt of a `__read_swap_cache_async*` function leaves
reservations and table as they are or takes the reservation. -/
theorem read_swap_cache_prepare_effect (c : hermit_config) (env : fetch_env)
    (entry : swp_entry_t) (tl : Bool) (p : Nat) (w : fetch_world) :
    step_effect c env entry (resolve_phase.allocated p)
      (read_swap_cache_prepare env entry tl p w).1 w
      (read_swap_cache_prepare env entry tl p w).2 := by
  unfold read_swap_cache_prepare
  cases tl with
  | true =>
    simp only [if_true]
    split
    · rename_i herr
      refine ⟨[io_event.swapcache_prepare_trylock entry.val
          (env.swapcache_prepare_trylock w.trace entry.val)], rfl,
        Or.inr (Or.inl ⟨rfl, ⟨_, _, rfl⟩, ?_, rfl, w.trace, Or.inr herr, fun _ => rfl⟩)⟩
      intro x
      simp [token_count, token_delta, herr, eq_comm]
    · rename_i herr
      refine step_effect_quiet c env entry _ _ _ _ [io_event.put_page p,
        io_event.swapcache_prepare_trylock entry.val
          (env.swapcache_prepare_trylock w.trace entry.val)] rfl rfl rfl ?_ ?_
      · intro x
        simp [token_count, token_delta, herr]
      · simp [put_page, emit, page_ref_add, update_page]
  | false =>
    simp only [Bool.false_eq_true, if_false]
    split
    · rename_i herr
      refine ⟨[io_event.swapcache_prepare entry.val
          (env.swapcache_prepare w.trace entry.val)], rfl,
        Or.inr (Or.inl ⟨rfl, ⟨_, _, rfl⟩, ?_, rfl, w.trace, Or.inl herr, fun _ => rfl⟩)⟩
      intro x
      simp [token_count, token_delta, herr, eq_comm]
    · rename_i herr
      have hq : ∀ x, token_count [io_event.put_page p,
          io_event.swapcache_prepare entry.val
            (env.swapcache_prepare w.trace entry.val)] x = 0 := by
        intro x
        simp [token_count, token_delta, herr]
      split
      · exact step_effect_quiet c env entry _ _ _ _ [io_event.put_page p,
          io_event.swapcache_prepare entry.val
            (env.swapcache_prepare w.trace entry.val)] rfl rfl rfl hq
          (by simp [put_page, emit, page_ref_add, update_page])
      · exact step_effect_quiet c env entry _ _ _ _ [io_event.put_page p,
          io_event.swapcache_prepare entry.val
            (env.swapcache_prepare w.trace entry.val)] rfl rfl rfl hq
          (by simp [put_page, emit, page_ref_add, update_page])

/-- A step that leaves reservations and table as they are, from a phase
without reservation to a return without a new page. -/
theorem step_effect_return (c : hermit_config) (env : fetch_env) (entry : swp_entry_t)
    (ph : resolve_phase) (q : Option Nat) (w w1 : fetch_world) (mid : List io_event)
    (hph : holds_token ph = false)
    (h1 : w1.trace = mid ++ w.trace) (h2 : ∀ x, token_count mid x = 0)
    (h3 : w1.s.hermit_swapcache = w.s.hermit_swapcache) :
    step_effect c env entry ph (resolve_phase.returned q false) w w1 :=
  ⟨mid, h1, Or.inl ⟨h2, h3, by rw [hph, holds_token_returned_false],
    fun _ _ h => resolve_phase.noConfusion h, fun h => resolve_phase.noConfusion h,
    fun _ _ h => Bool.noConfusion ((congrArg holds_token h).symm.trans hph)⟩⟩

/-- The statements before the loop of `__read_swap_cache_speculative` leave
reservations and table as they are. -/
theorem speculative_start_effect (c : hermit_config) (env : fetch_env)
    (entry : swp_entry_t) (w : fetch_world) :
    step_effect c env entry resolve_phase.start (speculative_start env entry w).1 w
      (speculative_start env entry w).2 := by
  unfold speculative_start alloc_page_vma
  simp only []
  cases ha : env.alloc_page_vma w.trace with
  | none =>
    simp only []
    obtain ⟨ht, hl⟩ := hmt_sc_load_get_table
      (emit w (io_event.alloc_page_vma none)).s (swp_offset entry)
    exact step_effect_return c env entry _ _ w _ [io_event.alloc_page_vma none] rfl rfl
      (fun _ => rfl) (by simpa [emit] using ht)
  | some p =>
    simp only []
    refine ⟨[io_event.hermit_issue_read p entry.val
        (env.hermit_issue_read (io_event.alloc_page_vma (some p) :: w.trace) p entry.val),
      io_event.alloc_page_vma (some p)], rfl, Or.inl ⟨fun _ => rfl, ?_,
      rfl, fun _ _ h => resolve_phase.noConfusion h, fun h => resolve_phase.noConfusion h,
      fun _ _ h => resolve_phase.noConfusion h⟩⟩
    simp [hermit_issue_read, emit, set_locked_swapbacked, update_page]

/-- The label `fail_free:` reached from a phase without reservation leaves
reservations and table as they are. -/
theorem speculative_fail_free_effect (c : hermit_config) (env : fetch_env)
    (entry : swp_entry_t) (ph : resolve_phase) (p : Nat) (cpu : Int) (w : fetch_world)
    (hph : holds_token ph = false)
    (mid : List io_event) (w1 : fetch_world) (q : Option Nat)
    (h1 : w1.trace = mid ++ w.trace) (h2 : ∀ x, token_count mid x = 0)
    (h3 : w1.s.hermit_swapcache = w.s.hermit_swapcache) :
    step_effect c env entry ph
      (phase_of_speculative_result (speculative_fail_free w1 (some cpu) p q)).1 w
      (phase_of_speculative_result (speculative_fail_free w1 (some cpu) p q)).2 := by
  rw [speculative_fail_free_spec]
  refine step_effect_return c env entry _ q w _
    (io_event.put_page p :: io_event.hermit_poll_read cpu (some p) :: mid) hph ?_ ?_ ?_
  · simp [phase_of_speculative_result, put_page, emit, h1]
  · intro x
    simp [token_count, token_delta, h2 x]
  · simp [phase_of_speculative_result, put_page, emit, page_ref_add, update_page, h3]

/-- The lookup in the loop of `__read_swap_cache_speculative` leaves
reservations and table as they are. -/
theorem speculative_lookup_effect (c : hermit_config) (env : fetch_env)
    (entry : swp_entry_t) (p : Nat) (cpu : Int) (w : fetch_world) :
    step_effect c env entry (resolve_phase.issued p cpu)
      (speculative_lookup env entry p cpu w).1 w
      (speculative_lookup env entry p cpu w).2 := by
  obtain ⟨ht, hl⟩ := hmt_sc_load_get_table w.s (swp_offset entry)
  unfold speculative_lookup
  simp only []
  split
  · exact speculative_fail_free_effect c env entry (resolve_phase.issued p cpu) p cpu w rfl
      [] _ _ rfl (fun _ => rfl) ht
  · split
    · exact speculative_fail_free_effect c env entry (resolve_phase.issued p cpu) p cpu w rfl
        [] _ _ rfl (fun _ => rfl) ht
    · exact step_effect_quiet c env entry _ _ _ _ [] rfl rfl rfl (fun _ => rfl) ht

/-- The reservation attempt in the loop of `__read_swap_cache_speculative`
leaves reservations and table as they are or takes the reservation. -/
theorem speculative_prepare_effect (c : hermit_config) (env : fetch_env)
    (entry : swp_entry_t) (p : Nat) (cpu : Int) (w : fetch_world) :
    step_effect c env entry (resolve_phase.looked p cpu)
      (speculative_prepare env entry p cpu w).1 w
      (speculative_prepare env entry p cpu w).2 := by
  unfold speculative_prepare
  simp only []
  split
  · rename_i herr
    refine ⟨[io_event.swapcache_prepare entry.val
        (env.swapcache_prepare w.trace entry.val)], rfl,
      Or.inr (Or.inl ⟨rfl, ⟨_, _, rfl⟩, ?_, rfl, w.trace,
        Or.inl herr, fun _ => rfl⟩)⟩
    intro x
    simp [token_count, token_delta, herr, eq_comm]
  · rename_i herr
    have hq : ∀ x, token_count [io_event.swapcache_prepare entry.val
        (env.swapcache_prepare w.trace entry.val)] x = 0 := by
      intro x
      simp [token_count, token_delta, herr]
    split
    · exact speculative_fail_free_effect c env entry (resolve_phase.looked p cpu) p cpu w rfl
        [io_event.swapcache_prepare entry.val
          (env.swapcache_prepare w.trace entry.val)] _ _ rfl hq rfl
    · exact step_effect_quiet c env entry _ _ _ _
        [io_event.swapcache_prepare entry.val
          (env.swapcache_prepare w.trace entry.val)] rfl rfl rfl hq rfl

/-- The charge and the insertion after the loop of a `__read_swap_cache_async*`
function, from the world `w2` in which the charge has been asked for. -/
theorem read_swap_cache_tail_core (c : hermit_config) (env : fetch_env)
    (entry : swp_entry_t) (p : Nat) (cpu : Option Int) (w w2 : fetch_world)
    (m2 : List io_event) (err : Int)
    (hm2 : w2.trace = m2 ++ w.trace) (hz2 : ∀ x, token_count m2 x = 0)
    (hs2 : w2.s.hermit_swapcache = w.s.hermit_swapcache)
    (r : fetch_result (Option Nat × Bool))
    (hr : r = if err ≠ 0 then read_swap_cache_unlock w2 p entry
      else
        match add_to_swap_cache c w2.s p entry with
        | outcome.BUG s1 => fetch_result.BUG { w2 with s := s1 }
        | outcome.ret v s1 =>
          if v ≠ 0 then read_swap_cache_unlock { w2 with s := s1 } p entry
          else fetch_result.ret (some p, true)
            (emit { w2 with s := s1 } (io_event.lru_cache_add p))) :
    step_effect c env entry (resolve_phase.reserved p cpu) (phase_of_result r).1 w
      (phase_of_result r).2 := by
  by_cases herr : err ≠ 0
  · rw [if_pos herr] at hr
    subst hr
    refine ⟨io_event.put_page p :: io_event.unlock_page p ::
      io_event.put_swap_page p entry.val :: m2, ?_,
      Or.inr (Or.inr (Or.inl ⟨⟨p, cpu, rfl⟩, rfl, ?_, ?_⟩))⟩
    · simp [phase_of_result, read_swap_cache_unlock, put_page, unlock_page, emit, hm2]
    · intro x
      simp [token_count, token_delta, hz2 x, eq_comm]
    · simp [phase_of_result, read_swap_cache_unlock, put_page, unlock_page, emit, page_ref_add,
        update_page, hs2]
  · rw [if_neg herr] at hr
    rcases add_to_swap_cache_cases c w2.s p entry with ⟨s1, hadd, hnone, htab⟩ |
      ⟨s1, hadd, htab, hocc⟩
    · rw [hadd] at hr
      simp only [ne_eq, not_true_eq_false, if_false] at hr
      subst hr
      refine ⟨io_event.lru_cache_add p :: m2, ?_,
        Or.inr (Or.inr (Or.inr (Or.inl ⟨⟨p, cpu, rfl, rfl, ?_⟩, ?_, ?_⟩)))⟩
      · simp [phase_of_result, emit, hm2]
      · simp only [phase_of_result, emit]
        rw [htab, hs2]
      · intro x
        simp [token_count, token_delta, hz2 x]
      · rw [← hs2]; exact hnone
    · rw [hadd] at hr
      simp only [] at hr
      subst hr
      refine ⟨m2, ?_, Or.inr (Or.inr (Or.inr (Or.inr ⟨⟨p, cpu, rfl⟩, rfl, hz2, ?_, ?_⟩)))⟩
      · simp [phase_of_result, hm2]
      · simp only [phase_of_result]
        rw [htab, hs2]
      · intro hd
        rw [← hs2]; exact hocc hd

/-- The statements after the loop of a `__read_swap_cache_async*` function give
the reservation back, insert the page into its empty slot, or stop in
`BUG()`. -/
theorem read_swap_cache_tail_effect (c : hermit_config) (env : fetch_env)
    (entry : swp_entry_t) (wc : Bool) (p : Nat) (cpu : Option Int) (w : fetch_world) :
    step_effect c env entry (resolve_phase.reserved p cpu)
      (phase_of_result (read_swap_cache_tail c env entry wc p w)).1 w
      (phase_of_result (read_swap_cache_tail c env entry wc p w)).2 := by
  cases wc with
  | true =>
    exact read_swap_cache_tail_core c env entry p cpu w
      (emit { w with s := set_locked_swapbacked w.s p }
        (io_event.hermit_mem_cgroup_swapin_charge_page p
          (env.hermit_mem_cgroup_swapin_charge_page w.trace p)))
      [io_event.hermit_mem_cgroup_swapin_charge_page p
          (env.hermit_mem_cgroup_swapin_charge_page w.trace p)]
      (env.hermit_mem_cgroup_swapin_charge_page w.trace p) rfl (fun _ => rfl)
      (by simp [emit, set_locked_swapbacked, update_page]) _
      (by unfold read_swap_cache_tail; simp only [if_true])
  | false =>
    exact read_swap_cache_tail_core c env entry p cpu w
      { w with s := set_locked_swapbacked w.s p } [] 0 rfl (fun _ => rfl)
      (by simp [set_locked_swapbacked, update_page]) _
      (by unfold read_swap_cache_tail; simp only [Bool.false_eq_true, if_false])

/-- The statements after the loop of `__read_swap_cache_speculative` give the
reservation back, insert the page into its empty slot, or stop in `BUG()`. -/
theorem speculative_tail_effect (c : hermit_config) (env : fetch_env)
    (entry : swp_entry_t) (p : Nat) (cpu : Option Int) (w : fetch_world) :
    step_effect c env entry (resolve_phase.reserved p cpu)
      (phase_of_speculative_result (speculative_tail c env entry cpu p w)).1 w
      (phase_of_speculative_result (speculative_tail c env entry cpu p w)).2 := by
  unfold speculative_tail
  simp only []
  split
  · refine ⟨(match cpu with
        | some v => [io_event.put_page p, io_event.hermit_poll_read v (some p)]
        | none => [io_event.put_page p]) ++
      [io_event.unlock_page p, io_event.put_swap_page p entry.val,
        io_event.hermit_mem_cgroup_swapin_charge_page p
          (env.hermit_mem_cgroup_swapin_charge_page w.trace p)], ?_,
      Or.inr (Or.inr (Or.inl ⟨⟨p, cpu, rfl⟩, ?_, ?_, ?_⟩))⟩
    · cases cpu <;>
        simp [phase_of_speculative_result, speculative_fail_unlock, put_page, unlock_page, emit]
    · cases cpu <;> rfl
    · intro x
      cases cpu <;> simp [token_count, token_delta, eq_comm]
    · cases cpu <;>
        simp [phase_of_speculative_result, speculative_fail_unlock, put_page, unlock_page, emit,
          page_ref_add, update_page]
  · rcases add_to_swap_cache_cases c (emit w (io_event.hermit_mem_cgroup_swapin_charge_page p
        (env.hermit_mem_cgroup_swapin_charge_page w.trace p))).s p entry with
      ⟨s1, hadd, hnone, htab⟩ | ⟨s1, hadd, htab, hocc⟩
    · rw [hadd]
      simp only [ne_eq, not_true_eq_false, if_false]
      refine ⟨[io_event.lru_cache_add p,
        io_event.hermit_mem_cgroup_swapin_charge_page p
          (env.hermit_mem_cgroup_swapin_charge_page w.trace p)], rfl,
        Or.inr (Or.inr (Or.inr (Or.inl ⟨⟨p, cpu, rfl, rfl, ?_⟩, fun _ => rfl, ?_⟩)))⟩
      · simp only [phase_of_speculative_result, emit]
        rw [htab]
        rfl
      · exact hnone
    · rw [hadd]
      simp only []
      exact ⟨[io_event.hermit_mem_cgroup_swapin_charge_page p
          (env.hermit_mem_cgroup_swapin_charge_page w.trace p)], rfl,
        Or.inr (Or.inr (Or.inr (Or.inr ⟨⟨p, cpu, rfl⟩, rfl, fun _ => rfl,
          by simp only [phase_of_speculative_result]; rw [htab]; rfl, hocc⟩)))⟩

/-- One step of a caller keeps its function and its entry, and has one of the
five effects of `step_effect`. -/
theorem resolve_step_effect (c : hermit_config) (env : fetch_env) (th : resolve_thread)
    (w : fetch_world) :
    (resolve_step c env th w).1.kind = th.kind ∧
    (resolve_step c env th w).1.entry = th.entry ∧
    step_effect c env th.entry th.phase (resolve_step c env th w).1.phase w
      (resolve_step c env th w).2 := by
  refine ⟨rfl, rfl, ?_⟩
  obtain ⟨kind, entry, phase⟩ := th
  cases phase with
  | start =>
    cases kind with
    | profiling wc => exact read_swap_cache_lookup_effect c env entry w
    | trylock => exact read_swap_cache_lookup_effect c env entry w
    | speculative => exact speculative_start_effect c env entry w
  | allocated p =>
    cases kind with
    | profiling wc => exact read_swap_cache_prepare_effect c env entry false p w
    | trylock => exact read_swap_cache_prepare_effect c env entry true p w
    | speculative => exact read_swap_cache_prepare_effect c env entry false p w
  | issued p cpu => exact speculative_lookup_effect c env entry p cpu w
  | looked p cpu => exact speculative_prepare_effect c env entry p cpu w
  | reserved p cpu =>
    cases kind with
    | profiling wc => exact read_swap_cache_tail_effect c env entry wc p cpu w
    | trylock => exact read_swap_cache_tail_effect c env entry true p cpu w
    | speculative => exact speculative_tail_effect c env entry p cpu w
  | returned q a =>
    exact ⟨[], rfl, Or.inl ⟨fun _ => rfl, rfl, rfl,
      fun _ _ h => resolve_phase.noConfusion h, fun h => resolve_phase.noConfusion h,
      fun _ _ h => resolve_phase.noConfusion h⟩⟩
  | stopped =>
    exact ⟨[], rfl, Or.inl ⟨fun _ => rfl, rfl, rfl,
      fun _ _ h => resolve_phase.noConfusion h, fun _ => rfl,
      fun _ _ h => resolve_phase.noConfusion h⟩⟩

/-- A step with one of the five effects keeps the invariant of the
interleavings, when the swap map answers 0 to a reservation attempt only on a
slot that is not reserved, the reservations of the initial trace are not
negative, and a page in the initial table has its slot reserved. -/
theorem resolve_inv_step_core (c : hermit_config) (env : fetch_env) (d : Nat)
    (t0 : List io_event) (s0 : Nat → Option Nat) (ths ths1 : Nat → resolve_thread)
    (w w1 : fetch_world) (i : Nat)
    (hne : ∀ j, j ≠ i → ths1 j = ths j)
    (he : (ths1 i).entry = (ths i).entry)
    (heff : step_effect c env (ths i).entry (ths i).phase (ths1 i).phase w w1)
    (hexcl : ∀ t e, env.swapcache_prepare t e = 0 → token_count t e ≤ 0)
    (hexcl2 : ∀ t e, env.swapcache_prepare_trylock t e = 0 → token_count t e ≤ 0)
    (hbase : ∀ e, 0 ≤ token_count t0 e)
    (hinit : ∀ j, s0 (swp_offset (ths j).entry) ≠ none →
      1 ≤ token_count t0 (ths j).entry.val)
    (hinv : resolve_inv c d t0 s0 ths w) :
    resolve_inv c d t0 s0 ths1 w1 := by
  obtain ⟨a, b1, b2, cc, dd, ee, ff, gg⟩ := hinv
  obtain ⟨mid, hmid, hcase⟩ := heff
  have htc : ∀ x, token_count w1.trace x = token_count mid x + token_count w.trace x := by
    intro x; rw [hmid, token_count_append]
  have hent : ∀ j, (ths1 j).entry = (ths j).entry := by
    intro j
    by_cases hj : j = i
    · rw [hj]; exact he
    · rw [hne j hj]
  have ha : ∀ j, swp_type (ths1 j).entry = d := fun j => by rw [hent]; exact a j
  have hval : ∀ x y : swp_entry_t, x.val = y.val → x = y := by
    intro x y h; cases x; cases y; cases h; rfl
  have hoff : ∀ j k, swp_offset (ths j).entry = swp_offset (ths k).entry →
      (ths j).entry = (ths k).entry :=
    fun j k h => swp_entry_ext _ _ (by rw [a j, a k]) h
  rcases hcase with ⟨hz, htab, hhold, hnr, hst, _⟩ | ⟨hnh, ⟨p, cpu, hph1⟩, hz, htab, t1, hor, ht1⟩ |
    ⟨⟨p, cpu, hph⟩, hph1, hz, htab⟩ | ⟨⟨p, cpu, hph, hph1, htab⟩, hz, hnone⟩ |
    ⟨⟨p, cpu, hph⟩, hph1, hz, htab, hocc⟩
  · -- no reservation and no table change
    have hh : ∀ j, holds_token (ths1 j).phase = holds_token (ths j).phase := by
      intro j
      by_cases hj : j = i
      · rw [hj]; exact hhold
      · rw [hne j hj]
    refine ⟨ha, ?_, ?_, ?_, ?_, ?_, ?_, ?_⟩
    · intro e h; simp only [hent, hh] at h; rw [htc, hz, zero_add]; exact b1 e h
    · intro e h; simp only [hent, hh] at h; rw [htc, hz, zero_add]; exact b2 e h
    · intro j k hjk h1 h2; rw [hh] at h1 h2; rw [hent, hent]; exact cc j k hjk h1 h2
    · intro j p cpu hj
      by_cases hji : j = i
      · rw [hji] at hj; exact absurd hj (hnr p cpu)
      · rw [hne j hji] at hj ⊢; rw [htab]; exact dd j p cpu hj
    · intro o ho
      rw [htab] at ho
      rcases ee o ho with h | ⟨k, hk1, hk2⟩
      · exact Or.inl h
      · exact Or.inr ⟨k, by rw [hent]; exact hk1, by rw [hh]; exact hk2⟩
    · intro o q h; rw [htab]; exact ff o q h
    · intro hdbg j hj
      by_cases hji : j = i
      · rw [hji] at hj; exact gg hdbg i (hst hj)
      · rw [hne j hji] at hj; exact gg hdbg j hj
  · -- the caller takes the reservation
    have hle : token_count w.trace (ths i).entry.val ≤ 0 := by
      rw [← ht1]
      rcases hor with h | h
      · exact hexcl _ _ h
      · exact hexcl2 _ _ h
    have noH : ¬ ∃ j, (ths j).entry.val = (ths i).entry.val ∧
        holds_token (ths j).phase = true := by
      intro h
      have h1 := b1 _ h
      have h2 := hbase (ths i).entry.val
      omega
    have heq := b2 _ noH
    have hh1 : holds_token (ths1 i).phase = true := by rw [hph1]; rfl
    refine ⟨ha, ?_, ?_, ?_, ?_, ?_, ?_, ?_⟩
    · rintro e ⟨j, hj1, hj2⟩
      rw [htc, hz]
      by_cases hji : j = i
      · rw [hji, hent] at hj1
        subst hj1
        rw [if_pos rfl, heq]; omega
      · rw [hne j hji] at hj1 hj2
        have hH : ∃ j, (ths j).entry.val = e ∧ holds_token (ths j).phase = true :=
          ⟨j, hj1, hj2⟩
        have hne1 : e ≠ (ths i).entry.val := fun h => noH (h ▸ hH)
        rw [if_neg hne1, zero_add]; exact b1 e hH
    · intro e hno
      rw [htc, hz]
      have hne1 : e ≠ (ths i).entry.val :=
        fun h => hno ⟨i, by rw [hent]; exact h.symm, hh1⟩
      rw [if_neg hne1, zero_add]
      apply b2
      rintro ⟨j, hj1, hj2⟩
      have hji : j ≠ i := fun h => by rw [h, hnh] at hj2; cases hj2
      exact hno ⟨j, by rw [hne j hji]; exact hj1, by rw [hne j hji]; exact hj2⟩
    · intro j k hjk h1 h2
      rw [hent, hent]
      by_cases hji : j = i
      · have hki : k ≠ i := fun h => hjk (hji.trans h.symm)
        rw [hne k hki] at h2
        rw [hji]
        intro heq1
        exact noH ⟨k, congrArg swp_entry_t.val heq1.symm, h2⟩
      · rw [hne j hji] at h1
        by_cases hki : k = i
        · rw [hki]
          intro heq1
          exact noH ⟨j, congrArg swp_entry_t.val heq1, h1⟩
        · rw [hne k hki] at h2; exact cc j k hjk h1 h2
    · intro j q cpu1 hj
      rw [htab]
      by_cases hji : j = i
      · rw [hji, hent]
        by_contra hne0
        rcases ee _ hne0 with h | ⟨k, hk1, hk2⟩
        · have h3 := hinit i h; omega
        · exact noH ⟨k, congrArg swp_entry_t.val (hoff k i hk1), hk2⟩
      · rw [hne j hji] at hj ⊢; exact dd j q cpu1 hj
    · intro o ho
      rw [htab] at ho
      rcases ee o ho with h | ⟨k, hk1, hk2⟩
      · exact Or.inl h
      · have hki : k ≠ i := fun h => by rw [h, hnh] at hk2; cases hk2
        exact Or.inr ⟨k, by rw [hent]; exact hk1, by rw [hne k hki]; exact hk2⟩
    · intro o q h; rw [htab]; exact ff o q h
    · intro hdbg j hj
      by_cases hji : j = i
      · rw [hji, hph1] at hj; cases hj
      · rw [hne j hji] at hj; exact gg hdbg j hj
  · -- the caller gives the reservation back
    have hhi : holds_token (ths i).phase = true := by rw [hph]; rfl
    have hh1 : holds_token (ths1 i).phase = false := by rw [hph1]; rfl
    have hHi := b1 _ ⟨i, rfl, hhi⟩
    refine ⟨ha, ?_, ?_, ?_, ?_, ?_, ?_, ?_⟩
    · rintro e ⟨j, hj1, hj2⟩
      have hji : j ≠ i := fun h => by rw [h, hh1] at hj2; cases hj2
      rw [hne j hji] at hj1 hj2
      have hne1 : e ≠ (ths i).entry.val :=
        fun h => cc j i hji hj2 hhi (hval _ _ (hj1.trans h))
      rw [htc, hz, if_neg hne1, zero_add]
      exact b1 e ⟨j, hj1, hj2⟩
    · intro e hno
      rw [htc, hz]
      by_cases hei : e = (ths i).entry.val
      · rw [if_pos hei, hei, hHi]; omega
      · rw [if_neg hei, zero_add]
        apply b2
        rintro ⟨j, hj1, hj2⟩
        have hji : j ≠ i := fun h => hei (by rw [← hj1, h])
        exact hno ⟨j, by rw [hne j hji]; exact hj1, by rw [hne j hji]; exact hj2⟩
    · intro j k hjk h1 h2
      have hji : j ≠ i := fun h => by rw [h, hh1] at h1; cases h1
      have hki : k ≠ i := fun h => by rw [h, hh1] at h2; cases h2
      rw [hne j hji] at h1 ⊢
      rw [hne k hki] at h2 ⊢
      exact cc j k hjk h1 h2
    · intro j q cpu1 hj
      by_cases hji : j = i
      · rw [hji, hph1] at hj; cases hj
      · rw [hne j hji] at hj ⊢; rw [htab]; exact dd j q cpu1 hj
    · intro o ho
      rw [htab] at ho
      rcases ee o ho with h | ⟨k, hk1, hk2⟩
      · exact Or.inl h
      · by_cases hki : k = i
        · exfalso
          rw [hki] at hk1
          rw [← hk1] at ho
          exact ho (dd i p cpu hph)
        · exact Or.inr ⟨k, by rw [hne k hki]; exact hk1, by rw [hne k hki]; exact hk2⟩
    · intro o q h; rw [htab]; exact ff o q h
    · intro hdbg j hj
      by_cases hji : j = i
      · rw [hji, hph1] at hj; cases hj
      · rw [hne j hji] at hj; exact gg hdbg j hj
  · -- the caller inserts its page
    have hhi : holds_token (ths i).phase = true := by rw [hph]; rfl
    have hh : ∀ j, holds_token (ths1 j).phase = holds_token (ths j).phase := by
      intro j
      by_cases hj : j = i
      · rw [hj, hph1, hph]; rfl
      · rw [hne j hj]
    refine ⟨ha, ?_, ?_, ?_, ?_, ?_, ?_, ?_⟩
    · intro e h; simp only [hent, hh] at h; rw [htc, hz, zero_add]; exact b1 e h
    · intro e h; simp only [hent, hh] at h; rw [htc, hz, zero_add]; exact b2 e h
    · intro j k hjk h1 h2; rw [hh] at h1 h2; rw [hent, hent]; exact cc j k hjk h1 h2
    · intro j q cpu1 hj
      by_cases hji : j = i
      · rw [hji, hph1] at hj; cases hj
      · rw [hne j hji] at hj ⊢
        have h3 := dd j q cpu1 hj
        have hoffne : swp_offset (ths j).entry ≠ swp_offset (ths i).entry :=
          fun h => cc j i hji (by rw [hj]; rfl) hhi (hoff j i h)
        rw [htab]
        simp only [if_neg hoffne]
        exact h3
    · intro o ho
      by_cases hoi : o = swp_offset (ths i).entry
      · exact Or.inr ⟨i, by rw [hent]; exact hoi.symm, by rw [hph1]; rfl⟩
      · rw [htab] at ho
        simp only [if_neg hoi] at ho
        rcases ee o ho with h | ⟨k, hk1, hk2⟩
        · exact Or.inl h
        · exact Or.inr ⟨k, by rw [hent]; exact hk1, by rw [hh]; exact hk2⟩
    · intro o q h
      have h2 := ff o q h
      have hoi : o ≠ swp_offset (ths i).entry := by
        intro h3
        rw [h3, hnone] at h2
        cases h2
      rw [htab]
      simp only [if_neg hoi]
      exact h2
    · intro hdbg j hj
      by_cases hji : j = i
      · rw [hji, hph1] at hj; cases hj
      · rw [hne j hji] at hj; exact gg hdbg j hj
  · -- the caller stops in BUG()
    have hh : ∀ j, holds_token (ths1 j).phase = holds_token (ths j).phase := by
      intro j
      by_cases hj : j = i
      · rw [hj, hph1, hph]; rfl
      · rw [hne j hj]
    refine ⟨ha, ?_, ?_, ?_, ?_, ?_, ?_, ?_⟩
    · intro e h; simp only [hent, hh] at h; rw [htc, hz, zero_add]; exact b1 e h
    · intro e h; simp only [hent, hh] at h; rw [htc, hz, zero_add]; exact b2 e h
    · intro j k hjk h1 h2; rw [hh] at h1 h2; rw [hent, hent]; exact cc j k hjk h1 h2
    · intro j q cpu1 hj
      by_cases hji : j = i
      · rw [hji, hph1] at hj; cases hj
      · rw [hne j hji] at hj ⊢; rw [htab]; exact dd j q cpu1 hj
    · intro o ho
      rw [htab] at ho
      rcases ee o ho with h | ⟨k, hk1, hk2⟩
      · exact Or.inl h
      · exact Or.inr ⟨k, by rw [hent]; exact hk1, by rw [hh]; exact hk2⟩
    · intro o q h; rw [htab]; exact ff o q h
    · intro hdbg j _
      exact absurd (dd i p cpu hph) (hocc hdbg)

theorem page_flags_update_page_ne (s : swap_state) (p q : Nat) (f : page → page)
    (h : q ≠ p) : page_flags (update_page s p f) q = page_flags s q := by
  unfold page_flags update_page
  simp only [if_neg h]

theorem page_flags_page_ref_add (s : swap_state) (p q : Nat) (n : Int) :
    page_flags (page_ref_add s p n) q = page_flags s q := by
  unfold page_flags page_ref_add update_page
  by_cases h : q = p
  · simp only [if_pos h]
  · simp only [if_neg h]

theorem page_flags_hmt_sc_load_get (s : swap_state) (idx q : Nat) :
    page_flags (hmt_sc_load_get s idx).2 q = page_flags s q := by
  unfold hmt_sc_load_get
  split
  · exact page_flags_page_ref_add _ _ _ _
  · rfl

theorem page_flags_put_page (w : fetch_world) (p q : Nat) :
    page_flags (put_page w p).s q = page_flags w.s q := by
  unfold put_page emit
  exact page_flags_page_ref_add _ _ _ _

theorem page_flags_alloc_ne (env : fetch_env) (w : fetch_world) (q : Nat)
    (h : env.alloc_page_vma w.trace ≠ some q) :
    page_flags (alloc_page_vma env w).2.s q = page_flags w.s q := by
  unfold alloc_page_vma
  cases ha : env.alloc_page_vma w.trace with
  | none => rfl
  | some p =>
    have hq : q ≠ p := fun hqp => h (by rw [ha, hqp])
    show page_flags (update_page w.s p fun _ => fresh_page) q = page_flags w.s q
    exact page_flags_update_page_ne w.s p q _ hq

theorem page_flags_alloc_eq (env : fetch_env) (w : fetch_world) (p : Nat)
    (h : env.alloc_page_vma w.trace = some p) :
    (alloc_page_vma env w).1 = some p ∧
    page_flags (alloc_page_vma env w).2.s p = (false, false, false, 1) ∧
    (alloc_page_vma env w).2.trace = io_event.alloc_page_vma (some p) :: w.trace := by
  unfold alloc_page_vma
  rw [h]
  refine ⟨rfl, ?_, rfl⟩
  unfold page_flags emit update_page fresh_page
  simp

theorem alloc_page_vma_fst (env : fetch_env) (w : fetch_world) :
    (alloc_page_vma env w).1 = env.alloc_page_vma w.trace := by
  unfold alloc_page_vma
  cases env.alloc_page_vma w.trace <;> rfl

/-- The insertion touches the flags of no page but the one it inserts, and
it stops in `BUG()` only at an occupied slot or, with `CONFIG_DEBUG_VM`, on a
page that fails one of its assertions. -/
theorem add_to_swap_cache_pages (c : hermit_config) (s : swap_state) (p : Nat)
    (entry : swp_entry_t) :
    (∀ v s1, add_to_swap_cache c s p entry = outcome.ret v s1 →
      ∀ q, q ≠ p → page_flags s1 q = page_flags s q) ∧
    (∀ s1, add_to_swap_cache c s p entry = outcome.BUG s1 →
      (∀ q, q ≠ p → page_flags s1 q = page_flags s q) ∧
      (s.hermit_swapcache (swp_offset entry) ≠ none ∨
        (c.CONFIG_DEBUG_VM = true ∧
          ((s.mem p).PG_locked = false ∨ (s.mem p).PG_swapcache = true ∨
            (s.mem p).PG_swapbacked = false ∨ (s.mem p).nr_pages ≠ 1)))) := by
  unfold add_to_swap_cache
  simp only []
  split_ifs with h1 h2 h3 h4 h5
  · refine ⟨fun v s1 h => (by cases h), fun s1 h => ?_⟩
    cases h
    exact ⟨fun _ _ => rfl, Or.inr ⟨h1.1, Or.inl h1.2⟩⟩
  · refine ⟨fun v s1 h => (by cases h), fun s1 h => ?_⟩
    cases h
    exact ⟨fun _ _ => rfl, Or.inr ⟨h2.1, Or.inr (Or.inl h2.2)⟩⟩
  · refine ⟨fun v s1 h => (by cases h), fun s1 h => ?_⟩
    cases h
    exact ⟨fun _ _ => rfl, Or.inr ⟨h3.1, Or.inr (Or.inr (Or.inl h3.2))⟩⟩
  · refine ⟨fun v s1 h => (by cases h), fun s1 h => ?_⟩
    cases h
    exact ⟨fun _ _ => rfl, Or.inr ⟨h4.1, Or.inr (Or.inr (Or.inr h4.2))⟩⟩
  · refine ⟨fun v s1 h => ?_, fun s1 h => (by cases h)⟩
    cases h
    intro q hq
    simp only [page_flags, set_page_private, hmt_sc_store, mod_nrpages, SetPageSwapCache,
      page_ref_add, update_page, if_neg hq]
  · refine ⟨fun v s1 h => (by cases h), fun s1 h => ?_⟩
    cases h
    refine ⟨fun q hq => ?_, Or.inl ?_⟩
    · simp only [page_flags, SetPageSwapCache, page_ref_add, update_page, if_neg hq]
    · intro h6
      apply h5
      simp only [SetPageSwapCache, page_ref_add, update_page]
      exact h6

/-- The lookup and the allocation of a `__read_swap_cache_async*` function
change the flags of no page but the one allocated, and the page the caller
keeps is that one, fresh from the allocator. -/
theorem read_swap_cache_lookup_pages (env : fetch_env) (entry : swp_entry_t)
    (w : fetch_world) :
    (∀ q, env.alloc_page_vma w.trace ≠ some q →
      page_flags (read_swap_cache_lookup env entry w).2.s q = page_flags w.s q) ∧
    (∀ p, phase_page (read_swap_cache_lookup env entry w).1 = some p →
      env.alloc_page_vma w.trace = some p ∧
      io_event.alloc_page_vma (some p) ∈ (read_swap_cache_lookup env entry w).2.trace ∧
      (read_swap_cache_lookup env entry w).1 = resolve_phase.allocated p ∧
      page_flags (read_swap_cache_lookup env entry w).2.s p = (false, false, false, 1)) := by
  have hg := page_flags_hmt_sc_load_get w.s (swp_offset entry)
  generalize hr : read_swap_cache_lookup env entry w = r
  unfold read_swap_cache_lookup at hr
  simp only [] at hr
  split at hr
  · subst hr
    exact ⟨fun _ _ => rfl, fun p h => by cases h⟩
  · split at hr
    · subst hr
      exact ⟨fun q _ => hg q, fun p h => by cases h⟩
    · rename_i hnone
      have hs := (hmt_sc_load_get_none _ _ hnone).2
      rw [hs] at hr
      have hw : ({ w with s := w.s } : fetch_world) = w := rfl
      rw [hw] at hr
      split at hr
      · subst hr
        exact ⟨fun q _ => rfl, fun p h => by cases h⟩
      · have hne := page_flags_alloc_ne env w
        have hfst := alloc_page_vma_fst env w
        cases ha : env.alloc_page_vma w.trace with
        | none =>
          rw [ha] at hfst
          rw [hfst] at hr
          simp only [] at hr
          subst hr
          exact ⟨fun q hq => hne q (by rw [ha]; exact hq), fun p h => by cases h⟩
        | some p =>
          rw [ha] at hfst
          have h2 := page_flags_alloc_eq env w p ha
          rw [hfst] at hr
          simp only [] at hr
          subst hr
          exact ⟨fun q hq => hne q (by rw [ha]; exact hq), fun p1 h => by
            cases h
            exact ⟨rfl, by rw [h2.2.2]; exact List.mem_cons_self _ _, rfl, h2.2.1⟩⟩

/-- The reservation attempt of a `__read_swap_cache_async*` function changes
the flags of no page, and the caller keeps its page only with the
reservation. -/
theorem read_swap_cache_prepare_pages (env : fetch_env) (entry : swp_entry_t)
    (tl : Bool) (p : Nat) (w : fetch_world) :
    (∀ q, page_flags (read_swap_cache_prepare env entry tl p w).2.s q = page_flags w.s q) ∧
    (∀ p1, phase_page (read_swap_cache_prepare env entry tl p w).1 = some p1 →
      (read_swap_cache_prepare env entry tl p w).1 = resolve_phase.reserved p none ∧
        p1 = p) := by
  generalize hr : read_swap_cache_prepare env entry tl p w = r
  unfold read_swap_cache_prepare at hr
  simp only [] at hr
  split at hr
  · split at hr
    · subst hr
      exact ⟨fun q => rfl, fun p1 h => by cases h; exact ⟨rfl, rfl⟩⟩
    · subst hr
      exact ⟨fun q => page_flags_put_page _ _ _, fun p1 h => by cases h⟩
  · split at hr
    · subst hr
      exact ⟨fun q => rfl, fun p1 h => by cases h; exact ⟨rfl, rfl⟩⟩
    · split at hr
      · subst hr
        exact ⟨fun q => page_flags_put_page _ _ _, fun p1 h => by cases h⟩
      · subst hr
        exact ⟨fun q => page_flags_put_page _ _ _, fun p1 h => by cases h⟩

/-- The statements before the loop of `__read_swap_cache_speculative` change
the flags of no page but the one they allocate, and the page whose read is
issued is that one, locked and swap-backed. -/
theorem speculative_start_pages (env : fetch_env) (entry : swp_entry_t) (w : fetch_world) :
    (∀ q, env.alloc_page_vma w.trace ≠ some q →
      page_flags (speculative_start env entry w).2.s q = page_flags w.s q) ∧
    (∀ p, phase_page (speculative_start env entry w).1 = some p →
      env.alloc_page_vma w.trace = some p ∧
      io_event.alloc_page_vma (some p) ∈ (speculative_start env entry w).2.trace ∧
      (∃ cpu, (speculative_start env entry w).1 = resolve_phase.issued p cpu) ∧
      page_flags (speculative_start env entry w).2.s p = (true, false, true, 1)) := by
  have hne := page_flags_alloc_ne env w
  have hfst := alloc_page_vma_fst env w
  generalize hr : speculative_start env entry w = r
  unfold speculative_start at hr
  simp only [] at hr
  cases ha : env.alloc_page_vma w.trace with
  | none =>
    rw [ha] at hfst
    rw [hfst] at hr
    simp only [] at hr
    subst hr
    refine ⟨fun q hq => ?_, fun p h => by cases h⟩
    show page_flags (hmt_sc_load_get (alloc_page_vma env w).2.s (swp_offset entry)).2 q = _
    rw [page_flags_hmt_sc_load_get]
    exact hne q (by rw [ha]; exact hq)
  | some p =>
    rw [ha] at hfst
    have h2 := page_flags_alloc_eq env w p ha
    rw [hfst] at hr
    simp only [] at hr
    subst hr
    refine ⟨fun q hq => ?_, fun p1 h => ?_⟩
    · have hqp : q ≠ p := fun h => hq (by rw [h])
      show page_flags (set_locked_swapbacked (alloc_page_vma env w).2.s p) q = _
      unfold set_locked_swapbacked
      rw [page_flags_update_page_ne _ _ _ _ hqp]
      exact hne q (by rw [ha]; exact hq)
    · cases h
      refine ⟨rfl, List.mem_cons_of_mem _ (by rw [h2.2.2]; exact List.mem_cons_self _ _),
        ⟨_, rfl⟩, ?_⟩
      have h3 := h2.2.1
      unfold page_flags at h3
      simp only [Prod.mk.injEq] at h3
      show page_flags (set_locked_swapbacked (alloc_page_vma env w).2.s p) p = _
      unfold set_locked_swapbacked page_flags update_page
      simp only [if_true, h3.2.1, h3.2.2.2]

theorem page_flags_speculative_fail_free (w : fetch_world) (cpu : Option Int)
    (new_page : Nat) (page : Option Nat) (q : Nat) :
    page_flags (phase_of_speculative_result (speculative_fail_free w cpu new_page page)).2.s q
      = page_flags w.s q ∧
    phase_page (phase_of_speculative_result (speculative_fail_free w cpu new_page page)).1
      = none := by
  unfold speculative_fail_free phase_of_speculative_result
  cases cpu with
  | none => exact ⟨page_flags_put_page _ _ _, rfl⟩
  | some v => exact ⟨page_flags_put_page _ _ _, rfl⟩

/-- The lookup in the loop of `__read_swap_cache_speculative` changes the
flags of no page, and the caller keeps its page or returns. -/
theorem speculative_lookup_pages (env : fetch_env) (entry : swp_entry_t) (p : Nat)
    (cpu : Int) (w : fetch_world) :
    (∀ q, page_flags (speculative_lookup env entry p cpu w).2.s q = page_flags w.s q) ∧
    (∀ p1, phase_page (speculative_lookup env entry p cpu w).1 = some p1 → p1 = p) ∧
    (∀ p0, (speculative_lookup env entry p cpu w).1 ≠ resolve_phase.allocated p0) := by
  have hg := page_flags_hmt_sc_load_get w.s (swp_offset entry)
  generalize hr : speculative_lookup env entry p cpu w = r
  unfold speculative_lookup at hr
  simp only [] at hr
  split at hr
  · subst hr
    refine ⟨fun q => ?_, fun p1 h => ?_, fun p0 h => ?_⟩
    · rw [(page_flags_speculative_fail_free _ _ _ _ q).1]; exact hg q
    · rw [(page_flags_speculative_fail_free _ _ _ _ 0).2] at h; cases h
    · have h2 := congrArg phase_page h
      rw [(page_flags_speculative_fail_free _ _ _ _ 0).2] at h2; cases h2
  · split at hr
    · subst hr
      refine ⟨fun q => ?_, fun p1 h => ?_, fun p0 h => ?_⟩
      · rw [(page_flags_speculative_fail_free _ _ _ _ q).1]; exact hg q
      · rw [(page_flags_speculative_fail_free _ _ _ _ 0).2] at h; cases h
      · have h2 := congrArg phase_page h
        rw [(page_flags_speculative_fail_free _ _ _ _ 0).2] at h2; cases h2
    · subst hr
      exact ⟨fun q => hg q, fun p1 h => by cases h; rfl, fun p0 h => by cases h⟩

/-- The reservation attempt in the loop of `__read_swap_cache_speculative`
changes the flags of no page, and the caller keeps its page or returns. -/
theorem speculative_prepare_pages (env : fetch_env) (entry : swp_entry_t) (p : Nat)
    (cpu : Int) (w : fetch_world) :
    (∀ q, page_flags (speculative_prepare env entry p cpu w).2.s q = page_flags w.s q) ∧
    (∀ p1, phase_page (speculative_prepare env entry p cpu w).1 = some p1 → p1 = p) ∧
    (∀ p0, (speculative_prepare env entry p cpu w).1 ≠ resolve_phase.allocated p0) := by
  generalize hr : speculative_prepare env entry p cpu w = r
  unfold speculative_prepare at hr
  simp only [] at hr
  split at hr
  · subst hr
    exact ⟨fun q => rfl, fun p1 h => by cases h; rfl, fun p0 h => by cases h⟩
  · split at hr
    · subst hr
      refine ⟨fun q => ?_, fun p1 h => ?_, fun p0 h => ?_⟩
      · rw [(page_flags_speculative_fail_free _ _ _ _ q).1]; rfl
      · rw [(page_flags_speculative_fail_free _ _ _ _ 0).2] at h; cases h
      · have h2 := congrArg phase_page h
        rw [(page_flags_speculative_fail_free _ _ _ _ 0).2] at h2; cases h2
    · subst hr
      exact ⟨fun q => rfl, fun p1 h => by cases h; rfl, fun p0 h => by cases h⟩

theorem page_flags_unlock_ne (w : fetch_world) (p q : Nat) (h : q ≠ p) :
    page_flags (unlock_page w p).s q = page_flags w.s q := by
  show page_flags (update_page w.s p fun pg => { pg with PG_locked := false }) q = _
  exact page_flags_update_page_ne w.s p q _ h

/-- The charge and the insertion after the loop of a `__read_swap_cache_async*`
function, from the world `w2` in which the page is locked and the charge has
been asked for: the flags of the other pages stay, the caller keeps no page,
and it stops in `BUG()` only at an occupied slot or on a page that is in the
swap cache or is no base page. -/
theorem read_swap_cache_tail_pages_core (c : hermit_config) (entry : swp_entry_t) (p : Nat)
    (w w2 : fetch_world) (err : Int)
    (hs2 : w2.s = set_locked_swapbacked w.s p)
    (r : fetch_result (Option Nat × Bool))
    (hr : r = if err ≠ 0 then read_swap_cache_unlock w2 p entry
      else
        match add_to_swap_cache c w2.s p entry with
        | outcome.BUG s1 => fetch_result.BUG { w2 with s := s1 }
        | outcome.ret v s1 =>
          if v ≠ 0 then read_swap_cache_unlock { w2 with s := s1 } p entry
          else fetch_result.ret (some p, true)
            (emit { w2 with s := s1 } (io_event.lru_cache_add p))) :
    (∀ q, q ≠ p → page_flags (phase_of_result r).2.s q = page_flags w.s q) ∧
    phase_page (phase_of_result r).1 = none ∧
    ((phase_of_result r).1 = resolve_phase.stopped →
      w.s.hermit_swapcache (swp_offset entry) ≠ none ∨
        (c.CONFIG_DEBUG_VM = true ∧
          ((w.s.mem p).PG_swapcache = true ∨ (w.s.mem p).nr_pages ≠ 1))) := by
  have h0 : ∀ q, q ≠ p → page_flags w2.s q = page_flags w.s q := by
    intro q hq
    rw [hs2]
    unfold set_locked_swapbacked
    exact page_flags_update_page_ne w.s p q _ hq
  have hunl : ∀ (w3 : fetch_world), (∀ q, q ≠ p → page_flags w3.s q = page_flags w.s q) →
      ∀ q, q ≠ p →
        page_flags (phase_of_result (read_swap_cache_unlock w3 p entry)).2.s q
          = page_flags w.s q := by
    intro w3 h3 q hq
    unfold read_swap_cache_unlock phase_of_result
    simp only []
    rw [page_flags_put_page, page_flags_unlock_ne _ _ _ hq]
    exact h3 q hq
  by_cases herr : err ≠ 0
  · rw [if_pos herr] at hr
    subst hr
    exact ⟨hunl w2 h0, rfl, fun h => by cases h⟩
  · rw [if_neg herr] at hr
    obtain ⟨hret, hbug⟩ := add_to_swap_cache_pages c w2.s p entry
    cases hadd : add_to_swap_cache c w2.s p entry with
    | ret v s1 =>
      rw [hadd] at hr
      simp only [] at hr
      have h1 : ∀ q, q ≠ p → page_flags s1 q = page_flags w.s q :=
        fun q hq => (hret v s1 hadd q hq).trans (h0 q hq)
      by_cases hv : v ≠ 0
      · rw [if_pos hv] at hr
        subst hr
        exact ⟨hunl { w2 with s := s1 } h1, rfl, fun h => by cases h⟩
      · rw [if_neg hv] at hr
        subst hr
        exact ⟨fun q hq => h1 q hq, rfl, fun h => by cases h⟩
    | BUG s1 =>
      rw [hadd] at hr
      simp only [] at hr
      subst hr
      obtain ⟨hfr, hwhy⟩ := hbug s1 hadd
      refine ⟨fun q hq => (hfr q hq).trans (h0 q hq), rfl, fun _ => ?_⟩
      rw [hs2] at hwhy
      simp only [set_locked_swapbacked, update_page, if_true] at hwhy
      rcases hwhy with h | ⟨hd, h | h | h | h⟩
      · exact Or.inl h
      · cases h
      · exact Or.inr ⟨hd, Or.inl h⟩
      · cases h
      · exact Or.inr ⟨hd, Or.inr h⟩

/-- The statements after the loop of a `__read_swap_cache_async*` function:
the flags of the other pages stay, the caller keeps no page, and it stops in
`BUG()` only at an occupied slot or on a page that is in the swap cache or is
no base page. -/
theorem read_swap_cache_tail_pages (c : hermit_config) (env : fetch_env)
    (entry : swp_entry_t) (wc : Bool) (p : Nat) (w : fetch_world) :
    (∀ q, q ≠ p →
      page_flags (phase_of_result (read_swap_cache_tail c env entry wc p w)).2.s q
        = page_flags w.s q) ∧
    phase_page (phase_of_result (read_swap_cache_tail c env entry wc p w)).1 = none ∧
    ((phase_of_result (read_swap_cache_tail c env entry wc p w)).1 = resolve_phase.stopped →
      w.s.hermit_swapcache (swp_offset entry) ≠ none ∨
        (c.CONFIG_DEBUG_VM = true ∧
          ((w.s.mem p).PG_swapcache = true ∨ (w.s.mem p).nr_pages ≠ 1))) := by
  cases wc with
  | true =>
    exact read_swap_cache_tail_pages_core c entry p w
      (emit { w with s := set_locked_swapbacked w.s p }
        (io_event.hermit_mem_cgroup_swapin_charge_page p
          (env.hermit_mem_cgroup_swapin_charge_page w.trace p)))
      (env.hermit_mem_cgroup_swapin_charge_page w.trace p) rfl _
      (by unfold read_swap_cache_tail; simp only [if_true])
  | false =>
    exact read_swap_cache_tail_pages_core c entry p w
      { w with s := set_locked_swapbacked w.s p } 0 rfl _
      (by unfold read_swap_cache_tail; simp only [Bool.false_eq_true, if_false])

/-- The statements after the loop of `__read_swap_cache_speculative`: the
flags of the other pages stay, the caller keeps no page, and it stops in
`BUG()` only at an occupied slot or on a page that fails an assertion of
`add_to_swap_cache`. -/
theorem speculative_tail_pages (c : hermit_config) (env : fetch_env)
    (entry : swp_entry_t) (cpu : Option Int) (p : Nat) (w : fetch_world) :
    (∀ q, q ≠ p →
      page_flags (phase_of_speculative_result (speculative_tail c env entry cpu p w)).2.s q
        = page_flags w.s q) ∧
    phase_page (phase_of_speculative_result (speculative_tail c env entry cpu p w)).1 = none ∧
    ((phase_of_speculative_result (speculative_tail c env entry cpu p w)).1
        = resolve_phase.stopped →
      w.s.hermit_swapcache (swp_offset entry) ≠ none ∨
        (c.CONFIG_DEBUG_VM = true ∧
          ((w.s.mem p).PG_locked = false ∨ (w.s.mem p).PG_swapcache = true ∨
            (w.s.mem p).PG_swapbacked = false ∨ (w.s.mem p).nr_pages ≠ 1))) := by
  have hunl : ∀ (w3 : fetch_world), (∀ q, q ≠ p → page_flags w3.s q = page_flags w.s q) →
      ∀ q, q ≠ p →
        page_flags (phase_of_speculative_result (speculative_fail_unlock w3 cpu p entry)).2.s q
          = page_flags w.s q ∧
        phase_page (phase_of_speculative_result (speculative_fail_unlock w3 cpu p entry)).1
          = none ∧
        (phase_of_speculative_result (speculative_fail_unlock w3 cpu p entry)).1
          ≠ resolve_phase.stopped := by
    intro w3 h3 q hq
    unfold speculative_fail_unlock phase_of_speculative_result
    cases cpu with
    | none =>
      simp only []
      rw [page_flags_put_page, page_flags_unlock_ne _ _ _ hq]
      exact ⟨h3 q hq, rfl, fun h => by cases h⟩
    | some v =>
      simp only []
      rw [page_flags_put_page]
      show page_flags (unlock_page _ p).s q = _ ∧ _
      rw [page_flags_unlock_ne _ _ _ hq]
      exact ⟨h3 q hq, rfl, fun h => by cases h⟩
  have hunl2 : ∀ (w3 : fetch_world),
      phase_page (phase_of_speculative_result (speculative_fail_unlock w3 cpu p entry)).1
        = none ∧
      (phase_of_speculative_result (speculative_fail_unlock w3 cpu p entry)).1
        ≠ resolve_phase.stopped := by
    intro w3
    unfold speculative_fail_unlock phase_of_speculative_result
    cases cpu <;> exact ⟨rfl, fun h => by cases h⟩
  generalize hr : speculative_tail c env entry cpu p w = r
  unfold speculative_tail at hr
  simp only [] at hr
  by_cases herr : env.hermit_mem_cgroup_swapin_charge_page w.trace p ≠ 0
  · rw [if_pos herr] at hr
    subst hr
    exact ⟨fun q hq => (hunl (emit w _) (fun _ _ => rfl) q hq).1, (hunl2 _).1,
      fun h => absurd h (hunl2 _).2⟩
  · rw [if_neg herr] at hr
    obtain ⟨hret, hbug⟩ := add_to_swap_cache_pages c
      (emit w (io_event.hermit_mem_cgroup_swapin_charge_page p
        (env.hermit_mem_cgroup_swapin_charge_page w.trace p))).s p entry
    cases hadd : add_to_swap_cache c
      (emit w (io_event.hermit_mem_cgroup_swapin_charge_page p
        (env.hermit_mem_cgroup_swapin_charge_page w.trace p))).s p entry with
    | ret v s1 =>
      rw [hadd] at hr
      simp only [] at hr
      have h1 : ∀ q, q ≠ p → page_flags s1 q = page_flags w.s q :=
        fun q hq => hret v s1 hadd q hq
      by_cases hv : v ≠ 0
      · rw [if_pos hv] at hr
        subst hr
        exact ⟨fun q hq => (hunl { (emit w _) with s := s1 } h1 q hq).1, (hunl2 _).1,
          fun h => absurd h (hunl2 _).2⟩
      · rw [if_neg hv] at hr
        subst hr
        exact ⟨fun q hq => h1 q hq, rfl, fun h => by cases h⟩
    | BUG s1 =>
      rw [hadd] at hr
      simp only [] at hr
      subst hr
      obtain ⟨hfr, hwhy⟩ := hbug s1 hadd
      exact ⟨fun q hq => hfr q hq, rfl, fun _ => hwhy⟩

theorem ready_page_of_no_page (k : resolve_kind) (ph : resolve_phase) (s : swap_state)
    (h : phase_page ph = none) : ready_page k ph s := by
  cases ph with
  | start => trivial
  | allocated p => cases h
  | issued p cpu => cases h
  | looked p cpu => cases h
  | reserved p cpu => cases h
  | returned q a => trivial
  | stopped => trivial

theorem ready_page_of_locked (k : resolve_kind) (ph : resolve_phase) (s : swap_state)
    (p : Nat) (h : phase_page ph = some p) (hf : page_flags s p = (true, false, true, 1))
    (hna : ∀ p0, ph ≠ resolve_phase.allocated p0) :
    ready_page k ph s := by
  unfold page_flags at hf
  simp only [Prod.mk.injEq] at hf
  cases ph with
  | start => trivial
  | allocated p0 => exact absurd rfl (hna p0)
  | issued p0 cpu =>
    cases h
    show page_flags s p = (true, false, true, 1)
    unfold page_flags
    simp only [hf.1, hf.2.1, hf.2.2.1, hf.2.2.2]
  | looked p0 cpu =>
    cases h
    show page_flags s p = (true, false, true, 1)
    unfold page_flags
    simp only [hf.1, hf.2.1, hf.2.2.1, hf.2.2.2]
  | reserved p0 cpu =>
    cases h
    exact ⟨hf.2.1, hf.2.2.2, fun _ => ⟨hf.1, hf.2.2.1⟩⟩
  | returned q a => trivial
  | stopped => trivial

theorem ready_page_of_fresh (k : resolve_kind) (s : swap_state) (p : Nat)
    (hk : k ≠ resolve_kind.speculative)
    (hf : page_flags s p = (false, false, false, 1)) :
    ready_page k (resolve_phase.allocated p) s := by
  unfold page_flags at hf
  simp only [Prod.mk.injEq] at hf
  exact ⟨hk, hf.2.1, hf.2.2.2⟩

/-- What one step of a caller does to the pages: it changes the flags of no
page but its own and the one it allocates, it leaves its own page as its
function expects it, the page it keeps is its own or fresh from the allocator,
and a caller that inserts a page which is as its function left it into an
empty slot does not stop in `BUG()`. -/
theorem resolve_step_pages (c : hermit_config) (env : fetch_env) (th : resolve_thread)
    (w : fetch_world) :
    (∀ q, phase_page th.phase ≠ some q → env.alloc_page_vma w.trace ≠ some q →
      page_flags (resolve_step c env th w).2.s q = page_flags w.s q) ∧
    (ready_page th.kind th.phase w.s →
      ready_page th.kind (resolve_step c env th w).1.phase (resolve_step c env th w).2.s) ∧
    (∀ p, phase_page (resolve_step c env th w).1.phase = some p →
      phase_page th.phase = some p ∨
        (env.alloc_page_vma w.trace = some p ∧
          io_event.alloc_page_vma (some p) ∈ (resolve_step c env th w).2.trace)) ∧
    (∀ p cpu, th.phase = resolve_phase.reserved p cpu → ready_page th.kind th.phase w.s →
      w.s.hermit_swapcache (swp_offset th.entry) = none →
      (resolve_step c env th w).1.phase ≠ resolve_phase.stopped) := by
  obtain ⟨kind, entry, phase⟩ := th
  have look : kind ≠ resolve_kind.speculative →
      (∀ q, phase_page resolve_phase.start ≠ some q → env.alloc_page_vma w.trace ≠ some q →
        page_flags (read_swap_cache_lookup env entry w).2.s q = page_flags w.s q) ∧
      (ready_page kind resolve_phase.start w.s →
        ready_page kind (read_swap_cache_lookup env entry w).1
          (read_swap_cache_lookup env entry w).2.s) ∧
      (∀ p, phase_page (read_swap_cache_lookup env entry w).1 = some p →
        phase_page resolve_phase.start = some p ∨
          (env.alloc_page_vma w.trace = some p ∧
            io_event.alloc_page_vma (some p) ∈ (read_swap_cache_lookup env entry w).2.trace)) ∧
      (∀ p cpu, resolve_phase.start = resolve_phase.reserved p cpu →
        ready_page kind resolve_phase.start w.s →
        w.s.hermit_swapcache (swp_offset entry) = none →
        (read_swap_cache_lookup env entry w).1 ≠ resolve_phase.stopped) := by
    intro hk
    obtain ⟨hA, hB⟩ := read_swap_cache_lookup_pages env entry w
    refine ⟨fun q _ hq => hA q hq, fun _ => ?_, fun p hp => Or.inr ⟨(hB p hp).1, (hB p hp).2.1⟩,
      fun _ _ h => resolve_phase.noConfusion h⟩
    cases hpp : phase_page (read_swap_cache_lookup env entry w).1 with
    | none => exact ready_page_of_no_page _ _ _ hpp
    | some p =>
      obtain ⟨_, _, hres, hfl⟩ := hB p hpp
      rw [hres]
      exact ready_page_of_fresh kind _ p hk hfl
  have prep : ∀ (tl : Bool) (p : Nat),
      (∀ q, phase_page (resolve_phase.allocated p) ≠ some q →
        env.alloc_page_vma w.trace ≠ some q →
        page_flags (read_swap_cache_prepare env entry tl p w).2.s q = page_flags w.s q) ∧
      (ready_page kind (resolve_phase.allocated p) w.s →
        ready_page kind (read_swap_cache_prepare env entry tl p w).1
          (read_swap_cache_prepare env entry tl p w).2.s) ∧
      (∀ p1, phase_page (read_swap_cache_prepare env entry tl p w).1 = some p1 →
        phase_page (resolve_phase.allocated p) = some p1 ∨
          (env.alloc_page_vma w.trace = some p1 ∧
            io_event.alloc_page_vma (some p1) ∈
              (read_swap_cache_prepare env entry tl p w).2.trace)) ∧
      (∀ p1 cpu, resolve_phase.allocated p = resolve_phase.reserved p1 cpu →
        ready_page kind (resolve_phase.allocated p) w.s →
        w.s.hermit_swapcache (swp_offset entry) = none →
        (read_swap_cache_prepare env entry tl p w).1 ≠ resolve_phase.stopped) := by
    intro tl p
    obtain ⟨hA, hB⟩ := read_swap_cache_prepare_pages env entry tl p w
    refine ⟨fun q _ _ => hA q, fun hr => ?_, fun p1 hp => Or.inl (by rw [(hB p1 hp).2]; rfl),
      fun _ _ h => resolve_phase.noConfusion h⟩
    cases hpp : phase_page (read_swap_cache_prepare env entry tl p w).1 with
    | none => exact ready_page_of_no_page _ _ _ hpp
    | some p1 =>
      obtain ⟨hres, _⟩ := hB p1 hpp
      rw [hres]
      have hf := hA p
      unfold page_flags at hf
      simp only [Prod.mk.injEq] at hf
      obtain ⟨hk, h1, h2⟩ := hr
      exact ⟨by rw [hf.2.1]; exact h1, by rw [hf.2.2.2]; exact h2, fun h => absurd h hk⟩
  have tail : ∀ (wc : Bool) (p : Nat) (cpu : Option Int), kind ≠ resolve_kind.speculative →
      (∀ q, phase_page (resolve_phase.reserved p cpu) ≠ some q →
        env.alloc_page_vma w.trace ≠ some q →
        page_flags (phase_of_result (read_swap_cache_tail c env entry wc p w)).2.s q
          = page_flags w.s q) ∧
      (ready_page kind (resolve_phase.reserved p cpu) w.s →
        ready_page kind (phase_of_result (read_swap_cache_tail c env entry wc p w)).1
          (phase_of_result (read_swap_cache_tail c env entry wc p w)).2.s) ∧
      (∀ p1, phase_page (phase_of_result (read_swap_cache_tail c env entry wc p w)).1 = some p1 →
        phase_page (resolve_phase.reserved p cpu) = some p1 ∨
          (env.alloc_page_vma w.trace = some p1 ∧
            io_event.alloc_page_vma (some p1) ∈
              (phase_of_result (read_swap_cache_tail c env entry wc p w)).2.trace)) ∧
      (∀ p1 cpu1, resolve_phase.reserved p cpu = resolve_phase.reserved p1 cpu1 →
        ready_page kind (resolve_phase.reserved p cpu) w.s →
        w.s.hermit_swapcache (swp_offset entry) = none →
        (phase_of_result (read_swap_cache_tail c env entry wc p w)).1
          ≠ resolve_phase.stopped) := by
    intro wc p cpu _
    obtain ⟨hA, hB, hC⟩ := read_swap_cache_tail_pages c env entry wc p w
    refine ⟨fun q hq _ => hA q (fun h => hq (by rw [h]; rfl)),
      fun _ => ready_page_of_no_page _ _ _ hB, fun p1 hp => ?_, fun _ _ _ hr hnone hst => ?_⟩
    · rw [hB] at hp; cases hp
    · rcases hC hst with h | ⟨_, h | h⟩
      · exact h hnone
      · rw [hr.1] at h; cases h
      · exact h hr.2.1
  cases phase with
  | allocated p =>
    cases kind with
    | profiling wc => exact prep false p
    | trylock => exact prep true p
    | speculative => exact prep false p
  | start =>
    cases kind with
    | profiling wc => exact look (fun h => resolve_kind.noConfusion h)
    | trylock => exact look (fun h => resolve_kind.noConfusion h)
    | speculative =>
      obtain ⟨hA, hB⟩ := speculative_start_pages env entry w
      refine ⟨fun q _ hq => hA q hq, fun _ => ?_,
        fun p hp => Or.inr ⟨(hB p hp).1, (hB p hp).2.1⟩,
        fun _ _ h => resolve_phase.noConfusion h⟩
      show ready_page _ (speculative_start env entry w).1 (speculative_start env entry w).2.s
      cases hpp : phase_page (speculative_start env entry w).1 with
      | none => exact ready_page_of_no_page _ _ _ hpp
      | some p =>
        obtain ⟨_, _, ⟨cpu, hiss⟩, hfl⟩ := hB p hpp
        exact ready_page_of_locked _ _ _ p hpp hfl
          (fun p0 h => resolve_phase.noConfusion (hiss.symm.trans h))
  | issued p cpu =>
    obtain ⟨hA, hB, hN⟩ := speculative_lookup_pages env entry p cpu w
    refine ⟨fun q _ _ => hA q, fun hr => ?_, fun p1 hp => Or.inl (by rw [hB p1 hp]; rfl),
      fun _ _ h => resolve_phase.noConfusion h⟩
    show ready_page _ (speculative_lookup env entry p cpu w).1
      (speculative_lookup env entry p cpu w).2.s
    cases hpp : phase_page (speculative_lookup env entry p cpu w).1 with
    | none => exact ready_page_of_no_page _ _ _ hpp
    | some p1 =>
      have h1 := hB p1 hpp
      subst h1
      exact ready_page_of_locked _ _ _ p1 hpp ((hA p1).trans hr) hN
  | looked p cpu =>
    obtain ⟨hA, hB, hN⟩ := speculative_prepare_pages env entry p cpu w
    refine ⟨fun q _ _ => hA q, fun hr => ?_, fun p1 hp => Or.inl (by rw [hB p1 hp]; rfl),
      fun _ _ h => resolve_phase.noConfusion h⟩
    show ready_page _ (speculative_prepare env entry p cpu w).1
      (speculative_prepare env entry p cpu w).2.s
    cases hpp : phase_page (speculative_prepare env entry p cpu w).1 with
    | none => exact ready_page_of_no_page _ _ _ hpp
    | some p1 =>
      have h1 := hB p1 hpp
      subst h1
      exact ready_page_of_locked _ _ _ p1 hpp ((hA p1).trans hr) hN
  | reserved p cpu =>
    cases kind with
    | profiling wc => exact tail wc p cpu (fun h => resolve_kind.noConfusion h)
    | trylock => exact tail true p cpu (fun h => resolve_kind.noConfusion h)
    | speculative =>
      obtain ⟨hA, hB, hC⟩ := speculative_tail_pages c env entry cpu p w
      refine ⟨fun q hq _ => hA q (fun h => hq (by rw [h]; rfl)),
        fun _ => ready_page_of_no_page _ _ _ hB, fun p1 hp => ?_,
        fun _ _ _ hr hnone hst => ?_⟩
      · have hp1 : phase_page
            (phase_of_speculative_result (speculative_tail c env entry cpu p w)).1 = some p1 := hp
        rw [hB] at hp1; cases hp1
      · have hl := hr.2.2 rfl
        rcases hC hst with h | ⟨_, h | h | h | h⟩
        · exact h hnone
        · rw [hl.1] at h; cases h
        · rw [hr.1] at h; cases h
        · rw [hl.2] at h; cases h
        · exact h hr.2.1
  | returned q a =>
    exact ⟨fun _ _ _ => rfl, fun h => h, fun p hp => Or.inl hp,
      fun _ _ h => resolve_phase.noConfusion h⟩
  | stopped =>
    exact ⟨fun _ _ _ => rfl, fun h => h, fun p hp => Or.inl hp,
      fun _ _ h => resolve_phase.noConfusion h⟩

/-- A step adds calls to the trace, keeps every page of the table, and stops
in `BUG()` only from the statements that insert. -/
theorem step_effect_mono (c : hermit_config) (env : fetch_env) (entry : swp_entry_t)
    (ph ph1 : resolve_phase) (w w1 : fetch_world)
    (h : step_effect c env entry ph ph1 w w1) :
    (∃ mid, w1.trace = mid ++ w.trace) ∧
    (∀ o q, w.s.hermit_swapcache o = some q → w1.s.hermit_swapcache o = some q) ∧
    (ph1 = resolve_phase.stopped →
      ph = resolve_phase.stopped ∨ ∃ p cpu, ph = resolve_phase.reserved p cpu) := by
  obtain ⟨mid, hmid, hcase⟩ := h
  refine ⟨⟨mid, hmid⟩, ?_, ?_⟩
  · rcases hcase with ⟨_, htab, _⟩ | ⟨_, _, _, htab, _⟩ | ⟨_, _, _, htab⟩ |
      ⟨⟨p, cpu, _, _, htab⟩, _, hnone⟩ | ⟨_, _, _, htab, _⟩
    · intro o q h; rw [htab]; exact h
    · intro o q h; rw [htab]; exact h
    · intro o q h; rw [htab]; exact h
    · intro o q h
      have hoi : o ≠ swp_offset entry := by
        intro h3
        rw [h3, hnone] at h
        cases h
      rw [htab]
      simp only [if_neg hoi]
      exact h
    · intro o q h; rw [htab]; exact h
  · intro hst
    rcases hcase with ⟨_, _, _, _, h1, _⟩ | ⟨_, ⟨p, cpu, h1⟩, _⟩ | ⟨_, h1, _⟩ |
      ⟨⟨p, cpu, _, h1, _⟩, _⟩ | ⟨h1, _⟩
    · exact Or.inl (h1 hst)
    · rw [hst] at h1; cases h1
    · rw [hst] at h1; cases h1
    · rw [hst] at h1; cases h1
    · exact Or.inr h1

/-- A caller that has returned its own page has inserted it in this step, into
its slot, which was empty, or had returned before. -/
theorem resolve_step_inserted (c : hermit_config) (env : fetch_env) (th : resolve_thread)
    (w : fetch_world) (p : Nat)
    (h1 : (resolve_step c env th w).1.phase = resolve_phase.returned (some p) true) :
    (th.phase = resolve_phase.returned (some p) true ∧ (resolve_step c env th w).2 = w) ∨
    ((∃ cpu, th.phase = resolve_phase.reserved p cpu) ∧
      w.s.hermit_swapcache (swp_offset th.entry) = none ∧
      (resolve_step c env th w).2.s.hermit_swapcache (swp_offset th.entry) = some p) := by
  have heff := (resolve_step_effect c env th w).2.2
  rw [h1] at heff
  obtain ⟨mid, _, hcase⟩ := heff
  obtain ⟨kind, entry, phase⟩ := th
  cases phase with
  | returned q a => exact Or.inl ⟨h1, rfl⟩
  | stopped => cases h1
  | start =>
    rcases hcase with ⟨_, _, hh, _⟩ | ⟨_, ⟨_, _, hh⟩, _⟩ | ⟨⟨_, _, hh⟩, _⟩ |
      ⟨⟨_, _, hh, _⟩, _⟩ | ⟨⟨_, _, hh⟩, _⟩ <;> cases hh
  | allocated p0 =>
    rcases hcase with ⟨_, _, hh, _⟩ | ⟨_, ⟨_, _, hh⟩, _⟩ | ⟨⟨_, _, hh⟩, _⟩ |
      ⟨⟨_, _, hh, _⟩, _⟩ | ⟨⟨_, _, hh⟩, _⟩ <;> cases hh
  | issued p0 cpu0 =>
    rcases hcase with ⟨_, _, hh, _⟩ | ⟨_, ⟨_, _, hh⟩, _⟩ | ⟨⟨_, _, hh⟩, _⟩ |
      ⟨⟨_, _, hh, _⟩, _⟩ | ⟨⟨_, _, hh⟩, _⟩ <;> cases hh
  | looked p0 cpu0 =>
    rcases hcase with ⟨_, _, hh, _⟩ | ⟨_, ⟨_, _, hh⟩, _⟩ | ⟨⟨_, _, hh⟩, _⟩ |
      ⟨⟨_, _, hh, _⟩, _⟩ | ⟨⟨_, _, hh⟩, _⟩ <;> cases hh
  | reserved p0 cpu0 =>
    rcases hcase with ⟨_, _, _, _, _, hh⟩ | ⟨hh, _⟩ | ⟨_, hh, _⟩ |
      ⟨⟨p1, cpu1, hh, hh1, htab⟩, _, hnone⟩ | ⟨_, hh, _⟩
    · exact absurd rfl (hh p0 cpu0)
    · cases hh
    · cases hh
    · cases hh
      cases hh1
      refine Or.inr ⟨⟨cpu0, rfl⟩, hnone, ?_⟩
      rw [htab]
      simp only [if_true]
    · cases hh

theorem ready_page_congr (k : resolve_kind) (ph : resolve_phase) (s s1 : swap_state)
    (h : ∀ q, phase_page ph = some q → page_flags s1 q = page_flags s q)
    (hr : ready_page k ph s) : ready_page k ph s1 := by
  cases ph with
  | start => trivial
  | allocated p =>
    have hf := h p rfl
    unfold page_flags at hf
    simp only [Prod.mk.injEq] at hf
    obtain ⟨h1, h2, h3⟩ := hr
    exact ⟨h1, by rw [hf.2.1]; exact h2, by rw [hf.2.2.2]; exact h3⟩
  | issued p cpu =>
    show page_flags s1 p = (true, false, true, 1)
    rw [h p rfl]; exact hr
  | looked p cpu =>
    show page_flags s1 p = (true, false, true, 1)
    rw [h p rfl]; exact hr
  | reserved p cpu =>
    have hf := h p rfl
    unfold page_flags at hf
    simp only [Prod.mk.injEq] at hf
    obtain ⟨h1, h2, h3⟩ := hr
    refine ⟨by rw [hf.2.1]; exact h1, by rw [hf.2.2.2]; exact h2, fun hk => ?_⟩
    rw [hf.1, hf.2.2.1]
    exact h3 hk
  | returned q a => trivial
  | stopped => trivial

/-- The invariant on the pages of the callers is kept by a step of any caller,
when the allocator hands out no page twice. -/
theorem resolve_pages_inv_step (c : hermit_config) (env : fetch_env) (d : Nat)
    (t0 : List io_event) (s0 : Nat → Option Nat) (ths : Nat → resolve_thread)
    (w : fetch_world) (i : Nat)
    (hfresh : ∀ t p, env.alloc_page_vma t = some p → io_event.alloc_page_vma (some p) ∉ t)
    (hinv : resolve_inv c d t0 s0 ths w) (hp : resolve_pages_inv s0 ths w) :
    resolve_pages_inv s0 (fun j => if j = i then (resolve_step c env (ths i) w).1 else ths j)
      (resolve_step c env (ths i) w).2 := by
  obtain ⟨_, _, _, _, dd, _, ff, _⟩ := hinv
  obtain ⟨p1, p2, p3, p4, p5⟩ := hp
  obtain ⟨hA, hB, hB2, hC⟩ := resolve_step_pages c env (ths i) w
  obtain ⟨⟨mid, hmid⟩, hmono, horig⟩ :=
    step_effect_mono c env _ _ _ _ _ (resolve_step_effect c env (ths i) w).2.2
  have hmem : ∀ e, e ∈ w.trace → e ∈ (resolve_step c env (ths i) w).2.trace := by
    intro e he; rw [hmid]; exact List.mem_append_right _ he
  have K : ∀ k, k ≠ i → ∀ p, phase_page (resolve_step c env (ths i) w).1.phase = some p →
      phase_page (ths k).phase ≠ some p := by
    intro k hk p hp hkp
    rcases hB2 p hp with h | ⟨h, _⟩
    · exact p2 i k p (fun h2 => hk h2.symm) h hkp
    · exact hfresh _ _ h (p1 k p hkp)
  refine ⟨?_, ?_, ?_, ?_, ?_⟩
  · intro j p hj
    by_cases hji : j = i
    · simp only [if_pos hji] at hj
      rcases hB2 p hj with h | ⟨_, h⟩
      · exact hmem _ (p1 i p h)
      · exact h
    · simp only [if_neg hji] at hj
      exact hmem _ (p1 j p hj)
  · intro j k p hjk hj hk
    by_cases hji : j = i
    · have hki : k ≠ i := fun h => hjk (hji.trans h.symm)
      simp only [if_pos hji] at hj
      simp only [if_neg hki] at hk
      exact K k hki p hj hk
    · simp only [if_neg hji] at hj
      by_cases hki : k = i
      · simp only [if_pos hki] at hk
        exact K j hji p hk hj
      · simp only [if_neg hki] at hk
        exact p2 j k p hjk hj hk
  · intro j
    by_cases hji : j = i
    · simp only [if_pos hji]
      exact hB (p3 i)
    · simp only [if_neg hji]
      apply ready_page_congr _ _ w.s _ _ (p3 j)
      intro q hq
      apply hA q
      · exact fun h => p2 j i q hji hq h
      · exact fun h => hfresh _ _ h (p1 j q hq)
  · intro j p hj
    by_cases hji : j = i
    · simp only [if_pos hji] at hj ⊢
      rcases resolve_step_inserted c env (ths i) w p hj with ⟨h, hw⟩ | ⟨_, hnone, hnew⟩
      · rw [hw]; exact p4 i p h
      · refine ⟨hnew, ?_⟩
        cases hs : s0 (swp_offset (ths i).entry) with
        | none => exact hs
        | some q =>
          have h2 := ff _ q hs
          rw [hnone] at h2
          cases h2
    · simp only [if_neg hji] at hj ⊢
      exact ⟨hmono _ _ (p4 j p hj).1, (p4 j p hj).2⟩
  · intro j hj
    by_cases hji : j = i
    · simp only [if_pos hji] at hj
      rcases horig hj with h | ⟨p, cpu, h⟩
      · exact p5 i h
      · exact hC p cpu h (p3 i) (dd i p cpu h) hj
    · simp only [if_neg hji] at hj
      exact p5 j hj

/-- Every page that the allocator has handed out in a trace lies below
`next_page`. -/
theorem next_page_above (t : List io_event) (p : Nat)
    (h : io_event.alloc_page_vma (some p) ∈ t) : p < next_page t := by
  induction t with
  | nil => cases h
  | cons e rest ih =>
    rcases List.mem_cons.mp h with h1 | h1
    · subst h1
      show p < max (p + 1) (next_page rest)
      omega
    · have h2 := ih h1
      cases e with
      | alloc_page_vma q =>
        cases q with
        | none => exact h2
        | some q =>
          show p < max (q + 1) (next_page rest)
          omega
      | _ => exact h2

/-- The swap map of `exclusive_env` answers 0 only on a slot that is not
reserved, and its allocator hands out no page twice. -/
theorem exclusive_env_exclusive :
    (∀ t e, exclusive_env.swapcache_prepare t e = 0 → token_count t e ≤ 0) ∧
    (∀ t e, exclusive_env.swapcache_prepare_trylock t e = 0 → token_count t e ≤ 0) ∧
    (∀ t p, exclusive_env.alloc_page_vma t = some p →
      io_event.alloc_page_vma (some p) ∉ t) := by
  refine ⟨fun t e h => ?_, fun t e h => ?_, fun t p h hm => ?_⟩
  · by_contra hc
    have h2 : (if token_count t e ≤ 0 then (0 : Int) else EEXIST_neg) = 0 := h
    rw [if_neg hc] at h2
    exact absurd h2 (by decide)
  · by_contra hc
    have h2 : (if token_count t e ≤ 0 then (0 : Int) else EEXIST_neg) = 0 := h
    rw [if_neg hc] at h2
    exact absurd h2 (by decide)
  · have h2 : some (next_page t) = some p := h
    cases h2
    exact absurd (next_page_above t _ hm) (lt_irrefl _)

/-- A schedule in two parts runs the first part, then the second. -/
theorem resolve_run_append (c : hermit_config) (env : fetch_env) (s1 s2 : List Nat)
    (cfg : (Nat → resolve_thread) × fetch_world) :
    resolve_run c env (s1 ++ s2) cfg = resolve_run c env s2 (resolve_run c env s1 cfg) := by
  induction s1 generalizing cfg with
  | nil => rfl
  | cons i rest ih =>
    show resolve_run c env (rest ++ s2) _ = resolve_run c env s2 (resolve_run c env rest _)
    exact ih _

/-- No interleaving removes or replaces a page of the table. -/
theorem resolve_run_mono (c : hermit_config) (env : fetch_env) (sched : List Nat)
    (cfg : (Nat → resolve_thread) × fetch_world) (o q : Nat)
    (h : cfg.2.s.hermit_swapcache o = some q) :
    (resolve_run c env sched cfg).2.s.hermit_swapcache o = some q := by
  induction sched generalizing cfg with
  | nil => exact h
  | cons i rest ih =>
    show (resolve_run c env rest _).2.s.hermit_swapcache o = some q
    apply ih
    exact (step_effect_mono c env _ _ _ _ _
      (resolve_step_effect c env (cfg.1 i) cfg.2).2.2).2.1 o q h

/-- No interleaving changes the entry or the function of a caller. -/
theorem resolve_run_entry (c : hermit_config) (env : fetch_env) (sched : List Nat)
    (cfg : (Nat → resolve_thread) × fetch_world) (j : Nat) :
    ((resolve_run c env sched cfg).1 j).entry = (cfg.1 j).entry ∧
    ((resolve_run c env sched cfg).1 j).kind = (cfg.1 j).kind := by
  induction sched generalizing cfg with
  | nil => exact ⟨rfl, rfl⟩
  | cons i rest ih =>
    show ((resolve_run c env rest _).1 j).entry = _ ∧ ((resolve_run c env rest _).1 j).kind = _
    rw [(ih _).1, (ih _).2]
    by_cases hj : j = i
    · simp only [if_pos hj]
      rw [hj]
      exact ⟨rfl, rfl⟩
    · simp only [if_neg hj]
      exact ⟨trivial, trivial⟩

/-- Both invariants are kept by one step of any caller. -/
theorem resolve_inv_step (c : hermit_config) (env : fetch_env) (d : Nat)
    (t0 : List io_event) (s0 : Nat → Option Nat) (ths : Nat → resolve_thread)
    (w : fetch_world) (i : Nat)
    (hexcl : ∀ t e, env.swapcache_prepare t e = 0 → token_count t e ≤ 0)
    (hexcl2 : ∀ t e, env.swapcache_prepare_trylock t e = 0 → token_count t e ≤ 0)
    (hfresh : ∀ t p, env.alloc_page_vma t = some p → io_event.alloc_page_vma (some p) ∉ t)
    (hbase : ∀ e, 0 ≤ token_count t0 e)
    (hinit : ∀ j, s0 (swp_offset (ths j).entry) ≠ none →
      1 ≤ token_count t0 (ths j).entry.val)
    (hinv : resolve_inv c d t0 s0 ths w) (hp : resolve_pages_inv s0 ths w) :
    resolve_inv c d t0 s0 (fun j => if j = i then (resolve_step c env (ths i) w).1 else ths j)
      (resolve_step c env (ths i) w).2 ∧
    resolve_pages_inv s0 (fun j => if j = i then (resolve_step c env (ths i) w).1 else ths j)
      (resolve_step c env (ths i) w).2 := by
  refine ⟨?_, resolve_pages_inv_step c env d t0 s0 ths w i hfresh hinv hp⟩
  apply resolve_inv_step_core c env d t0 s0 ths _ w _ i ?_ ?_ ?_ hexcl hexcl2 hbase hinit hinv
  · intro j hj
    simp only [if_neg hj]
  · simp only [if_true]
    rfl
  · simp only [if_true]
    exact (resolve_step_effect c env (ths i) w).2.2

/-- Both invariants hold after every interleaving. -/
theorem resolve_run_inv (c : hermit_config) (env : fetch_env) (d : Nat)
    (t0 : List io_event) (s0 : Nat → Option Nat)
    (hexcl : ∀ t e, env.swapcache_prepare t e = 0 → token_count t e ≤ 0)
    (hexcl2 : ∀ t e, env.swapcache_prepare_trylock t e = 0 → token_count t e ≤ 0)
    (hfresh : ∀ t p, env.alloc_page_vma t = some p → io_event.alloc_page_vma (some p) ∉ t)
    (hbase : ∀ e, 0 ≤ token_count t0 e)
    (sched : List Nat) (cfg : (Nat → resolve_thread) × fetch_world)
    (hinit : ∀ j, s0 (swp_offset (cfg.1 j).entry) ≠ none →
      1 ≤ token_count t0 (cfg.1 j).entry.val)
    (hinv : resolve_inv c d t0 s0 cfg.1 cfg.2) (hp : resolve_pages_inv s0 cfg.1 cfg.2) :
    resolve_inv c d t0 s0 (resolve_run c env sched cfg).1 (resolve_run c env sched cfg).2 ∧
    resolve_pages_inv s0 (resolve_run c env sched cfg).1 (resolve_run c env sched cfg).2 := by
  induction sched generalizing cfg with
  | nil => exact ⟨hinv, hp⟩
  | cons i rest ih =>
    obtain ⟨h1, h2⟩ := resolve_inv_step c env d t0 s0 cfg.1 cfg.2 i hexcl hexcl2 hfresh hbase
      hinit hinv hp
    refine ih (fun j => if j = i then (resolve_step c env (cfg.1 i) cfg.2).1 else cfg.1 j,
      (resolve_step c env (cfg.1 i) cfg.2).2) ?_ h1 h2
    intro j hj
    by_cases hji : j = i
    · simp only [if_pos hji] at hj ⊢
      rw [(resolve_step_effect c env (cfg.1 i) cfg.2).2.1] at hj ⊢
      exact hinit i hj
    · simp only [if_neg hji] at hj ⊢
      exact hinit j hj

/-- Callers that have not begun or do not call satisfy both invariants. -/
theorem resolve_inv_init (c : hermit_config) (d : Nat) (ths : Nat → resolve_thread)
    (w : fetch_world)
    (hdev : ∀ i, swp_type (ths i).entry = d)
    (hstart : ∀ i, (ths i).phase = resolve_phase.start ∨
      (ths i).phase = resolve_phase.returned none false) :
    resolve_inv c d w.trace w.s.hermit_swapcache ths w ∧
    resolve_pages_inv w.s.hermit_swapcache ths w := by
  have hno : ∀ i, holds_token (ths i).phase = false := by
    intro i
    rcases hstart i with h | h <;> rw [h] <;> rfl
  have hnp : ∀ i, phase_page (ths i).phase = none := by
    intro i
    rcases hstart i with h | h <;> rw [h] <;> rfl
  refine ⟨⟨hdev, ?_, fun _ _ => rfl, ?_, ?_, fun o h => Or.inl h, fun _ _ h => h, ?_⟩,
    ⟨?_, ?_, ?_, ?_, ?_⟩⟩
  · rintro e ⟨i, _, h⟩
    rw [hno i] at h; cases h
  · intro i j _ h
    rw [hno i] at h; cases h
  · intro i p cpu h
    rcases hstart i with h1 | h1 <;> rw [h1] at h <;> cases h
  · intro _ i h
    rcases hstart i with h1 | h1 <;> rw [h1] at h <;> cases h
  · intro i p h
    rw [hnp i] at h; cases h
  · intro i j p _ h
    rw [hnp i] at h; cases h
  · intro i
    exact ready_page_of_no_page _ _ _ (hnp i)
  · intro i p h
    rcases hstart i with h1 | h1 <;> rw [h1] at h <;> cases h
  · intro i h
    rcases hstart i with h1 | h1 <;> rw [h1] at h <;> cases h

/-- The loop of `__read_swap_cache_async_profiling` and of its
`without_charge` variant is the steps of a caller in sequence: one pass is the
lookup step, then the reservation step, then, with the reservation, the
statements that insert; a caller that is back at the top goes round again. -/
theorem read_swap_cache_loop_steps (c : hermit_config) (env : fetch_env)
    (entry : swp_entry_t) (wc : Bool) (fuel : Nat) (w : fetch_world) :
    (read_swap_cache_loop c env entry wc (fuel + 1) w).map phase_of_result =
      match read_swap_cache_lookup env entry w with
      | (resolve_phase.allocated p, w1) =>
        (match read_swap_cache_prepare env entry false p w1 with
          | (resolve_phase.reserved q _, w2) =>
            some (phase_of_result (read_swap_cache_tail c env entry wc q w2))
          | (resolve_phase.start, w2) =>
            (read_swap_cache_loop c env entry wc fuel w2).map phase_of_result
          | r => some r)
      | r => some r := by
  conv_lhs => unfold read_swap_cache_loop
  unfold read_swap_cache_lookup
  simp only []
  by_cases hl : w.s.swap_device_live entry.val = false
  · simp only [if_pos hl]
    rfl
  simp only [if_neg hl]
  cases hr : (hmt_sc_load_get w.s (swp_offset entry)).1 with
  | some p0 => rfl
  | none =>
    simp only []
    by_cases hc : env.__swp_swapcount w.trace entry.val = 0 ∧
        env.swap_slot_cache_enabled w.trace = true
    · simp only [if_pos hc]
      rfl
    simp only [if_neg hc]
    cases ha : (alloc_page_vma env
        { w with s := (hmt_sc_load_get w.s (swp_offset entry)).2 }).1 with
    | none => rfl
    | some p =>
      simp only []
      unfold read_swap_cache_prepare
      simp only [Bool.false_eq_true, if_false]
      by_cases he : env.swapcache_prepare (alloc_page_vma env
          { w with s := (hmt_sc_load_get w.s (swp_offset entry)).2 }).2.trace entry.val = 0
      · simp only [if_pos he]
        rfl
      simp only [if_neg he]
      by_cases he2 : env.swapcache_prepare (alloc_page_vma env
          { w with s := (hmt_sc_load_get w.s (swp_offset entry)).2 }).2.trace entry.val
            ≠ EEXIST_neg
      · simp only [if_pos he2]
        rfl
      · simp only [if_neg he2]

/-- The function `__read_swap_cache_async_profiling_trylock` is the steps of a
caller in sequence: the lookup step, then the reservation step with
`swapcache_prepare_trylock`, then, with the reservation, the statements that
insert. -/
theorem read_swap_cache_trylock_steps (c : hermit_config) (env : fetch_env)
    (entry : swp_entry_t) (w : fetch_world) :
    phase_of_result (__read_swap_cache_async_profiling_trylock c env entry w) =
      match read_swap_cache_lookup env entry w with
      | (resolve_phase.allocated p, w1) =>
        (match read_swap_cache_prepare env entry true p w1 with
          | (resolve_phase.reserved q _, w2) =>
            phase_of_result (read_swap_cache_tail c env entry true q w2)
          | r => r)
      | r => r := by
  unfold __read_swap_cache_async_profiling_trylock read_swap_cache_lookup
  simp only []
  by_cases hl : w.s.swap_device_live entry.val = false
  · simp only [if_pos hl]
    rfl
  simp only [if_neg hl]
  cases hr : (hmt_sc_load_get w.s (swp_offset entry)).1 with
  | some p0 => rfl
  | none =>
    simp only []
    by_cases hc : env.__swp_swapcount w.trace entry.val = 0 ∧
        env.swap_slot_cache_enabled w.trace = true
    · simp only [if_pos hc]
      rfl
    simp only [if_neg hc]
    cases ha : (alloc_page_vma env
        { w with s := (hmt_sc_load_get w.s (swp_offset entry)).2 }).1 with
    | none => rfl
    | some p =>
      simp only []
      unfold read_swap_cache_prepare
      simp only [if_true]
      by_cases he : env.swapcache_prepare_trylock (alloc_page_vma env
          { w with s := (hmt_sc_load_get w.s (swp_offset entry)).2 }).2.trace entry.val = 0
      · simp only [if_pos he]
      · simp only [if_neg he]
        rfl

/-- The loop of `__read_swap_cache_speculative` is the steps of a caller in
sequence: one pass is the lookup step, then the reservation step, then, with
the reservation, the statements that insert; a caller that is back at the top
goes round again. -/
theorem speculative_loop_steps (c : hermit_config) (env : fetch_env)
    (entry : swp_entry_t) (cpu : Int) (new_page fuel : Nat) (w : fetch_world) :
    (speculative_loop c env entry (some cpu) new_page (fuel + 1) w).map
        phase_of_speculative_result =
      match speculative_lookup env entry new_page cpu w with
      | (resolve_phase.looked p k, w1) =>
        (match speculative_prepare env entry p k w1 with
          | (resolve_phase.reserved q cpu1, w2) =>
            some (phase_of_speculative_result (speculative_tail c env entry cpu1 q w2))
          | (resolve_phase.issued q k1, w2) =>
            (speculative_loop c env entry (some k1) q fuel w2).map phase_of_speculative_result
          | r => some r)
      | r => some r := by
  conv_lhs => unfold speculative_loop
  unfold speculative_lookup
  simp only []
  cases hr : (hmt_sc_load_get w.s (swp_offset entry)).1 with
  | some p0 =>
    simp only [Option.map_some']
    unfold speculative_fail_free phase_of_speculative_result
    rfl
  | none =>
    simp only []
    by_cases hc : env.__swp_swapcount w.trace entry.val = 0 ∧
        env.swap_slot_cache_enabled w.trace = true
    · simp only [if_pos hc, Option.map_some']
      unfold speculative_fail_free phase_of_speculative_result
      rfl
    simp only [if_neg hc]
    unfold speculative_prepare
    simp only []
    by_cases he : env.swapcache_prepare w.trace entry.val = 0
    · simp only [if_pos he]
      rfl
    simp only [if_neg he]
    by_cases he2 : env.swapcache_prepare w.trace entry.val ≠ EEXIST_neg
    · simp only [if_pos he2, Option.map_some']
      unfold speculative_fail_free phase_of_speculative_result
      rfl
    · simp only [if_neg he2]

/-- The function `__read_swap_cache_speculative` with a pointer `cpu` that is
not `NULL` is the step before the loop, then the loop. -/
theorem read_swap_cache_speculative_steps (c : hermit_config) (env : fetch_env)
    (entry : swp_entry_t) (v : Int) (fuel : Nat) (w : fetch_world) :
    (__read_swap_cache_speculative c env entry (some v) fuel w).map
        phase_of_speculative_result =
      match speculative_start env entry w with
      | (resolve_phase.issued p cpu, w1) =>
        (speculative_loop c env entry (some cpu) p fuel w1).map phase_of_speculative_result
      | r => some r := by
  unfold __read_swap_cache_speculative speculative_start
  simp only []
  cases ha : (alloc_page_vma env w).1 with
  | none => rfl
  | some p => rfl

/-- C18 (counterexample): two callers of `__read_swap_cache_async_profiling`
for the slots (device 0, offset 5) and (device 1, offset 5), with a swap map
that keeps reservations exclusive and an allocator that hands out no page
twice. Both look up the empty table and allocate, both reservation attempts
return 0 because the slots differ, the first caller inserts its page 100 at
index 5 of the table, and the second caller, which holds its reservation and
page 101, calls `add_to_swap_cache` on the occupied index and stops in
`BUG()`. -/
theorem C18_counterexample :
    (∀ t e, exclusive_env.swapcache_prepare t e = 0 → token_count t e ≤ 0) ∧
    (∀ t p, exclusive_env.alloc_page_vma t = some p →
      io_event.alloc_page_vma (some p) ∉ t) ∧
    swp_type (swp_entry 0 5) ≠ swp_type (swp_entry 1 5) ∧
    swp_offset (swp_entry 0 5) = swp_offset (swp_entry 1 5) ∧
    ((resolve_run default_config exclusive_env [0, 1, 0, 1, 0]
        (two_callers (swp_entry 0 5) (swp_entry 1 5), empty_world)).1 1).phase
      = resolve_phase.reserved 101 none ∧
    (resolve_run default_config exclusive_env [0, 1, 0, 1, 0]
        (two_callers (swp_entry 0 5) (swp_entry 1 5), empty_world)).2.s.hermit_swapcache
        (swp_offset (swp_entry 1 5)) = some 100 ∧
    ((resolve_run default_config exclusive_env [0, 1, 0, 1, 0, 1]
        (two_callers (swp_entry 0 5) (swp_entry 1 5), empty_world)).1 0).phase
      = resolve_phase.returned (some 100) true ∧
    ((resolve_run default_config exclusive_env [0, 1, 0, 1, 0, 1]
        (two_callers (swp_entry 0 5) (swp_entry 1 5), empty_world)).1 1).phase
      = resolve_phase.stopped := by
  refine ⟨exclusive_env_exclusive.1, exclusive_env_exclusive.2.2, by decide, by decide,
    ?_, ?_, ?_, ?_⟩ <;> decide

/-- C18 (amended): at-most-one-entry for the entries of one swap device. The
callers run `__read_swap_cache_async_profiling`, its `without_charge` and
trylock variants and `__read_swap_cache_speculative` on entries of the device
`d`; each is at the start of its call or does not call. The swap map answers
0 to `swapcache_prepare` and `swapcache_prepare_trylock` only on a slot that
is not reserved, the allocator hands out no page twice, and at the start no
slot has more releases than reservations and the slot of every page in the
cache is reserved. Then after every interleaving of their steps: no caller
has stopped in `BUG()`; the slot of every caller that is about to call
`add_to_swap_cache` is empty; no two callers hold the reservation of one
entry, and the slot of a caller that holds it has exactly one reservation
more than at the start; a caller that has returned its page as newly
allocated finds it in its slot, which was empty at the start; every page in
the cache was there at the start or was inserted by the caller that returned
it; no page of the cache is removed or replaced at any point of the
interleaving; and no caller changes its entry. -/
theorem C18_at_most_one_entry (c : hermit_config) (env : fetch_env) (d : Nat)
    (ths : Nat → resolve_thread) (w : fetch_world) (sched : List Nat)
    (hdev : ∀ i, swp_type (ths i).entry = d)
    (hstart : ∀ i, (ths i).phase = resolve_phase.start ∨
      (ths i).phase = resolve_phase.returned none false)
    (hexcl : ∀ t e, env.swapcache_prepare t e = 0 → token_count t e ≤ 0)
    (hexcl2 : ∀ t e, env.swapcache_prepare_trylock t e = 0 → token_count t e ≤ 0)
    (hfresh : ∀ t p, env.alloc_page_vma t = some p → io_event.alloc_page_vma (some p) ∉ t)
    (hbase : ∀ e, 0 ≤ token_count w.trace e)
    (hinit : ∀ i, w.s.hermit_swapcache (swp_offset (ths i).entry) ≠ none →
      1 ≤ token_count w.trace (ths i).entry.val) :
    (∀ i, ((resolve_run c env sched (ths, w)).1 i).phase ≠ resolve_phase.stopped) ∧
    (∀ i p cpu, ((resolve_run c env sched (ths, w)).1 i).phase = resolve_phase.reserved p cpu →
      (resolve_run c env sched (ths, w)).2.s.hermit_swapcache
        (swp_offset ((resolve_run c env sched (ths, w)).1 i).entry) = none) ∧
    (∀ i j, i ≠ j →
      holds_token ((resolve_run c env sched (ths, w)).1 i).phase = true →
      holds_token ((resolve_run c env sched (ths, w)).1 j).phase = true →
      ((resolve_run c env sched (ths, w)).1 i).entry
        ≠ ((resolve_run c env sched (ths, w)).1 j).entry) ∧
    (∀ i, holds_token ((resolve_run c env sched (ths, w)).1 i).phase = true →
      token_count (resolve_run c env sched (ths, w)).2.trace
          ((resolve_run c env sched (ths, w)).1 i).entry.val
        = token_count w.trace ((resolve_run c env sched (ths, w)).1 i).entry.val + 1) ∧
    (∀ i p, ((resolve_run c env sched (ths, w)).1 i).phase
        = resolve_phase.returned (some p) true →
      (resolve_run c env sched (ths, w)).2.s.hermit_swapcache
          (swp_offset ((resolve_run c env sched (ths, w)).1 i).entry) = some p ∧
        w.s.hermit_swapcache (swp_offset ((resolve_run c env sched (ths, w)).1 i).entry)
          = none) ∧
    (∀ o q, (resolve_run c env sched (ths, w)).2.s.hermit_swapcache o = some q →
      w.s.hermit_swapcache o = some q ∨
        ∃ i, swp_offset ((resolve_run c env sched (ths, w)).1 i).entry = o ∧
          ((resolve_run c env sched (ths, w)).1 i).phase
            = resolve_phase.returned (some q) true) ∧
    (∀ s1 s2, sched = s1 ++ s2 → ∀ o q,
      (resolve_run c env s1 (ths, w)).2.s.hermit_swapcache o = some q →
      (resolve_run c env sched (ths, w)).2.s.hermit_swapcache o = some q) ∧
    (∀ i, ((resolve_run c env sched (ths, w)).1 i).entry = (ths i).entry) := by
  obtain ⟨h0, hp0⟩ := resolve_inv_init c d ths w hdev hstart
  obtain ⟨⟨_, b1, _, cc, dd, ee, ff, _⟩, ⟨_, _, _, p4, p5⟩⟩ :=
    resolve_run_inv c env d w.trace w.s.hermit_swapcache hexcl hexcl2 hfresh hbase sched
      (ths, w) hinit h0 hp0
  refine ⟨p5, dd, cc, fun i h => b1 _ ⟨i, rfl, h⟩, p4, ?_, ?_,
    fun i => (resolve_run_entry c env sched (ths, w) i).1⟩
  · intro o q hq
    have hne : (resolve_run c env sched (ths, w)).2.s.hermit_swapcache o ≠ none := by
      rw [hq]; exact fun h => Option.noConfusion h
    rcases ee o hne with h | ⟨i, hoff, hh⟩
    · cases hs : w.s.hermit_swapcache o with
      | none => exact absurd hs h
      | some q1 =>
        have h2 := ff o q1 hs
        rw [hq] at h2
        cases h2
        exact Or.inl rfl
    · refine Or.inr ⟨i, hoff, ?_⟩
      cases hph : ((resolve_run c env sched (ths, w)).1 i).phase with
      | start => rw [hph] at hh; cases hh
      | allocated p => rw [hph] at hh; cases hh
      | issued p cpu => rw [hph] at hh; cases hh
      | looked p cpu => rw [hph] at hh; cases hh
      | reserved p cpu =>
        have h2 := dd i p cpu hph
        rw [hoff, hq] at h2
        cases h2
      | stopped => exact absurd hph (p5 i)
      | returned r a =>
        cases r with
        | none => rw [hph] at hh; cases a <;> cases hh
        | some p =>
          cases a with
          | false => rw [hph] at hh; cases hh
          | true =>
            have h2 := (p4 i p hph).1
            rw [hoff, hq] at h2
            cases h2
            rfl
  · intro s1 s2 hs o q hq
    rw [hs, resolve_run_append]
    exact resolve_run_mono c env s2 _ o q hq

/-- C18 (witness): two callers of `__read_swap_cache_async_profiling` for the
same slot (device 0, offset 5) race. Both look up the empty table and
allocate (pages 100 and 101); the reservation attempt of the first returns 0
and that of the second `-EEXIST`, so the second releases its page and goes
round again; the first inserts page 100; the second looks up again and
returns page 100 with `*new_page_allocated = false`. -/
theorem C18_at_most_one_entry_witness :
    ((resolve_run default_config exclusive_env [0, 1, 0, 1]
        (two_callers (swp_entry 0 5) (swp_entry 0 5), empty_world)).1 0).phase
      = resolve_phase.reserved 100 none ∧
    ((resolve_run default_config exclusive_env [0, 1, 0, 1]
        (two_callers (swp_entry 0 5) (swp_entry 0 5), empty_world)).1 1).phase
      = resolve_phase.start ∧
    ((resolve_run default_config exclusive_env [0, 1, 0, 1, 0, 1]
        (two_callers (swp_entry 0 5) (swp_entry 0 5), empty_world)).1 0).phase
      = resolve_phase.returned (some 100) true ∧
    ((resolve_run default_config exclusive_env [0, 1, 0, 1, 0, 1]
        (two_callers (swp_entry 0 5) (swp_entry 0 5), empty_world)).1 1).phase
      = resolve_phase.returned (some 100) false ∧
    (resolve_run default_config exclusive_env [0, 1, 0, 1, 0, 1]
        (two_callers (swp_entry 0 5) (swp_entry 0 5), empty_world)).2.s.hermit_swapcache 5
      = some 100 ∧
    (∀ i, ((resolve_run default_config exclusive_env [0, 1, 0, 1, 0, 1]
        (two_callers (swp_entry 0 5) (swp_entry 0 5), empty_world)).1 i).phase
      ≠ resolve_phase.stopped) ∧
    (∀ o q, (resolve_run default_config exclusive_env [0, 1, 0, 1, 0, 1]
        (two_callers (swp_entry 0 5) (swp_entry 0 5), empty_world)).2.s.hermit_swapcache o
        = some q →
      empty_world.s.hermit_swapcache o = some q ∨
        ∃ i, swp_offset ((resolve_run default_config exclusive_env [0, 1, 0, 1, 0, 1]
            (two_callers (swp_entry 0 5) (swp_entry 0 5), empty_world)).1 i).entry = o ∧
          ((resolve_run default_config exclusive_env [0, 1, 0, 1, 0, 1]
            (two_callers (swp_entry 0 5) (swp_entry 0 5), empty_world)).1 i).phase
            = resolve_phase.returned (some q) true) :=
  have h := C18_at_most_one_entry default_config exclusive_env 0
    (two_callers (swp_entry 0 5) (swp_entry 0 5)) empty_world [0, 1, 0, 1, 0, 1]
    (fun i => by unfold two_callers; split_ifs <;> decide)
    (fun i => by unfold two_callers; split_ifs <;> simp)
    exclusive_env_exclusive.1 exclusive_env_exclusive.2.1 exclusive_env_exclusive.2.2
    (fun _ => le_refl _) (fun _ h => absurd rfl h)
  ⟨by decide, by decide, by decide, by decide, by decide, h.1, h.2.2.2.2.2.1⟩

end SwapState
